import Mathlib

/-!
# FVMPor: constitutive relations and spatial weighting

A shallow embedding of `examples/fvmporMinlin/fvmpor_back.h`.

Conventions of the embedding.

* A `double` is an element of a linearly ordered field `α` (exact arithmetic; rounding,
  infinities and NaN are outside the model). Every definition is computable, so it can
  be evaluated at `α = ℚ`.
* A `lin::Vector` is a `List`; `v.at(i)` and `v[i]` read with `List.getD`, an assignment
  to `v.at(i)` is `List.set`. Elementwise operations of the `lin` library require equal
  dimensions; the embedding keeps the dimension of the destination vector.
* `pow` on vectors and `sqrt` come from libraries that are not part of the sources; they
  are parameters `pw` and `sq` of the functions that call them.
* The mesh is read through query functions, as the source does.
-/

namespace fvmpor

/-! ## Vector primitives of the `lin` library, as used by the source -/

/-- The vector type of the source (`TVec`, `TVecDevice`). -/
abbrev TVec (α : Type) := List α

/-- The integer vector type of the source (`TIndexVec`, `TIndexVecDevice`) for node ids. -/
abbrev TIndexVec := List Nat

/-- Elementwise assignment `x(all) = e`: every entry of `x` receives the entry of `e`. -/
def assignAll {α : Type} (x e : TVec α) : TVec α :=
  List.zipWith (fun _ v => v) x e

/-- Fill `x(all) = c` with a scalar. -/
def fillAll {α : Type} (x : TVec α) (c : α) : TVec α :=
  x.map (fun _ => c)

/-- In-place `x += c`, `x *= c`, `x -= c` with a scalar, and `x.pow(c)`: apply `f` entrywise. -/
def mapAll {α : Type} (f : α → α) (x : TVec α) : TVec α :=
  x.map f

/-- In-place `x op= y` with a vector right-hand side. -/
def zipAll {α : Type} (f : α → α → α) (x y : TVec α) : TVec α :=
  List.zipWith f x y

/-- A counted loop `for (int i = lo; i < hi; i++) body`. -/
def forLoop {σ : Type} (lo hi : Nat) (body : Nat → σ → σ) (s : σ) : σ :=
  (List.range' lo (hi - lo)).foldl (fun st i => body i st) s

/-! ## Parameter records (declared in `definitions.h`, fields as used by the source) -/

/-- Material parameters of one physical zone. -/
structure PhysicalZone (α : Type) where
  K_xx : α
  K_yy : α
  K_zz : α
  phi : α
  alpha : α
  alphaVG : α
  nVG : α
  mVG : α
  S_r : α
  Dm : α

/-- Physical constants, read through `beta()`, `rho_0()`, `g()`, `mu()`. -/
structure Constants (α : Type) where
  beta : α
  rho_0 : α
  g : α
  mu : α

/-! ## Constitutive models -/

section Constitutive

variable {α : Type} [LinearOrderedField α]

/-- The function `density(h, rho, constants)`. Both vectors are reference parameters; the
result is the pair `(h, rho)` after the call. -/
def density (h rho : TVec α) (constants : Constants α) : TVec α × TVec α :=
  let beta := constants.beta
  let rho_0 := constants.rho_0
  let g := constants.g
  if beta ≠ 0 then
    -- rho = h;  rho *= rho_0*rho_0*g*beta;  rho += rho_0;
    let rho := h
    let rho := mapAll (fun x => x * (rho_0 * rho_0 * g * beta)) rho
    let rho := mapAll (fun x => x + rho_0) rho
    (h, rho)
  else
    -- rho(all) = rho_0;
    (h, fillAll rho rho_0)

/-- The function `porosity(h, phi, dphi, props, constants)`. The result is the pair
`(phi, dphi)` after the call. -/
def porosity (h phi dphi : TVec α) (props : PhysicalZone α) (constants : Constants α) :
    TVec α × TVec α :=
  let g := constants.g
  let rho_0 := constants.rho_0
  let phi_0 := props.phi
  let alpha := props.alpha
  if alpha = 0 then
    -- phi(all) = phi_0;  dphi(all) = 0.;
    (fillAll phi phi_0, fillAll dphi 0)
  else
    -- factor = (phi_0-1.)*rho_0*g*alpha;  phi(all) = 1.;  phi(all) += factor * h;
    let factor := (phi_0 - 1) * rho_0 * g * alpha
    let phi := fillAll phi 1
    let phi := zipAll (fun x y => x + y) phi (mapAll (fun x => factor * x) h)
    (phi, dphi)

/-- The three output vectors of `saturation`. -/
structure SatOut (α : Type) where
  Sw : TVec α
  dSw : TVec α
  krw : TVec α

/-- The loop that overrides the values at saturated entries (`h.at(i) >= 0`). -/
def saturation_override (h : TVec α) (s : SatOut α) : SatOut α :=
  forLoop 0 h.length
    (fun i st =>
      if h.getD i 0 ≥ 0 then
        { dSw := st.dSw.set i 0, Sw := st.Sw.set i 1, krw := st.krw.set i 1 }
      else st)
    s

/-- The host path of `VarSatPhysicsImpl::saturation`; `Sw`, `dSw`, `krw` are the vectors
passed in by reference, `pw` is the library power and `sq` the library square root. -/
def saturation (pw : α → α → α) (sq : α → α) (h : TVec α) (props : PhysicalZone α)
    (Sw dSw krw : TVec α) : SatOut α :=
  let alphaVG := props.alphaVG
  let nVG := props.nVG
  let mVG := props.mVG
  let S_r := props.S_r
  -- dSw(all) = -alphaVG*h;  dSw.pow(nVG);
  let dSw := assignAll dSw (mapAll (fun x => -alphaVG * x) h)
  let dSw := mapAll (fun x => pw x nVG) dSw
  -- Sw(all) = dSw+1.;  krw(all) = -1.;  krw /= Sw;
  let Sw := assignAll Sw (mapAll (fun x => x + 1) dSw)
  let krw := fillAll krw (-1)
  let krw := zipAll (fun x y => x / y) krw Sw
  -- dSw /= Sw;
  let dSw := zipAll (fun x y => x / y) dSw Sw
  -- Sw.pow(-mVG);
  let Sw := mapAll (fun x => pw x (-mVG)) Sw
  -- dSw *= Sw;  dSw /= h;  dSw *= -(1-S_r)*(nVG-1);
  let dSw := zipAll (fun x y => x * y) dSw Sw
  let dSw := zipAll (fun x y => x / y) dSw h
  let dSw := mapAll (fun x => x * (-(1 - S_r) * (nVG - 1))) dSw
  -- krw += 1.;  krw.pow(mVG);  krw -= 1.;  krw.pow(2);  krw(all) *= sqrt(Sw);
  let krw := mapAll (fun x => x + 1) krw
  let krw := mapAll (fun x => pw x mVG) krw
  let krw := mapAll (fun x => x - 1) krw
  let krw := mapAll (fun x => pw x 2) krw
  let krw := zipAll (fun x y => x * y) krw (mapAll sq Sw)
  -- Sw *= (1-S_r);  Sw += S_r;
  let Sw := mapAll (fun x => x * (1 - S_r)) Sw
  let Sw := mapAll (fun x => x + S_r) Sw
  saturation_override h { Sw := Sw, dSw := dSw, krw := krw }

end Constitutive

/-! ## Mesh queries (the mesh is an external, read-only collaborator) -/

/-- The type `mesh::Point`: three coordinates. -/
structure Point (α : Type) where
  x : α
  y : α
  z : α

/-- A sub-control-volume: its volume and the physical tag of its element
(`scv.vol()`, `scv.element().physical_tag()`). -/
structure SCV (α : Type) where
  vol : α
  element_physical_tag : Int

/-- A control volume: `cv.vol()` and the sub-control-volumes `cv.scv(j)`, `j < cv.scvs()`. -/
structure Volume (α : Type) where
  vol : α
  scv : List (SCV α)

/-- The queries of `mesh::Mesh` used by the embedded functions. -/
structure Mesh (α : Type) where
  /-- The value of `m.nodes()`. -/
  nodes : Nat
  /-- The value of `m.local_nodes()`. -/
  local_nodes : Nat
  /-- The value of `m.edges()`. -/
  edges : Nat
  /-- The value of `m.elements()`. -/
  elements : Nat
  /-- The value of `m.interior_cvfaces()`. -/
  interior_cvfaces : Nat
  /-- The value of `m.cvfaces()`. -/
  cvfaces : Nat
  /-- The value of `m.edge(i).front().id()`. -/
  edge_front_id : Nat → Nat
  /-- The value of `m.edge(i).back().id()`. -/
  edge_back_id : Nat → Nat
  /-- The value of `m.cvface(i).back().id()`. -/
  cvface_back_id : Nat → Nat
  /-- The value of `m.element(i).physical_tag()`. -/
  element_physical_tag : Nat → Int
  /-- The value of `m.volume(i)`. -/
  volume : Nat → Volume α
  /-- The value of `m.dim()`. -/
  dim : Nat
  /-- The value of `m.cvface(i).area()`. -/
  cvface_area : Nat → α
  /-- The value of `m.cvface(i).normal()`. -/
  cvface_normal : Nat → Point α
  /-- The value of `m.cvface(i).boundary()`. -/
  cvface_boundary : Nat → Int
  /-- The index of the element `m.cvface(i).element()`. -/
  cvface_element : Nat → Nat
  /-- The value of `m.edge_cvface(i)`: the ids of the faces attached to edge `i`. -/
  edge_cvface : Nat → List Nat
  /-- The ids `m.element(i).node(k).id()`, `k < m.element(i).nodes()`. -/
  element_nodes : Nat → List Nat
  /-- The value of `m.element(i).edges()`. -/
  element_edges : Nat → Nat
  /-- The value of `m.element(i).cvface(j).id()`. -/
  element_cvface : Nat → Nat → Nat
  /-- The value of `shape::Shape(m.element(i)).shape_functions(j)`. -/
  shape_functions : Nat → Nat → List α
  /-- The value of `shape::Shape(m.element(i)).shape_gradients(j)`. -/
  shape_gradients : Nat → Nat → List (Point α)

/-! ## Sparse interpolation operator -/

/-- The arrays handed to the constructor `InterpolationMatrix(ia, ja, weights)`. -/
structure InterpolationMatrix (α : Type) where
  ia : List Nat := []
  ja : List Nat := []
  weights : List α := []

/-- Modelled from the spec: `util::InterpolationMatrix::matvec` (util/interpolation.h) is
not among the sources. The operator is sparse and row-compressed: row `i` holds the entries
`ia[i] ≤ p < ia[i+1]`, and the product has one entry per row, the sum of
`weights[p] * x[ja[p]]` over the row. -/
def InterpolationMatrix.matvec {α : Type} [LinearOrderedField α]
    (A : InterpolationMatrix α) (x : TVec α) : TVec α :=
  (List.range (A.ia.length - 1)).map (fun i =>
    forLoop (A.ia.getD i 0) (A.ia.getD (i + 1) 0)
      (fun p acc => acc + A.weights.getD p 0 * x.getD (A.ja.getD p 0) 0) 0)

/-! ## State of `VarSatPhysicsImpl` -/

/-- The type `util::DimVector`: one vector per space direction, read through `x()`, `y()`,
`z()`. -/
structure DimVector (α : Type) where
  x : TVec α := []
  y : TVec α := []
  z : TVec α := []

/-- A boundary condition (declared in `definitions.h`), read through `type()`, `value(t)`
and `flux(t, normal)`. -/
structure BoundaryCondition (α : Type) where
  type : Int
  value : α → α
  flux : α → Point α → α

/-- The enumeration `SpatialWeightType`. -/
inductive SpatialWeightType where
  | weightUpwind
  | weightAveraging
  | weightVanLeer
  deriving DecidableEq, Repr

/-- The data members of `VarSatPhysicsImpl` read or written by the embedded functions.
`zones_map_` is a `std::map<int,int>`, kept as a list of pairs sorted by key; `CV_up`
holds the sentinel `-1`, so it is a vector of integers. -/
structure VarSatPhysicsImpl (α : Type) where
  spatial_weighting : SpatialWeightType := SpatialWeightType.weightUpwind
  CV_up : List Int := []
  CV_flux : TVec α := []
  edge_up : TIndexVec := []
  edge_down : TIndexVec := []
  edge_flux : TVec α := []
  index_scv : List TIndexVec := []
  weight_scv : List (TVec α) := []
  zones_map_ : List (Int × Nat) := []
  edge_weight_front_ : TVec α := []
  edge_weight_back_ : TVec α := []
  edge_node_front_ : TIndexVec := []
  edge_node_back_ : TIndexVec := []
  flux_lim_matrix : InterpolationMatrix α := {}
  qdotn_faces : TVec α := []
  dimension : Nat := 0
  physical_zones_ : List (PhysicalZone α) := []
  boundary_conditions_h_ : List (Int × BoundaryCondition α) := []
  shape_matrix : InterpolationMatrix α := {}
  shape_gradient_matrixX : InterpolationMatrix α := {}
  shape_gradient_matrixY : InterpolationMatrix α := {}
  shape_gradient_matrixZ : InterpolationMatrix α := {}
  h_vec : TVec α := []
  h_faces : TVec α := []
  M_flux_faces : TVec α := []
  rho_vec : TVec α := []
  rho_faces_lim : TVec α := []
  krw_faces_lim : TVec α := []
  grad_h_faces_ : DimVector α := {}
  K_faces_ : DimVector α := {}
  norm_faces_ : DimVector α := {}
  qsat_faces_ : DimVector α := {}
  Sw_vec : TVec α := []
  dSw_vec : TVec α := []
  theta_vec : TVec α := []
  phi_vec : TVec α := []
  dphi_vec : TVec α := []
  ahh_vec : TVec α := []
  head_scv : List (TVec α) := []
  phi_scv : List (TVec α) := []
  dphi_scv : List (TVec α) := []
  Sw_scv : List (TVec α) := []
  dSw_scv : List (TVec α) := []
  krw_scv : List (TVec α) := []
  theta_scv : List (TVec α) := []
  n_front_ : List TIndexVec := []
  p_front_ : List TIndexVec := []
  q_front_ : List TIndexVec := []
  n_back_ : List TIndexVec := []
  p_back_ : List TIndexVec := []
  q_back_ : List TIndexVec := []
  constants_ : Constants α

section SpatialWeights

variable {α : Type} [LinearOrderedField α]

/-- The `weightUpwind` case of `process_spatial_weights`: the loop over the edges. -/
def upwind_loop (m : Mesh α) (s : VarSatPhysicsImpl α) : VarSatPhysicsImpl α :=
  forLoop 0 m.edges
    (fun i st =>
      if st.edge_flux.getD i 0 < 0 then
        { st with
          edge_weight_back_ := st.edge_weight_back_.set i 0
          edge_weight_front_ := st.edge_weight_front_.set i 1
          edge_up := st.edge_up.set i (m.edge_front_id i)
          edge_down := st.edge_down.set i (m.edge_back_id i) }
      else
        { st with
          edge_weight_back_ := st.edge_weight_back_.set i 1
          edge_weight_front_ := st.edge_weight_front_.set i 0
          edge_up := st.edge_up.set i (m.edge_back_id i)
          edge_down := st.edge_down.set i (m.edge_front_id i) })
    s

/-- First loop of the `weightVanLeer` case: `edge_up` and `edge_down` from the flux sign. -/
def vanleer_updown_loop (m : Mesh α) (s : VarSatPhysicsImpl α) : VarSatPhysicsImpl α :=
  forLoop 0 m.edges
    (fun i st =>
      if st.edge_flux.getD i 0 > 0 then
        { st with
          edge_up := st.edge_up.set i (m.edge_back_id i)
          edge_down := st.edge_down.set i (m.edge_front_id i) }
      else
        { st with
          edge_up := st.edge_up.set i (m.edge_front_id i)
          edge_down := st.edge_down.set i (m.edge_back_id i) })
    s

/-- Second loop: reset `CV_flux` and `CV_up` on the local nodes. -/
def vanleer_reset_loop (m : Mesh α) (s : VarSatPhysicsImpl α) : VarSatPhysicsImpl α :=
  forLoop 0 m.local_nodes
    (fun i st =>
      { st with CV_flux := st.CV_flux.set i 0, CV_up := st.CV_up.set i (-1) })
    s

/-- Third loop: the flux over the boundary faces enters the back node of each face. -/
def vanleer_boundary_loop (m : Mesh α) (s : VarSatPhysicsImpl α) : VarSatPhysicsImpl α :=
  forLoop m.interior_cvfaces m.cvfaces
    (fun i st =>
      let n := m.cvface_back_id i
      { st with CV_flux := st.CV_flux.set n (st.CV_flux.getD n 0 - st.qdotn_faces.getD i 0) })
    s

/-- Fourth loop: the largest flux into each control volume. -/
def vanleer_max_loop (m : Mesh α) (s : VarSatPhysicsImpl α) : VarSatPhysicsImpl α :=
  forLoop 0 m.edges
    (fun i st =>
      if st.edge_node_front_.getD i 0 < m.local_nodes ∨
          st.edge_node_back_.getD i 0 < m.local_nodes then
        let CV := st.edge_down.getD i 0
        if CV < m.local_nodes then
          let fl := |st.edge_flux.getD i 0|
          if fl > st.CV_flux.getD CV 0 then
            { st with
              CV_flux := st.CV_flux.set CV fl
              CV_up := st.CV_up.set CV (st.edge_up.getD i 0 : Nat) }
          else st
        else st
      else st)
    s

/-- Fifth loop: a control volume without an upwind point becomes its own upwind point. -/
def vanleer_default_loop (m : Mesh α) (s : VarSatPhysicsImpl α) : VarSatPhysicsImpl α :=
  forLoop 0 m.local_nodes
    (fun i st =>
      if st.CV_up.getD i 0 = -1 then { st with CV_up := st.CV_up.set i (i : Int) } else st)
    s

/-- The limiter value `sigma` computed from `qup` and `q2up`. -/
def vanleer_sigma (qup q2up : α) : α :=
  let r := q2up / qup
  if qup = 0 then 1
  else if r > 10000000000 then 2
  else (r + |r|) / (1 + |r|)

/-- Last loop: `r` and `sigma` for each edge, and the two weights. -/
def vanleer_sigma_loop (m : Mesh α) (s : VarSatPhysicsImpl α) : VarSatPhysicsImpl α :=
  forLoop 0 m.edges
    (fun i st =>
      if st.edge_node_front_.getD i 0 < m.local_nodes ∨
          st.edge_node_back_.getD i 0 < m.local_nodes then
        let qup := |st.edge_flux.getD i 0|
        let q2up := st.CV_flux.getD (st.edge_up.getD i 0) 0
        let sigma := vanleer_sigma qup q2up
        if st.edge_flux.getD i 0 > 0 then
          { st with
            edge_weight_back_ := st.edge_weight_back_.set i (sigma / 2)
            edge_weight_front_ := st.edge_weight_front_.set i (1 - sigma / 2) }
        else
          { st with
            edge_weight_back_ := st.edge_weight_back_.set i (1 - sigma / 2)
            edge_weight_front_ := st.edge_weight_front_.set i (sigma / 2) }
      else st)
    s

/-- The function `VarSatPhysicsImpl::process_spatial_weights`. The halo exchange
`node_comm_.send(CV_flux_comm_tag); node_comm_.recv(CV_flux_comm_tag)` belongs to the
communication layer; it acts on the registered vector `CV_flux` and is the parameter
`exchange`. The `switch` has no case for `weightAveraging`. -/
def process_spatial_weights (exchange : TVec α → TVec α) (m : Mesh α)
    (s : VarSatPhysicsImpl α) : VarSatPhysicsImpl α :=
  -- flux_lim_matrix.matvec( qdotn_faces, edge_flux );
  let s := { s with edge_flux := s.flux_lim_matrix.matvec s.qdotn_faces }
  match s.spatial_weighting with
  | SpatialWeightType.weightUpwind => upwind_loop m s
  | SpatialWeightType.weightVanLeer =>
    let s := vanleer_updown_loop m s
    let s := vanleer_reset_loop m s
    let s := vanleer_boundary_loop m s
    let s := vanleer_max_loop m s
    let s := vanleer_default_loop m s
    let s := { s with CV_flux := exchange s.CV_flux }
    vanleer_sigma_loop m s
  | SpatialWeightType.weightAveraging => s

end SpatialWeights

/-! ## Zone tables built by `initialise_vectors` -/

/-- Insertion into a `std::set<int>`: the elements are kept in ascending order, without
repetition. -/
def setInsert (x : Int) : List Int → List Int
  | [] => [x]
  | y :: ys =>
    if x < y then x :: y :: ys
    else if x = y then y :: ys
    else y :: setInsert x ys

/-- Lookup `find` in a `std::map<int,int>` kept as a list of pairs. -/
def mapFind (zm : List (Int × Nat)) (k : Int) : Option Nat :=
  (zm.find? (fun p => p.1 = k)).map (fun p => p.2)

/-- The assignment `map[k] = v` on a `std::map<int,int>`: the keys stay in ascending order. -/
def mapAssign : List (Int × Nat) → Int → Nat → List (Int × Nat)
  | [], k, v => [(k, v)]
  | (k', v') :: rest, k, v =>
    if k < k' then (k, v) :: (k', v') :: rest
    else if k = k' then (k', v) :: rest
    else (k', v') :: mapAssign rest k v

/-- The read access `map[k]` on a `std::map<int,int>`: an absent key is inserted with the
value 0. The result is the value read and the map after the access. -/
def mapSubscript (zm : List (Int × Nat)) (k : Int) : Nat × List (Int × Nat) :=
  match mapFind zm k with
  | some v => (v, zm)
  | none => (0, mapAssign zm k 0)

section ZoneTables

variable {α : Type} [LinearOrderedField α]

/-- The set `zones` of the physical tags of all elements. -/
def initialise_vectors_zones (m : Mesh α) : List Int :=
  forLoop 0 m.elements (fun i zones => setInsert (m.element_physical_tag i) zones) []

/-- The loop `zones_map_[*it] = indx++` over the set `zones`. -/
def initialise_vectors_zones_map (zones : List Int) (zones_map_ : List (Int × Nat)) :
    List (Int × Nat) :=
  (zones.foldl (fun (acc : List (Int × Nat) × Nat) tag =>
    (mapAssign acc.1 tag acc.2, acc.2 + 1)) (zones_map_, 0)).1

/-- The local vectors `weights` and `counts` of one node, and `zones_map_`, in the loop
over the sub-control-volumes of the node. -/
structure ScvAccum (α : Type) where
  zones_map_ : List (Int × Nat)
  weights : List α
  counts : List Nat

/-- The body of the loop over the sub-control-volumes of a control volume; `none` when
`assert(tag<num_zones)` fails. -/
def initialise_vectors_scv_step (num_zones : Nat) (cv_vol : α) (acc : ScvAccum α)
    (scv : SCV α) : Option (ScvAccum α) :=
  -- int tag = zones_map_[cv.scv(j).element().physical_tag()];
  let r := mapSubscript acc.zones_map_ scv.element_physical_tag
  let tag := r.1
  if tag < num_zones then
    -- weights[tag] += cv.scv(j).vol() / cv_vol;  counts[tag]++;
    some
      { zones_map_ := r.2
        weights := acc.weights.set tag (acc.weights.getD tag 0 + scv.vol / cv_vol)
        counts := acc.counts.set tag (acc.counts.getD tag 0 + 1) }
  else none

/-- The loop over the sub-control-volumes of `cv`, from zeroed `weights` and `counts`. -/
def initialise_vectors_scv_loop (num_zones : Nat) (cv : Volume α)
    (zones_map_ : List (Int × Nat)) : Option (ScvAccum α) :=
  cv.scv.foldlM (initialise_vectors_scv_step num_zones cv.vol)
    { zones_map_ := zones_map_
      weights := List.replicate num_zones 0
      counts := List.replicate num_zones 0 }

/-- The temporaries `weight_scv_tmp`, `index_scv_tmp`, `nodes_idx` and the member
`zones_map_`. -/
structure ZoneTables (α : Type) where
  zones_map_ : List (Int × Nat)
  weight_scv_tmp : List (List α)
  index_scv_tmp : List (List Nat)
  nodes_idx : List (List (Int × Nat))

/-- The loop over the zones for node `i`: a zone with a non-zero count receives the weight
and the index of the node. -/
def initialise_vectors_push_loop (num_zones i : Nat) (weights : List α) (counts : List Nat)
    (t : ZoneTables α) : ZoneTables α :=
  forLoop 0 num_zones
    (fun j t =>
      if counts.getD j 0 ≠ 0 then
        let w := t.weight_scv_tmp.getD j [] ++ [weights.getD j 0]
        let ix := t.index_scv_tmp.getD j [] ++ [i]
        { t with
          weight_scv_tmp := t.weight_scv_tmp.set j w
          index_scv_tmp := t.index_scv_tmp.set j ix
          nodes_idx := t.nodes_idx.set j (mapAssign (t.nodes_idx.getD j []) i (ix.length - 1)) }
      else t)
    t

/-- The body of the loop over the nodes: weights and counts of node `i`, then the push
into the tables. -/
def initialise_vectors_node (m : Mesh α) (num_zones : Nat) (t : ZoneTables α) (i : Nat) :
    Option (ZoneTables α) :=
  match initialise_vectors_scv_loop num_zones (m.volume i) t.zones_map_ with
  | none => none
  | some acc =>
    some (initialise_vectors_push_loop num_zones i acc.weights acc.counts
      { t with zones_map_ := acc.zones_map_ })

/-- The part of `VarSatPhysicsImpl::initialise_vectors` that builds `zones_map_`,
`weight_scv` and `index_scv`. The result is the state and the local table `nodes_idx`;
`none` when the assertion in the loop fails. -/
def initialise_vectors_scv (m : Mesh α) (s : VarSatPhysicsImpl α) :
    Option (VarSatPhysicsImpl α × List (List (Int × Nat))) :=
  let zones := initialise_vectors_zones m
  let num_zones := zones.length
  let zones_map_ := initialise_vectors_zones_map zones s.zones_map_
  match (List.range m.nodes).foldlM (initialise_vectors_node m num_zones)
      { zones_map_ := zones_map_
        weight_scv_tmp := List.replicate num_zones []
        index_scv_tmp := List.replicate num_zones []
        nodes_idx := List.replicate num_zones [] } with
  | none => none
  | some t =>
    some
      ({ s with
          zones_map_ := t.zones_map_
          weight_scv := (List.range num_zones).map (fun i => t.weight_scv_tmp.getD i [])
          index_scv := (List.range num_zones).map (fun i => t.index_scv_tmp.getD i []) },
        t.nodes_idx)

/-- The weight stored for node `i` in one zone: the entries of `weight_z` at the positions
where `index_z` holds `i`. -/
def zoneWeightOf (index_z : TIndexVec) (weight_z : TVec α) (i : Nat) : α :=
  ((List.zip index_z weight_z).map (fun p => if p.1 = i then p.2 else 0)).sum

/-- The sum over all zones of the weight stored for node `i`. -/
def nodeWeightSum (index_scv : List TIndexVec) (weight_scv : List (TVec α)) (i : Nat) : α :=
  ((List.range index_scv.length).map
    (fun z => zoneWeightOf (index_scv.getD z []) (weight_scv.getD z []) i)).sum

end ZoneTables

/-! ## Fluxes over the faces -/

/-- A counted loop whose body can fail (assertion failure): the loop stops at the first
failure. -/
def forLoopM {σ : Type} (lo hi : Nat) (body : Nat → σ → Option σ) (s : σ) : Option σ :=
  (List.range' lo (hi - lo)).foldlM (fun st i => body i st) s

/-- Modelled from the spec: the sub-range `x(1,n)` of the `lin` library is not among the
sources; the spec takes the range written by `process_fluxes` as the entries of the `n`
interior faces. `updateRange f x n e` is `x(1,n) op= e`: entry `i < n` of `x` becomes
`f x[i] e[i]`, the other entries stay. -/
def updateRange {α : Type} [Zero α] (f : α → α → α) (x : TVec α) (n : Nat) (e : TVec α) :
    TVec α :=
  x.mapIdx (fun i v => if i < n then f v (e.getD i 0) else v)

section Fluxes

variable {α : Type} [LinearOrderedField α]

/-- The function `VarSatPhysicsImpl::physical_zone`; `none` when the assertion fails. -/
def physical_zone (s : VarSatPhysicsImpl α) (zone : Int) : Option (PhysicalZone α) :=
  if zone ≥ 0 ∧ zone < (s.physical_zones_.length : Int) then s.physical_zones_[zone.toNat]?
  else none

/-- The function `VarSatPhysicsImpl::boundary_condition_h`: lookup in the map; `none` when
the assertion `it != end()` fails. -/
def boundary_condition_h (s : VarSatPhysicsImpl α) (tag : Int) :
    Option (BoundaryCondition α) :=
  (s.boundary_conditions_h_.find? (fun p => p.1 = tag)).map (fun p => p.2)

/-- The part of `initialise_vectors` that fills `norm_faces_`. The fresh vectors `X`, `Y`,
`Z` and the components allocated by `norm_faces_.set` are taken as zero vectors of
`m.interior_cvfaces()` entries. -/
def initialise_vectors_norm_faces (m : Mesh α) : DimVector α :=
  let n := m.interior_cvfaces
  let xyz := forLoop 0 n
    (fun i (v : TVec α × TVec α × TVec α) =>
      let nrm := m.cvface_normal i
      (v.1.set i nrm.x, v.2.1.set i nrm.y, if m.dim = 3 then v.2.2.set i nrm.z else v.2.2))
    (List.replicate n 0, List.replicate n 0, List.replicate n 0)
  -- norm_faces_.x() = X;  norm_faces_.y() = Y;  if(m.dim()==3) norm_faces_.z() = Z;
  { x := xyz.1, y := xyz.2.1, z := if m.dim = 3 then xyz.2.2 else List.replicate n 0 }

/-- The part of `initialise_vectors` that fills `K_faces_`, starting from the vectors
`X`, `Y`, `Z` left by the loop over the normals; `none` when `physical_zone` fails. -/
def initialise_vectors_K_faces (m : Mesh α) (s : VarSatPhysicsImpl α) :
    Option (DimVector α) :=
  let n := m.interior_cvfaces
  let nrm := initialise_vectors_norm_faces m
  match forLoopM 0 n
    (fun i (v : TVec α × TVec α × TVec α) =>
      let tag := m.element_physical_tag (m.cvface_element i)
      match physical_zone s tag with
      | none => none
      | some zone =>
        some (v.1.set i (-zone.K_xx), v.2.1.set i (-zone.K_yy),
          if m.dim = 3 then v.2.2.set i (-zone.K_zz) else v.2.2))
    (nrm.x, nrm.y, nrm.z) with
  | none => none
  | some xyz =>
    -- K_faces_.x() = X;  K_faces_.y() = Y;  K_faces_.z() = Z;
    some { x := xyz.1, y := xyz.2.1, z := xyz.2.2 }

/-- First part of `process_fluxes`: the vector `q` at the interior faces and its product
with the face normals, written to the interior range of `qdotn_faces`. -/
def process_fluxes_qdotn (m : Mesh α) (s : VarSatPhysicsImpl α) : VarSatPhysicsImpl α :=
  -- qsat_faces_.x().at(all) = grad_h_faces_.x().at(all);  qsat_faces_.x() *= K_faces_.x();
  let qx := assignAll s.qsat_faces_.x s.grad_h_faces_.x
  let qx := zipAll (fun a b => a * b) qx s.K_faces_.x
  -- qsat_faces_.y().at(all) = grad_h_faces_.y().at(all);
  let qy := assignAll s.qsat_faces_.y s.grad_h_faces_.y
  let qyz :=
    if m.dim = 2 then
      -- qsat_faces_.y() += 1.;
      (mapAll (fun a => a + 1) qy, s.qsat_faces_.z)
    else
      -- qsat_faces_.z().at(all) = grad_h_faces_.z().at(all);  += 1.;  *= K_faces_.z();
      let qz := assignAll s.qsat_faces_.z s.grad_h_faces_.z
      let qz := mapAll (fun a => a + 1) qz
      let qz := zipAll (fun a b => a * b) qz s.K_faces_.z
      (qy, qz)
  -- qsat_faces_.y() *= K_faces_.y();
  let qy := zipAll (fun a b => a * b) qyz.1 s.K_faces_.y
  let qz := qyz.2
  -- qdotn_faces(1,m.interior_cvfaces()) = mul(norm_faces_.x()(all), qsat_faces_.x()(all));
  let qdotn := updateRange (fun _ b => b) s.qdotn_faces m.interior_cvfaces
    (zipAll (fun a b => a * b) s.norm_faces_.x qx)
  -- qdotn_faces(1,m.interior_cvfaces()) += mul(norm_faces_.y()(all), qsat_faces_.y()(all));
  let qdotn := updateRange (fun a b => a + b) qdotn m.interior_cvfaces
    (zipAll (fun a b => a * b) s.norm_faces_.y qy)
  let qdotn :=
    if m.dim = 3 then
      updateRange (fun a b => a + b) qdotn m.interior_cvfaces
        (zipAll (fun a b => a * b) s.norm_faces_.z qz)
    else qdotn
  { s with qsat_faces_ := { x := qx, y := qy, z := qz }, qdotn_faces := qdotn }

/-- Second part of `process_fluxes`: the loop over the interior faces. -/
def process_fluxes_interior_loop (m : Mesh α) (s : VarSatPhysicsImpl α) :
    VarSatPhysicsImpl α :=
  forLoop 0 m.interior_cvfaces
    (fun i st =>
      -- qdotn_faces.at(i) *= krw_faces_lim.at(i);
      let qdotn := st.qdotn_faces.set i (st.qdotn_faces.getD i 0 * st.krw_faces_lim.getD i 0)
      -- M_flux_faces.at(i) = rho_faces_lim.at(i) * qdotn_faces.at(i);
      { st with
        qdotn_faces := qdotn
        M_flux_faces := st.M_flux_faces.set i (st.rho_faces_lim.getD i 0 * qdotn.getD i 0) })
    s

/-- The body of the loop over the boundary faces: the `switch` on the type of the boundary
condition of face `i`; `none` when `boundary_condition_h` fails. -/
def process_fluxes_boundary_step (t : α) (m : Mesh α) (i : Nat) (st : VarSatPhysicsImpl α) :
    Option (VarSatPhysicsImpl α) :=
  match boundary_condition_h st (m.cvface_boundary i) with
  | none => none
  | some BCh =>
    if BCh.type = 3 then
      some { st with qdotn_faces := st.qdotn_faces.set i (BCh.value t * m.cvface_area i) }
    else if BCh.type = 6 then
      some { st with
        qdotn_faces := st.qdotn_faces.set i (BCh.flux t (m.cvface_normal i) * m.cvface_area i) }
    else if BCh.type = 7 then
      some { st with qdotn_faces := st.qdotn_faces.set i (BCh.value t * m.cvface_area i) }
    else if BCh.type = 8 then
      some { st with qdotn_faces := st.qdotn_faces.set i (0 * m.cvface_area i) }
    else some st

/-- Third part of `process_fluxes`: the loop over the boundary faces that sets the fluid
flux where the boundary condition gives it. -/
def process_fluxes_boundary_loop (t : α) (m : Mesh α) (s : VarSatPhysicsImpl α) :
    Option (VarSatPhysicsImpl α) :=
  forLoopM m.interior_cvfaces m.cvfaces (process_fluxes_boundary_step t m) s

/-- Last part of `process_fluxes`: the mass flux over each boundary face. -/
def process_fluxes_mass_loop (m : Mesh α) (s : VarSatPhysicsImpl α) : VarSatPhysicsImpl α :=
  forLoop m.interior_cvfaces m.cvfaces
    (fun i st =>
      -- double rho_face = rho_vec[cvf.back().id()];
      let rho_face := st.rho_vec.getD (m.cvface_back_id i) 0
      -- if( qdotn_faces.at(i)>=0 ) rho_face = constants().rho_0();
      let rho_face := if st.qdotn_faces.getD i 0 ≥ 0 then st.constants_.rho_0 else rho_face
      { st with M_flux_faces := st.M_flux_faces.set i (rho_face * st.qdotn_faces.getD i 0) })
    s

/-- The function `VarSatPhysicsImpl::process_fluxes`; the loops that are commented out in
the source are left out. -/
def process_fluxes (t : α) (m : Mesh α) (s : VarSatPhysicsImpl α) :
    Option (VarSatPhysicsImpl α) :=
  let s := process_fluxes_qdotn m s
  let s := process_fluxes_interior_loop m s
  match process_fluxes_boundary_loop t m s with
  | none => none
  | some s => some (process_fluxes_mass_loop m s)

end Fluxes

/-! ## Interpolation operators built by `initialise_shape_functions` -/

/-- The order of `std::pair<int,int>` used by `std::sort`: first components, then second
components. -/
@[reducible] def pairLe (a b : Nat × Nat) : Prop := a.1 < b.1 ∨ (a.1 = b.1 ∧ a.2 ≤ b.2)

/-- The row begin array: `ia[0] = 0; for (i < n) ia[i+1] = ia[i] + deg(i);` on a vector of
`n + 1` entries. Both row begin arrays of `initialise_shape_functions` are filled by this
loop. -/
def row_begin (n : Nat) (deg : Nat → Nat) : TIndexVec :=
  forLoop 0 n (fun i ia => ia.set (i + 1) (ia.getD i 0 + deg i)) (List.replicate (n + 1) 0)

/-- The loop `for (int k = 0, p = ia[cvf_id]; p < ia[cvf_id+1]; ++k, ++p) v[p] = g(k);`. -/
def rowSet {β : Type} (ia : TIndexVec) (cvf_id : Nat) (g : Nat → β) (v : List β) : List β :=
  forLoop 0 (ia.getD (cvf_id + 1) 0 - ia.getD cvf_id 0)
    (fun k v => v.set (ia.getD cvf_id 0 + k) (g k)) v

/-- Modelled from the spec: the constructor `InterpolationMatrix(ia, ja, weights)`
(util/interpolation.h) is not among the sources. The spec makes construction fail on
malformed dimensions and on a row without entries; otherwise the operator holds the three
arrays. -/
def InterpolationMatrix.construct {α : Type} (ia ja : TIndexVec) (weights : TVec α) :
    Option (InterpolationMatrix α) :=
  if ia ≠ [] ∧ ia.getD (ia.length - 1) 0 = ja.length ∧ ja.length = weights.length ∧
      ∀ i, i < ia.length - 1 → ia.getD i 0 < ia.getD (i + 1) 0 then
    some { ia := ia, ja := ja, weights := weights }
  else none

/-- The arrays `ja`, `shape_val`, `shape_dx`, `shape_dy`, `shape_dz` of
`initialise_shape_functions`. -/
structure ShapeArrays (α : Type) where
  ja : TIndexVec
  shape_val : TVec α
  shape_dx : TVec α
  shape_dy : TVec α
  shape_dz : TVec α

/-- The arrays `ja_fl`, `weights_fl` of `initialise_shape_functions` and the counter `pos`. -/
structure FluxLimArrays (α : Type) where
  pos : Nat
  ja_fl : TIndexVec
  weights_fl : TVec α

section ShapeFunctions

variable {α : Type} [LinearOrderedField α]

/-- The sorted `index_vector` of element `i`: the pairs `(e.node(k).id(), k)` in the order
of `std::sort`. The pairs are pairwise different, so every sorting procedure gives the same
vector. -/
def index_vector (m : Mesh α) (i : Nat) : List (Nat × Nat) :=
  let e := m.element_nodes i
  -- index_vector[k] = std::make_pair(e.node(k).id(), k);
  let index_vector := forLoop 0 e.length (fun k iv => iv.set k (e.getD k 0, k))
    (List.replicate e.length (0, 0))
  -- std::sort(index_vector.begin(), index_vector.end());
  index_vector.insertionSort pairLe

/-- The row begin array `ia` of the shape operators. -/
def initialise_shape_functions_ia (m : Mesh α) : TIndexVec :=
  row_begin m.interior_cvfaces (fun i => (m.element_nodes (m.cvface_element i)).length)

/-- The body of the loop over the elements in `initialise_shape_functions`. The second
inner loop assigns four different vectors at the same positions; each vector is written by
its own copy of that loop. -/
def initialise_shape_functions_element (m : Mesh α) (ia : TIndexVec) (i : Nat)
    (a : ShapeArrays α) : ShapeArrays α :=
  let index_vector := index_vector m i
  forLoop 0 (m.element_edges i)
    (fun j a =>
      let cvf_id := m.element_cvface i j
      -- ja[p] = index_vector[k].first;
      let ja := rowSet ia cvf_id (fun k => (index_vector.getD k (0, 0)).1) a.ja
      let shape_functions := m.shape_functions i j
      let shape_gradients := m.shape_gradients i j
      let zero : Point α := { x := 0, y := 0, z := 0 }
      -- shape_val[p] = shape_functions[index_vector[k].second];  (and the gradients)
      { ja := ja
        shape_val := rowSet ia cvf_id
          (fun k => shape_functions.getD (index_vector.getD k (0, 0)).2 0) a.shape_val
        shape_dx := rowSet ia cvf_id
          (fun k => (shape_gradients.getD (index_vector.getD k (0, 0)).2 zero).x) a.shape_dx
        shape_dy := rowSet ia cvf_id
          (fun k => (shape_gradients.getD (index_vector.getD k (0, 0)).2 zero).y) a.shape_dy
        shape_dz := rowSet ia cvf_id
          (fun k => (shape_gradients.getD (index_vector.getD k (0, 0)).2 zero).z) a.shape_dz })
    a

/-- The arrays of the shape operators after the loop over the elements; the fresh vectors
are taken as zero vectors of `ja_length` entries. -/
def initialise_shape_functions_arrays (m : Mesh α) : ShapeArrays α :=
  let ia := initialise_shape_functions_ia m
  -- int ja_length = ia[ia_length-1];
  let ja_length := ia.getD (m.interior_cvfaces + 1 - 1) 0
  forLoop 0 m.elements (initialise_shape_functions_element m ia)
    { ja := List.replicate ja_length 0
      shape_val := List.replicate ja_length 0
      shape_dx := List.replicate ja_length 0
      shape_dy := List.replicate ja_length 0
      shape_dz := List.replicate ja_length 0 }

/-- The row begin array `ia_fl` of the operator for flux limiting. -/
def initialise_shape_functions_ia_fl (m : Mesh α) : TIndexVec :=
  row_begin m.edges (fun i => (m.edge_cvface i).length)

/-- The body of the loop over the edges that fills `ja_fl` and `weights_fl`. -/
def initialise_shape_functions_edge (m : Mesh α) (ia_fl : TIndexVec) (i : Nat)
    (a : FluxLimArrays α) : FluxLimArrays α :=
  let faces := m.edge_cvface i
  -- total_area += m.cvface(faces[j]).area();
  let total_area := forLoop 0 faces.length
    (fun j (t : α) => t + m.cvface_area (faces.getD j 0)) 0
  -- int pos = ia_fl[i];
  forLoop 0 faces.length
    (fun j (a : FluxLimArrays α) =>
      let face := faces.getD j 0
      -- weights_fl.at(pos) = 1./total_area;  ja_fl[pos] = face;  pos++;
      { pos := a.pos + 1
        ja_fl := a.ja_fl.set a.pos face
        weights_fl := a.weights_fl.set a.pos (1 / total_area) })
    { a with pos := ia_fl.getD i 0 }

/-- The arrays of the operator for flux limiting after the loop over the edges. -/
def initialise_shape_functions_arrays_fl (m : Mesh α) : FluxLimArrays α :=
  let ia_fl := initialise_shape_functions_ia_fl m
  -- ja_length = ia_fl[ia_length-1];
  let ja_length := ia_fl.getD (m.edges + 1 - 1) 0
  forLoop 0 m.edges (initialise_shape_functions_edge m ia_fl)
    { pos := 0, ja_fl := List.replicate ja_length 0, weights_fl := List.replicate ja_length 0 }

/-- The function `VarSatPhysicsImpl::initialise_shape_functions`; `none` when the
construction of an operator fails. -/
def initialise_shape_functions (m : Mesh α) (s : VarSatPhysicsImpl α) :
    Option (VarSatPhysicsImpl α) :=
  let ia := initialise_shape_functions_ia m
  let a := initialise_shape_functions_arrays m
  -- h_vec = TVec(m.nodes());  h_faces = TVec(m.interior_cvfaces());
  -- grad_h_faces_.set(m.interior_cvfaces(), m.dim());
  let s := { s with
    h_vec := List.replicate m.nodes 0
    h_faces := List.replicate m.interior_cvfaces 0
    grad_h_faces_ :=
      { x := List.replicate m.interior_cvfaces 0
        y := List.replicate m.interior_cvfaces 0
        z := List.replicate m.interior_cvfaces 0 } }
  match InterpolationMatrix.construct ia a.ja a.shape_val with
  | none => none
  | some M =>
    match InterpolationMatrix.construct ia a.ja a.shape_dx with
    | none => none
    | some MX =>
      match InterpolationMatrix.construct ia a.ja a.shape_dy with
      | none => none
      | some MY =>
        -- if (dimension == 3) shape_gradient_matrixZ = InterpolationMatrix(ia, ja, shape_dz);
        match (if s.dimension = 3 then InterpolationMatrix.construct ia a.ja a.shape_dz
          else some s.shape_gradient_matrixZ) with
        | none => none
        | some MZ =>
          let ia_fl := initialise_shape_functions_ia_fl m
          let a_fl := initialise_shape_functions_arrays_fl m
          match InterpolationMatrix.construct ia_fl a_fl.ja_fl a_fl.weights_fl with
          | none => none
          | some FL =>
            some { s with
              shape_matrix := M
              shape_gradient_matrixX := MX
              shape_gradient_matrixY := MY
              shape_gradient_matrixZ := MZ
              flux_lim_matrix := FL }

end ShapeFunctions

/-! ## Edge weights set by `initialise_vectors` -/

section EdgeWeights

variable {α : Type} [LinearOrderedField α]

/-- The part of `initialise_vectors` that sets the edge weights and the node ids of the
edges (lines 488 to 498). `fresh n` is the content of a vector allocated by
`TVecDevice(n)` without a fill value. Line 489 reads
`edge_weight_back_ = TVecDevice(m.edges()), 0.5;`: the comma operator evaluates and
discards `0.5`, and the vector assigned is the one allocated without a fill value. -/
def initialise_vectors_edge_weights (fresh : Nat → TVec α) (m : Mesh α)
    (s : VarSatPhysicsImpl α) : VarSatPhysicsImpl α :=
  -- edge_weight_front_ = TVecDevice(m.edges(), 0.5);
  let s := { s with edge_weight_front_ := List.replicate m.edges (1 / 2) }
  -- edge_weight_back_ = TVecDevice(m.edges()), 0.5;
  let s := { s with edge_weight_back_ := fresh m.edges }
  let nodes := forLoop 0 m.edges
    (fun i (p : TIndexVec × TIndexVec) =>
      (p.1.set i (m.edge_front_id i), p.2.set i (m.edge_back_id i)))
    (List.replicate m.edges 0, List.replicate m.edges 0)
  { s with edge_node_front_ := nodes.1, edge_node_back_ := nodes.2 }

end EdgeWeights

/-! ## Face densities and derivative coefficients -/

section FaceDensities

variable {α : Type} [LinearOrderedField α]

/-- The function `VarSatPhysicsImpl::process_faces_lim`. -/
def process_faces_lim (m : Mesh α) (s : VarSatPhysicsImpl α) : VarSatPhysicsImpl α :=
  forLoop 0 m.edges
    (fun e st =>
      let rho_edge :=
        st.rho_vec.getD (st.edge_node_back_.getD e 0) 0 * st.edge_weight_back_.getD e 0 +
          st.rho_vec.getD (st.edge_node_front_.getD e 0) 0 * st.edge_weight_front_.getD e 0
      let edge_cvfaces := m.edge_cvface e
      forLoop 0 edge_cvfaces.length
        (fun j st =>
          let face := edge_cvfaces.getD j 0
          -- rho_faces_lim.at( face ) = rho_edge;
          { st with rho_faces_lim := st.rho_faces_lim.set face rho_edge })
        st)
    s

/-- The function `VarSatPhysicsImpl::process_derivative_coefficients`. -/
def process_derivative_coefficients (s : VarSatPhysicsImpl α) : VarSatPhysicsImpl α :=
  let rho_0 := s.constants_.rho_0
  let g := s.constants_.g
  let beta := s.constants_.beta
  let factor := rho_0 * rho_0 * g * beta
  forLoop 0 s.ahh_vec.length
    (fun i st =>
      { st with
        ahh_vec := st.ahh_vec.set i
          (st.rho_vec.getD i 0 * st.phi_vec.getD i 0 * st.dSw_vec.getD i 0 +
            st.rho_vec.getD i 0 * st.Sw_vec.getD i 0 * st.dphi_vec.getD i 0 +
            factor * st.phi_vec.getD i 0 * st.Sw_vec.getD i 0) })
    s

end FaceDensities

/-! ## Face tables built by `initialise_vectors` -/

/-- The multimaps `faceEdge_map_front` and `faceEdge_map_back`, one per zone, with the maps
`zones_map_` and `nodes_idx` that the loop reads with `operator[]`. A multimap is kept as
the list of its entries `(n, (f, i))` in insertion order: entries with equal keys keep
their insertion order, and the multimaps are read with `equal_range` only. -/
structure FaceEdgeMaps where
  zones_map_ : List (Int × Nat)
  nodes_idx : List (List (Int × Nat))
  faceEdge_map_front : List (List (Nat × Nat × Nat))
  faceEdge_map_back : List (List (Nat × Nat × Nat))

/-- The vectors `n_front`, `p_front`, `q_front`, `n_back`, `p_back`, `q_back` of one zone. -/
structure FaceTables where
  n_front : TIndexVec
  p_front : TIndexVec
  q_front : TIndexVec
  n_back : TIndexVec
  p_back : TIndexVec
  q_back : TIndexVec

section FaceTableLoops

variable {α : Type} [LinearOrderedField α]

/-- The body of the loop over the faces `f` attached to edge `i` (lines 441 to 446). -/
def initialise_vectors_face_step (m : Mesh α) (i f : Nat) (t : FaceEdgeMaps) : FaceEdgeMaps :=
  let fid := m.edge_front_id i
  let bid := m.edge_back_id i
  -- int z = zones_map_[m.cvface(f).element().physical_tag()];
  let rz := mapSubscript t.zones_map_ (m.element_physical_tag (m.cvface_element f))
  let z := rz.1
  -- int n = nodes_idx[z][fid];
  let rn := mapSubscript (t.nodes_idx.getD z []) (fid : Int)
  -- faceEdge_map_front[z].insert( (n, (f, i)) );
  let front := t.faceEdge_map_front.set z (t.faceEdge_map_front.getD z [] ++ [(rn.1, f, i)])
  -- n = nodes_idx[z][bid];
  let rb := mapSubscript rn.2 (bid : Int)
  -- faceEdge_map_back[z].insert( (n, (f, i)) );
  let back := t.faceEdge_map_back.set z (t.faceEdge_map_back.getD z [] ++ [(rb.1, f, i)])
  { zones_map_ := rz.2
    nodes_idx := t.nodes_idx.set z rb.2
    faceEdge_map_front := front
    faceEdge_map_back := back }

/-- The loop over the edges that fills the multimaps (lines 432 to 448). -/
def initialise_vectors_face_maps (m : Mesh α) (num_zones : Nat)
    (zones_map_ : List (Int × Nat)) (nodes_idx : List (List (Int × Nat))) : FaceEdgeMaps :=
  forLoop 0 m.edges
    (fun i t =>
      let edge_cvfaces := m.edge_cvface i
      forLoop 0 edge_cvfaces.length
        (fun j t => initialise_vectors_face_step m i (edge_cvfaces.getD j 0) t)
        t)
    { zones_map_ := zones_map_
      nodes_idx := nodes_idx
      faceEdge_map_front := List.replicate num_zones []
      faceEdge_map_back := List.replicate num_zones [] }

end FaceTableLoops

/-- The loop over the local node ids `i < len` of one zone (lines 466 to 479): the entries
of `equal_range(i)` are pushed in their order, first those of the front multimap, then
those of the back multimap. -/
def initialise_vectors_zone_tables (len : Nat) (front back : List (Nat × Nat × Nat)) :
    FaceTables :=
  forLoop 0 len
    (fun i t =>
      let t := (front.filter (fun e => e.1 = i)).foldl
        (fun (t : FaceTables) e =>
          { t with
            n_front := t.n_front ++ [i]
            q_front := t.q_front ++ [e.2.1]
            p_front := t.p_front ++ [e.2.2] })
        t
      (back.filter (fun e => e.1 = i)).foldl
        (fun (t : FaceTables) e =>
          { t with
            n_back := t.n_back ++ [i]
            q_back := t.q_back ++ [e.2.1]
            p_back := t.p_back ++ [e.2.2] })
        t)
    { n_front := [], p_front := [], q_front := [], n_back := [], p_back := [], q_back := [] }

section FaceTableState

variable {α : Type} [LinearOrderedField α]

/-- The part of `VarSatPhysicsImpl::initialise_vectors` from the allocation of the zone
vectors to the face tables (lines 411 to 486). `nodes_idx` is the local table left by the
loop over the nodes and `fresh n` is the content of a vector allocated by `TVecDevice(n)`
without a fill value. -/
def initialise_vectors_tables (fresh : Nat → TVec α) (m : Mesh α) (s : VarSatPhysicsImpl α)
    (nodes_idx : List (List (Int × Nat))) : VarSatPhysicsImpl α :=
  let num_zones := (initialise_vectors_zones m).length
  -- head_scv[i] = TVecDevice( index_scv[i].size() );  and so on
  let alloc := (List.range num_zones).map (fun i => fresh (s.index_scv.getD i []).length)
  let s := { s with
    head_scv := alloc, phi_scv := alloc, dphi_scv := alloc, Sw_scv := alloc,
    theta_scv := alloc, dSw_scv := alloc, krw_scv := alloc }
  let fe := initialise_vectors_face_maps m num_zones s.zones_map_ nodes_idx
  let tables := (List.range num_zones).map
    (fun z => initialise_vectors_zone_tables (s.head_scv.getD z []).length
      (fe.faceEdge_map_front.getD z []) (fe.faceEdge_map_back.getD z []))
  { s with
    zones_map_ := fe.zones_map_
    n_front_ := tables.map (fun t => t.n_front)
    p_front_ := tables.map (fun t => t.p_front)
    q_front_ := tables.map (fun t => t.q_front)
    n_back_ := tables.map (fun t => t.n_back)
    p_back_ := tables.map (fun t => t.p_back)
    q_back_ := tables.map (fun t => t.q_back) }

end FaceTableState

/-! ## Zone aggregation: `process_volumes_psk` -/

/-- Indirect read `x.at(p)` of the `lin` library: the entries of `x` at the positions listed
in `p`. -/
def gather {α : Type} [Zero α] (x : TVec α) (p : TIndexVec) : TVec α :=
  p.map (fun j => x.getD j 0)

/-- Indirect update `x.at(p) op= e` of the `lin` library: for each `k` in turn, the entry
`p[k]` of `x` becomes `f x[p[k]] e[k]`. -/
def scatter {α : Type} [Zero α] (f : α → α → α) (x : TVec α) (p : TIndexVec) (e : TVec α) :
    TVec α :=
  forLoop 0 p.length
    (fun k x => x.set (p.getD k 0) (f (x.getD (p.getD k 0) 0) (e.getD k 0)))
    x

section ZoneAggregation

variable {α : Type} [LinearOrderedField α]

/-- The body of the loop over `zones_map_` in `process_volumes_psk`, from its first
statement to the statement before `exit(0)` (lines 794 to 847): the result is the state
in which `exit(0)` is called; `none` when the assertion of `physical_zone` fails. The
timers and the output to `std::cerr` and `std::cout` are left out. Line 834 is a pasted
function prototype, not a statement; line 835, the update of `phi_vec`, is a comment. -/
def process_volumes_psk_zone (pw : α → α → α) (sq : α → α) (s : VarSatPhysicsImpl α)
    (it : Int × Nat) : Option (VarSatPhysicsImpl α) :=
  let zone := it.2
  let indx := it.1
  -- const PhysicalZone& props = physical_zone(indx);
  match physical_zone s indx with
  | none => none
  | some props =>
    let index := s.index_scv.getD zone []
    let weight := s.weight_scv.getD zone []
    -- head_scv[zone].at(all) = h_vec.at(index_scv[zone]);
    let head := assignAll (s.head_scv.getD zone []) (gather s.h_vec index)
    -- porosity(head_scv[zone], phi_scv[zone], dphi_scv[zone], props, constants());
    let por := porosity head (s.phi_scv.getD zone []) (s.dphi_scv.getD zone []) props
      s.constants_
    -- saturation( head_scv[zone], props, Sw_scv[zone], dSw_scv[zone], krw_scv[zone] );
    let sat := saturation pw sq head props (s.Sw_scv.getD zone []) (s.dSw_scv.getD zone [])
      (s.krw_scv.getD zone [])
    -- theta_scv[zone](all) = mul(Sw_scv[zone], phi_scv[zone]);
    let theta := assignAll (s.theta_scv.getD zone []) (zipAll (fun x y => x * y) sat.Sw por.1)
    -- //phi_vec.at(index_scv[zone]) +=  mul(phi_scv[zone], weight_scv[zone]);
    -- dphi_vec.at(index_scv[zone]) += mul(dphi_scv[zone], weight_scv[zone]);
    let dphi_vec := scatter (fun x y => x + y) s.dphi_vec index
      (zipAll (fun x y => x * y) por.2 weight)
    -- Sw_vec.at(index_scv[zone]) += mul(Sw_scv[zone], weight_scv[zone]);
    let Sw_vec := scatter (fun x y => x + y) s.Sw_vec index
      (zipAll (fun x y => x * y) sat.Sw weight)
    -- dSw_vec.at(index_scv[zone]) += mul(dSw_scv[zone], weight_scv[zone]);
    let dSw_vec := scatter (fun x y => x + y) s.dSw_vec index
      (zipAll (fun x y => x * y) sat.dSw weight)
    -- theta_vec.at(index_scv[zone]) += mul(theta_scv[zone], weight_scv[zone]);
    let theta_vec := scatter (fun x y => x + y) s.theta_vec index
      (zipAll (fun x y => x * y) theta weight)
    -- krw_faces_lim.at(q_front_[zone]) =
    --   mul(krw_scv[zone].at(n_front_[zone]), edge_weight_front_.at(p_front_[zone]));
    let krw_faces_lim := scatter (fun _ y => y) s.krw_faces_lim (s.q_front_.getD zone [])
      (zipAll (fun x y => x * y) (gather sat.krw (s.n_front_.getD zone []))
        (gather s.edge_weight_front_ (s.p_front_.getD zone [])))
    -- krw_faces_lim.at(q_back_[zone]) +=
    --   mul(krw_scv[zone].at(n_back_[zone]), edge_weight_back_.at(p_back_[zone]));
    let krw_faces_lim := scatter (fun x y => x + y) krw_faces_lim (s.q_back_.getD zone [])
      (zipAll (fun x y => x * y) (gather sat.krw (s.n_back_.getD zone []))
        (gather s.edge_weight_back_ (s.p_back_.getD zone [])))
    some
      { s with
        head_scv := s.head_scv.set zone head
        phi_scv := s.phi_scv.set zone por.1
        dphi_scv := s.dphi_scv.set zone por.2
        Sw_scv := s.Sw_scv.set zone sat.Sw
        dSw_scv := s.dSw_scv.set zone sat.dSw
        krw_scv := s.krw_scv.set zone sat.krw
        theta_scv := s.theta_scv.set zone theta
        dphi_vec := dphi_vec
        Sw_vec := Sw_vec
        dSw_vec := dSw_vec
        theta_vec := theta_vec
        krw_faces_lim := krw_faces_lim }

/-- The statements of `process_volumes_psk` before the loop: the vectors of the derived
quantities are set to zero (lines 784 to 789). -/
def process_volumes_psk_zero (s : VarSatPhysicsImpl α) : VarSatPhysicsImpl α :=
  { s with
    phi_vec := fillAll s.phi_vec 0
    dphi_vec := fillAll s.dphi_vec 0
    Sw_vec := fillAll s.Sw_vec 0
    dSw_vec := fillAll s.dSw_vec 0
    theta_vec := fillAll s.theta_vec 0
    krw_faces_lim := fillAll s.krw_faces_lim 0 }

/-- The function `VarSatPhysicsImpl::process_volumes_psk`; the mesh argument is not used
by the body. The result is `none` when the call does not return: the last statement of
the loop body is `exit(0)`, which ends the process, so a pass of the loop never hands a
state to the next pass or to the statements after the loop. -/
def process_volumes_psk (pw : α → α → α) (sq : α → α) (s : VarSatPhysicsImpl α) :
    Option (VarSatPhysicsImpl α) :=
  let s := process_volumes_psk_zero s
  match s.zones_map_.foldlM
      (fun st it =>
        -- ... ; exit(0);
        (process_volumes_psk_zone pw sq st it).bind (fun _ => none))
      s with
  | none => none
  | some s =>
    -- density(h_vec, rho_vec, constants());
    some { s with rho_vec := (density s.h_vec s.rho_vec s.constants_).2 }

end ZoneAggregation

/-! ## Auxiliary definitions used in the statements and proofs -/

section Auxiliary

variable {α : Type} [LinearOrderedField α]

/-- The weight written for the front node in the upwind loop. -/
def upwind_front (flux : α) : α := if flux < 0 then 1 else 0

/-- The weight written for the back node in the upwind loop. -/
def upwind_back (flux : α) : α := if flux < 0 then 0 else 1

/-- The weight written for the back node in the last Van Leer loop. -/
def vanleer_weight_back (flux q2up : α) : α :=
  if flux > 0 then vanleer_sigma |flux| q2up / 2 else 1 - vanleer_sigma |flux| q2up / 2

/-- The weight written for the front node in the last Van Leer loop. -/
def vanleer_weight_front (flux q2up : α) : α :=
  if flux > 0 then 1 - vanleer_sigma |flux| q2up / 2 else vanleer_sigma |flux| q2up / 2

/-- The vectors that only the last Van Leer loop writes or that no loop writes. -/
def weightFrame (s : VarSatPhysicsImpl α) : TVec α × TVec α × TIndexVec × TIndexVec :=
  (s.edge_weight_front_, s.edge_weight_back_, s.edge_node_front_, s.edge_node_back_)

/-- The state on which the last Van Leer loop runs: after the first five loops and the
halo exchange. -/
def vanleer_before_sigma (exchange : TVec α → TVec α) (m : Mesh α)
    (s : VarSatPhysicsImpl α) : VarSatPhysicsImpl α :=
  let s := { s with edge_flux := s.flux_lim_matrix.matvec s.qdotn_faces }
  let s := vanleer_default_loop m (vanleer_max_loop m (vanleer_boundary_loop m
    (vanleer_reset_loop m (vanleer_updown_loop m s))))
  { s with CV_flux := exchange s.CV_flux }

/-- The sum over the zones `z < num_zones` of the weight stored for node `i`. -/
def tableSum (num_zones : Nat) (index_scv : List TIndexVec) (weight_scv : List (TVec α))
    (i : Nat) : α :=
  ((List.range num_zones).map
    (fun z => zoneWeightOf (index_scv.getD z []) (weight_scv.getD z []) i)).sum

/-- Shape of the temporaries: one table per zone, index and weight tables of equal
length. -/
def TablesOk (num_zones : Nat) (t : ZoneTables α) : Prop :=
  t.index_scv_tmp.length = num_zones ∧ t.weight_scv_tmp.length = num_zones ∧
    ∀ z, (t.index_scv_tmp.getD z []).length = (t.weight_scv_tmp.getD z []).length

/-- The vectors `edge_up` and `edge_down`, written by the first Van Leer loop only. -/
def updownFrame (s : VarSatPhysicsImpl α) : TIndexVec × TIndexVec :=
  (s.edge_up, s.edge_down)

/-- The vectors read and written by `process_fluxes` have the dimensions that
`initialise_vectors` gives them: `m.interior_cvfaces()` entries for the vectors over the
interior faces, `m.cvfaces()` entries for `qdotn_faces` and `M_flux_faces`. -/
def FluxSized (m : Mesh α) (s : VarSatPhysicsImpl α) : Prop :=
  s.grad_h_faces_.x.length = m.interior_cvfaces ∧
  s.grad_h_faces_.y.length = m.interior_cvfaces ∧
  s.grad_h_faces_.z.length = m.interior_cvfaces ∧
  s.qsat_faces_.x.length = m.interior_cvfaces ∧
  s.qsat_faces_.y.length = m.interior_cvfaces ∧
  s.qsat_faces_.z.length = m.interior_cvfaces ∧
  s.K_faces_.x.length = m.interior_cvfaces ∧
  s.K_faces_.y.length = m.interior_cvfaces ∧
  s.K_faces_.z.length = m.interior_cvfaces ∧
  s.norm_faces_.x.length = m.interior_cvfaces ∧
  s.norm_faces_.y.length = m.interior_cvfaces ∧
  s.norm_faces_.z.length = m.interior_cvfaces ∧
  s.krw_faces_lim.length = m.interior_cvfaces ∧
  s.rho_faces_lim.length = m.interior_cvfaces ∧
  s.qdotn_faces.length = m.cvfaces ∧
  s.M_flux_faces.length = m.cvfaces ∧
  m.interior_cvfaces ≤ m.cvfaces

/-- The product `q · normal` that the first part of `process_fluxes` stores for the
interior face `i`, read off the code. -/
def faceQdotn (m : Mesh α) (s : VarSatPhysicsImpl α) (i : Nat) : α :=
  if m.dim = 2 then
    s.norm_faces_.x.getD i 0 * (s.grad_h_faces_.x.getD i 0 * s.K_faces_.x.getD i 0) +
      s.norm_faces_.y.getD i 0 * ((s.grad_h_faces_.y.getD i 0 + 1) * s.K_faces_.y.getD i 0)
  else if m.dim = 3 then
    s.norm_faces_.x.getD i 0 * (s.grad_h_faces_.x.getD i 0 * s.K_faces_.x.getD i 0) +
      s.norm_faces_.y.getD i 0 * (s.grad_h_faces_.y.getD i 0 * s.K_faces_.y.getD i 0) +
      s.norm_faces_.z.getD i 0 * ((s.grad_h_faces_.z.getD i 0 + 1) * s.K_faces_.z.getD i 0)
  else
    s.norm_faces_.x.getD i 0 * (s.grad_h_faces_.x.getD i 0 * s.K_faces_.x.getD i 0) +
      s.norm_faces_.y.getD i 0 * (s.grad_h_faces_.y.getD i 0 * s.K_faces_.y.getD i 0)

/-- The members that `process_fluxes` reads and never writes. -/
def fluxInputs (s : VarSatPhysicsImpl α) :
    TVec α × TVec α × TVec α × Constants α × List (Int × BoundaryCondition α) :=
  (s.krw_faces_lim, s.rho_faces_lim, s.rho_vec, s.constants_, s.boundary_conditions_h_)

/-- The value that the `switch` of the boundary loop stores for a face of area `area` and
normal `normal` with boundary condition `BC`, when the entry held `q`. -/
def bcFlux (t : α) (area : α) (normal : Point α) (BC : BoundaryCondition α) (q : α) : α :=
  if BC.type = 3 then BC.value t * area
  else if BC.type = 6 then BC.flux t normal * area
  else if BC.type = 7 then BC.value t * area
  else if BC.type = 8 then 0 * area
  else q

/-- The value of `qdotn_faces` at the boundary face `i` after the boundary loop, when the
entry held `q` before. -/
def bcValue (t : α) (m : Mesh α) (s : VarSatPhysicsImpl α) (i : Nat) (q : α) : α :=
  match boundary_condition_h s (m.cvface_boundary i) with
  | some BC => bcFlux t (m.cvface_area i) (m.cvface_normal i) BC q
  | none => q

/-- The density that the last loop of `process_fluxes` uses at the boundary face `i`. -/
def boundaryRho (m : Mesh α) (s : VarSatPhysicsImpl α) (i : Nat) : α :=
  if s.qdotn_faces.getD i 0 ≥ 0 then s.constants_.rho_0
  else s.rho_vec.getD (m.cvface_back_id i) 0

/-- The sum of the first `i` degrees: the value of a row begin array at `i`. -/
def degreeSum (deg : Nat → Nat) (i : Nat) : Nat := ((List.range i).map deg).sum

/-- One vector of `initialise_shape_functions` after the loops over the elements and their
edges, when the entry written at local position `k` for edge `j` of element `i` is
`g i j k`. -/
def shapeFill {β : Type} (m : Mesh α) (ia : TIndexVec) (g : Nat → Nat → Nat → β)
    (v : List β) : List β :=
  forLoop 0 m.elements
    (fun i v => forLoop 0 (m.element_edges i)
      (fun j v => rowSet ia (m.element_cvface i j) (g i j) v) v) v

/-- The entries of a vector on the row `lo ≤ p < hi`, in the order of the positions. -/
def rowOf {β : Type} (v : List β) (d : β) (lo hi : Nat) : List β :=
  (List.range (hi - lo)).map (fun k => v.getD (lo + k) d)

/-- The pairs `(e.node(k).id(), k)` of element `i` before sorting. -/
def nodePairs (m : Mesh α) (i : Nat) : List (Nat × Nat) :=
  (List.range (m.element_nodes i).length).map (fun k => ((m.element_nodes i).getD k 0, k))

/-- The operator that holds the row begin array and the column indices built by
`initialise_shape_functions` for the shape operators, with the weights `w`. -/
def shapeOperator (m : Mesh α) (w : TVec α) : InterpolationMatrix α :=
  { ia := initialise_shape_functions_ia m
    ja := (initialise_shape_functions_arrays m).ja
    weights := w }

/-- The operator that holds the arrays built by `initialise_shape_functions` for flux
limiting. -/
def fluxLimOperator (m : Mesh α) : InterpolationMatrix α :=
  { ia := initialise_shape_functions_ia_fl m
    ja := (initialise_shape_functions_arrays_fl m).ja_fl
    weights := (initialise_shape_functions_arrays_fl m).weights_fl }

/-- The members read by `process_faces_lim`. -/
def faceLimInputs (s : VarSatPhysicsImpl α) : TVec α × TVec α × TVec α × TIndexVec × TIndexVec :=
  (s.rho_vec, s.edge_weight_back_, s.edge_weight_front_, s.edge_node_back_, s.edge_node_front_)

/-- The density that `process_faces_lim` computes for edge `e`. -/
def rhoEdge (s : VarSatPhysicsImpl α) (e : Nat) : α :=
  s.rho_vec.getD (s.edge_node_back_.getD e 0) 0 * s.edge_weight_back_.getD e 0 +
    s.rho_vec.getD (s.edge_node_front_.getD e 0) 0 * s.edge_weight_front_.getD e 0

/-- The members read by `process_derivative_coefficients`. -/
def derivativeInputs (s : VarSatPhysicsImpl α) :
    TVec α × TVec α × TVec α × TVec α × TVec α × Constants α :=
  (s.rho_vec, s.phi_vec, s.dphi_vec, s.Sw_vec, s.dSw_vec, s.constants_)

/-- The coefficient that `process_derivative_coefficients` stores for node `i`. -/
def ahhValue (s : VarSatPhysicsImpl α) (i : Nat) : α :=
  s.rho_vec.getD i 0 * s.phi_vec.getD i 0 * s.dSw_vec.getD i 0 +
    s.rho_vec.getD i 0 * s.Sw_vec.getD i 0 * s.dphi_vec.getD i 0 +
    s.constants_.rho_0 * s.constants_.rho_0 * s.constants_.g * s.constants_.beta *
      s.phi_vec.getD i 0 * s.Sw_vec.getD i 0

/-- The members read and not written by the loops that find the largest flux into each
control volume. -/
def maxInputs (s : VarSatPhysicsImpl α) :
    TVec α × TIndexVec × TIndexVec × TIndexVec × TIndexVec × TVec α :=
  (s.edge_flux, s.edge_up, s.edge_down, s.edge_node_front_, s.edge_node_back_, s.qdotn_faces)

/-- The boundary term of the control volume `c`: minus the sum of the fluxes `q` over the
boundary faces whose back node is `c`. -/
def boundaryTerm (m : Mesh α) (q : TVec α) (c : Nat) : α :=
  -(((List.range' m.interior_cvfaces (m.cvfaces - m.interior_cvfaces)).filter
    (fun i => m.cvface_back_id i = c)).map (fun i => q.getD i 0)).sum

/-- Edge `e` touches a locally-owned node and its downstream node is `c`. -/
def incoming (m : Mesh α) (s : VarSatPhysicsImpl α) (c e : Nat) : Prop :=
  (s.edge_node_front_.getD e 0 < m.local_nodes ∨ s.edge_node_back_.getD e 0 < m.local_nodes) ∧
    s.edge_down.getD e 0 = c

/-- The state of the `weightVanLeer` case just before the halo exchange: after the first
five loops. -/
def vanleer_before_exchange (m : Mesh α) (s : VarSatPhysicsImpl α) : VarSatPhysicsImpl α :=
  vanleer_default_loop m (vanleer_max_loop m (vanleer_boundary_loop m
    (vanleer_reset_loop m (vanleer_updown_loop m
      { s with edge_flux := s.flux_lim_matrix.matvec s.qdotn_faces }))))

end Auxiliary

/-! ## Concrete data for the evaluations -/

section SampleData

/-- A zone with Van Genuchten parameters and a non-zero matrix compressibility. -/
def sampleZone : PhysicalZone ℚ :=
  { K_xx := 1, K_yy := 1, K_zz := 1, phi := 1 / 2, alpha := 1, alphaVG := 2, nVG := 2,
    mVG := 1 / 2, S_r := 1 / 10, Dm := 0 }

/-- The zone `sampleZone` with an incompressible matrix (`alpha = 0`). -/
def rigidZone : PhysicalZone ℚ := { sampleZone with alpha := 0 }

/-- Constants with `beta = 1`. -/
def sampleConstants : Constants ℚ := { beta := 1, rho_0 := 2, g := 3, mu := 1 }

/-- Constants with `beta = 0`. -/
def constantsBetaZero : Constants ℚ := { beta := 0, rho_0 := 2, g := 3, mu := 1 }

/-- Constants with a negative `beta`. -/
def constantsBetaNeg : Constants ℚ := { beta := -1, rho_0 := 1, g := 1, mu := 1 }

/-- A rational stand-in for the library power, used only to evaluate the code. -/
def samplePow (x y : ℚ) : ℚ := x * y + y

/-- A rational stand-in for the library square root, used only to evaluate the code. -/
def sampleSqrt (x : ℚ) : ℚ := x / 2

/-- A mesh with three nodes (two of them local), two edges `0 — 1` and `1 — 2`, two
interior faces and one boundary face at node 0; node 1 lies in two zones. -/
def sampleMesh : Mesh ℚ :=
  { nodes := 3
    local_nodes := 2
    edges := 2
    elements := 2
    interior_cvfaces := 2
    cvfaces := 3
    edge_front_id := fun i => i
    edge_back_id := fun i => i + 1
    cvface_back_id := fun _ => 0
    element_physical_tag := fun i => if i = 0 then 20 else 10
    volume := fun i =>
      if i = 0 then { vol := 2, scv := [{ vol := 2, element_physical_tag := 20 }] }
      else if i = 1 then
        { vol := 4, scv := [{ vol := 1, element_physical_tag := 20 },
                            { vol := 3, element_physical_tag := 10 }] }
      else { vol := 5, scv := [{ vol := 5, element_physical_tag := 10 }] }
    dim := 2
    cvface_area := fun i => if i = 0 then 2 else if i = 1 then 3 else 1
    cvface_normal := fun i =>
      if i = 0 then { x := 1, y := 0, z := 0 } else { x := 0, y := 1, z := 0 }
    cvface_boundary := fun _ => 1
    cvface_element := fun i => if i = 0 then 0 else 1
    edge_cvface := fun i => [i]
    element_nodes := fun i => if i = 0 then [1, 0] else [2, 1]
    element_edges := fun _ => 1
    element_cvface := fun i _ => i
    shape_functions := fun i _ => if i = 0 then [1 / 4, 3 / 4] else [1 / 3, 2 / 3]
    shape_gradients := fun _ _ => [{ x := 1, y := 2, z := 0 }, { x := -1, y := -2, z := 0 }] }

/-- A state with the vectors sized for `sampleMesh`, in Upwind mode. -/
def sampleUpwind : VarSatPhysicsImpl ℚ :=
  { spatial_weighting := SpatialWeightType.weightUpwind
    CV_up := [0, 0]
    CV_flux := [0, 0, 0]
    edge_up := [0, 0]
    edge_down := [0, 0]
    edge_flux := [0, 0]
    edge_weight_front_ := [1 / 2, 1 / 2]
    edge_weight_back_ := [1 / 2, 1 / 2]
    edge_node_front_ := [0, 1]
    edge_node_back_ := [1, 2]
    flux_lim_matrix := { ia := [0, 1, 2], ja := [0, 1], weights := [1 / 2, 1 / 3] }
    qdotn_faces := [4, -6, 1]
    constants_ := sampleConstants }

/-- The state `sampleUpwind` in Van Leer mode. -/
def sampleVanLeer : VarSatPhysicsImpl ℚ :=
  { sampleUpwind with spatial_weighting := SpatialWeightType.weightVanLeer }

/-- The zone tables that `initialise_vectors` builds for `sampleMesh`, with the local table
`nodes_idx`. -/
def sampleTables : VarSatPhysicsImpl ℚ × List (List (Int × Nat)) :=
  ({ sampleUpwind with
      zones_map_ := [(10, 0), (20, 1)]
      weight_scv := [[3 / 4, 1], [1, 1 / 4]]
      index_scv := [[1, 2], [0, 1]] },
    [[(1, 0), (2, 1)], [(0, 0), (1, 1)]])

/-- The state `sampleVanLeer` with a large flux on edge 1, upstream of edge 0: the flux
ratio of edge 0 is `10^11`. -/
def sampleSteep : VarSatPhysicsImpl ℚ :=
  { sampleVanLeer with qdotn_faces := [2, 300000000000, 1] }

/-- The mesh `sampleMesh` with a single zone: every element has the physical tag 0. -/
def flatMesh : Mesh ℚ :=
  { sampleMesh with element_physical_tag := fun _ => 0 }

/-- A boundary condition of type 3 (prescribed flux) with the value 5 at every time. -/
def sampleBC : BoundaryCondition ℚ :=
  { type := 3, value := fun _ => 5, flux := fun _ _ => 0 }

/-- A state for `flatMesh` with a uniform head `-1`: the head gradient is zero at the two
interior faces; the conductivities are 1 and the face normals are `(1,0)` and `(0,1)`. -/
def sampleFlux : VarSatPhysicsImpl ℚ :=
  { sampleUpwind with
    physical_zones_ := [sampleZone]
    h_vec := [-1, -1, -1]
    boundary_conditions_h_ := [(1, sampleBC)]
    grad_h_faces_ := { x := [0, 0], y := [0, 0], z := [0, 0] }
    qsat_faces_ := { x := [0, 0], y := [0, 0], z := [0, 0] }
    K_faces_ := { x := [-1, -1], y := [-1, -1], z := [0, 0] }
    norm_faces_ := { x := [1, 0], y := [0, 1], z := [0, 0] }
    krw_faces_lim := [1, 1 / 2]
    rho_faces_lim := [2, 3]
    rho_vec := [2, 2, 2]
    qdotn_faces := [0, 0, 0]
    M_flux_faces := [0, 0, 0] }

/-- The state `sampleFlux` with a non-zero head gradient at the interior faces. -/
def sampleFluxGrad : VarSatPhysicsImpl ℚ :=
  { sampleFlux with grad_h_faces_ := { x := [3, 4], y := [5, 6], z := [0, 0] } }

/-- The mesh `sampleMesh` with an element that reports no nodes: the interior face 0 has
no attached node. -/
def emptyFaceMesh : Mesh ℚ :=
  { sampleMesh with element_nodes := fun i => if i = 0 then [] else [2, 1] }

/-- The state `sampleUpwind` with no flux over the interior face 0: the flux over edge 0
is zero. -/
def sampleStill : VarSatPhysicsImpl ℚ :=
  { sampleUpwind with qdotn_faces := [0, -6, 1] }

/-- The state `sampleStill` in Van Leer mode. -/
def sampleStillVanLeer : VarSatPhysicsImpl ℚ :=
  { sampleStill with spatial_weighting := SpatialWeightType.weightVanLeer }

/-- A state for `sampleMesh` with nodal densities and the vectors read by
`process_derivative_coefficients`; the edge weights are those of an Upwind update. -/
def sampleNodal : VarSatPhysicsImpl ℚ :=
  { sampleUpwind with
    rho_vec := [2, 3, 5]
    rho_faces_lim := [0, 0]
    edge_weight_front_ := [1, 0]
    edge_weight_back_ := [0, 1]
    phi_vec := [1 / 2, 1 / 2]
    dphi_vec := [1, 1]
    Sw_vec := [1 / 4, 1]
    dSw_vec := [3, 0]
    ahh_vec := [0, 0] }

/-- The state `sampleVanLeer` with `CV_up` sized by the local nodes and the flux `-3` over
the boundary face. -/
def sampleInflow : VarSatPhysicsImpl ℚ :=
  { sampleVanLeer with qdotn_faces := [4, -6, -3] }

/-- The state that `initialise_vectors` leaves for `sampleMesh`: the zone tables of
`sampleTables`, the face tables built from them (with an allocation that gives zeros), the
parameters of `rigidZone` for every physical tag up to 20, the head 1 at every node, and
the value 9 in every vector of derived quantities. -/
def sampleZoned : VarSatPhysicsImpl ℚ :=
  initialise_vectors_tables (fun n => List.replicate n 0) sampleMesh
    { sampleTables.1 with
      physical_zones_ := List.replicate 21 rigidZone
      h_vec := [1, 1, 1]
      phi_vec := [9, 9, 9]
      dphi_vec := [9, 9, 9]
      Sw_vec := [9, 9, 9]
      dSw_vec := [9, 9, 9]
      theta_vec := [9, 9, 9]
      krw_faces_lim := [9, 9, 9] }
    sampleTables.2

end SampleData

/-! ## Loop rules -/

section Loops

theorem forLoop_empty {σ : Type} (lo hi : Nat) (body : Nat → σ → σ) (s : σ) (h : hi ≤ lo) :
    forLoop lo hi body s = s := by
  unfold forLoop
  have : hi - lo = 0 := by omega
  rw [this]
  rfl

theorem forLoop_succ {σ : Type} (lo hi : Nat) (body : Nat → σ → σ) (s : σ) (h : lo ≤ hi) :
    forLoop lo (hi + 1) body s = body hi (forLoop lo hi body s) := by
  unfold forLoop
  have e : hi + 1 - lo = (hi - lo) + 1 := by omega
  rw [e, List.range'_concat, List.foldl_append]
  have e2 : lo + (hi - lo) = hi := by omega
  simp [e2]

/-- Invariant rule for counted loops. -/
theorem forLoop_inv {σ : Type} (P : Nat → σ → Prop) (lo hi : Nat) (body : Nat → σ → σ)
    (s : σ) (hle : lo ≤ hi) (h0 : P lo s)
    (hstep : ∀ i st, lo ≤ i → i < hi → P i st → P (i + 1) (body i st)) :
    P hi (forLoop lo hi body s) := by
  induction hi, hle using Nat.le_induction with
  | base => rw [forLoop_empty lo lo body s (Nat.le_refl lo)]; exact h0
  | succ k hk ih =>
    rw [forLoop_succ lo k body s hk]
    exact hstep k _ hk (Nat.lt_succ_self k)
      (ih (fun i st h1 h2 hp => hstep i st h1 (Nat.lt_succ_of_lt h2) hp))

/-- A loop whose body never changes a component leaves that component as it was. -/
theorem forLoop_preserves {σ β : Type} (π : σ → β) (lo hi : Nat) (body : Nat → σ → σ)
    (s : σ) (hbody : ∀ i st, π (body i st) = π st) : π (forLoop lo hi body s) = π s := by
  rcases Nat.le_total lo hi with hle | hle
  · exact forLoop_inv (fun _ st => π st = π s) lo hi body s hle rfl
      (fun i st _ _ hp => (hbody i st).trans hp)
  · rw [forLoop_empty lo hi body s hle]

end Loops

/-! ## Entries of the vector primitives -/

section Primitives

variable {α : Type}

theorem assignAll_getElem? (x e : TVec α) (i : Nat) (a b : α)
    (hx : x[i]? = some a) (he : e[i]? = some b) : (assignAll x e)[i]? = some b := by
  simp [assignAll, List.getElem?_zipWith', hx, he]

theorem fillAll_getElem? (x : TVec α) (c : α) (i : Nat) (a : α)
    (hx : x[i]? = some a) : (fillAll x c)[i]? = some c := by
  unfold fillAll
  rw [List.getElem?_map, hx]
  rfl

theorem mapAll_getElem? (f : α → α) (x : TVec α) (i : Nat) (a : α)
    (hx : x[i]? = some a) : (mapAll f x)[i]? = some (f a) := by
  unfold mapAll
  rw [List.getElem?_map, hx]
  rfl

theorem zipAll_getElem? (f : α → α → α) (x y : TVec α) (i : Nat) (a b : α)
    (hx : x[i]? = some a) (hy : y[i]? = some b) : (zipAll f x y)[i]? = some (f a b) := by
  simp [zipAll, List.getElem?_zipWith', hx, hy]

theorem fillAll_length (x : TVec α) (c : α) : (fillAll x c).length = x.length := by
  simp [fillAll]

theorem mapAll_length (f : α → α) (x : TVec α) : (mapAll f x).length = x.length := by
  simp [mapAll]

end Primitives

/-! ## Saturation -/

section SaturationLemmas

variable {α : Type} [LinearOrderedField α]

/-- Effect of the override loop on every entry of the three vectors. -/
theorem saturation_override_getElem? (h : TVec α) (s : SatOut α) (i : Nat) :
    (saturation_override h s).Sw[i]? =
        (if i < h.length ∧ 0 ≤ h.getD i 0 then (s.Sw[i]?).map (fun _ => 1) else s.Sw[i]?) ∧
    (saturation_override h s).dSw[i]? =
        (if i < h.length ∧ 0 ≤ h.getD i 0 then (s.dSw[i]?).map (fun _ => 0) else s.dSw[i]?) ∧
    (saturation_override h s).krw[i]? =
        (if i < h.length ∧ 0 ≤ h.getD i 0 then (s.krw[i]?).map (fun _ => 1) else s.krw[i]?) := by
  unfold saturation_override
  refine forLoop_inv
    (fun k st =>
      st.Sw[i]? =
        (if i < k ∧ 0 ≤ h.getD i 0 then (s.Sw[i]?).map (fun _ => 1) else s.Sw[i]?) ∧
      st.dSw[i]? =
        (if i < k ∧ 0 ≤ h.getD i 0 then (s.dSw[i]?).map (fun _ => 0) else s.dSw[i]?) ∧
      st.krw[i]? =
        (if i < k ∧ 0 ≤ h.getD i 0 then (s.krw[i]?).map (fun _ => 1) else s.krw[i]?))
    0 h.length _ s (Nat.zero_le _) (by simp) ?_
  intro k st _ _ ih
  obtain ⟨ih1, ih2, ih3⟩ := ih
  by_cases hk : k = i
  · subst hk
    by_cases hh : 0 ≤ h.getD k 0
    · have hh' : 0 ≤ h[k]?.getD 0 := by simpa using hh
      simp only [ge_iff_le, hh, if_true, List.getElem?_set']
      simp at ih1 ih2 ih3
      simp [hh', ih1, ih2, ih3]
      exact ⟨rfl, rfl, rfl⟩
    · have hh' : ¬ 0 ≤ h[k]?.getD 0 := by simpa using hh
      simp only [ge_iff_le, hh, if_false]
      simp at ih1 ih2 ih3
      simp [hh', ih1, ih2, ih3]
  · have hki : (i < k + 1) = (i < k) := by
      apply propext; constructor <;> intro hlt <;> omega
    by_cases hh : 0 ≤ h.getD k 0
    · simp only [ge_iff_le, hh, if_true, List.getElem?_set_ne hk, hki]
      exact ⟨ih1, ih2, ih3⟩
    · simp only [ge_iff_le, hh, if_false, hki]
      exact ⟨ih1, ih2, ih3⟩

/-- Every entry of the three vectors returned by the host path of `saturation`, in terms of
the head `x` at that entry. -/
theorem saturation_getElem? (pw : α → α → α) (sq : α → α) (h : TVec α)
    (props : PhysicalZone α) (Sw dSw krw : TVec α) (i : Nat) (x a b c : α)
    (hx : h[i]? = some x) (ha : Sw[i]? = some a) (hb : dSw[i]? = some b)
    (hc : krw[i]? = some c) :
    (saturation pw sq h props Sw dSw krw).Sw[i]? =
        some (if 0 ≤ x then 1
          else pw (pw (-props.alphaVG * x) props.nVG + 1) (-props.mVG) * (1 - props.S_r)
            + props.S_r) ∧
    (saturation pw sq h props Sw dSw krw).dSw[i]? =
        some (if 0 ≤ x then 0
          else pw (-props.alphaVG * x) props.nVG / (pw (-props.alphaVG * x) props.nVG + 1)
            * pw (pw (-props.alphaVG * x) props.nVG + 1) (-props.mVG) / x
            * (-(1 - props.S_r) * (props.nVG - 1))) ∧
    (saturation pw sq h props Sw dSw krw).krw[i]? =
        some (if 0 ≤ x then 1
          else pw (pw (-1 / (pw (-props.alphaVG * x) props.nVG + 1) + 1) props.mVG - 1) 2
            * sq (pw (pw (-props.alphaVG * x) props.nVG + 1) (-props.mVG))) := by
  have hi : i < h.length := by
    rcases List.getElem?_eq_some_iff.1 hx with ⟨hlt, _⟩
    exact hlt
  have hg : h.getD i 0 = x := by simp [hx]
  have e1 := mapAll_getElem? (fun y => -props.alphaVG * y) h i x hx
  have e2 := assignAll_getElem? dSw _ i b _ hb e1
  have e3 := mapAll_getElem? (fun y => pw y props.nVG) _ i _ e2
  have e4 := mapAll_getElem? (fun y => y + 1) _ i _ e3
  have e5 := assignAll_getElem? Sw _ i a _ ha e4
  have e6 := fillAll_getElem? krw (-1) i c hc
  have e7 := zipAll_getElem? (fun y z => y / z) _ _ i _ _ e6 e5
  have e8 := zipAll_getElem? (fun y z => y / z) _ _ i _ _ e3 e5
  have e9 := mapAll_getElem? (fun y => pw y (-props.mVG)) _ i _ e5
  have e10 := zipAll_getElem? (fun y z => y * z) _ _ i _ _ e8 e9
  have e11 := zipAll_getElem? (fun y z => y / z) _ _ i _ _ e10 hx
  have e12 := mapAll_getElem? (fun y => y * (-(1 - props.S_r) * (props.nVG - 1))) _ i _ e11
  have e13 := mapAll_getElem? (fun y => y + 1) _ i _ e7
  have e14 := mapAll_getElem? (fun y => pw y props.mVG) _ i _ e13
  have e15 := mapAll_getElem? (fun y => y - 1) _ i _ e14
  have e16 := mapAll_getElem? (fun y => pw y 2) _ i _ e15
  have e17 := mapAll_getElem? sq _ i _ e9
  have e18 := zipAll_getElem? (fun y z => y * z) _ _ i _ _ e16 e17
  have e19 := mapAll_getElem? (fun y => y * (1 - props.S_r)) _ i _ e9
  have e20 := mapAll_getElem? (fun y => y + props.S_r) _ i _ e19
  simp only [saturation]
  refine ⟨?_, ?_, ?_⟩
  · rw [(saturation_override_getElem? _ _ _).1, e20]
    simp only [hi, hg, true_and]
    split <;> rfl
  · rw [(saturation_override_getElem? _ _ _).2.1, e12]
    simp only [hi, hg, true_and]
    split <;> rfl
  · rw [(saturation_override_getElem? _ _ _).2.2, e18]
    simp only [hi, hg, true_and]
    split <;> rfl

/-- An entry below the common dimension exists in each of the four vectors. -/
theorem saturation_entries_exist (h Sw dSw krw : TVec α) (i : Nat)
    (hSw : Sw.length = h.length) (hdSw : dSw.length = h.length)
    (hkrw : krw.length = h.length) (hi : i < h.length) :
    h[i]? = some (h.getD i 0) ∧ (∃ a, Sw[i]? = some a) ∧ (∃ b, dSw[i]? = some b) ∧
      (∃ c, krw[i]? = some c) := by
  have h1 : i < Sw.length := by omega
  have h2 : i < dSw.length := by omega
  have h3 : i < krw.length := by omega
  refine ⟨?_, ⟨_, List.getElem?_eq_getElem h1⟩, ⟨_, List.getElem?_eq_getElem h2⟩,
    ⟨_, List.getElem?_eq_getElem h3⟩⟩
  simp [List.getElem?_eq_getElem hi]

end SaturationLemmas

/-! ## Claims on the constitutive models -/

section ConstitutiveClaims

variable {α : Type} [LinearOrderedField α]

/-- C1: for every head vector, every zone parameter set and every index `i` with
`h[i] ≥ 0`, the host path of `saturation` leaves `Sw[i] = 1`, `dSw[i] = 0` and
`krw[i] = 1`, whatever the formula produced before the override (also at `h[i] = 0`). -/
theorem saturation_saturated_entries (pw : α → α → α) (sq : α → α) (h : TVec α)
    (props : PhysicalZone α) (Sw dSw krw : TVec α) (i : Nat)
    (hSw : Sw.length = h.length) (hdSw : dSw.length = h.length)
    (hkrw : krw.length = h.length) (hi : i < h.length) (hpos : h.getD i 0 ≥ 0) :
    (saturation pw sq h props Sw dSw krw).Sw[i]? = some 1 ∧
    (saturation pw sq h props Sw dSw krw).dSw[i]? = some 0 ∧
    (saturation pw sq h props Sw dSw krw).krw[i]? = some 1 := by
  obtain ⟨hx, ⟨a, ha⟩, ⟨b, hb⟩, ⟨c, hc⟩⟩ :=
    saturation_entries_exist h Sw dSw krw i hSw hdSw hkrw hi
  have key := saturation_getElem? pw sq h props Sw dSw krw i _ a b c hx ha hb hc
  have hpos' : 0 ≤ h.getD i 0 := hpos
  simp only [hpos', if_true] at key
  exact key

/-- C9: for every index `i` with `h[i] < 0`, the host path of `saturation` returns
`Sw[i] = S_r + (1 - S_r) * b^(-mVG)` with `a = (-alphaVG * h[i])^nVG` and `b = 1 + a`
(the sign of `alphaVG` plays no role in the equation). -/
theorem saturation_unsaturated_Sw (pw : α → α → α) (sq : α → α) (h : TVec α)
    (props : PhysicalZone α) (Sw dSw krw : TVec α) (i : Nat)
    (hSw : Sw.length = h.length) (hdSw : dSw.length = h.length)
    (hkrw : krw.length = h.length) (hi : i < h.length) (hneg : h.getD i 0 < 0) :
    (saturation pw sq h props Sw dSw krw).Sw[i]? =
      some (props.S_r + (1 - props.S_r) *
        pw (1 + pw (-props.alphaVG * h.getD i 0) props.nVG) (-props.mVG)) := by
  obtain ⟨hx, ⟨a, ha⟩, ⟨b, hb⟩, ⟨c, hc⟩⟩ :=
    saturation_entries_exist h Sw dSw krw i hSw hdSw hkrw hi
  have key := (saturation_getElem? pw sq h props Sw dSw krw i _ a b c hx ha hb hc).1
  have hneg' : ¬ 0 ≤ h.getD i 0 := not_le.2 hneg
  simp only [hneg', if_false] at key
  rw [key, add_comm (pw (-props.alphaVG * h.getD i 0) props.nVG) 1]
  congr 1
  ring

/-- C10: for every index `i` with `h[i] < 0`, the host path of `saturation` returns
`dSw[i] = -(1 - S_r) * (nVG - 1) * a * Sw_eff / (b * h[i])` with
`a = (-alphaVG * h[i])^nVG`, `b = 1 + a` and `Sw_eff = b^(-mVG)`. -/
theorem saturation_unsaturated_dSw (pw : α → α → α) (sq : α → α) (h : TVec α)
    (props : PhysicalZone α) (Sw dSw krw : TVec α) (i : Nat)
    (hSw : Sw.length = h.length) (hdSw : dSw.length = h.length)
    (hkrw : krw.length = h.length) (hi : i < h.length) (hneg : h.getD i 0 < 0) :
    (saturation pw sq h props Sw dSw krw).dSw[i]? =
      some (-(1 - props.S_r) * (props.nVG - 1) *
        pw (-props.alphaVG * h.getD i 0) props.nVG *
        pw (1 + pw (-props.alphaVG * h.getD i 0) props.nVG) (-props.mVG) /
        ((1 + pw (-props.alphaVG * h.getD i 0) props.nVG) * h.getD i 0)) := by
  obtain ⟨hx, ⟨a, ha⟩, ⟨b, hb⟩, ⟨c, hc⟩⟩ :=
    saturation_entries_exist h Sw dSw krw i hSw hdSw hkrw hi
  have key := (saturation_getElem? pw sq h props Sw dSw krw i _ a b c hx ha hb hc).2.1
  have hneg' : ¬ 0 ≤ h.getD i 0 := not_le.2 hneg
  simp only [hneg', if_false] at key
  rw [key, add_comm (pw (-props.alphaVG * h.getD i 0) props.nVG) 1]
  congr 1
  generalize pw (-props.alphaVG * h.getD i 0) props.nVG = A
  generalize 1 + A = B
  generalize pw B (-props.mVG) = S
  generalize h.getD i 0 = X
  ring

/-- C6: for every `beta > 0` and every head vector, `density` sets
`rho[i] = rho_0 + rho_0^2 * g * beta * h[i]` for every index `i`, and leaves `h` unchanged. -/
theorem density_compressible (h rho : TVec α) (constants : Constants α) (i : Nat)
    (hbeta : constants.beta > 0) (hi : i < h.length) :
    (density h rho constants).2[i]? =
      some (constants.rho_0 + constants.rho_0 ^ 2 * constants.g * constants.beta * h.getD i 0) ∧
    (density h rho constants).1 = h := by
  have hb : constants.beta ≠ 0 := ne_of_gt hbeta
  have hx : h[i]? = some (h.getD i 0) := by simp [List.getElem?_eq_getElem hi]
  have e1 := mapAll_getElem?
    (fun x => x * (constants.rho_0 * constants.rho_0 * constants.g * constants.beta)) h i _ hx
  have e2 := mapAll_getElem? (fun x => x + constants.rho_0) _ i _ e1
  simp only [density, hb, ne_eq, not_false_eq_true, if_true, and_true]
  rw [e2]
  congr 1
  ring

/-- C7, amended: for `beta = 0` and every head vector, `density` sets `rho[i] = rho_0` for
every index `i` of `rho`; every non-zero `beta`, a negative one included, takes the linear
branch of a positive `beta`: `rho[i] = rho_0 + rho_0^2 * g * beta * h[i]` for every index
`i` of `h`. -/
theorem density_incompressible (h rho : TVec α) (constants : Constants α) (i : Nat) :
    (constants.beta = 0 → i < rho.length →
      (density h rho constants).2[i]? = some constants.rho_0) ∧
    (constants.beta ≠ 0 → i < h.length →
      (density h rho constants).2[i]? =
        some (constants.rho_0 +
          constants.rho_0 ^ 2 * constants.g * constants.beta * h.getD i 0)) ∧
    (constants.beta < 0 → i < h.length →
      (density h rho constants).2[i]? =
        some (constants.rho_0 +
          constants.rho_0 ^ 2 * constants.g * constants.beta * h.getD i 0)) := by
  have hlin : constants.beta ≠ 0 → i < h.length →
      (density h rho constants).2[i]? =
        some (constants.rho_0 +
          constants.rho_0 ^ 2 * constants.g * constants.beta * h.getD i 0) := by
    intro hb hi
    have hx : h[i]? = some (h.getD i 0) := by simp [List.getElem?_eq_getElem hi]
    have e1 := mapAll_getElem?
      (fun x => x * (constants.rho_0 * constants.rho_0 * constants.g * constants.beta)) h i _ hx
    have e2 := mapAll_getElem? (fun x => x + constants.rho_0) _ i _ e1
    simp only [density, hb, ne_eq, not_false_eq_true, if_true]
    rw [e2]
    congr 1
    ring
  refine ⟨?_, hlin, fun hneg hi => hlin (ne_of_lt hneg) hi⟩
  intro hbeta hi
  simp only [density, hbeta, ne_eq, not_true_eq_false, if_false]
  exact fillAll_getElem? rho constants.rho_0 i _ (List.getElem?_eq_getElem hi)

/-- C5: for every zone with `alpha = 0` and every head vector, `porosity` sets
`phi[i] = phi_0` and `dphi[i] = 0` at every index, whatever `h`, `phi` and `dphi` held. -/
theorem porosity_incompressible (h phi dphi : TVec α) (props : PhysicalZone α)
    (constants : Constants α) (halpha : props.alpha = 0) :
    (∀ i, i < phi.length → (porosity h phi dphi props constants).1[i]? = some props.phi) ∧
    (∀ i, i < dphi.length → (porosity h phi dphi props constants).2[i]? = some 0) := by
  simp only [porosity, halpha, if_true]
  constructor
  · intro i hi
    exact fillAll_getElem? phi props.phi i _ (List.getElem?_eq_getElem hi)
  · intro i hi
    exact fillAll_getElem? dphi 0 i _ (List.getElem?_eq_getElem hi)

/-- The branch `alpha != 0` of `porosity`: `phi[i] = 1 + factor * h[i]` with
`factor = (phi_0 - 1) * rho_0 * g * alpha`, and `dphi` is returned as it was passed in. -/
theorem porosity_compressible_branch (h phi dphi : TVec α) (props : PhysicalZone α)
    (constants : Constants α) (i : Nat) (halpha : props.alpha ≠ 0)
    (hphi : phi.length = h.length) (hi : i < h.length) :
    (porosity h phi dphi props constants).1[i]? =
      some (1 + (props.phi - 1) * constants.rho_0 * constants.g * props.alpha * h.getD i 0) ∧
    (porosity h phi dphi props constants).2 = dphi := by
  have hx : h[i]? = some (h.getD i 0) := by simp [List.getElem?_eq_getElem hi]
  have hp : i < phi.length := by omega
  have e1 := fillAll_getElem? phi 1 i _ (List.getElem?_eq_getElem hp)
  have e2 := mapAll_getElem?
    (fun x => (props.phi - 1) * constants.rho_0 * constants.g * props.alpha * x) h i _ hx
  have e3 := zipAll_getElem? (fun x y => x + y) _ _ i _ _ e1 e2
  simp only [porosity, halpha, if_false, and_true]
  exact e3

end ConstitutiveClaims

/-! ## Concrete evaluations of the constitutive models -/

section ConstitutiveEvaluations

theorem saturation_saturated_entries_witness :
    (saturation samplePow sampleSqrt [0, -1, 3] sampleZone [7, 7, 7] [8, 8, 8] [9, 9, 9]).Sw[0]?
        = some 1 ∧
    (saturation samplePow sampleSqrt [0, -1, 3] sampleZone [7, 7, 7] [8, 8, 8] [9, 9, 9]).dSw[0]?
        = some 0 ∧
    (saturation samplePow sampleSqrt [0, -1, 3] sampleZone [7, 7, 7] [8, 8, 8] [9, 9, 9]).krw[0]?
        = some 1 :=
  saturation_saturated_entries samplePow sampleSqrt [0, -1, 3] sampleZone [7, 7, 7] [8, 8, 8]
    [9, 9, 9] 0 rfl rfl rfl (by decide) (by simp)

theorem saturation_unsaturated_Sw_witness :
    (saturation samplePow sampleSqrt [0, -1, 3] sampleZone [7, 7, 7] [8, 8, 8] [9, 9, 9]).Sw[1]?
      = some (sampleZone.S_r + (1 - sampleZone.S_r) *
          samplePow (1 + samplePow (-sampleZone.alphaVG * ([0, -1, 3] : List ℚ).getD 1 0)
            sampleZone.nVG) (-sampleZone.mVG)) :=
  saturation_unsaturated_Sw samplePow sampleSqrt [0, -1, 3] sampleZone [7, 7, 7] [8, 8, 8]
    [9, 9, 9] 1 rfl rfl rfl (by decide) (by simp)

theorem saturation_unsaturated_dSw_witness :
    (saturation samplePow sampleSqrt [0, -1, 3] sampleZone [7, 7, 7] [8, 8, 8] [9, 9, 9]).dSw[1]?
      = some (-(1 - sampleZone.S_r) * (sampleZone.nVG - 1) *
          samplePow (-sampleZone.alphaVG * ([0, -1, 3] : List ℚ).getD 1 0) sampleZone.nVG *
          samplePow (1 + samplePow (-sampleZone.alphaVG * ([0, -1, 3] : List ℚ).getD 1 0)
            sampleZone.nVG) (-sampleZone.mVG) /
          ((1 + samplePow (-sampleZone.alphaVG * ([0, -1, 3] : List ℚ).getD 1 0)
            sampleZone.nVG) * ([0, -1, 3] : List ℚ).getD 1 0)) :=
  saturation_unsaturated_dSw samplePow sampleSqrt [0, -1, 3] sampleZone [7, 7, 7] [8, 8, 8]
    [9, 9, 9] 1 rfl rfl rfl (by decide) (by simp)

theorem density_compressible_witness :
    (density [4, 5] [0, 0] sampleConstants).2[1]? =
      some (sampleConstants.rho_0 + sampleConstants.rho_0 ^ 2 * sampleConstants.g *
        sampleConstants.beta * ([4, 5] : List ℚ).getD 1 0) ∧
    (density [4, 5] [0, 0] sampleConstants).1 = [4, 5] :=
  density_compressible [4, 5] [0, 0] sampleConstants 1 (by simp [sampleConstants]) (by decide)

/-- C7 fails for a negative `beta`: with `beta = -1`, `rho_0 = 1`, `g = 1` and `h = [1]`
the test `if (beta)` succeeds and the code stores `rho[0] = 0`, not `rho_0 = 1`. -/
theorem density_negative_beta_not_constant :
    ¬ (constantsBetaNeg.beta > 0) ∧
    (density [1] [5] constantsBetaNeg).2[0]? = some 0 ∧
    (density [1] [5] constantsBetaNeg).2[0]? ≠ some constantsBetaNeg.rho_0 := by
  refine ⟨by simp [constantsBetaNeg], ?_, ?_⟩ <;>
    simp [density, constantsBetaNeg, mapAll]

theorem density_incompressible_witness :
    (density [4, 5] [7, 7] constantsBetaZero).2[1]? = some constantsBetaZero.rho_0 ∧
    (density [1] [5] constantsBetaNeg).2[0]? =
      some (constantsBetaNeg.rho_0 + constantsBetaNeg.rho_0 ^ 2 * constantsBetaNeg.g *
        constantsBetaNeg.beta * ([1] : List ℚ).getD 0 0) :=
  ⟨(density_incompressible [4, 5] [7, 7] constantsBetaZero 1).1 rfl (by decide),
    (density_incompressible [1] [5] constantsBetaNeg 0).2.2 (by simp [constantsBetaNeg])
      (by decide)⟩

theorem porosity_incompressible_witness :
    (∀ i, i < ([7, 7] : List ℚ).length →
      (porosity [4, 5] [7, 7] [8, 8] rigidZone sampleConstants).1[i]? = some rigidZone.phi) ∧
    (∀ i, i < ([8, 8] : List ℚ).length →
      (porosity [4, 5] [7, 7] [8, 8] rigidZone sampleConstants).2[i]? = some 0) :=
  porosity_incompressible [4, 5] [7, 7] [8, 8] rigidZone sampleConstants rfl

/-- C8 at a concrete input: with `alpha = 1`, `phi_0 = 1/2`, `rho_0 = 2`, `g = 3` the factor
is `-3`; `porosity` stores `phi[0] = 1 + (-3) * 4` but leaves `dphi[0]` at its old value `0`. -/
theorem porosity_compressible_dphi_not_assigned :
    (sampleZone.phi - 1) * sampleConstants.rho_0 * sampleConstants.g * sampleZone.alpha = -3 ∧
    (porosity [4] [9] [0] sampleZone sampleConstants).1[0]? = some ((1 : ℚ) + (-3) * 4) ∧
    (porosity [4] [9] [0] sampleZone sampleConstants).2[0]? = some 0 := by
  refine ⟨by norm_num [sampleZone, sampleConstants], ?_, ?_⟩
  · simp [porosity, sampleZone, sampleConstants, fillAll, zipAll, mapAll]
    norm_num
  · simp [porosity, sampleZone, sampleConstants]

end ConstitutiveEvaluations

/-! ## Spatial weights -/

section SpatialWeightLemmas

variable {α : Type} [LinearOrderedField α]

theorem upwind_loop_edge_flux (m : Mesh α) (s : VarSatPhysicsImpl α) :
    (upwind_loop m s).edge_flux = s.edge_flux := by
  unfold upwind_loop
  apply forLoop_preserves (fun st : VarSatPhysicsImpl α => st.edge_flux)
  intro i st
  dsimp only
  split <;> rfl

/-- Effect of the upwind loop on entry `e` of the four vectors it writes. -/
theorem upwind_loop_getElem? (m : Mesh α) (s : VarSatPhysicsImpl α) (e : Nat) :
    (upwind_loop m s).edge_weight_front_[e]? =
      (if e < m.edges then
        (s.edge_weight_front_[e]?).map (fun _ => upwind_front (s.edge_flux.getD e 0))
       else s.edge_weight_front_[e]?) ∧
    (upwind_loop m s).edge_weight_back_[e]? =
      (if e < m.edges then
        (s.edge_weight_back_[e]?).map (fun _ => upwind_back (s.edge_flux.getD e 0))
       else s.edge_weight_back_[e]?) ∧
    (upwind_loop m s).edge_up[e]? =
      (if e < m.edges then
        (s.edge_up[e]?).map
          (fun _ => if s.edge_flux.getD e 0 < 0 then m.edge_front_id e else m.edge_back_id e)
       else s.edge_up[e]?) ∧
    (upwind_loop m s).edge_down[e]? =
      (if e < m.edges then
        (s.edge_down[e]?).map
          (fun _ => if s.edge_flux.getD e 0 < 0 then m.edge_back_id e else m.edge_front_id e)
       else s.edge_down[e]?) := by
  unfold upwind_loop
  refine forLoop_inv
    (fun k st =>
      st.edge_flux = s.edge_flux ∧
      st.edge_weight_front_[e]? =
        (if e < k then
          (s.edge_weight_front_[e]?).map (fun _ => upwind_front (s.edge_flux.getD e 0))
         else s.edge_weight_front_[e]?) ∧
      st.edge_weight_back_[e]? =
        (if e < k then
          (s.edge_weight_back_[e]?).map (fun _ => upwind_back (s.edge_flux.getD e 0))
         else s.edge_weight_back_[e]?) ∧
      st.edge_up[e]? =
        (if e < k then
          (s.edge_up[e]?).map
            (fun _ => if s.edge_flux.getD e 0 < 0 then m.edge_front_id e else m.edge_back_id e)
         else s.edge_up[e]?) ∧
      st.edge_down[e]? =
        (if e < k then
          (s.edge_down[e]?).map
            (fun _ => if s.edge_flux.getD e 0 < 0 then m.edge_back_id e else m.edge_front_id e)
         else s.edge_down[e]?))
    0 m.edges _ s (Nat.zero_le _) (by simp) ?_ |>.2
  intro k st _ _ ih
  obtain ⟨ih0, ih1, ih2, ih3, ih4⟩ := ih
  by_cases hk : k = e
  · subst hk
    have hlt : k < k + 1 := Nat.lt_succ_self k
    simp only [lt_irrefl, if_false] at ih1 ih2 ih3 ih4
    simp only [hlt, if_true, ih0]
    by_cases hfl : s.edge_flux.getD k 0 < 0
    · simp only [hfl, if_true, List.getElem?_set', ih1, ih2, ih3, ih4, upwind_front, upwind_back]
      exact ⟨trivial, rfl, rfl, rfl, rfl⟩
    · simp only [hfl, if_false, List.getElem?_set', ih1, ih2, ih3, ih4, upwind_front,
        upwind_back]
      exact ⟨trivial, rfl, rfl, rfl, rfl⟩
  · have hki : e < k + 1 ↔ e < k := by omega
    by_cases hfl : st.edge_flux.getD k 0 < 0
    · simp only [hfl, if_true, List.getElem?_set_ne hk, hki]
      exact ⟨ih0, ih1, ih2, ih3, ih4⟩
    · simp only [hfl, if_false, List.getElem?_set_ne hk, hki]
      exact ⟨ih0, ih1, ih2, ih3, ih4⟩

theorem process_spatial_weights_upwind (exchange : TVec α → TVec α) (m : Mesh α)
    (s : VarSatPhysicsImpl α)
    (hmode : s.spatial_weighting = SpatialWeightType.weightUpwind) :
    process_spatial_weights exchange m s =
      upwind_loop m { s with edge_flux := s.flux_lim_matrix.matvec s.qdotn_faces } := by
  simp only [process_spatial_weights, hmode]

/-- The limiter value lies between 0 and 2 for every pair of fluxes. -/
theorem vanleer_sigma_bounds (qup q2up : α) :
    0 ≤ vanleer_sigma qup q2up ∧ vanleer_sigma qup q2up ≤ 2 := by
  unfold vanleer_sigma
  dsimp only
  split
  · exact ⟨zero_le_one, one_le_two⟩
  · split
    · exact ⟨zero_le_two, le_refl 2⟩
    · have habs : 0 ≤ |q2up / qup| := abs_nonneg _
      have hden : 0 < 1 + |q2up / qup| := by linarith
      have hnum : 0 ≤ q2up / qup + |q2up / qup| := by
        have := neg_abs_le (q2up / qup)
        linarith
      have hle : q2up / qup ≤ |q2up / qup| := le_abs_self _
      constructor
      · exact div_nonneg hnum (le_of_lt hden)
      · rw [div_le_iff₀ hden]
        linarith

theorem vanleer_weight_bounds (flux q2up : α) :
    0 ≤ vanleer_weight_front flux q2up ∧ vanleer_weight_front flux q2up ≤ 1 ∧
    0 ≤ vanleer_weight_back flux q2up ∧ vanleer_weight_back flux q2up ≤ 1 ∧
    vanleer_weight_front flux q2up + vanleer_weight_back flux q2up = 1 := by
  obtain ⟨h0, h2⟩ := vanleer_sigma_bounds |flux| q2up
  unfold vanleer_weight_front vanleer_weight_back
  split
  · refine ⟨?_, ?_, ?_, ?_, ?_⟩ <;> linarith
  · refine ⟨?_, ?_, ?_, ?_, ?_⟩ <;> linarith

/-- Effect of the last Van Leer loop on entry `e` of the two weight vectors. -/
theorem vanleer_sigma_loop_getElem? (m : Mesh α) (s : VarSatPhysicsImpl α) (e : Nat) :
    (vanleer_sigma_loop m s).edge_weight_front_[e]? =
      (if e < m.edges ∧ (s.edge_node_front_.getD e 0 < m.local_nodes ∨
          s.edge_node_back_.getD e 0 < m.local_nodes) then
        (s.edge_weight_front_[e]?).map (fun _ =>
          vanleer_weight_front (s.edge_flux.getD e 0) (s.CV_flux.getD (s.edge_up.getD e 0) 0))
       else s.edge_weight_front_[e]?) ∧
    (vanleer_sigma_loop m s).edge_weight_back_[e]? =
      (if e < m.edges ∧ (s.edge_node_front_.getD e 0 < m.local_nodes ∨
          s.edge_node_back_.getD e 0 < m.local_nodes) then
        (s.edge_weight_back_[e]?).map (fun _ =>
          vanleer_weight_back (s.edge_flux.getD e 0) (s.CV_flux.getD (s.edge_up.getD e 0) 0))
       else s.edge_weight_back_[e]?) := by
  unfold vanleer_sigma_loop
  refine forLoop_inv
    (fun k st =>
      (st.edge_flux = s.edge_flux ∧ st.CV_flux = s.CV_flux ∧ st.edge_up = s.edge_up ∧
        st.edge_node_front_ = s.edge_node_front_ ∧ st.edge_node_back_ = s.edge_node_back_) ∧
      st.edge_weight_front_[e]? =
        (if e < k ∧ (s.edge_node_front_.getD e 0 < m.local_nodes ∨
            s.edge_node_back_.getD e 0 < m.local_nodes) then
          (s.edge_weight_front_[e]?).map (fun _ =>
            vanleer_weight_front (s.edge_flux.getD e 0) (s.CV_flux.getD (s.edge_up.getD e 0) 0))
         else s.edge_weight_front_[e]?) ∧
      st.edge_weight_back_[e]? =
        (if e < k ∧ (s.edge_node_front_.getD e 0 < m.local_nodes ∨
            s.edge_node_back_.getD e 0 < m.local_nodes) then
          (s.edge_weight_back_[e]?).map (fun _ =>
            vanleer_weight_back (s.edge_flux.getD e 0) (s.CV_flux.getD (s.edge_up.getD e 0) 0))
         else s.edge_weight_back_[e]?))
    0 m.edges _ s (Nat.zero_le _) (by simp) ?_ |>.2
  intro k st _ _ ih
  obtain ⟨⟨f1, f2, f3, f4, f5⟩, ih1, ih2⟩ := ih
  simp only [f1, f2, f3, f4, f5]
  by_cases hk : k = e
  · subst hk
    have hlt : k < k + 1 := Nat.lt_succ_self k
    simp only [lt_irrefl, false_and, if_false] at ih1 ih2
    simp only [hlt, true_and]
    by_cases hc : s.edge_node_front_.getD k 0 < m.local_nodes ∨
        s.edge_node_back_.getD k 0 < m.local_nodes
    · simp only [hc, if_true]
      by_cases hfl : s.edge_flux.getD k 0 > 0
      · simp only [hfl, if_true, List.getElem?_set', ih1, ih2, f1, f2, f3, f4, f5,
          vanleer_weight_front, vanleer_weight_back]
        exact ⟨⟨trivial, trivial, trivial, trivial, trivial⟩, rfl, rfl⟩
      · simp only [hfl, if_false, List.getElem?_set', ih1, ih2, f1, f2, f3, f4, f5,
          vanleer_weight_front, vanleer_weight_back]
        exact ⟨⟨trivial, trivial, trivial, trivial, trivial⟩, rfl, rfl⟩
    · simp only [hc, if_false]
      exact ⟨⟨f1, f2, f3, f4, f5⟩, ih1, ih2⟩
  · have hki : e < k + 1 ↔ e < k := by omega
    simp only [hki]
    by_cases hc : s.edge_node_front_.getD k 0 < m.local_nodes ∨
        s.edge_node_back_.getD k 0 < m.local_nodes
    · simp only [hc, if_true]
      by_cases hfl : s.edge_flux.getD k 0 > 0
      · simp only [hfl, if_true, List.getElem?_set_ne hk]
        exact ⟨⟨trivial, trivial, trivial, trivial, trivial⟩, ih1, ih2⟩
      · simp only [hfl, if_false, List.getElem?_set_ne hk]
        exact ⟨⟨trivial, trivial, trivial, trivial, trivial⟩, ih1, ih2⟩
    · simp only [hc, if_false]
      exact ⟨⟨f1, f2, f3, f4, f5⟩, ih1, ih2⟩

theorem vanleer_updown_loop_frame (m : Mesh α) (s : VarSatPhysicsImpl α) :
    weightFrame (vanleer_updown_loop m s) = weightFrame s ∧
      (vanleer_updown_loop m s).edge_flux = s.edge_flux := by
  unfold vanleer_updown_loop
  constructor
  · apply forLoop_preserves weightFrame
    intro i st
    dsimp only
    split <;> rfl
  · apply forLoop_preserves (fun st : VarSatPhysicsImpl α => st.edge_flux)
    intro i st
    dsimp only
    split <;> rfl

theorem vanleer_reset_loop_frame (m : Mesh α) (s : VarSatPhysicsImpl α) :
    weightFrame (vanleer_reset_loop m s) = weightFrame s ∧
      (vanleer_reset_loop m s).edge_flux = s.edge_flux := by
  unfold vanleer_reset_loop
  constructor
  · apply forLoop_preserves weightFrame
    intro i st
    rfl
  · apply forLoop_preserves (fun st : VarSatPhysicsImpl α => st.edge_flux)
    intro i st
    rfl

theorem vanleer_boundary_loop_frame (m : Mesh α) (s : VarSatPhysicsImpl α) :
    weightFrame (vanleer_boundary_loop m s) = weightFrame s ∧
      (vanleer_boundary_loop m s).edge_flux = s.edge_flux := by
  unfold vanleer_boundary_loop
  constructor
  · apply forLoop_preserves weightFrame
    intro i st
    rfl
  · apply forLoop_preserves (fun st : VarSatPhysicsImpl α => st.edge_flux)
    intro i st
    rfl

theorem vanleer_max_loop_frame (m : Mesh α) (s : VarSatPhysicsImpl α) :
    weightFrame (vanleer_max_loop m s) = weightFrame s ∧
      (vanleer_max_loop m s).edge_flux = s.edge_flux := by
  unfold vanleer_max_loop
  constructor
  · apply forLoop_preserves weightFrame
    intro i st
    dsimp only
    split
    · split
      · split <;> rfl
      · rfl
    · rfl
  · apply forLoop_preserves (fun st : VarSatPhysicsImpl α => st.edge_flux)
    intro i st
    dsimp only
    split
    · split
      · split <;> rfl
      · rfl
    · rfl

end SpatialWeightLemmas

section DefaultLoopFrame

theorem vanleer_default_loop_frame {α : Type} (m : Mesh α) (s : VarSatPhysicsImpl α) :
    weightFrame (vanleer_default_loop m s) = weightFrame s ∧
      (vanleer_default_loop m s).edge_flux = s.edge_flux := by
  unfold vanleer_default_loop
  constructor
  · apply forLoop_preserves weightFrame
    intro i st
    dsimp only
    split <;> rfl
  · apply forLoop_preserves (fun st : VarSatPhysicsImpl α => st.edge_flux)
    intro i st
    dsimp only
    split <;> rfl

end DefaultLoopFrame

section VanLeerComposition

variable {α : Type} [LinearOrderedField α]

theorem process_spatial_weights_vanleer (exchange : TVec α → TVec α) (m : Mesh α)
    (s : VarSatPhysicsImpl α)
    (hmode : s.spatial_weighting = SpatialWeightType.weightVanLeer) :
    process_spatial_weights exchange m s =
      vanleer_sigma_loop m (vanleer_before_sigma exchange m s) := by
  simp only [process_spatial_weights, hmode, vanleer_before_sigma]

theorem vanleer_before_sigma_frame (exchange : TVec α → TVec α) (m : Mesh α)
    (s : VarSatPhysicsImpl α) :
    weightFrame (vanleer_before_sigma exchange m s) = weightFrame s ∧
      (vanleer_before_sigma exchange m s).edge_flux =
        s.flux_lim_matrix.matvec s.qdotn_faces := by
  unfold vanleer_before_sigma
  dsimp only
  constructor
  · change weightFrame (vanleer_default_loop m _) = _
    rw [(vanleer_default_loop_frame m _).1, (vanleer_max_loop_frame m _).1,
      (vanleer_boundary_loop_frame m _).1, (vanleer_reset_loop_frame m _).1,
      (vanleer_updown_loop_frame m _).1]
    rfl
  · rw [(vanleer_default_loop_frame m _).2, (vanleer_max_loop_frame m _).2,
      (vanleer_boundary_loop_frame m _).2, (vanleer_reset_loop_frame m _).2,
      (vanleer_updown_loop_frame m _).2]

end VanLeerComposition

/-! ## Claims on the spatial weights -/

section SpatialWeightClaims

variable {α : Type} [LinearOrderedField α]

/-- C2: in Upwind mode, after `process_spatial_weights`, for every edge `e` exactly one of
the two weights is 1 and the other is 0, and the weight 1 is on the node recorded in
`edge_up[e]`: if `edge_flux[e] < 0` the front weight is 1, `edge_up` is the front node and
`edge_down` the back node; otherwise the back weight is 1, `edge_up` is the back node and
`edge_down` the front node. -/
theorem upwind_weights (exchange : TVec α → TVec α) (m : Mesh α) (s : VarSatPhysicsImpl α)
    (e : Nat) (hmode : s.spatial_weighting = SpatialWeightType.weightUpwind)
    (he : e < m.edges)
    (hwf : e < s.edge_weight_front_.length) (hwb : e < s.edge_weight_back_.length)
    (hup : e < s.edge_up.length) (hdown : e < s.edge_down.length) :
    ((process_spatial_weights exchange m s).edge_flux.getD e 0 < 0 →
      (process_spatial_weights exchange m s).edge_weight_front_[e]? = some 1 ∧
      (process_spatial_weights exchange m s).edge_weight_back_[e]? = some 0 ∧
      (process_spatial_weights exchange m s).edge_up[e]? = some (m.edge_front_id e) ∧
      (process_spatial_weights exchange m s).edge_down[e]? = some (m.edge_back_id e)) ∧
    (¬ (process_spatial_weights exchange m s).edge_flux.getD e 0 < 0 →
      (process_spatial_weights exchange m s).edge_weight_back_[e]? = some 1 ∧
      (process_spatial_weights exchange m s).edge_weight_front_[e]? = some 0 ∧
      (process_spatial_weights exchange m s).edge_up[e]? = some (m.edge_back_id e) ∧
      (process_spatial_weights exchange m s).edge_down[e]? = some (m.edge_front_id e)) ∧
    (((process_spatial_weights exchange m s).edge_weight_front_[e]? = some 1 ∧
        (process_spatial_weights exchange m s).edge_weight_back_[e]? = some 0) ∨
      ((process_spatial_weights exchange m s).edge_weight_front_[e]? = some 0 ∧
        (process_spatial_weights exchange m s).edge_weight_back_[e]? = some 1)) := by
  rw [process_spatial_weights_upwind exchange m s hmode]
  obtain ⟨h1, h2, h3, h4⟩ :=
    upwind_loop_getElem? m { s with edge_flux := s.flux_lim_matrix.matvec s.qdotn_faces } e
  rw [h1, h2, h3, h4, upwind_loop_edge_flux]
  simp only [he, if_true, List.getElem?_eq_getElem hwf, List.getElem?_eq_getElem hwb,
    List.getElem?_eq_getElem hup, List.getElem?_eq_getElem hdown, Option.map_some',
    upwind_front, upwind_back]
  generalize (s.flux_lim_matrix.matvec s.qdotn_faces).getD e 0 = fl
  by_cases hfl : fl < 0
  · simp [hfl]
  · simp [hfl]

/-- C3: in Van Leer mode, after `process_spatial_weights`, for every edge `e` that touches
a locally-owned node, and for every value of `edge_flux[e]` and of `CV_flux[edge_up[e]]`
(also `qup = 0` and ratios above `1e10`), both weights of `e` lie in `[0,1]` and their sum
is 1. -/
theorem vanleer_weights_bounded (exchange : TVec α → TVec α) (m : Mesh α)
    (s : VarSatPhysicsImpl α) (e : Nat)
    (hmode : s.spatial_weighting = SpatialWeightType.weightVanLeer)
    (he : e < m.edges)
    (hloc : s.edge_node_front_.getD e 0 < m.local_nodes ∨
      s.edge_node_back_.getD e 0 < m.local_nodes)
    (hwf : e < s.edge_weight_front_.length) (hwb : e < s.edge_weight_back_.length) :
    ∃ wf wb : α,
      (process_spatial_weights exchange m s).edge_weight_front_[e]? = some wf ∧
      (process_spatial_weights exchange m s).edge_weight_back_[e]? = some wb ∧
      0 ≤ wf ∧ wf ≤ 1 ∧ 0 ≤ wb ∧ wb ≤ 1 ∧ wf + wb = 1 := by
  rw [process_spatial_weights_vanleer exchange m s hmode]
  obtain ⟨h1, h2⟩ := vanleer_sigma_loop_getElem? m (vanleer_before_sigma exchange m s) e
  have hfr := (vanleer_before_sigma_frame exchange m s).1
  simp only [weightFrame, Prod.mk.injEq] at hfr
  obtain ⟨g1, g2, g3, g4⟩ := hfr
  rw [g1, g3, g4] at h1
  rw [g2, g3, g4] at h2
  simp only [he, hloc, and_self, if_true, List.getElem?_eq_getElem hwf,
    List.getElem?_eq_getElem hwb, Option.map_some'] at h1 h2
  obtain ⟨b1, b2, b3, b4, b5⟩ :=
    vanleer_weight_bounds ((vanleer_before_sigma exchange m s).edge_flux.getD e 0)
      ((vanleer_before_sigma exchange m s).CV_flux.getD
        ((vanleer_before_sigma exchange m s).edge_up.getD e 0) 0)
  exact ⟨_, _, h1, h2, b1, b2, b3, b4, b5⟩

end SpatialWeightClaims

/-! ## Concrete evaluations of the spatial weights -/

section SpatialWeightEvaluations

theorem upwind_weights_witness :
    ((process_spatial_weights id sampleMesh sampleUpwind).edge_flux.getD 1 0 < 0 →
      (process_spatial_weights id sampleMesh sampleUpwind).edge_weight_front_[1]? = some 1 ∧
      (process_spatial_weights id sampleMesh sampleUpwind).edge_weight_back_[1]? = some 0 ∧
      (process_spatial_weights id sampleMesh sampleUpwind).edge_up[1]?
        = some (sampleMesh.edge_front_id 1) ∧
      (process_spatial_weights id sampleMesh sampleUpwind).edge_down[1]?
        = some (sampleMesh.edge_back_id 1)) ∧
    (¬ (process_spatial_weights id sampleMesh sampleUpwind).edge_flux.getD 1 0 < 0 →
      (process_spatial_weights id sampleMesh sampleUpwind).edge_weight_back_[1]? = some 1 ∧
      (process_spatial_weights id sampleMesh sampleUpwind).edge_weight_front_[1]? = some 0 ∧
      (process_spatial_weights id sampleMesh sampleUpwind).edge_up[1]?
        = some (sampleMesh.edge_back_id 1) ∧
      (process_spatial_weights id sampleMesh sampleUpwind).edge_down[1]?
        = some (sampleMesh.edge_front_id 1)) ∧
    (((process_spatial_weights id sampleMesh sampleUpwind).edge_weight_front_[1]? = some 1 ∧
        (process_spatial_weights id sampleMesh sampleUpwind).edge_weight_back_[1]? = some 0) ∨
      ((process_spatial_weights id sampleMesh sampleUpwind).edge_weight_front_[1]? = some 0 ∧
        (process_spatial_weights id sampleMesh sampleUpwind).edge_weight_back_[1]? = some 1)) :=
  upwind_weights id sampleMesh sampleUpwind 1 rfl (by decide) (by decide) (by decide)
    (by decide) (by decide)

theorem vanleer_weights_bounded_witness :
    ∃ wf wb : ℚ,
      (process_spatial_weights id sampleMesh sampleVanLeer).edge_weight_front_[0]? = some wf ∧
      (process_spatial_weights id sampleMesh sampleVanLeer).edge_weight_back_[0]? = some wb ∧
      0 ≤ wf ∧ wf ≤ 1 ∧ 0 ≤ wb ∧ wb ≤ 1 ∧ wf + wb = 1 :=
  vanleer_weights_bounded id sampleMesh sampleVanLeer 0 rfl (by decide) (by decide)
    (by decide) (by decide)

end SpatialWeightEvaluations

/-! ## Zone tables -/

section ListLemmas

theorem map_getD_range {β : Type} (l : List β) (d : β) :
    (List.range l.length).map (fun z => l.getD z d) = l := by
  apply List.ext_getElem?
  intro n
  by_cases hn : n < l.length
  · simp [List.getElem?_range, hn, List.getElem?_eq_getElem hn]
  · have h1 : l[n]? = none := List.getElem?_eq_none (Nat.le_of_not_lt hn)
    have h2 : ((List.range l.length).map (fun z => l.getD z d))[n]? = none := by
      apply List.getElem?_eq_none
      simp
      exact Nat.le_of_not_lt hn
    rw [h1, h2]

theorem getElem?_set_getD {β : Type} (l : List β) (j z : Nat) (d : β) (f : β → β) :
    (l.set j (f (l.getD j d)))[z]? = if j = z then (l[z]?).map f else l[z]? := by
  rw [List.getElem?_set]
  by_cases hjz : j = z
  · subst hjz
    by_cases hj : j < l.length
    · simp [hj, List.getElem?_eq_getElem hj]
    · have : l[j]? = none := List.getElem?_eq_none (Nat.le_of_not_lt hj)
      simp [hj, this]
  · simp [hjz]

theorem sum_set_add {β : Type} [AddCommGroup β] (l : List β) (j : Nat) (x : β)
    (hj : j < l.length) : (l.set j (l.getD j 0 + x)).sum = l.sum + x := by
  rw [List.sum_set']
  have hg : l.getD j 0 = l[j] := by simp [List.getElem?_eq_getElem hj]
  simp only [hj, dif_pos, hg]
  abel

theorem sum_map_div {β γ : Type} [Field γ] (l : List β) (f : β → γ) (c : γ) :
    (l.map (fun x => f x / c)).sum = (l.map f).sum / c := by
  induction l with
  | nil => simp
  | cons a t ih => simp [ih, add_div]

end ListLemmas

section ZoneTableLemmas

variable {α : Type} [LinearOrderedField α]

/-- Invariant of the loop over the sub-control-volumes. -/
theorem scv_fold_inv (num_zones : Nat) (cv_vol : α) (l : List (SCV α))
    (acc res : ScvAccum α)
    (hw : acc.weights.length = num_zones) (hc : acc.counts.length = num_zones)
    (hz : ∀ z, acc.counts.getD z 0 = 0 → acc.weights.getD z 0 = 0)
    (hres : l.foldlM (initialise_vectors_scv_step num_zones cv_vol) acc = some res) :
    res.weights.length = num_zones ∧ res.counts.length = num_zones ∧
    (∀ z, res.counts.getD z 0 = 0 → res.weights.getD z 0 = 0) ∧
    res.weights.sum = acc.weights.sum + (l.map (fun scv => scv.vol / cv_vol)).sum := by
  induction l generalizing acc with
  | nil =>
    simp only [List.foldlM_nil] at hres
    cases hres
    exact ⟨hw, hc, hz, by simp⟩
  | cons scv rest ih =>
    rw [List.foldlM_cons] at hres
    by_cases htag : (mapSubscript acc.zones_map_ scv.element_physical_tag).1 < num_zones
    · have hstep : initialise_vectors_scv_step num_zones cv_vol acc scv = some
          { zones_map_ := (mapSubscript acc.zones_map_ scv.element_physical_tag).2
            weights := acc.weights.set (mapSubscript acc.zones_map_ scv.element_physical_tag).1
              (acc.weights.getD (mapSubscript acc.zones_map_ scv.element_physical_tag).1 0
                + scv.vol / cv_vol)
            counts := acc.counts.set (mapSubscript acc.zones_map_ scv.element_physical_tag).1
              (acc.counts.getD (mapSubscript acc.zones_map_ scv.element_physical_tag).1 0
                + 1) } := by
        simp only [initialise_vectors_scv_step, htag, if_true]
      rw [hstep] at hres
      generalize (mapSubscript acc.zones_map_ scv.element_physical_tag).1 = tag at htag hres
      have hres' : rest.foldlM (initialise_vectors_scv_step num_zones cv_vol)
          { zones_map_ := (mapSubscript acc.zones_map_ scv.element_physical_tag).2
            weights := acc.weights.set tag (acc.weights.getD tag 0 + scv.vol / cv_vol)
            counts := acc.counts.set tag (acc.counts.getD tag 0 + 1) } = some res := hres
      have key := ih _ (by simp [hw]) (by simp [hc]) ?_ hres'
      · obtain ⟨k1, k2, k3, k4⟩ := key
        refine ⟨k1, k2, k3, ?_⟩
        rw [k4]
        dsimp only
        rw [sum_set_add _ _ _ (by omega)]
        simp [add_assoc]
      · intro z hzero
        dsimp only at hzero ⊢
        by_cases hzt : tag = z
        · subst hzt
          exfalso
          have : (acc.counts.set tag (acc.counts.getD tag 0 + 1)).getD tag 0
              = acc.counts.getD tag 0 + 1 := by
            simp [List.getElem?_set, hc, htag]
          omega
        · have e1 : (acc.counts.set tag (acc.counts.getD tag 0 + 1)).getD z 0
              = acc.counts.getD z 0 := by
            simp [List.getElem?_set_ne hzt]
          have e2 : (acc.weights.set tag (acc.weights.getD tag 0 + scv.vol / cv_vol)).getD z 0
              = acc.weights.getD z 0 := by
            simp [List.getElem?_set_ne hzt]
          rw [e2]
          exact hz z (e1 ▸ hzero)
    · have hstep : initialise_vectors_scv_step num_zones cv_vol acc scv = none := by
        simp only [initialise_vectors_scv_step, htag, if_false]
      rw [hstep] at hres
      cases hres

theorem zoneWeightOf_append (a : TIndexVec) (b : TVec α) (j i : Nat) (w : α)
    (hlen : a.length = b.length) :
    zoneWeightOf (a ++ [j]) (b ++ [w]) i = zoneWeightOf a b i + if j = i then w else 0 := by
  unfold zoneWeightOf
  rw [List.zip_append hlen]
  simp

/-- The components that the push loop leaves alone. -/
theorem push_loop_frame (num_zones i : Nat) (weights : List α) (counts : List Nat)
    (t : ZoneTables α) :
    (initialise_vectors_push_loop num_zones i weights counts t).weight_scv_tmp.length
        = t.weight_scv_tmp.length ∧
    (initialise_vectors_push_loop num_zones i weights counts t).index_scv_tmp.length
        = t.index_scv_tmp.length ∧
    (initialise_vectors_push_loop num_zones i weights counts t).zones_map_ = t.zones_map_ := by
  have key := forLoop_preserves
    (fun st : ZoneTables α =>
      (st.weight_scv_tmp.length, st.index_scv_tmp.length, st.zones_map_))
    0 num_zones
    (fun j (t : ZoneTables α) =>
      if counts.getD j 0 ≠ 0 then
        { t with
          weight_scv_tmp :=
            t.weight_scv_tmp.set j (t.weight_scv_tmp.getD j [] ++ [weights.getD j 0])
          index_scv_tmp := t.index_scv_tmp.set j (t.index_scv_tmp.getD j [] ++ [i])
          nodes_idx := t.nodes_idx.set j
            (mapAssign (t.nodes_idx.getD j []) i ((t.index_scv_tmp.getD j [] ++ [i]).length - 1)) }
      else t)
    t
    (by
      intro j st
      dsimp only
      split
      · simp
      · rfl)
  simp only [Prod.mk.injEq] at key
  exact key

/-- Effect of the push loop on the tables of zone `z`. -/
theorem push_loop_getElem? (num_zones i : Nat) (weights : List α) (counts : List Nat)
    (t : ZoneTables α) (z : Nat) :
    (initialise_vectors_push_loop num_zones i weights counts t).weight_scv_tmp[z]? =
      (if z < num_zones ∧ counts.getD z 0 ≠ 0 then
        (t.weight_scv_tmp[z]?).map (fun l => l ++ [weights.getD z 0])
       else t.weight_scv_tmp[z]?) ∧
    (initialise_vectors_push_loop num_zones i weights counts t).index_scv_tmp[z]? =
      (if z < num_zones ∧ counts.getD z 0 ≠ 0 then
        (t.index_scv_tmp[z]?).map (fun l => l ++ [i])
       else t.index_scv_tmp[z]?) := by
  unfold initialise_vectors_push_loop
  refine forLoop_inv
    (fun k (st : ZoneTables α) =>
      st.weight_scv_tmp[z]? =
        (if z < k ∧ counts.getD z 0 ≠ 0 then
          (t.weight_scv_tmp[z]?).map (fun l => l ++ [weights.getD z 0])
         else t.weight_scv_tmp[z]?) ∧
      st.index_scv_tmp[z]? =
        (if z < k ∧ counts.getD z 0 ≠ 0 then
          (t.index_scv_tmp[z]?).map (fun l => l ++ [i])
         else t.index_scv_tmp[z]?))
    0 num_zones _ t (Nat.zero_le _) (by simp) ?_
  intro k st _ _ ih
  obtain ⟨ih1, ih2⟩ := ih
  by_cases hk : k = z
  · subst hk
    have hlt : k < k + 1 := Nat.lt_succ_self k
    simp only [lt_irrefl, false_and, if_false] at ih1 ih2
    simp only [hlt, true_and]
    by_cases hc : counts.getD k 0 ≠ 0
    · simp only [ne_eq, hc, not_false_eq_true, if_true]
      constructor
      · rw [getElem?_set_getD st.weight_scv_tmp k k [] (fun l => l ++ [weights.getD k 0])]
        simp only [if_true, ih1]
      · rw [getElem?_set_getD st.index_scv_tmp k k [] (fun l => l ++ [i])]
        simp only [if_true, ih2]
    · have hc' : counts.getD k 0 = 0 := not_not.1 hc
      simp only [hc', ne_eq, not_true_eq_false, and_false, if_false]
      exact ⟨ih1, ih2⟩
  · have hki : z < k + 1 ↔ z < k := by omega
    simp only [hki]
    by_cases hc : counts.getD k 0 ≠ 0
    · simp only [ne_eq, hc, not_false_eq_true, if_true, List.getElem?_set_ne hk]
      exact ⟨ih1, ih2⟩
    · have hc' : counts.getD k 0 = 0 := not_not.1 hc
      simp only [hc', ne_eq, not_true_eq_false, if_false]
      exact ⟨ih1, ih2⟩

theorem getD_of_getElem? {β : Type} (l : List β) (z : Nat) (d x : β) (h : l[z]? = some x) :
    l.getD z d = x := by
  simp [h]

theorem getElem?_of_lt {β : Type} (l : List (List β)) (z : Nat) (h : z < l.length) :
    l[z]? = some (l.getD z []) := by
  simp [List.getElem?_eq_getElem h]

/-- Tables of zone `z` after the push loop for node `i`. -/
theorem push_loop_getD (num_zones i : Nat) (weights : List α) (counts : List Nat)
    (t : ZoneTables α) (hok : TablesOk num_zones t) (z : Nat) (hz : z < num_zones) :
    (initialise_vectors_push_loop num_zones i weights counts t).weight_scv_tmp.getD z [] =
      (if counts.getD z 0 ≠ 0 then t.weight_scv_tmp.getD z [] ++ [weights.getD z 0]
       else t.weight_scv_tmp.getD z []) ∧
    (initialise_vectors_push_loop num_zones i weights counts t).index_scv_tmp.getD z [] =
      (if counts.getD z 0 ≠ 0 then t.index_scv_tmp.getD z [] ++ [i]
       else t.index_scv_tmp.getD z []) := by
  obtain ⟨h1, h2⟩ := push_loop_getElem? num_zones i weights counts t z
  obtain ⟨ok1, ok2, _⟩ := hok
  rw [getElem?_of_lt t.weight_scv_tmp z (by omega)] at h1
  rw [getElem?_of_lt t.index_scv_tmp z (by omega)] at h2
  simp only [hz, true_and, Option.map_some'] at h1 h2
  constructor
  · apply getD_of_getElem?
    rw [h1]
    split <;> rfl
  · apply getD_of_getElem?
    rw [h2]
    split <;> rfl

theorem push_loop_getD_ge (num_zones i : Nat) (weights : List α) (counts : List Nat)
    (t : ZoneTables α) (hok : TablesOk num_zones t) (z : Nat) (hz : ¬ z < num_zones) :
    (initialise_vectors_push_loop num_zones i weights counts t).weight_scv_tmp.getD z [] = [] ∧
    (initialise_vectors_push_loop num_zones i weights counts t).index_scv_tmp.getD z [] = [] := by
  obtain ⟨h1, h2⟩ := push_loop_getElem? num_zones i weights counts t z
  obtain ⟨ok1, ok2, _⟩ := hok
  have e1 : t.weight_scv_tmp[z]? = none := List.getElem?_eq_none (by omega)
  have e2 : t.index_scv_tmp[z]? = none := List.getElem?_eq_none (by omega)
  simp only [hz, false_and, if_false, e1, e2] at h1 h2
  constructor
  · simp [h1]
  · simp [h2]

theorem push_loop_ok (num_zones i : Nat) (weights : List α) (counts : List Nat)
    (t : ZoneTables α) (hok : TablesOk num_zones t) :
    TablesOk num_zones (initialise_vectors_push_loop num_zones i weights counts t) := by
  obtain ⟨f1, f2, _⟩ := push_loop_frame num_zones i weights counts t
  refine ⟨by rw [f2]; exact hok.1, by rw [f1]; exact hok.2.1, ?_⟩
  intro z
  by_cases hz : z < num_zones
  · obtain ⟨g1, g2⟩ := push_loop_getD num_zones i weights counts t hok z hz
    rw [g1, g2]
    have := hok.2.2 z
    split
    · simp only [List.length_append, List.length_singleton, this]
    · exact this
  · obtain ⟨g1, g2⟩ := push_loop_getD_ge num_zones i weights counts t hok z hz
    rw [g1, g2]
    rfl

/-- The push loop adds the weights of node `i` to the sums of node `i` and to no other. -/
theorem push_loop_tableSum (num_zones i : Nat) (weights : List α) (counts : List Nat)
    (t : ZoneTables α) (hok : TablesOk num_zones t)
    (hw : weights.length = num_zones)
    (hzero : ∀ z, counts.getD z 0 = 0 → weights.getD z 0 = 0) (j : Nat) :
    tableSum num_zones
        (initialise_vectors_push_loop num_zones i weights counts t).index_scv_tmp
        (initialise_vectors_push_loop num_zones i weights counts t).weight_scv_tmp j =
      tableSum num_zones t.index_scv_tmp t.weight_scv_tmp j +
        (if i = j then weights.sum else 0) := by
  unfold tableSum
  have hterm : ∀ z ∈ List.range num_zones,
      zoneWeightOf
          ((initialise_vectors_push_loop num_zones i weights counts t).index_scv_tmp.getD z [])
          ((initialise_vectors_push_loop num_zones i weights counts t).weight_scv_tmp.getD z [])
          j =
        zoneWeightOf (t.index_scv_tmp.getD z []) (t.weight_scv_tmp.getD z []) j +
          (if i = j then weights.getD z 0 else 0) := by
    intro z hz
    have hz' : z < num_zones := List.mem_range.1 hz
    obtain ⟨g1, g2⟩ := push_loop_getD num_zones i weights counts t hok z hz'
    rw [g1, g2]
    by_cases hc : counts.getD z 0 = 0
    · have hw0 := hzero z hc
      simp only [hc, ne_eq, not_true_eq_false, if_false, hw0]
      simp
    · simp only [ne_eq, hc, not_false_eq_true, if_true]
      exact zoneWeightOf_append _ _ i j _ (hok.2.2 z)
  rw [List.map_congr_left hterm, List.sum_map_add]
  congr 1
  by_cases hij : i = j
  · simp only [hij, if_true]
    rw [← hw, map_getD_range]
  · simp [hij]

theorem getD_replicate_self {β : Type} (n z : Nat) (d : β) :
    (List.replicate n d).getD z d = d := by
  by_cases hz : z < n
  · simp [List.getElem?_replicate, hz]
  · simp [List.getElem?_replicate, hz]

/-- One pass of the loop over the nodes. -/
theorem initialise_vectors_node_spec (m : Mesh α) (num_zones : Nat) (t t' : ZoneTables α)
    (i : Nat) (hok : TablesOk num_zones t)
    (h : initialise_vectors_node m num_zones t i = some t') :
    TablesOk num_zones t' ∧
    ∀ j, tableSum num_zones t'.index_scv_tmp t'.weight_scv_tmp j =
      tableSum num_zones t.index_scv_tmp t.weight_scv_tmp j +
        (if i = j then
          ((m.volume i).scv.map (fun scv => scv.vol / (m.volume i).vol)).sum else 0) := by
  unfold initialise_vectors_node at h
  cases hloop : initialise_vectors_scv_loop num_zones (m.volume i) t.zones_map_ with
  | none => rw [hloop] at h; cases h
  | some acc =>
    rw [hloop] at h
    simp only [Option.some.injEq] at h
    unfold initialise_vectors_scv_loop at hloop
    obtain ⟨k1, _, k3, k4⟩ := scv_fold_inv num_zones (m.volume i).vol (m.volume i).scv _ acc
      (by simp) (by simp)
      (by
        intro z _
        exact getD_replicate_self num_zones z (0 : α))
      hloop
    have hsum : acc.weights.sum =
        ((m.volume i).scv.map (fun scv => scv.vol / (m.volume i).vol)).sum := by
      rw [k4]
      simp
    have hok' : TablesOk num_zones { t with zones_map_ := acc.zones_map_ } := hok
    subst h
    refine ⟨push_loop_ok num_zones i acc.weights acc.counts _ hok', ?_⟩
    intro j
    rw [push_loop_tableSum num_zones i acc.weights acc.counts _ hok' k1 k3 j, hsum]

/-- The loop over the first `n` nodes. -/
theorem initialise_vectors_nodes_spec (m : Mesh α) (num_zones : Nat) (n : Nat)
    (t0 t : ZoneTables α) (hok : TablesOk num_zones t0)
    (h : (List.range n).foldlM (initialise_vectors_node m num_zones) t0 = some t) :
    TablesOk num_zones t ∧
    ∀ j, tableSum num_zones t.index_scv_tmp t.weight_scv_tmp j =
      tableSum num_zones t0.index_scv_tmp t0.weight_scv_tmp j +
        (if j < n then
          ((m.volume j).scv.map (fun scv => scv.vol / (m.volume j).vol)).sum else 0) := by
  induction n generalizing t with
  | zero =>
    simp only [List.range_zero, List.foldlM_nil] at h
    cases h
    exact ⟨hok, by intro j; simp⟩
  | succ n ih =>
    rw [List.range_succ, List.foldlM_append] at h
    cases hpre : (List.range n).foldlM (initialise_vectors_node m num_zones) t0 with
    | none => rw [hpre] at h; cases h
    | some t1 =>
      rw [hpre] at h
      obtain ⟨ok1, s1⟩ := ih t1 hpre
      have hstep : initialise_vectors_node m num_zones t1 n = some t := by
        cases hn : initialise_vectors_node m num_zones t1 n with
        | none => simp [hn] at h
        | some t2 => simpa [hn] using h
      obtain ⟨ok2, s2⟩ := initialise_vectors_node_spec m num_zones t1 t n ok1 hstep
      refine ⟨ok2, ?_⟩
      intro j
      rw [s2 j, s1 j, add_assoc]
      congr 1
      by_cases hjn : j < n
      · have h1 : ¬ n = j := by omega
        have h2 : j < n + 1 := by omega
        simp [hjn, h1, h2]
      · by_cases hj : n = j
        · subst hj
          simp
        · have h2 : ¬ j < n + 1 := by omega
          simp [hjn, hj, h2]

end ZoneTableLemmas

/-! ## The zone tables are built for every consistent mesh -/

section ZoneTableSuccess

theorem mem_setInsert_self (x : Int) (l : List Int) : x ∈ setInsert x l := by
  induction l with
  | nil => simp [setInsert]
  | cons y ys ih =>
    unfold setInsert
    split
    · simp
    · split
      · rename_i hxy
        simp [hxy]
      · simp [ih]

theorem mem_setInsert_of_mem (x y : Int) (l : List Int) (h : y ∈ l) : y ∈ setInsert x l := by
  induction l with
  | nil => cases h
  | cons z zs ih =>
    unfold setInsert
    split
    · exact List.mem_cons_of_mem _ h
    · split
      · exact h
      · rcases List.mem_cons.1 h with hz | hz
        · simp [hz]
        · exact List.mem_cons_of_mem _ (ih hz)

theorem mapFind_mapAssign (zm : List (Int × Nat)) (k k' : Int) (v : Nat) :
    mapFind (mapAssign zm k v) k' = if k' = k then some v else mapFind zm k' := by
  induction zm with
  | nil =>
    by_cases h : k' = k
    · simp [mapAssign, mapFind, h]
    · have h' : ¬ k = k' := fun e => h e.symm
      simp [mapAssign, mapFind, h, h']
  | cons p rest ih =>
    obtain ⟨pk, pv⟩ := p
    unfold mapAssign
    split
    · by_cases h : k' = k
      · simp [mapFind, h]
      · have h' : ¬ k = k' := fun e => h e.symm
        simp [mapFind, h, h']
    · split
      · rename_i hk
        subst hk
        by_cases h : k' = k
        · simp [mapFind, h]
        · have h' : ¬ k = k' := fun e => h e.symm
          simp [mapFind, h, h']
      · rename_i hk
        by_cases h : k' = k
        · subst h
          have hne : ¬ pk = k' := fun e => hk e.symm
          have ih' := ih
          simp only [if_true] at ih'
          simp only [mapFind] at ih' ⊢
          simp [List.find?_cons, hne, ih']
        · simp only [h, if_false] at ih
          simp only [mapFind] at ih ⊢
          by_cases hp : pk = k'
          · simp [List.find?_cons, hp, h]
          · simp [List.find?_cons, hp, ih, h]

/-- Every element tag is in the set `zones`. -/
theorem mem_initialise_vectors_zones {α : Type} (m : Mesh α) (e : Nat)
    (he : e < m.elements) :
    m.element_physical_tag e ∈ initialise_vectors_zones m := by
  unfold initialise_vectors_zones
  exact forLoop_inv (fun k z => ∀ e, e < k → m.element_physical_tag e ∈ z) 0 m.elements _ []
    (Nat.zero_le _) (by intro e h; omega)
    (by
      intro k z _ _ ih e hlt
      by_cases hek : e = k
      · subst hek
        exact mem_setInsert_self _ _
      · exact mem_setInsert_of_mem _ _ _ (ih e (by omega)))
    e he

variable {α : Type} [LinearOrderedField α]

/-- The loop `zones_map_[*it] = indx++` gives every listed tag an index below the number
of tags processed. -/
theorem zones_map_fold (l : List Int) (zm0 : List (Int × Nat)) (n0 : Nat) (tag : Int)
    (h : tag ∈ l ∨ ∃ v, v < n0 ∧ mapFind zm0 tag = some v) :
    ∃ v, v < (l.foldl (fun (acc : List (Int × Nat) × Nat) t =>
          (mapAssign acc.1 t acc.2, acc.2 + 1)) (zm0, n0)).2 ∧
      mapFind (l.foldl (fun (acc : List (Int × Nat) × Nat) t =>
          (mapAssign acc.1 t acc.2, acc.2 + 1)) (zm0, n0)).1 tag = some v := by
  induction l generalizing zm0 n0 with
  | nil =>
    rcases h with h | h
    · cases h
    · exact h
  | cons t rest ih =>
    rw [List.foldl_cons]
    apply ih
    by_cases htr : tag ∈ rest
    · exact Or.inl htr
    · right
      by_cases htt : tag = t
      · exact ⟨n0, Nat.lt_succ_self n0, by rw [mapFind_mapAssign]; simp [htt]⟩
      · rcases h with h | ⟨v, hv, hf⟩
        · rcases List.mem_cons.1 h with h1 | h1
          · exact absurd h1 htt
          · exact absurd h1 htr
        · exact ⟨v, Nat.lt_succ_of_lt hv, by rw [mapFind_mapAssign]; simp [htt, hf]⟩

theorem zones_map_fold_snd (l : List Int) (zm0 : List (Int × Nat)) (n0 : Nat) :
    (l.foldl (fun (acc : List (Int × Nat) × Nat) t =>
        (mapAssign acc.1 t acc.2, acc.2 + 1)) (zm0, n0)).2 = n0 + l.length := by
  induction l generalizing zm0 n0 with
  | nil => simp
  | cons t rest ih =>
    rw [List.foldl_cons, ih]
    simp
    omega

/-- The loop over the sub-control-volumes succeeds and leaves `zones_map_` as it was when
every tag it reads is a key with a value below `num_zones`. -/
theorem scv_fold_some (num_zones : Nat) (cv_vol : α) (l : List (SCV α)) (acc : ScvAccum α)
    (h : ∀ scv ∈ l, ∃ v, v < num_zones ∧
      mapFind acc.zones_map_ scv.element_physical_tag = some v) :
    ∃ res, l.foldlM (initialise_vectors_scv_step num_zones cv_vol) acc = some res ∧
      res.zones_map_ = acc.zones_map_ := by
  induction l generalizing acc with
  | nil => exact ⟨acc, rfl, rfl⟩
  | cons scv rest ih =>
    obtain ⟨v, hv, hf⟩ := h scv (List.mem_cons_self _ _)
    have hsub : mapSubscript acc.zones_map_ scv.element_physical_tag = (v, acc.zones_map_) := by
      simp [mapSubscript, hf]
    rw [List.foldlM_cons]
    have hstep : initialise_vectors_scv_step num_zones cv_vol acc scv = some
        { zones_map_ := acc.zones_map_
          weights := acc.weights.set v (acc.weights.getD v 0 + scv.vol / cv_vol)
          counts := acc.counts.set v (acc.counts.getD v 0 + 1) } := by
      simp only [initialise_vectors_scv_step, hsub, hv, if_true]
    rw [hstep]
    obtain ⟨res, hres, hzm⟩ := ih
      { zones_map_ := acc.zones_map_
        weights := acc.weights.set v (acc.weights.getD v 0 + scv.vol / cv_vol)
        counts := acc.counts.set v (acc.counts.getD v 0 + 1) }
      (fun scv' hmem => h scv' (List.mem_cons_of_mem _ hmem))
    exact ⟨res, hres, hzm⟩

/-- The loop over the first `n` nodes succeeds and leaves `zones_map_` as it was. -/
theorem nodes_fold_some (m : Mesh α) (num_zones n : Nat) (t0 : ZoneTables α)
    (h : ∀ i, i < n → ∀ scv ∈ (m.volume i).scv, ∃ v, v < num_zones ∧
      mapFind t0.zones_map_ scv.element_physical_tag = some v) :
    ∃ t, (List.range n).foldlM (initialise_vectors_node m num_zones) t0 = some t ∧
      t.zones_map_ = t0.zones_map_ := by
  induction n with
  | zero => exact ⟨t0, rfl, rfl⟩
  | succ n ih =>
    obtain ⟨t1, h1, hz1⟩ := ih (fun i hi => h i (Nat.lt_succ_of_lt hi))
    rw [List.range_succ, List.foldlM_append, h1]
    obtain ⟨acc, hacc, hzacc⟩ := scv_fold_some num_zones (m.volume n).vol (m.volume n).scv
      { zones_map_ := t1.zones_map_
        weights := List.replicate num_zones 0
        counts := List.replicate num_zones 0 }
      (by
        intro scv hmem
        rw [hz1]
        exact h n (Nat.lt_succ_self n) scv hmem)
    have hnode : initialise_vectors_node m num_zones t1 n =
        some (initialise_vectors_push_loop num_zones n acc.weights acc.counts
          { t1 with zones_map_ := acc.zones_map_ }) := by
      unfold initialise_vectors_node initialise_vectors_scv_loop
      rw [hacc]
    have hstep : (some t1 >>= fun x =>
        List.foldlM (initialise_vectors_node m num_zones) x [n]) =
        some (initialise_vectors_push_loop num_zones n acc.weights acc.counts
          { t1 with zones_map_ := acc.zones_map_ }) := by
      simp [hnode]
    refine ⟨_, hstep, ?_⟩
    rw [(push_loop_frame num_zones n acc.weights acc.counts _).2.2]
    exact hzacc.trans hz1

/-- On a mesh in which the element of every sub-control-volume is an element of the mesh,
the construction of the zone tables returns. -/
theorem initialise_vectors_scv_returns (m : Mesh α) (s : VarSatPhysicsImpl α)
    (hmesh : ∀ i, i < m.nodes → ∀ scv ∈ (m.volume i).scv,
      ∃ e, e < m.elements ∧ m.element_physical_tag e = scv.element_physical_tag) :
    ∃ r, initialise_vectors_scv m s = some r := by
  obtain ⟨t, ht, _⟩ := nodes_fold_some m (initialise_vectors_zones m).length m.nodes
    { zones_map_ := initialise_vectors_zones_map (initialise_vectors_zones m) s.zones_map_
      weight_scv_tmp := List.replicate (initialise_vectors_zones m).length []
      index_scv_tmp := List.replicate (initialise_vectors_zones m).length []
      nodes_idx := List.replicate (initialise_vectors_zones m).length [] }
    (by
      intro i hi scv hmem
      obtain ⟨e, he, htag⟩ := hmesh i hi scv hmem
      have hz := mem_initialise_vectors_zones m e he
      rw [htag] at hz
      obtain ⟨v, hv, hf⟩ := zones_map_fold (initialise_vectors_zones m) s.zones_map_ 0
        scv.element_physical_tag (Or.inl hz)
      rw [zones_map_fold_snd] at hv
      exact ⟨v, by omega, hf⟩)
  unfold initialise_vectors_scv
  dsimp only
  rw [ht]
  exact ⟨_, rfl⟩

end ZoneTableSuccess

/-! ## Claim on the zone weights -/

section ZoneWeightClaim

variable {α : Type} [LinearOrderedField α]

/-- C4: after `initialise_vectors`, for every mesh node `i` whose control-volume volume is
non-zero and equal to the sum of the volumes of its sub-control-volumes, the sum over all
zones of the weight stored for `i` in `weight_scv` equals 1. -/
theorem zone_weights_sum_to_one (m : Mesh α) (s : VarSatPhysicsImpl α)
    (r : VarSatPhysicsImpl α × List (List (Int × Nat))) (i : Nat)
    (hrun : initialise_vectors_scv m s = some r) (hi : i < m.nodes)
    (hvol : (m.volume i).vol ≠ 0)
    (hpart : (m.volume i).vol = ((m.volume i).scv.map (fun scv => scv.vol)).sum) :
    nodeWeightSum r.1.index_scv r.1.weight_scv i = 1 := by
  unfold initialise_vectors_scv at hrun
  dsimp only at hrun
  cases hfold : (List.range m.nodes).foldlM
      (initialise_vectors_node m (initialise_vectors_zones m).length)
      { zones_map_ := initialise_vectors_zones_map (initialise_vectors_zones m) s.zones_map_
        weight_scv_tmp := List.replicate (initialise_vectors_zones m).length []
        index_scv_tmp := List.replicate (initialise_vectors_zones m).length []
        nodes_idx := List.replicate (initialise_vectors_zones m).length [] } with
  | none => rw [hfold] at hrun; cases hrun
  | some t =>
    rw [hfold] at hrun
    simp only [Option.some.injEq] at hrun
    obtain ⟨ok, hs⟩ := initialise_vectors_nodes_spec m (initialise_vectors_zones m).length
      m.nodes _ t
      (by
        refine ⟨by simp, by simp, ?_⟩
        intro z
        dsimp only
        rw [getD_replicate_self, getD_replicate_self]
        rfl)
      hfold
    have hidx : r.1.index_scv = t.index_scv_tmp := by
      rw [← hrun]
      dsimp only
      rw [← ok.1]
      exact map_getD_range t.index_scv_tmp []
    have hwt : r.1.weight_scv = t.weight_scv_tmp := by
      rw [← hrun]
      dsimp only
      rw [← ok.2.1]
      exact map_getD_range t.weight_scv_tmp []
    have hnw : nodeWeightSum r.1.index_scv r.1.weight_scv i =
        tableSum (initialise_vectors_zones m).length t.index_scv_tmp t.weight_scv_tmp i := by
      rw [hidx, hwt]
      unfold nodeWeightSum tableSum
      rw [ok.1]
    rw [hnw, hs i]
    have hzero : tableSum (initialise_vectors_zones m).length
        (List.replicate (initialise_vectors_zones m).length ([] : TIndexVec))
        (List.replicate (initialise_vectors_zones m).length ([] : TVec α)) i = 0 := by
      unfold tableSum
      have : ∀ z ∈ List.range (initialise_vectors_zones m).length,
          zoneWeightOf
            ((List.replicate (initialise_vectors_zones m).length ([] : TIndexVec)).getD z [])
            ((List.replicate (initialise_vectors_zones m).length ([] : TVec α)).getD z []) i
            = 0 := by
        intro z _
        rw [getD_replicate_self, getD_replicate_self]
        simp [zoneWeightOf]
      rw [List.map_congr_left this]
      simp
    dsimp only
    rw [hzero, zero_add]
    simp only [hi, if_true]
    rw [sum_map_div, ← hpart]
    exact div_self hvol

end ZoneWeightClaim

/-! ## Concrete evaluation of the zone tables -/

section ZoneWeightEvaluation

theorem zone_weights_sum_to_one_witness :
    nodeWeightSum sampleTables.1.index_scv sampleTables.1.weight_scv 1 = 1 :=
  zone_weights_sum_to_one sampleMesh sampleUpwind sampleTables 1
    (by
      have hz : initialise_vectors_zones sampleMesh = [10, 20] := by decide
      have hm : initialise_vectors_zones_map [10, 20] [] = [(10, 0), (20, 1)] := by decide
      unfold initialise_vectors_scv
      rw [hz]
      simp only [List.length_cons, List.length_nil, sampleUpwind, hm]
      simp [sampleMesh, List.range_succ, initialise_vectors_node,
        initialise_vectors_scv_loop, initialise_vectors_scv_step, mapSubscript, mapFind,
        initialise_vectors_push_loop,
        forLoop, List.range', mapAssign, sampleTables, sampleUpwind])
    (by decide) (by simp [sampleMesh]) (by norm_num [sampleMesh])

end ZoneWeightEvaluation

/-! ## Van Leer: the recorded nodes and the limiter formula -/

section VanLeerFormula

variable {α : Type} [LinearOrderedField α]

/-- The last Van Leer loop writes the two weight vectors only. -/
theorem vanleer_sigma_loop_frame (m : Mesh α) (s : VarSatPhysicsImpl α) :
    (vanleer_sigma_loop m s).edge_flux = s.edge_flux ∧
    (vanleer_sigma_loop m s).CV_flux = s.CV_flux ∧
    (vanleer_sigma_loop m s).edge_up = s.edge_up ∧
    (vanleer_sigma_loop m s).edge_down = s.edge_down := by
  have key := forLoop_preserves
    (fun st : VarSatPhysicsImpl α => (st.edge_flux, st.CV_flux, st.edge_up, st.edge_down))
    0 m.edges _ s
    (by
      intro i st
      dsimp only
      split
      · split <;> rfl
      · rfl :
      ∀ i (st : VarSatPhysicsImpl α),
        (fun st : VarSatPhysicsImpl α => (st.edge_flux, st.CV_flux, st.edge_up, st.edge_down))
          ((fun i (st : VarSatPhysicsImpl α) =>
            if st.edge_node_front_.getD i 0 < m.local_nodes ∨
                st.edge_node_back_.getD i 0 < m.local_nodes then
              let qup := |st.edge_flux.getD i 0|
              let q2up := st.CV_flux.getD (st.edge_up.getD i 0) 0
              let sigma := vanleer_sigma qup q2up
              if st.edge_flux.getD i 0 > 0 then
                { st with
                  edge_weight_back_ := st.edge_weight_back_.set i (sigma / 2)
                  edge_weight_front_ := st.edge_weight_front_.set i (1 - sigma / 2) }
              else
                { st with
                  edge_weight_back_ := st.edge_weight_back_.set i (1 - sigma / 2)
                  edge_weight_front_ := st.edge_weight_front_.set i (sigma / 2) }
            else st) i st) =
        (fun st : VarSatPhysicsImpl α => (st.edge_flux, st.CV_flux, st.edge_up, st.edge_down))
          st)
  simp only [Prod.mk.injEq] at key
  exact key

/-- Effect of the first Van Leer loop on entry `e` of `edge_up` and `edge_down`. -/
theorem vanleer_updown_loop_getElem? (m : Mesh α) (s : VarSatPhysicsImpl α) (e : Nat) :
    (vanleer_updown_loop m s).edge_up[e]? =
      (if e < m.edges then
        (s.edge_up[e]?).map
          (fun _ => if s.edge_flux.getD e 0 > 0 then m.edge_back_id e else m.edge_front_id e)
       else s.edge_up[e]?) ∧
    (vanleer_updown_loop m s).edge_down[e]? =
      (if e < m.edges then
        (s.edge_down[e]?).map
          (fun _ => if s.edge_flux.getD e 0 > 0 then m.edge_front_id e else m.edge_back_id e)
       else s.edge_down[e]?) := by
  unfold vanleer_updown_loop
  refine forLoop_inv
    (fun k st =>
      st.edge_flux = s.edge_flux ∧
      st.edge_up[e]? =
        (if e < k then
          (s.edge_up[e]?).map
            (fun _ => if s.edge_flux.getD e 0 > 0 then m.edge_back_id e else m.edge_front_id e)
         else s.edge_up[e]?) ∧
      st.edge_down[e]? =
        (if e < k then
          (s.edge_down[e]?).map
            (fun _ => if s.edge_flux.getD e 0 > 0 then m.edge_front_id e else m.edge_back_id e)
         else s.edge_down[e]?))
    0 m.edges _ s (Nat.zero_le _) (by simp) ?_ |>.2
  intro k st _ _ ih
  obtain ⟨ih0, ih1, ih2⟩ := ih
  by_cases hk : k = e
  · subst hk
    have hlt : k < k + 1 := Nat.lt_succ_self k
    simp only [lt_irrefl, if_false] at ih1 ih2
    simp only [hlt, if_true, ih0]
    by_cases hfl : s.edge_flux.getD k 0 > 0
    · simp only [hfl, if_true, List.getElem?_set', ih1, ih2]
      exact ⟨trivial, rfl, rfl⟩
    · simp only [hfl, if_false, List.getElem?_set', ih1, ih2]
      exact ⟨trivial, rfl, rfl⟩
  · have hki : e < k + 1 ↔ e < k := by omega
    by_cases hfl : st.edge_flux.getD k 0 > 0
    · simp only [hfl, if_true, List.getElem?_set_ne hk, hki]
      exact ⟨ih0, ih1, ih2⟩
    · simp only [hfl, if_false, List.getElem?_set_ne hk, hki]
      exact ⟨ih0, ih1, ih2⟩

theorem vanleer_reset_loop_updown (m : Mesh α) (s : VarSatPhysicsImpl α) :
    updownFrame (vanleer_reset_loop m s) = updownFrame s := by
  unfold vanleer_reset_loop
  apply forLoop_preserves updownFrame
  intro i st
  rfl

theorem vanleer_boundary_loop_updown (m : Mesh α) (s : VarSatPhysicsImpl α) :
    updownFrame (vanleer_boundary_loop m s) = updownFrame s := by
  unfold vanleer_boundary_loop
  apply forLoop_preserves updownFrame
  intro i st
  rfl

theorem vanleer_max_loop_updown (m : Mesh α) (s : VarSatPhysicsImpl α) :
    updownFrame (vanleer_max_loop m s) = updownFrame s := by
  unfold vanleer_max_loop
  apply forLoop_preserves updownFrame
  intro i st
  dsimp only
  split
  · split
    · split <;> rfl
    · rfl
  · rfl

end VanLeerFormula

section DefaultLoopUpdown

theorem vanleer_default_loop_updown {α : Type} (m : Mesh α) (s : VarSatPhysicsImpl α) :
    updownFrame (vanleer_default_loop m s) = updownFrame s := by
  unfold vanleer_default_loop
  apply forLoop_preserves updownFrame
  intro i st
  dsimp only
  split <;> rfl

end DefaultLoopUpdown

section VanLeerFinalState

variable {α : Type} [LinearOrderedField α]

/-- The vectors `edge_flux`, `CV_flux`, `edge_up`, `edge_down` at the end of the Van Leer
case are those on which the last loop ran. -/
theorem process_spatial_weights_vanleer_frame (exchange : TVec α → TVec α) (m : Mesh α)
    (s : VarSatPhysicsImpl α)
    (hmode : s.spatial_weighting = SpatialWeightType.weightVanLeer) :
    (process_spatial_weights exchange m s).edge_flux =
        (vanleer_before_sigma exchange m s).edge_flux ∧
    (process_spatial_weights exchange m s).CV_flux =
        (vanleer_before_sigma exchange m s).CV_flux ∧
    (process_spatial_weights exchange m s).edge_up =
        (vanleer_before_sigma exchange m s).edge_up ∧
    (process_spatial_weights exchange m s).edge_down =
        (vanleer_before_sigma exchange m s).edge_down := by
  rw [process_spatial_weights_vanleer exchange m s hmode]
  exact vanleer_sigma_loop_frame m _

/-- The vectors `edge_up` and `edge_down` before the last Van Leer loop are those left by
the first loop. -/
theorem vanleer_before_sigma_updown (exchange : TVec α → TVec α) (m : Mesh α)
    (s : VarSatPhysicsImpl α) :
    updownFrame (vanleer_before_sigma exchange m s) =
      updownFrame (vanleer_updown_loop m
        { s with edge_flux := s.flux_lim_matrix.matvec s.qdotn_faces }) := by
  unfold vanleer_before_sigma
  dsimp only
  change updownFrame (vanleer_default_loop m _) = _
  rw [vanleer_default_loop_updown, vanleer_max_loop_updown, vanleer_boundary_loop_updown,
    vanleer_reset_loop_updown]

/-- The nodes recorded for edge `e` at the end of the Van Leer case. -/
theorem process_spatial_weights_vanleer_updown (exchange : TVec α → TVec α) (m : Mesh α)
    (s : VarSatPhysicsImpl α) (e : Nat)
    (hmode : s.spatial_weighting = SpatialWeightType.weightVanLeer)
    (he : e < m.edges) (hup : e < s.edge_up.length) (hdown : e < s.edge_down.length) :
    (process_spatial_weights exchange m s).edge_up[e]? =
      some (if (process_spatial_weights exchange m s).edge_flux.getD e 0 > 0
        then m.edge_back_id e else m.edge_front_id e) ∧
    (process_spatial_weights exchange m s).edge_down[e]? =
      some (if (process_spatial_weights exchange m s).edge_flux.getD e 0 > 0
        then m.edge_front_id e else m.edge_back_id e) := by
  obtain ⟨f1, _, f3, f4⟩ := process_spatial_weights_vanleer_frame exchange m s hmode
  have hud := vanleer_before_sigma_updown exchange m s
  simp only [updownFrame, Prod.mk.injEq] at hud
  obtain ⟨u1, u2⟩ := hud
  obtain ⟨g1, g2⟩ := vanleer_updown_loop_getElem? m
    { s with edge_flux := s.flux_lim_matrix.matvec s.qdotn_faces } e
  rw [f1, f3, f4, u1, u2, g1, g2, (vanleer_before_sigma_frame exchange m s).2]
  simp only [he, if_true, List.getElem?_eq_getElem hup, List.getElem?_eq_getElem hdown,
    Option.map_some', and_self]

/-- The two weights of edge `e` at the end of the Van Leer case, in terms of the final
`edge_flux`, `CV_flux` and `edge_up`. -/
theorem process_spatial_weights_vanleer_weights (exchange : TVec α → TVec α) (m : Mesh α)
    (s : VarSatPhysicsImpl α) (e : Nat)
    (hmode : s.spatial_weighting = SpatialWeightType.weightVanLeer)
    (he : e < m.edges)
    (hloc : s.edge_node_front_.getD e 0 < m.local_nodes ∨
      s.edge_node_back_.getD e 0 < m.local_nodes)
    (hwf : e < s.edge_weight_front_.length) (hwb : e < s.edge_weight_back_.length) :
    (process_spatial_weights exchange m s).edge_weight_front_[e]? =
      some (vanleer_weight_front ((process_spatial_weights exchange m s).edge_flux.getD e 0)
        ((process_spatial_weights exchange m s).CV_flux.getD
          ((process_spatial_weights exchange m s).edge_up.getD e 0) 0)) ∧
    (process_spatial_weights exchange m s).edge_weight_back_[e]? =
      some (vanleer_weight_back ((process_spatial_weights exchange m s).edge_flux.getD e 0)
        ((process_spatial_weights exchange m s).CV_flux.getD
          ((process_spatial_weights exchange m s).edge_up.getD e 0) 0)) := by
  obtain ⟨f1, f2, f3, _⟩ := process_spatial_weights_vanleer_frame exchange m s hmode
  rw [f1, f2, f3]
  rw [process_spatial_weights_vanleer exchange m s hmode]
  obtain ⟨h1, h2⟩ := vanleer_sigma_loop_getElem? m (vanleer_before_sigma exchange m s) e
  have hfr := (vanleer_before_sigma_frame exchange m s).1
  simp only [weightFrame, Prod.mk.injEq] at hfr
  obtain ⟨g1, g2, g3, g4⟩ := hfr
  rw [g1, g3, g4] at h1
  rw [g2, g3, g4] at h2
  simp only [he, hloc, and_self, if_true, List.getElem?_eq_getElem hwf,
    List.getElem?_eq_getElem hwb, Option.map_some'] at h1 h2
  exact ⟨h1, h2⟩

end VanLeerFinalState

/-! ## Claims on the Van Leer limiter -/

section VanLeerClaims

variable {α : Type} [LinearOrderedField α]

/-- C12: in Van Leer mode, for every edge `e` touching a locally-owned node, with
`qup = |edge_flux[e]|`, `q2up = CV_flux[edge_up[e]]` (after the exchange) and
`r = q2up / qup`, the weights written are those of `sigma = 1` if `qup = 0`, `sigma = 2` if
`r > 1e10`, and `sigma = (r + |r|) / (1 + |r|)` otherwise: back weight `sigma/2` and front
weight `1 - sigma/2` if `edge_flux[e] > 0`, the two exchanged otherwise; `qup = 0` gives
the split 0.5/0.5. -/
theorem vanleer_weights_formula (exchange : TVec α → TVec α) (m : Mesh α)
    (s : VarSatPhysicsImpl α) (e : Nat) (qup q2up r sigma : α)
    (hmode : s.spatial_weighting = SpatialWeightType.weightVanLeer)
    (he : e < m.edges)
    (hloc : s.edge_node_front_.getD e 0 < m.local_nodes ∨
      s.edge_node_back_.getD e 0 < m.local_nodes)
    (hwf : e < s.edge_weight_front_.length) (hwb : e < s.edge_weight_back_.length)
    (hqup : qup = |(process_spatial_weights exchange m s).edge_flux.getD e 0|)
    (hq2up : q2up = (process_spatial_weights exchange m s).CV_flux.getD
      ((process_spatial_weights exchange m s).edge_up.getD e 0) 0)
    (hr : r = q2up / qup)
    (hsigma : sigma =
      if qup = 0 then 1 else if r > 10000000000 then 2 else (r + |r|) / (1 + |r|)) :
    ((process_spatial_weights exchange m s).edge_flux.getD e 0 > 0 →
      (process_spatial_weights exchange m s).edge_weight_back_[e]? = some (sigma / 2) ∧
      (process_spatial_weights exchange m s).edge_weight_front_[e]? = some (1 - sigma / 2)) ∧
    (¬ (process_spatial_weights exchange m s).edge_flux.getD e 0 > 0 →
      (process_spatial_weights exchange m s).edge_weight_back_[e]? = some (1 - sigma / 2) ∧
      (process_spatial_weights exchange m s).edge_weight_front_[e]? = some (sigma / 2)) ∧
    (qup = 0 →
      (process_spatial_weights exchange m s).edge_weight_back_[e]? = some (1 / 2) ∧
      (process_spatial_weights exchange m s).edge_weight_front_[e]? = some (1 / 2)) := by
  obtain ⟨w1, w2⟩ :=
    process_spatial_weights_vanleer_weights exchange m s e hmode he hloc hwf hwb
  have hs : sigma = vanleer_sigma qup q2up := by
    rw [hsigma, hr]
    rfl
  rw [w1, w2, ← hq2up]
  generalize (process_spatial_weights exchange m s).edge_flux.getD e 0 = fl at hqup ⊢
  unfold vanleer_weight_front vanleer_weight_back
  rw [← hqup, ← hs]
  refine ⟨?_, ?_, ?_⟩
  · intro hfl
    simp only [hfl, if_true, and_self]
  · intro hfl
    simp only [hfl, if_false, and_self]
  · intro hq
    have hfl0 : fl = 0 := by
      rw [hq] at hqup
      exact abs_eq_zero.1 hqup.symm
    have hnot : ¬ fl > 0 := by
      rw [hfl0]
      exact lt_irrefl 0
    have hs1 : sigma = 1 := by
      rw [hsigma]
      simp only [hq, if_true]
    simp only [hnot, if_false, hs1]
    norm_num

end VanLeerClaims

section VanLeerLargeRatio

variable {α : Type} [LinearOrderedField α]

/-- C13, amended: in Van Leer mode, for every edge `e` touching a locally-owned node with
`qup = |edge_flux[e]| ≠ 0` and ratio `r = CV_flux[edge_up[e]] / qup > 1e10`, `sigma = 2`
and the edge is fully upstream-weighted: the node recorded in `edge_up[e]` (the back node
if `edge_flux[e] > 0`, the front node otherwise) has weight 1 and the node recorded in
`edge_down[e]` has weight 0. -/
theorem vanleer_large_ratio_upstream (exchange : TVec α → TVec α) (m : Mesh α)
    (s : VarSatPhysicsImpl α) (e : Nat)
    (hmode : s.spatial_weighting = SpatialWeightType.weightVanLeer)
    (he : e < m.edges)
    (hloc : s.edge_node_front_.getD e 0 < m.local_nodes ∨
      s.edge_node_back_.getD e 0 < m.local_nodes)
    (hwf : e < s.edge_weight_front_.length) (hwb : e < s.edge_weight_back_.length)
    (hup : e < s.edge_up.length) (hdown : e < s.edge_down.length)
    (hqup : |(process_spatial_weights exchange m s).edge_flux.getD e 0| ≠ 0)
    (hr : (process_spatial_weights exchange m s).CV_flux.getD
        ((process_spatial_weights exchange m s).edge_up.getD e 0) 0 /
        |(process_spatial_weights exchange m s).edge_flux.getD e 0| > 10000000000) :
    vanleer_sigma |(process_spatial_weights exchange m s).edge_flux.getD e 0|
      ((process_spatial_weights exchange m s).CV_flux.getD
        ((process_spatial_weights exchange m s).edge_up.getD e 0) 0) = 2 ∧
    ((process_spatial_weights exchange m s).edge_flux.getD e 0 > 0 →
      (process_spatial_weights exchange m s).edge_up[e]? = some (m.edge_back_id e) ∧
      (process_spatial_weights exchange m s).edge_down[e]? = some (m.edge_front_id e) ∧
      (process_spatial_weights exchange m s).edge_weight_back_[e]? = some 1 ∧
      (process_spatial_weights exchange m s).edge_weight_front_[e]? = some 0) ∧
    (¬ (process_spatial_weights exchange m s).edge_flux.getD e 0 > 0 →
      (process_spatial_weights exchange m s).edge_up[e]? = some (m.edge_front_id e) ∧
      (process_spatial_weights exchange m s).edge_down[e]? = some (m.edge_back_id e) ∧
      (process_spatial_weights exchange m s).edge_weight_front_[e]? = some 1 ∧
      (process_spatial_weights exchange m s).edge_weight_back_[e]? = some 0) := by
  obtain ⟨w1, w2⟩ :=
    process_spatial_weights_vanleer_weights exchange m s e hmode he hloc hwf hwb
  obtain ⟨u1, u2⟩ :=
    process_spatial_weights_vanleer_updown exchange m s e hmode he hup hdown
  have hs : vanleer_sigma |(process_spatial_weights exchange m s).edge_flux.getD e 0|
      ((process_spatial_weights exchange m s).CV_flux.getD
        ((process_spatial_weights exchange m s).edge_up.getD e 0) 0) = 2 := by
    unfold vanleer_sigma
    simp only [hqup, if_false, hr, if_true]
  rw [w1, w2, u1, u2]
  unfold vanleer_weight_front vanleer_weight_back
  rw [hs]
  refine ⟨rfl, ?_, ?_⟩
  · intro hfl
    simp only [hfl, if_true]
    norm_num
  · intro hfl
    simp only [hfl, if_false]
    norm_num

end VanLeerLargeRatio

/-! ## Concrete evaluations of the Van Leer limiter -/

section VanLeerEvaluations

theorem sampleVanLeer_edge_flux :
    (process_spatial_weights id sampleMesh sampleVanLeer).edge_flux = [2, -2] := by
  rw [(process_spatial_weights_vanleer_frame id sampleMesh sampleVanLeer rfl).1,
    (vanleer_before_sigma_frame id sampleMesh sampleVanLeer).2]
  simp [sampleVanLeer, sampleUpwind, InterpolationMatrix.matvec, forLoop, List.range_succ,
    List.range']
  norm_num

theorem sampleVanLeer_CV_flux :
    (process_spatial_weights id sampleMesh sampleVanLeer).CV_flux = [2, 0, 0] := by
  rw [(process_spatial_weights_vanleer_frame id sampleMesh sampleVanLeer rfl).2.1]
  simp [vanleer_before_sigma, vanleer_default_loop, vanleer_max_loop, vanleer_boundary_loop,
    vanleer_reset_loop, vanleer_updown_loop, sampleVanLeer, sampleUpwind, sampleMesh,
    InterpolationMatrix.matvec, forLoop, List.range_succ, List.range']
  norm_num

theorem sampleSteep_edge_flux :
    (process_spatial_weights id sampleMesh sampleSteep).edge_flux = [1, 100000000000] := by
  rw [(process_spatial_weights_vanleer_frame id sampleMesh sampleSteep rfl).1,
    (vanleer_before_sigma_frame id sampleMesh sampleSteep).2]
  simp [sampleSteep, sampleVanLeer, sampleUpwind, InterpolationMatrix.matvec, forLoop,
    List.range_succ, List.range']
  norm_num

theorem sampleSteep_CV_flux :
    (process_spatial_weights id sampleMesh sampleSteep).CV_flux = [1, 100000000000, 0] := by
  rw [(process_spatial_weights_vanleer_frame id sampleMesh sampleSteep rfl).2.1]
  simp [vanleer_before_sigma, vanleer_default_loop, vanleer_max_loop, vanleer_boundary_loop,
    vanleer_reset_loop, vanleer_updown_loop, sampleSteep, sampleVanLeer, sampleUpwind,
    sampleMesh, InterpolationMatrix.matvec, forLoop, List.range_succ, List.range']
  norm_num

theorem sampleVanLeer_edge_up :
    (process_spatial_weights id sampleMesh sampleVanLeer).edge_up[0]? = some 1 := by
  rw [(process_spatial_weights_vanleer_updown id sampleMesh sampleVanLeer 0 rfl (by decide)
    (by decide) (by decide)).1, sampleVanLeer_edge_flux]
  simp [sampleMesh]

theorem sampleSteep_edge_up :
    (process_spatial_weights id sampleMesh sampleSteep).edge_up[0]? = some 1 := by
  rw [(process_spatial_weights_vanleer_updown id sampleMesh sampleSteep 0 rfl (by decide)
    (by decide) (by decide)).1, sampleSteep_edge_flux]
  simp [sampleMesh]

theorem vanleer_weights_formula_witness :
    ((process_spatial_weights id sampleMesh sampleVanLeer).edge_flux.getD 0 0 > 0 →
      (process_spatial_weights id sampleMesh sampleVanLeer).edge_weight_back_[0]?
        = some ((0 : ℚ) / 2) ∧
      (process_spatial_weights id sampleMesh sampleVanLeer).edge_weight_front_[0]?
        = some (1 - (0 : ℚ) / 2)) ∧
    (¬ (process_spatial_weights id sampleMesh sampleVanLeer).edge_flux.getD 0 0 > 0 →
      (process_spatial_weights id sampleMesh sampleVanLeer).edge_weight_back_[0]?
        = some (1 - (0 : ℚ) / 2) ∧
      (process_spatial_weights id sampleMesh sampleVanLeer).edge_weight_front_[0]?
        = some ((0 : ℚ) / 2)) ∧
    ((2 : ℚ) = 0 →
      (process_spatial_weights id sampleMesh sampleVanLeer).edge_weight_back_[0]?
        = some (1 / 2) ∧
      (process_spatial_weights id sampleMesh sampleVanLeer).edge_weight_front_[0]?
        = some (1 / 2)) :=
  vanleer_weights_formula id sampleMesh sampleVanLeer 0 2 0 0 0 rfl (by decide) (by decide)
    (by decide) (by decide)
    (by rw [sampleVanLeer_edge_flux]; norm_num)
    (by
      rw [getD_of_getElem? _ 0 0 1 sampleVanLeer_edge_up, sampleVanLeer_CV_flux]
      rfl)
    (by norm_num) (by norm_num)

theorem vanleer_large_ratio_upstream_witness :
    vanleer_sigma |(process_spatial_weights id sampleMesh sampleSteep).edge_flux.getD 0 0|
      ((process_spatial_weights id sampleMesh sampleSteep).CV_flux.getD
        ((process_spatial_weights id sampleMesh sampleSteep).edge_up.getD 0 0) 0) = 2 ∧
    ((process_spatial_weights id sampleMesh sampleSteep).edge_flux.getD 0 0 > 0 →
      (process_spatial_weights id sampleMesh sampleSteep).edge_up[0]?
        = some (sampleMesh.edge_back_id 0) ∧
      (process_spatial_weights id sampleMesh sampleSteep).edge_down[0]?
        = some (sampleMesh.edge_front_id 0) ∧
      (process_spatial_weights id sampleMesh sampleSteep).edge_weight_back_[0]? = some 1 ∧
      (process_spatial_weights id sampleMesh sampleSteep).edge_weight_front_[0]? = some 0) ∧
    (¬ (process_spatial_weights id sampleMesh sampleSteep).edge_flux.getD 0 0 > 0 →
      (process_spatial_weights id sampleMesh sampleSteep).edge_up[0]?
        = some (sampleMesh.edge_front_id 0) ∧
      (process_spatial_weights id sampleMesh sampleSteep).edge_down[0]?
        = some (sampleMesh.edge_back_id 0) ∧
      (process_spatial_weights id sampleMesh sampleSteep).edge_weight_front_[0]? = some 1 ∧
      (process_spatial_weights id sampleMesh sampleSteep).edge_weight_back_[0]? = some 0) :=
  vanleer_large_ratio_upstream id sampleMesh sampleSteep 0 rfl (by decide) (by decide)
    (by decide) (by decide) (by decide) (by decide)
    (by rw [sampleSteep_edge_flux]; norm_num)
    (by
      rw [getD_of_getElem? _ 0 0 1 sampleSteep_edge_up, sampleSteep_CV_flux,
        sampleSteep_edge_flux]
      norm_num)

/-- C13 fails as stated: on `sampleMesh` with edge fluxes `[1, 10^11]`, edge 0 has
`qup = 1` and ratio `10^11 > 1e10`; the node recorded in `edge_down[0]` is the front
node 0 and its weight is 0, while the node recorded in `edge_up[0]`, the back node 1, has
weight 1. -/
theorem vanleer_large_ratio_not_downstream :
    |(process_spatial_weights id sampleMesh sampleSteep).edge_flux.getD 0 0| ≠ 0 ∧
    (process_spatial_weights id sampleMesh sampleSteep).CV_flux.getD
        ((process_spatial_weights id sampleMesh sampleSteep).edge_up.getD 0 0) 0 /
        |(process_spatial_weights id sampleMesh sampleSteep).edge_flux.getD 0 0|
      > 10000000000 ∧
    (process_spatial_weights id sampleMesh sampleSteep).edge_down[0]?
      = some (sampleMesh.edge_front_id 0) ∧
    (process_spatial_weights id sampleMesh sampleSteep).edge_weight_front_[0]? = some 0 ∧
    (process_spatial_weights id sampleMesh sampleSteep).edge_up[0]?
      = some (sampleMesh.edge_back_id 0) ∧
    (process_spatial_weights id sampleMesh sampleSteep).edge_weight_back_[0]? = some 1 ∧
    sampleMesh.edge_front_id 0 ≠ sampleMesh.edge_back_id 0 ∧
    (0 : ℚ) ≠ 1 := by
  have hq : |(process_spatial_weights id sampleMesh sampleSteep).edge_flux.getD 0 0| ≠ 0 := by
    rw [sampleSteep_edge_flux]; norm_num
  have hr : (process_spatial_weights id sampleMesh sampleSteep).CV_flux.getD
        ((process_spatial_weights id sampleMesh sampleSteep).edge_up.getD 0 0) 0 /
        |(process_spatial_weights id sampleMesh sampleSteep).edge_flux.getD 0 0|
      > 10000000000 := by
    rw [getD_of_getElem? _ 0 0 1 sampleSteep_edge_up, sampleSteep_CV_flux,
      sampleSteep_edge_flux]
    norm_num
  obtain ⟨w1, w2⟩ := process_spatial_weights_vanleer_weights id sampleMesh sampleSteep 0 rfl
    (by decide) (by decide) (by decide) (by decide)
  obtain ⟨u1, u2⟩ := process_spatial_weights_vanleer_updown id sampleMesh sampleSteep 0 rfl
    (by decide) (by decide) (by decide)
  rw [getD_of_getElem? _ 0 0 1 sampleSteep_edge_up, sampleSteep_CV_flux,
    sampleSteep_edge_flux] at w1 w2
  rw [sampleSteep_edge_flux] at u1 u2
  refine ⟨hq, hr, ?_, ?_, ?_, ?_, by decide, by norm_num⟩
  · rw [u2]; norm_num
  · rw [w1]; norm_num [vanleer_weight_front, vanleer_sigma]
  · rw [u1]; norm_num
  · rw [w2]; norm_num [vanleer_weight_back, vanleer_sigma]

end VanLeerEvaluations

/-! ## Relative permeability over the reals -/

section MualemClaim

/-- C11: for every index `i` with `h[i] < 0` (`alphaVG > 0`, `mVG > 0`), the host path of
`saturation`, run with the real power and the real square root, returns the Mualem relative
permeability `krw[i] = sqrt(Sw_eff) * (1 - (1 - Sw_eff^(1/mVG))^mVG)^2` with
`Sw_eff = (1 + (-alphaVG * h[i])^nVG)^(-mVG)`. -/
theorem saturation_unsaturated_krw (h : TVec ℝ) (props : PhysicalZone ℝ)
    (Sw dSw krw : TVec ℝ) (i : Nat)
    (hSw : Sw.length = h.length) (hdSw : dSw.length = h.length)
    (hkrw : krw.length = h.length) (hi : i < h.length) (hneg : h.getD i 0 < 0)
    (halpha : props.alphaVG > 0) (hm : props.mVG > 0) :
    (saturation (fun x y : ℝ => x ^ y) Real.sqrt h props Sw dSw krw).krw[i]? =
      some (Real.sqrt ((1 + (-props.alphaVG * h.getD i 0) ^ props.nVG) ^ (-props.mVG)) *
        (1 - (1 - ((1 + (-props.alphaVG * h.getD i 0) ^ props.nVG) ^ (-props.mVG))
          ^ (1 / props.mVG)) ^ props.mVG) ^ 2) := by
  obtain ⟨hx, ⟨a, ha⟩, ⟨b, hb⟩, ⟨c, hc⟩⟩ :=
    saturation_entries_exist h Sw dSw krw i hSw hdSw hkrw hi
  have key := (saturation_getElem? (fun x y : ℝ => x ^ y) Real.sqrt h props Sw dSw krw i _
    a b c hx ha hb hc).2.2
  have hneg' : ¬ 0 ≤ h.getD i 0 := not_le.2 hneg
  simp only [hneg', if_false] at key
  rw [key]
  congr 1
  have hbase : 0 ≤ -props.alphaVG * h.getD i 0 := by nlinarith
  have hA : 0 ≤ (-props.alphaVG * h.getD i 0) ^ props.nVG := Real.rpow_nonneg hbase _
  generalize (-props.alphaVG * h.getD i 0) ^ props.nVG = A at hA ⊢
  have hB : 0 < 1 + A := by linarith
  have hroot : ((1 + A) ^ (-props.mVG)) ^ (1 / props.mVG) = 1 / (1 + A) := by
    rw [← Real.rpow_mul (le_of_lt hB)]
    have : -props.mVG * (1 / props.mVG) = -1 := by
      field_simp
    rw [this, Real.rpow_neg_one, one_div]
  rw [hroot, add_comm A 1, Real.rpow_two]
  have e : -1 / (1 + A) + 1 = 1 - 1 / (1 + A) := by ring
  rw [e]
  ring

theorem saturation_unsaturated_krw_witness :
    (saturation (fun x y : ℝ => x ^ y) Real.sqrt [-1]
        { K_xx := 1, K_yy := 1, K_zz := 1, phi := 1 / 2, alpha := 0, alphaVG := 2, nVG := 2,
          mVG := 1 / 2, S_r := 1 / 10, Dm := 0 }
        [0] [0] [0]).krw[0]? =
      some (Real.sqrt ((1 + (-(2 : ℝ) * ([-1] : List ℝ).getD 0 0) ^ (2 : ℝ)) ^ (-(1 / 2 : ℝ))) *
        (1 - (1 - ((1 + (-(2 : ℝ) * ([-1] : List ℝ).getD 0 0) ^ (2 : ℝ)) ^ (-(1 / 2 : ℝ)))
          ^ (1 / (1 / 2 : ℝ))) ^ (1 / 2 : ℝ)) ^ 2) :=
  saturation_unsaturated_krw [-1]
    { K_xx := 1, K_yy := 1, K_zz := 1, phi := 1 / 2, alpha := 0, alphaVG := 2, nVG := 2,
      mVG := 1 / 2, S_r := 1 / 10, Dm := 0 }
    [0] [0] [0] 0 rfl rfl rfl (by decide) (by simp) (by norm_num) (by norm_num)

end MualemClaim

/-! ## Fluxes over the faces -/

section FluxLemmas

theorem forLoopM_empty {σ : Type} (lo hi : Nat) (body : Nat → σ → Option σ) (s : σ)
    (h : hi ≤ lo) : forLoopM lo hi body s = some s := by
  unfold forLoopM
  have : hi - lo = 0 := by omega
  rw [this]
  rfl

theorem forLoopM_succ {σ : Type} (lo hi : Nat) (body : Nat → σ → Option σ) (s : σ)
    (h : lo ≤ hi) :
    forLoopM lo (hi + 1) body s = (forLoopM lo hi body s).bind (body hi) := by
  unfold forLoopM
  have e : hi + 1 - lo = (hi - lo) + 1 := by omega
  rw [e, List.range'_concat, List.foldlM_append]
  have e2 : lo + (hi - lo) = hi := by omega
  cases h1 : List.foldlM (fun st i => body i st) s (List.range' lo (hi - lo)) with
  | none => rfl
  | some st =>
    simp only [Option.bind_eq_bind, Option.some_bind, Option.bind]
    simp [e2]

/-- Invariant rule for counted loops that can fail. -/
theorem forLoopM_inv {σ : Type} (P : Nat → σ → Prop) (lo hi : Nat)
    (body : Nat → σ → Option σ) (s s' : σ) (hle : lo ≤ hi) (h0 : P lo s)
    (hstep : ∀ i st st', lo ≤ i → i < hi → P i st → body i st = some st' → P (i + 1) st')
    (hrun : forLoopM lo hi body s = some s') : P hi s' := by
  induction hi, hle using Nat.le_induction generalizing s' with
  | base =>
    rw [forLoopM_empty lo lo body s (Nat.le_refl lo)] at hrun
    cases hrun
    exact h0
  | succ k hk ih =>
    rw [forLoopM_succ lo k body s hk] at hrun
    cases hpre : forLoopM lo k body s with
    | none => rw [hpre] at hrun; cases hrun
    | some st =>
      rw [hpre] at hrun
      exact hstep k st s' hk (Nat.lt_succ_self k)
        (ih st (fun i a b h1 h2 hp hb => hstep i a b h1 (Nat.lt_succ_of_lt h2) hp hb) hpre)
        hrun

/-- A loop that can fail returns when its body returns on every state that satisfies an
invariant. -/
theorem forLoopM_some {σ : Type} (P : σ → Prop) (lo hi : Nat)
    (body : Nat → σ → Option σ) (s : σ) (h0 : P s)
    (hstep : ∀ i st, lo ≤ i → i < hi → P st → ∃ st', body i st = some st' ∧ P st') :
    ∃ s', forLoopM lo hi body s = some s' ∧ P s' := by
  rcases Nat.le_total lo hi with hle | hle
  · induction hi, hle using Nat.le_induction with
    | base => exact ⟨s, forLoopM_empty lo lo body s (Nat.le_refl lo), h0⟩
    | succ k hk ih =>
      obtain ⟨st, hst, hp⟩ := ih (fun i a h1 h2 hp => hstep i a h1 (Nat.lt_succ_of_lt h2) hp)
      obtain ⟨st', hb, hp'⟩ := hstep k st hk (Nat.lt_succ_self k) hp
      refine ⟨st', ?_, hp'⟩
      rw [forLoopM_succ lo k body s hk, hst]
      exact hb
  · exact ⟨s, forLoopM_empty lo hi body s hle, h0⟩

theorem updateRange_getElem? {α : Type} [Zero α] (f : α → α → α) (x : TVec α) (n : Nat)
    (e : TVec α) (i : Nat) :
    (updateRange f x n e)[i]? =
      (x[i]?).map (fun v => if i < n then f v (e.getD i 0) else v) := by
  unfold updateRange
  rw [List.getElem?_mapIdx]

theorem getElem?_eq_some_getD {β : Type} (l : List β) (i : Nat) (d : β) (h : i < l.length) :
    l[i]? = some (l.getD i d) := by
  simp [List.getElem?_eq_getElem h]

end FluxLemmas

section FluxStages

variable {α : Type} [LinearOrderedField α]

theorem assignAll_getD (x e : TVec α) (i : Nat) (hx : i < x.length) (he : i < e.length) :
    (assignAll x e)[i]? = some (e.getD i 0) :=
  assignAll_getElem? x e i _ _ (getElem?_eq_some_getD x i 0 hx) (getElem?_eq_some_getD e i 0 he)

theorem zipAll_getD (f : α → α → α) (x y : TVec α) (i : Nat) (a b : α)
    (hx : x[i]? = some a) (hy : i < y.length) (hb : y.getD i 0 = b) :
    (zipAll f x y)[i]? = some (f a b) := by
  have := zipAll_getElem? f x y i a _ hx (getElem?_eq_some_getD y i 0 hy)
  rw [hb] at this
  exact this

/-- The interior range of `qdotn_faces` after the first part of `process_fluxes`. -/
theorem process_fluxes_qdotn_interior (m : Mesh α) (s : VarSatPhysicsImpl α) (i : Nat)
    (hs : FluxSized m s) (hi : i < m.interior_cvfaces) :
    (process_fluxes_qdotn m s).qdotn_faces[i]? = some (faceQdotn m s i) := by
  unfold FluxSized at hs
  obtain ⟨g1, g2, g3, q1, q2, q3, k1, k2, k3, n1, n2, n3, _, _, d1, _, hle⟩ := hs
  have lg1 : i < s.grad_h_faces_.x.length := by rw [g1]; exact hi
  have lg2 : i < s.grad_h_faces_.y.length := by rw [g2]; exact hi
  have lg3 : i < s.grad_h_faces_.z.length := by rw [g3]; exact hi
  have lq1 : i < s.qsat_faces_.x.length := by rw [q1]; exact hi
  have lq2 : i < s.qsat_faces_.y.length := by rw [q2]; exact hi
  have lq3 : i < s.qsat_faces_.z.length := by rw [q3]; exact hi
  have lk1 : i < s.K_faces_.x.length := by rw [k1]; exact hi
  have lk2 : i < s.K_faces_.y.length := by rw [k2]; exact hi
  have lk3 : i < s.K_faces_.z.length := by rw [k3]; exact hi
  have ln1 : i < s.norm_faces_.x.length := by rw [n1]; exact hi
  have ln2 : i < s.norm_faces_.y.length := by rw [n2]; exact hi
  have ln3 : i < s.norm_faces_.z.length := by rw [n3]; exact hi
  have ld : i < s.qdotn_faces.length := by rw [d1]; exact lt_of_lt_of_le hi hle
  have hq : s.qdotn_faces[i]? = some (s.qdotn_faces.getD i 0) :=
    getElem?_eq_some_getD _ i 0 ld
  have ex := assignAll_getD s.qsat_faces_.x s.grad_h_faces_.x i lq1 lg1
  have ex2 := zipAll_getD (fun a b => a * b) _ s.K_faces_.x i _ _ ex lk1 rfl
  have ey := assignAll_getD s.qsat_faces_.y s.grad_h_faces_.y i lq2 lg2
  have enx : s.norm_faces_.x[i]? = some (s.norm_faces_.x.getD i 0) :=
    getElem?_eq_some_getD _ i 0 ln1
  have eny : s.norm_faces_.y[i]? = some (s.norm_faces_.y.getD i 0) :=
    getElem?_eq_some_getD _ i 0 ln2
  have enz : s.norm_faces_.z[i]? = some (s.norm_faces_.z.getD i 0) :=
    getElem?_eq_some_getD _ i 0 ln3
  have px := zipAll_getElem? (fun a b => a * b) _ _ i _ _ enx ex2
  by_cases hd2 : m.dim = 2
  · have ey1 := mapAll_getElem? (fun a => a + 1) _ i _ ey
    have ey2 := zipAll_getD (fun a b => a * b) _ s.K_faces_.y i _ _ ey1 lk2 rfl
    have py := zipAll_getElem? (fun a b => a * b) _ _ i _ _ eny ey2
    simp only [process_fluxes_qdotn, hd2, if_true, faceQdotn]
    simp only [show ¬ ((2 : Nat) = 3) by decide, if_false]
    rw [updateRange_getElem?, updateRange_getElem?, hq]
    simp only [Option.map_some', hi, if_true]
    rw [getD_of_getElem? _ i 0 _ px, getD_of_getElem? _ i 0 _ py]
  · have ey2 := zipAll_getD (fun a b => a * b) _ s.K_faces_.y i _ _ ey lk2 rfl
    have py := zipAll_getElem? (fun a b => a * b) _ _ i _ _ eny ey2
    have ez := assignAll_getD s.qsat_faces_.z s.grad_h_faces_.z i lq3 lg3
    have ez1 := mapAll_getElem? (fun a => a + 1) _ i _ ez
    have ez2 := zipAll_getD (fun a b => a * b) _ s.K_faces_.z i _ _ ez1 lk3 rfl
    have pz := zipAll_getElem? (fun a b => a * b) _ _ i _ _ enz ez2
    by_cases hd3 : m.dim = 3
    · simp only [process_fluxes_qdotn, hd3, if_true, faceQdotn]
      simp only [show ¬ ((3 : Nat) = 2) by decide, if_false]
      rw [updateRange_getElem?, updateRange_getElem?, updateRange_getElem?, hq]
      simp only [Option.map_some', hi, if_true]
      rw [getD_of_getElem? _ i 0 _ px, getD_of_getElem? _ i 0 _ py,
        getD_of_getElem? _ i 0 _ pz]
    · simp only [process_fluxes_qdotn, hd2, hd3, if_false, faceQdotn]
      rw [updateRange_getElem?, updateRange_getElem?, hq]
      simp only [Option.map_some', hi, if_true]
      rw [getD_of_getElem? _ i 0 _ px, getD_of_getElem? _ i 0 _ py]

/-- The first part of `process_fluxes` leaves the boundary range of `qdotn_faces` and the
other members as they were. -/
theorem process_fluxes_qdotn_frame (m : Mesh α) (s : VarSatPhysicsImpl α) :
    (∀ i, ¬ i < m.interior_cvfaces →
      (process_fluxes_qdotn m s).qdotn_faces[i]? = s.qdotn_faces[i]?) ∧
    (process_fluxes_qdotn m s).qdotn_faces.length = s.qdotn_faces.length ∧
    (process_fluxes_qdotn m s).M_flux_faces = s.M_flux_faces ∧
    fluxInputs (process_fluxes_qdotn m s) = fluxInputs s := by
  refine ⟨?_, ?_, rfl, rfl⟩
  · intro i hi
    by_cases hd3 : m.dim = 3
    · simp only [process_fluxes_qdotn, hd3, if_true]
      rw [updateRange_getElem?, updateRange_getElem?, updateRange_getElem?]
      cases s.qdotn_faces[i]? <;> simp [hi]
    · simp only [process_fluxes_qdotn, hd3, if_false]
      rw [updateRange_getElem?, updateRange_getElem?]
      cases s.qdotn_faces[i]? <;> simp [hi]
  · by_cases hd3 : m.dim = 3
    · simp [process_fluxes_qdotn, hd3, updateRange]
    · simp [process_fluxes_qdotn, hd3, updateRange]

end FluxStages

section FluxLoops

variable {α : Type} [LinearOrderedField α]

/-- Effect of the loop over the interior faces on entry `i` of `qdotn_faces` and of
`M_flux_faces`. -/
theorem process_fluxes_interior_loop_getElem? (m : Mesh α) (s : VarSatPhysicsImpl α)
    (i : Nat) (hlen : i < s.qdotn_faces.length) :
    fluxInputs (process_fluxes_interior_loop m s) = fluxInputs s ∧
    (process_fluxes_interior_loop m s).qdotn_faces.length = s.qdotn_faces.length ∧
    (process_fluxes_interior_loop m s).qdotn_faces[i]? =
      (if i < m.interior_cvfaces then
        some (s.qdotn_faces.getD i 0 * s.krw_faces_lim.getD i 0)
       else s.qdotn_faces[i]?) ∧
    (process_fluxes_interior_loop m s).M_flux_faces[i]? =
      (if i < m.interior_cvfaces then
        (s.M_flux_faces[i]?).map (fun _ =>
          s.rho_faces_lim.getD i 0 * (s.qdotn_faces.getD i 0 * s.krw_faces_lim.getD i 0))
       else s.M_flux_faces[i]?) := by
  unfold process_fluxes_interior_loop
  refine forLoop_inv
    (fun k st =>
      fluxInputs st = fluxInputs s ∧
      st.qdotn_faces.length = s.qdotn_faces.length ∧
      st.qdotn_faces[i]? =
        (if i < k then some (s.qdotn_faces.getD i 0 * s.krw_faces_lim.getD i 0)
         else s.qdotn_faces[i]?) ∧
      st.M_flux_faces[i]? =
        (if i < k then
          (s.M_flux_faces[i]?).map (fun _ =>
            s.rho_faces_lim.getD i 0 * (s.qdotn_faces.getD i 0 * s.krw_faces_lim.getD i 0))
         else s.M_flux_faces[i]?))
    0 m.interior_cvfaces _ s (Nat.zero_le _) (by simp) ?_
  intro k st _ _ ih
  obtain ⟨ih0, ihl, ih1, ih2⟩ := ih
  have hin := ih0
  simp only [fluxInputs, Prod.mk.injEq] at hin
  obtain ⟨e1, e2, _, _, _⟩ := hin
  refine ⟨ih0, by simp [ihl], ?_, ?_⟩
  · by_cases hk : k = i
    · subst hk
      simp only [lt_irrefl, if_false] at ih1
      have hq : st.qdotn_faces.getD k 0 = s.qdotn_faces.getD k 0 := by
        simp [ih1]
      simp only [Nat.lt_succ_self, if_true, hq, e1]
      rw [List.getElem?_set]
      simp [ihl, hlen]
    · have hki : i < k + 1 ↔ i < k := by omega
      simp only [hki, List.getElem?_set_ne hk]
      exact ih1
  · by_cases hk : k = i
    · subst hk
      simp only [lt_irrefl, if_false] at ih1 ih2
      have hq : st.qdotn_faces.getD k 0 = s.qdotn_faces.getD k 0 := by
        simp [ih1]
      have hset : (st.qdotn_faces.set k (s.qdotn_faces.getD k 0 * s.krw_faces_lim.getD k 0)).getD
          k 0 = s.qdotn_faces.getD k 0 * s.krw_faces_lim.getD k 0 := by
        apply getD_of_getElem?
        rw [List.getElem?_set]
        simp [ihl, hlen]
      simp only [Nat.lt_succ_self, if_true, hq, e1, e2, hset]
      rw [List.getElem?_set', ih2, if_pos rfl]
      rfl
    · have hki : i < k + 1 ↔ i < k := by omega
      simp only [hki, List.getElem?_set_ne hk]
      exact ih2

/-- The members that the boundary loop leaves alone. -/
theorem process_fluxes_boundary_step_frame (t : α) (m : Mesh α) (k : Nat)
    (st st' : VarSatPhysicsImpl α) (h : process_fluxes_boundary_step t m k st = some st') :
    fluxInputs st' = fluxInputs st ∧ st'.M_flux_faces = st.M_flux_faces ∧
    st'.qdotn_faces.length = st.qdotn_faces.length ∧
    ∃ BC, boundary_condition_h st (m.cvface_boundary k) = some BC ∧
      st'.qdotn_faces = (if BC.type = 3 ∨ BC.type = 6 ∨ BC.type = 7 ∨ BC.type = 8 then
        st.qdotn_faces.set k
          (bcFlux t (m.cvface_area k) (m.cvface_normal k) BC (st.qdotn_faces.getD k 0))
        else st.qdotn_faces) := by
  unfold process_fluxes_boundary_step at h
  cases hbc : boundary_condition_h st (m.cvface_boundary k) with
  | none => rw [hbc] at h; cases h
  | some BC =>
    rw [hbc] at h
    dsimp only at h
    by_cases h3 : BC.type = 3
    · simp only [h3, if_true, Option.some.injEq] at h
      subst h
      refine ⟨rfl, rfl, by simp, BC, rfl, ?_⟩
      simp [h3, bcFlux]
    · by_cases h6 : BC.type = 6
      · simp only [h6, show ¬ ((6 : Int) = 3) by decide, if_true, if_false,
          Option.some.injEq] at h
        subst h
        refine ⟨rfl, rfl, by simp, BC, rfl, ?_⟩
        simp [h6, bcFlux]
      · by_cases h7 : BC.type = 7
        · simp only [h7, show ¬ ((7 : Int) = 3) by decide, show ¬ ((7 : Int) = 6) by decide,
            if_true, if_false, Option.some.injEq] at h
          subst h
          refine ⟨rfl, rfl, by simp, BC, rfl, ?_⟩
          simp [h7, bcFlux]
        · by_cases h8 : BC.type = 8
          · simp only [h8, show ¬ ((8 : Int) = 3) by decide, show ¬ ((8 : Int) = 6) by decide,
              show ¬ ((8 : Int) = 7) by decide, if_true, if_false, Option.some.injEq] at h
            subst h
            refine ⟨rfl, rfl, by simp, BC, rfl, ?_⟩
            simp [h8, bcFlux]
          · simp only [h3, h6, h7, h8, if_false, Option.some.injEq] at h
            subst h
            refine ⟨rfl, rfl, rfl, BC, rfl, ?_⟩
            simp [h3, h6, h7, h8]

end FluxLoops

section FluxBoundary

theorem boundary_condition_h_congr {α : Type} (s s' : VarSatPhysicsImpl α) (tag : Int)
    (h : fluxInputs s' = fluxInputs s) :
    boundary_condition_h s' tag = boundary_condition_h s tag := by
  simp only [fluxInputs, Prod.mk.injEq] at h
  unfold boundary_condition_h
  rw [h.2.2.2.2]

variable {α : Type} [LinearOrderedField α]

theorem bcFlux_of_other (t area : α) (normal : Point α) (BC : BoundaryCondition α) (q : α)
    (h : ¬ (BC.type = 3 ∨ BC.type = 6 ∨ BC.type = 7 ∨ BC.type = 8)) :
    bcFlux t area normal BC q = q := by
  simp only [not_or] at h
  obtain ⟨h3, h6, h7, h8⟩ := h
  simp only [bcFlux, h3, h6, h7, h8, if_false]

theorem bcFlux_of_listed (t area : α) (normal : Point α) (BC : BoundaryCondition α) (q q' : α)
    (h : BC.type = 3 ∨ BC.type = 6 ∨ BC.type = 7 ∨ BC.type = 8) :
    bcFlux t area normal BC q = bcFlux t area normal BC q' := by
  unfold bcFlux
  by_cases h3 : BC.type = 3
  · simp only [h3, if_true]
  · by_cases h6 : BC.type = 6
    · simp only [h3, h6, if_true, if_false]
    · by_cases h7 : BC.type = 7
      · simp only [h3, h6, h7, if_true, if_false]
      · have h8 : BC.type = 8 := by
          rcases h with h | h | h | h
          · exact absurd h h3
          · exact absurd h h6
          · exact absurd h h7
          · exact h
        simp only [h3, h6, h7, h8, if_true, if_false]

/-- Effect of the loop over the boundary faces on entry `i` of `qdotn_faces`. -/
theorem process_fluxes_boundary_loop_getElem? (t : α) (m : Mesh α)
    (s s' : VarSatPhysicsImpl α) (i : Nat)
    (hrun : process_fluxes_boundary_loop t m s = some s') :
    fluxInputs s' = fluxInputs s ∧ s'.M_flux_faces = s.M_flux_faces ∧
    s'.qdotn_faces.length = s.qdotn_faces.length ∧
    s'.qdotn_faces[i]? =
      (if m.interior_cvfaces ≤ i ∧ i < m.cvfaces then
        (s.qdotn_faces[i]?).map (bcValue t m s i)
       else s.qdotn_faces[i]?) ∧
    (m.interior_cvfaces ≤ i ∧ i < m.cvfaces →
      ∃ BC, boundary_condition_h s (m.cvface_boundary i) = some BC) := by
  unfold process_fluxes_boundary_loop at hrun
  rcases Nat.le_total m.interior_cvfaces m.cvfaces with hle | hle
  · refine forLoopM_inv
      (fun k st =>
        fluxInputs st = fluxInputs s ∧ st.M_flux_faces = s.M_flux_faces ∧
        st.qdotn_faces.length = s.qdotn_faces.length ∧
        st.qdotn_faces[i]? =
          (if m.interior_cvfaces ≤ i ∧ i < k then (s.qdotn_faces[i]?).map (bcValue t m s i)
           else s.qdotn_faces[i]?) ∧
        (m.interior_cvfaces ≤ i ∧ i < k →
          ∃ BC, boundary_condition_h s (m.cvface_boundary i) = some BC))
      m.interior_cvfaces m.cvfaces _ s s' hle ?_ ?_ hrun
    · refine ⟨rfl, rfl, rfl, ?_, ?_⟩
      · have : ¬ (m.interior_cvfaces ≤ i ∧ i < m.interior_cvfaces) := by omega
        simp only [this, if_false]
      · intro h
        omega
    · intro k st st' hk1 _ ih hstep
      obtain ⟨ih0, ihM, ihl, ih1, ih2⟩ := ih
      obtain ⟨f0, fM, fl, BC, hbc, hq⟩ := process_fluxes_boundary_step_frame t m k st st' hstep
      rw [boundary_condition_h_congr s st _ ih0] at hbc
      refine ⟨f0.trans ih0, fM.trans ihM, fl.trans ihl, ?_, ?_⟩
      · by_cases hki : k = i
        · subst hki
          have hc1 : ¬ (m.interior_cvfaces ≤ k ∧ k < k) := by omega
          have hc2 : m.interior_cvfaces ≤ k ∧ k < k + 1 := by omega
          simp only [hc1, if_false] at ih1
          simp only [hc2, and_self, if_true]
          have hval : ∀ q, bcValue t m s k q =
              bcFlux t (m.cvface_area k) (m.cvface_normal k) BC q := by
            intro q
            simp only [bcValue, hbc]
          rw [hq]
          by_cases hty : BC.type = 3 ∨ BC.type = 6 ∨ BC.type = 7 ∨ BC.type = 8
          · simp only [hty, if_true]
            rw [List.getElem?_set', if_pos rfl, ih1]
            cases s.qdotn_faces[k]? with
            | none => rfl
            | some q =>
              simp only [Option.map_some', Option.map_eq_map, hval, Option.some.injEq]
              exact bcFlux_of_listed _ _ _ _ _ _ hty
          · simp only [hty, if_false]
            rw [ih1]
            cases s.qdotn_faces[k]? with
            | none => rfl
            | some q =>
              simp only [Option.map_some', hval, Option.some.injEq]
              exact (bcFlux_of_other _ _ _ _ _ hty).symm
        · have hc : (m.interior_cvfaces ≤ i ∧ i < k + 1) ↔ (m.interior_cvfaces ≤ i ∧ i < k) := by
            omega
          simp only [hc]
          rw [hq]
          by_cases hty : BC.type = 3 ∨ BC.type = 6 ∨ BC.type = 7 ∨ BC.type = 8
          · simp only [hty, if_true]
            rw [List.getElem?_set_ne hki]
            exact ih1
          · simp only [hty, if_false]
            exact ih1
      · intro hik
        by_cases hki : k = i
        · subst hki
          exact ⟨BC, hbc⟩
        · exact ih2 (by omega)
  · rw [forLoopM_empty _ _ _ _ hle] at hrun
    cases hrun
    have : ¬ (m.interior_cvfaces ≤ i ∧ i < m.cvfaces) := by omega
    simp only [this, if_false, false_implies, and_self]

/-- Effect of the last loop of `process_fluxes` on entry `i` of `M_flux_faces`. -/
theorem process_fluxes_mass_loop_getElem? (m : Mesh α) (s : VarSatPhysicsImpl α) (i : Nat) :
    fluxInputs (process_fluxes_mass_loop m s) = fluxInputs s ∧
    (process_fluxes_mass_loop m s).qdotn_faces = s.qdotn_faces ∧
    (process_fluxes_mass_loop m s).M_flux_faces[i]? =
      (if m.interior_cvfaces ≤ i ∧ i < m.cvfaces then
        (s.M_flux_faces[i]?).map (fun _ => boundaryRho m s i * s.qdotn_faces.getD i 0)
       else s.M_flux_faces[i]?) := by
  unfold process_fluxes_mass_loop
  rcases Nat.le_total m.interior_cvfaces m.cvfaces with hle | hle
  · refine forLoop_inv
      (fun k st =>
        fluxInputs st = fluxInputs s ∧ st.qdotn_faces = s.qdotn_faces ∧
        st.M_flux_faces[i]? =
          (if m.interior_cvfaces ≤ i ∧ i < k then
            (s.M_flux_faces[i]?).map (fun _ => boundaryRho m s i * s.qdotn_faces.getD i 0)
           else s.M_flux_faces[i]?))
      m.interior_cvfaces m.cvfaces _ s hle ?_ ?_
    · refine ⟨rfl, rfl, ?_⟩
      have : ¬ (m.interior_cvfaces ≤ i ∧ i < m.interior_cvfaces) := by omega
      simp only [this, if_false]
    · intro k st hk1 _ ih
      obtain ⟨ih0, ihq, ih1⟩ := ih
      have hin := ih0
      simp only [fluxInputs, Prod.mk.injEq] at hin
      obtain ⟨_, _, e3, e4, _⟩ := hin
      refine ⟨ih0, ihq, ?_⟩
      by_cases hki : k = i
      · subst hki
        have hc1 : ¬ (m.interior_cvfaces ≤ k ∧ k < k) := by omega
        have hc2 : m.interior_cvfaces ≤ k ∧ k < k + 1 := by omega
        simp only [hc1, if_false] at ih1
        simp only [hc2, and_self, if_true, ihq, e3, e4]
        rw [List.getElem?_set', if_pos rfl, ih1]
        rfl
      · have hc : (m.interior_cvfaces ≤ i ∧ i < k + 1) ↔ (m.interior_cvfaces ≤ i ∧ i < k) := by
          omega
        simp only [hc, List.getElem?_set_ne hki]
        exact ih1
  · rw [forLoop_empty _ _ _ _ hle]
    have : ¬ (m.interior_cvfaces ≤ i ∧ i < m.cvfaces) := by omega
    simp only [this, if_false, and_self]

end FluxBoundary

section FluxComposition

variable {α : Type} [LinearOrderedField α]

/-- The loop over the interior faces reads its inputs and keeps the dimension of
`qdotn_faces`. -/
theorem process_fluxes_interior_loop_frame (m : Mesh α) (s : VarSatPhysicsImpl α) :
    fluxInputs (process_fluxes_interior_loop m s) = fluxInputs s ∧
    (process_fluxes_interior_loop m s).qdotn_faces.length = s.qdotn_faces.length := by
  unfold process_fluxes_interior_loop
  have key := forLoop_preserves
    (fun st : VarSatPhysicsImpl α => (fluxInputs st, st.qdotn_faces.length))
    0 m.interior_cvfaces
    (fun i (st : VarSatPhysicsImpl α) =>
      { st with
        qdotn_faces :=
          st.qdotn_faces.set i (st.qdotn_faces.getD i 0 * st.krw_faces_lim.getD i 0)
        M_flux_faces := st.M_flux_faces.set i
          (st.rho_faces_lim.getD i 0 *
            (st.qdotn_faces.set i
              (st.qdotn_faces.getD i 0 * st.krw_faces_lim.getD i 0)).getD i 0) })
    s
    (by
      intro i st
      simp [fluxInputs])
  simp only [Prod.mk.injEq] at key
  exact key

theorem bcValue_congr (t : α) (m : Mesh α) (s s' : VarSatPhysicsImpl α) (i : Nat) (q : α)
    (h : fluxInputs s' = fluxInputs s) : bcValue t m s' i q = bcValue t m s i q := by
  unfold bcValue
  rw [boundary_condition_h_congr s s' _ h]

theorem boundaryRho_congr (m : Mesh α) (s s' : VarSatPhysicsImpl α) (i : Nat)
    (h : fluxInputs s' = fluxInputs s) (hq : s'.qdotn_faces = s.qdotn_faces) :
    boundaryRho m s' i = boundaryRho m s i := by
  simp only [fluxInputs, Prod.mk.injEq] at h
  obtain ⟨_, _, e3, e4, _⟩ := h
  unfold boundaryRho
  rw [hq, e3, e4]

/-- The composition of the four stages of `process_fluxes`, over the states between the
stages. -/
theorem process_fluxes_stages (t : α) (m : Mesh α) (s s1 s2 s3 s4 : VarSatPhysicsImpl α)
    (d1 : s.qdotn_faces.length = m.cvfaces) (d2 : s.M_flux_faces.length = m.cvfaces)
    (hle : m.interior_cvfaces ≤ m.cvfaces)
    (hA : ∀ i, i < m.interior_cvfaces → s1.qdotn_faces[i]? = some (faceQdotn m s i))
    (a1 : ∀ i, ¬ i < m.interior_cvfaces → s1.qdotn_faces[i]? = s.qdotn_faces[i]?)
    (a2 : s1.qdotn_faces.length = s.qdotn_faces.length)
    (a3 : s1.M_flux_faces = s.M_flux_faces) (a4 : fluxInputs s1 = fluxInputs s)
    (b0 : fluxInputs s2 = fluxInputs s1)
    (hI : ∀ i, i < s1.qdotn_faces.length →
      s2.qdotn_faces[i]? =
        (if i < m.interior_cvfaces then
          some (s1.qdotn_faces.getD i 0 * s1.krw_faces_lim.getD i 0)
         else s1.qdotn_faces[i]?) ∧
      s2.M_flux_faces[i]? =
        (if i < m.interior_cvfaces then
          (s1.M_flux_faces[i]?).map (fun _ =>
            s1.rho_faces_lim.getD i 0 * (s1.qdotn_faces.getD i 0 * s1.krw_faces_lim.getD i 0))
         else s1.M_flux_faces[i]?))
    (hB : ∀ i, fluxInputs s3 = fluxInputs s2 ∧ s3.M_flux_faces = s2.M_flux_faces ∧
      s3.qdotn_faces[i]? =
        (if m.interior_cvfaces ≤ i ∧ i < m.cvfaces then
          (s2.qdotn_faces[i]?).map (bcValue t m s2 i)
         else s2.qdotn_faces[i]?) ∧
      (m.interior_cvfaces ≤ i ∧ i < m.cvfaces →
        ∃ BC, boundary_condition_h s2 (m.cvface_boundary i) = some BC))
    (hM : ∀ i, fluxInputs s4 = fluxInputs s3 ∧ s4.qdotn_faces = s3.qdotn_faces ∧
      s4.M_flux_faces[i]? =
        (if m.interior_cvfaces ≤ i ∧ i < m.cvfaces then
          (s3.M_flux_faces[i]?).map (fun _ => boundaryRho m s3 i * s3.qdotn_faces.getD i 0)
         else s3.M_flux_faces[i]?)) :
    fluxInputs s4 = fluxInputs s ∧
    (∀ i, i < m.interior_cvfaces →
      s4.qdotn_faces[i]? = some (faceQdotn m s i * s.krw_faces_lim.getD i 0) ∧
      s4.M_flux_faces[i]? =
        some (s.rho_faces_lim.getD i 0 * (faceQdotn m s i * s.krw_faces_lim.getD i 0))) ∧
    (∀ i, m.interior_cvfaces ≤ i → i < m.cvfaces →
      (∃ BC, boundary_condition_h s (m.cvface_boundary i) = some BC) ∧
      s4.qdotn_faces[i]? = some (bcValue t m s i (s.qdotn_faces.getD i 0)) ∧
      s4.M_flux_faces[i]? = some (boundaryRho m s4 i * s4.qdotn_faces.getD i 0)) := by
  have in3 : fluxInputs s4 = fluxInputs s3 := (hM 0).1
  have q3 : s4.qdotn_faces = s3.qdotn_faces := (hM 0).2.1
  have in2' : fluxInputs s3 = fluxInputs s2 := (hB 0).1
  have e2 : s3.M_flux_faces = s2.M_flux_faces := (hB 0).2.1
  have hin := a4
  simp only [fluxInputs, Prod.mk.injEq] at hin
  obtain ⟨k0, r0, _, _, _⟩ := hin
  have in1 : fluxInputs s2 = fluxInputs s := b0.trans a4
  refine ⟨?_, ?_, ?_⟩
  · exact in3.trans (in2'.trans in1)
  · intro i hi
    have hic : i < m.cvfaces := lt_of_lt_of_le hi hle
    have hl0 : i < s1.qdotn_faces.length := by rw [a2, d1]; exact hic
    obtain ⟨c3, c4⟩ := hI i hl0
    obtain ⟨_, _, e4, _⟩ := hB i
    obtain ⟨_, _, f3⟩ := hM i
    have hAd : s1.qdotn_faces.getD i 0 = faceQdotn m s i := getD_of_getElem? _ i 0 _ (hA i hi)
    have hnot : ¬ (m.interior_cvfaces ≤ i ∧ i < m.cvfaces) := fun h => absurd hi (not_lt.2 h.1)
    rw [if_pos hi, hAd, k0] at c3
    rw [if_pos hi, hAd, k0, r0, a3] at c4
    rw [if_neg hnot] at e4 f3
    have hMf : s.M_flux_faces[i]? = some (s.M_flux_faces.getD i 0) :=
      getElem?_eq_some_getD _ i 0 (by rw [d2]; exact hic)
    rw [hMf] at c4
    constructor
    · rw [q3, e4, c3]
    · rw [f3, e2, c4]
      rfl
  · intro i hi1 hi2
    have hl0 : i < s1.qdotn_faces.length := by rw [a2, d1]; exact hi2
    obtain ⟨c3, c4⟩ := hI i hl0
    obtain ⟨_, _, e4, e5⟩ := hB i
    obtain ⟨_, _, f3⟩ := hM i
    have hnot : ¬ i < m.interior_cvfaces := not_lt.2 hi1
    have hyes : m.interior_cvfaces ≤ i ∧ i < m.cvfaces := ⟨hi1, hi2⟩
    rw [if_neg hnot] at c3 c4
    rw [if_pos hyes] at e4 f3
    have hq : s.qdotn_faces[i]? = some (s.qdotn_faces.getD i 0) :=
      getElem?_eq_some_getD _ i 0 (by rw [d1]; exact hi2)
    have hMf : s.M_flux_faces[i]? = some (s.M_flux_faces.getD i 0) :=
      getElem?_eq_some_getD _ i 0 (by rw [d2]; exact hi2)
    obtain ⟨BC, hBC⟩ := e5 hyes
    rw [boundary_condition_h_congr s _ _ in1] at hBC
    refine ⟨⟨BC, hBC⟩, ?_, ?_⟩
    · rw [q3, e4, c3, a1 i hnot, hq]
      simp only [Option.map_some', Option.some.injEq]
      exact bcValue_congr t m s _ i _ in1
    · rw [f3, e2, c4, a3, hMf, q3, boundaryRho_congr m s3 _ i in3 q3]
      rfl

/-- The state after `process_fluxes`: the interior entries of `qdotn_faces` and
`M_flux_faces`, the boundary entries, and the members that are only read. -/
theorem process_fluxes_spec (t : α) (m : Mesh α) (s s' : VarSatPhysicsImpl α)
    (hs : FluxSized m s) (hrun : process_fluxes t m s = some s') :
    fluxInputs s' = fluxInputs s ∧
    (∀ i, i < m.interior_cvfaces →
      s'.qdotn_faces[i]? = some (faceQdotn m s i * s.krw_faces_lim.getD i 0) ∧
      s'.M_flux_faces[i]? =
        some (s.rho_faces_lim.getD i 0 * (faceQdotn m s i * s.krw_faces_lim.getD i 0))) ∧
    (∀ i, m.interior_cvfaces ≤ i → i < m.cvfaces →
      (∃ BC, boundary_condition_h s (m.cvface_boundary i) = some BC) ∧
      s'.qdotn_faces[i]? = some (bcValue t m s i (s.qdotn_faces.getD i 0)) ∧
      s'.M_flux_faces[i]? = some (boundaryRho m s' i * s'.qdotn_faces.getD i 0)) := by
  unfold process_fluxes at hrun
  dsimp only at hrun
  cases hb : process_fluxes_boundary_loop t m
      (process_fluxes_interior_loop m (process_fluxes_qdotn m s)) with
  | none => rw [hb] at hrun; cases hrun
  | some s3 =>
    rw [hb] at hrun
    have e := Option.some.inj hrun
    rw [← e]
    have hsz := hs
    unfold FluxSized at hsz
    obtain ⟨_, _, _, _, _, _, _, _, _, _, _, _, _, _, d1, d2, hle⟩ := hsz
    obtain ⟨a1, a2, a3, a4⟩ := process_fluxes_qdotn_frame m s
    exact process_fluxes_stages t m s (process_fluxes_qdotn m s)
      (process_fluxes_interior_loop m (process_fluxes_qdotn m s)) s3
      (process_fluxes_mass_loop m s3) d1 d2 hle
      (fun i hi => process_fluxes_qdotn_interior m s i hs hi) a1 a2 a3 a4
      (process_fluxes_interior_loop_frame m (process_fluxes_qdotn m s)).1
      (fun i hi =>
        (process_fluxes_interior_loop_getElem? m (process_fluxes_qdotn m s) i hi).2.2)
      (fun i =>
        have h := process_fluxes_boundary_loop_getElem? t m _ s3 i hb
        ⟨h.1, h.2.1, h.2.2.2.1, h.2.2.2.2⟩)
      (fun i => process_fluxes_mass_loop_getElem? m s3 i)

end FluxComposition

section FaceVectors

variable {α : Type} [LinearOrderedField α]

theorem getD_set_self {β : Type} (l : List β) (k : Nat) (a d : β) (h : k < l.length) :
    (l.set k a).getD k d = a := by
  apply getD_of_getElem?
  rw [List.getElem?_set]
  simp [h]

theorem getD_set_ne {β : Type} (l : List β) (k j : Nat) (a d : β) (h : k ≠ j) :
    (l.set k a).getD j d = l.getD j d := by
  simp [List.getElem?_set_ne h]

/-- The vectors of `norm_faces_` hold the components of the face normals. -/
theorem initialise_vectors_norm_faces_spec (m : Mesh α) :
    (initialise_vectors_norm_faces m).x.length = m.interior_cvfaces ∧
    (initialise_vectors_norm_faces m).y.length = m.interior_cvfaces ∧
    (initialise_vectors_norm_faces m).z.length = m.interior_cvfaces ∧
    ∀ i, i < m.interior_cvfaces →
      (initialise_vectors_norm_faces m).x.getD i 0 = (m.cvface_normal i).x ∧
      (initialise_vectors_norm_faces m).y.getD i 0 = (m.cvface_normal i).y ∧
      (m.dim = 3 → (initialise_vectors_norm_faces m).z.getD i 0 = (m.cvface_normal i).z) := by
  have key := forLoop_inv
    (fun k (v : TVec α × TVec α × TVec α) =>
      v.1.length = m.interior_cvfaces ∧ v.2.1.length = m.interior_cvfaces ∧
      v.2.2.length = m.interior_cvfaces ∧
      ∀ j, j < k →
        v.1.getD j 0 = (m.cvface_normal j).x ∧ v.2.1.getD j 0 = (m.cvface_normal j).y ∧
        (m.dim = 3 → v.2.2.getD j 0 = (m.cvface_normal j).z))
    0 m.interior_cvfaces
    (fun i (v : TVec α × TVec α × TVec α) =>
      (v.1.set i (m.cvface_normal i).x, v.2.1.set i (m.cvface_normal i).y,
        if m.dim = 3 then v.2.2.set i (m.cvface_normal i).z else v.2.2))
    (List.replicate m.interior_cvfaces 0, List.replicate m.interior_cvfaces 0,
      List.replicate m.interior_cvfaces 0)
    (Nat.zero_le _)
    (by
      refine ⟨by simp, by simp, by simp, ?_⟩
      intro j hj
      omega)
    (by
      intro k v _ hk ih
      obtain ⟨l1, l2, l3, ih⟩ := ih
      refine ⟨by simp [l1], by simp [l2], by split <;> simp [l3], ?_⟩
      intro j hj
      by_cases hjk : k = j
      · subst hjk
        refine ⟨getD_set_self _ _ _ _ (by omega), getD_set_self _ _ _ _ (by omega), ?_⟩
        intro hd
        simp only [hd, if_true]
        exact getD_set_self _ _ _ _ (by omega)
      · obtain ⟨i1, i2, i3⟩ := ih j (by omega)
        refine ⟨by rw [getD_set_ne _ _ _ _ _ hjk]; exact i1,
          by rw [getD_set_ne _ _ _ _ _ hjk]; exact i2, ?_⟩
        intro hd
        simp only [hd, if_true]
        rw [getD_set_ne _ _ _ _ _ hjk]
        exact i3 hd)
  obtain ⟨l1, l2, l3, h⟩ := key
  unfold initialise_vectors_norm_faces
  refine ⟨l1, l2, ?_, ?_⟩
  · dsimp only
    by_cases hd : m.dim = 3
    · exact (congrArg List.length (if_pos hd)).trans l3
    · exact (congrArg List.length (if_neg hd)).trans (by simp)
  · intro i hi
    obtain ⟨i1, i2, i3⟩ := h i hi
    refine ⟨i1, i2, ?_⟩
    intro hd
    dsimp only
    exact (congrArg (fun l => List.getD l i 0) (if_pos hd)).trans (i3 hd)

/-- The vectors of `K_faces_` hold the negated conductivities of the zone of each face. -/
theorem initialise_vectors_K_faces_spec (m : Mesh α) (s : VarSatPhysicsImpl α)
    (K : DimVector α) (hK : initialise_vectors_K_faces m s = some K) :
    K.x.length = m.interior_cvfaces ∧ K.y.length = m.interior_cvfaces ∧
    K.z.length = m.interior_cvfaces ∧
    ∀ i, i < m.interior_cvfaces →
      ∃ zone, physical_zone s (m.element_physical_tag (m.cvface_element i)) = some zone ∧
        K.x.getD i 0 = -zone.K_xx ∧ K.y.getD i 0 = -zone.K_yy ∧
        (m.dim = 3 → K.z.getD i 0 = -zone.K_zz) := by
  unfold initialise_vectors_K_faces at hK
  dsimp only at hK
  obtain ⟨n1, n2, n3, _⟩ := initialise_vectors_norm_faces_spec m
  cases hloop : forLoopM 0 m.interior_cvfaces
      (fun i (v : TVec α × TVec α × TVec α) =>
        match physical_zone s (m.element_physical_tag (m.cvface_element i)) with
        | none => none
        | some zone =>
          some (v.1.set i (-zone.K_xx), v.2.1.set i (-zone.K_yy),
            if m.dim = 3 then v.2.2.set i (-zone.K_zz) else v.2.2))
      ((initialise_vectors_norm_faces m).x, (initialise_vectors_norm_faces m).y,
        (initialise_vectors_norm_faces m).z) with
  | none => rw [hloop] at hK; cases hK
  | some xyz =>
    rw [hloop] at hK
    simp only [Option.some.injEq] at hK
    subst hK
    exact forLoopM_inv
      (fun k (v : TVec α × TVec α × TVec α) =>
        v.1.length = m.interior_cvfaces ∧ v.2.1.length = m.interior_cvfaces ∧
        v.2.2.length = m.interior_cvfaces ∧
        ∀ j, j < k →
          ∃ zone, physical_zone s (m.element_physical_tag (m.cvface_element j)) = some zone ∧
            v.1.getD j 0 = -zone.K_xx ∧ v.2.1.getD j 0 = -zone.K_yy ∧
            (m.dim = 3 → v.2.2.getD j 0 = -zone.K_zz))
      0 m.interior_cvfaces _ _ xyz (Nat.zero_le _)
      (by
        refine ⟨n1, n2, n3, ?_⟩
        intro j hj
        omega)
      (by
        intro k v v' _ hk ih hstep
        obtain ⟨l1, l2, l3, ih⟩ := ih
        cases hz : physical_zone s (m.element_physical_tag (m.cvface_element k)) with
        | none => simp only [hz] at hstep; cases hstep
        | some zone =>
          simp only [hz, Option.some.injEq] at hstep
          subst hstep
          refine ⟨by simp [l1], by simp [l2], by dsimp only; split <;> simp [l3], ?_⟩
          intro j hj
          by_cases hjk : k = j
          · subst hjk
            refine ⟨zone, hz, getD_set_self _ _ _ _ (by omega),
              getD_set_self _ _ _ _ (by omega), ?_⟩
            intro hd
            simp only [hd, if_true]
            exact getD_set_self _ _ _ _ (by omega)
          · obtain ⟨z', hz', i1, i2, i3⟩ := ih j (by omega)
            refine ⟨z', hz', by rw [getD_set_ne _ _ _ _ _ hjk]; exact i1,
              by rw [getD_set_ne _ _ _ _ _ hjk]; exact i2, ?_⟩
            intro hd
            simp only [hd, if_true]
            rw [getD_set_ne _ _ _ _ _ hjk]
            exact i3 hd)
      hloop

/-- The function `process_fluxes` returns when every boundary face carries a tag of the
map of boundary conditions. -/
theorem process_fluxes_returns (t : α) (m : Mesh α) (s : VarSatPhysicsImpl α)
    (hbc : ∀ i, m.interior_cvfaces ≤ i → i < m.cvfaces →
      ∃ BC, boundary_condition_h s (m.cvface_boundary i) = some BC) :
    ∃ s', process_fluxes t m s = some s' := by
  obtain ⟨a1, a2, a3, a4⟩ := process_fluxes_qdotn_frame m s
  obtain ⟨b0, _⟩ := process_fluxes_interior_loop_frame m (process_fluxes_qdotn m s)
  obtain ⟨s2, h2, _⟩ := forLoopM_some
    (fun st : VarSatPhysicsImpl α => fluxInputs st = fluxInputs s)
    m.interior_cvfaces m.cvfaces (process_fluxes_boundary_step t m)
    (process_fluxes_interior_loop m (process_fluxes_qdotn m s)) (b0.trans a4)
    (by
      intro i st h1 h2 hin
      obtain ⟨BC, hBC⟩ := hbc i h1 h2
      rw [← boundary_condition_h_congr s st _ hin] at hBC
      have hex : ∃ st', process_fluxes_boundary_step t m i st = some st' := by
        unfold process_fluxes_boundary_step
        rw [hBC]
        dsimp only
        split
        · exact ⟨_, rfl⟩
        · split
          · exact ⟨_, rfl⟩
          · split
            · exact ⟨_, rfl⟩
            · split
              · exact ⟨_, rfl⟩
              · exact ⟨_, rfl⟩
      obtain ⟨st', hst'⟩ := hex
      exact ⟨st', hst', (process_fluxes_boundary_step_frame t m i st st' hst').1.trans hin⟩)
  refine ⟨process_fluxes_mass_loop m s2, ?_⟩
  unfold process_fluxes process_fluxes_boundary_loop
  dsimp only
  rw [h2]

end FaceVectors

/-! ## Claims on the fluxes -/

section FluxClaims

variable {α : Type} [LinearOrderedField α]

/-- The loop over the boundary faces returns when every boundary face carries a tag of the
map of boundary conditions. -/
theorem process_fluxes_boundary_loop_returns (t : α) (m : Mesh α) (s : VarSatPhysicsImpl α)
    (hbc : ∀ i, m.interior_cvfaces ≤ i → i < m.cvfaces →
      ∃ BC, boundary_condition_h s (m.cvface_boundary i) = some BC) :
    ∃ s', process_fluxes_boundary_loop t m s = some s' := by
  obtain ⟨s2, h2, _⟩ := forLoopM_some
    (fun st : VarSatPhysicsImpl α => fluxInputs st = fluxInputs s)
    m.interior_cvfaces m.cvfaces (process_fluxes_boundary_step t m) s rfl
    (by
      intro i st h1 h2 hin
      obtain ⟨BC, hBC⟩ := hbc i h1 h2
      rw [← boundary_condition_h_congr s st _ hin] at hBC
      have hex : ∃ st', process_fluxes_boundary_step t m i st = some st' := by
        unfold process_fluxes_boundary_step
        rw [hBC]
        dsimp only
        split
        · exact ⟨_, rfl⟩
        · split
          · exact ⟨_, rfl⟩
          · split
            · exact ⟨_, rfl⟩
            · split
              · exact ⟨_, rfl⟩
              · exact ⟨_, rfl⟩
      obtain ⟨st', hst'⟩ := hex
      exact ⟨st', hst', (process_fluxes_boundary_step_frame t m i st st' hst').1.trans hin⟩)
  exact ⟨s2, h2⟩

/-- C14: after `process_fluxes`, for every interior face `i`,
`qdotn_faces[i] = krw_faces_lim[i] * Σ_d K_d[i] * (grad_h_d[i] + [d vertical]) * normal_d[i]`,
where `K_d[i]` is the negated conductivity of the zone of the element of the face and the
vertical direction is `y` in 2-D and `z` in 3-D; and
`M_flux_faces[i] = rho_faces_lim[i] * qdotn_faces[i]`. -/
theorem process_fluxes_interior_faces (t : α) (m : Mesh α) (s : VarSatPhysicsImpl α)
    (K : DimVector α) (i : Nat)
    (hK : initialise_vectors_K_faces m s = some K) (hsK : s.K_faces_ = K)
    (hsN : s.norm_faces_ = initialise_vectors_norm_faces m)
    (hs : FluxSized m s)
    (hbc : ∀ j, m.interior_cvfaces ≤ j → j < m.cvfaces →
      ∃ BC, boundary_condition_h s (m.cvface_boundary j) = some BC)
    (hi : i < m.interior_cvfaces) :
    ∃ s' zone, process_fluxes t m s = some s' ∧
      physical_zone s (m.element_physical_tag (m.cvface_element i)) = some zone ∧
      (m.dim = 2 → s'.qdotn_faces[i]? = some (s'.krw_faces_lim.getD i 0 *
        (-zone.K_xx * s.grad_h_faces_.x.getD i 0 * (m.cvface_normal i).x +
          -zone.K_yy * (s.grad_h_faces_.y.getD i 0 + 1) * (m.cvface_normal i).y))) ∧
      (m.dim = 3 → s'.qdotn_faces[i]? = some (s'.krw_faces_lim.getD i 0 *
        (-zone.K_xx * s.grad_h_faces_.x.getD i 0 * (m.cvface_normal i).x +
          -zone.K_yy * s.grad_h_faces_.y.getD i 0 * (m.cvface_normal i).y +
          -zone.K_zz * (s.grad_h_faces_.z.getD i 0 + 1) * (m.cvface_normal i).z))) ∧
      s'.M_flux_faces[i]? = some (s'.rho_faces_lim.getD i 0 * s'.qdotn_faces.getD i 0) := by
  obtain ⟨s', hrun⟩ := process_fluxes_returns t m s hbc
  obtain ⟨hin, hint, _⟩ := process_fluxes_spec t m s s' hs hrun
  obtain ⟨hq, hM⟩ := hint i hi
  obtain ⟨_, _, _, hKi⟩ := initialise_vectors_K_faces_spec m s K hK
  obtain ⟨zone, hz, kx, ky, kz⟩ := hKi i hi
  obtain ⟨_, _, _, hNi⟩ := initialise_vectors_norm_faces_spec m
  obtain ⟨nx, ny, nz⟩ := hNi i hi
  simp only [fluxInputs, Prod.mk.injEq] at hin
  obtain ⟨e1, e2, _, _, _⟩ := hin
  refine ⟨s', zone, hrun, hz, ?_, ?_, ?_⟩
  · intro hd
    rw [hq, e1]
    simp only [faceQdotn, hd, if_true, hsK, hsN, kx, ky, nx, ny]
    congr 1
    ring
  · intro hd
    have hd2 : ¬ m.dim = 2 := by omega
    rw [hq, e1]
    simp only [faceQdotn, hd2, if_false, hsK, hsN, kx, ky, kz hd, nx, ny, nz hd]
    simp only [if_pos hd]
    congr 1
    ring
  · rw [hM, e2, getD_of_getElem? _ i 0 _ hq]

/-- C15: after the boundary loop of `process_fluxes` at time `t`, for every boundary face
`i` with boundary condition `BC`: `qdotn_faces[i] = BC.value(t) * area(i)` for the types 3
and 7, `BC.flux(t, normal(i)) * area(i)` for the type 6, `0` for the type 8, and the value
before the loop for every other type; no entry of an interior face is changed. -/
theorem process_fluxes_boundary_override (t : α) (m : Mesh α) (s : VarSatPhysicsImpl α)
    (i : Nat)
    (hbc : ∀ j, m.interior_cvfaces ≤ j → j < m.cvfaces →
      ∃ BC, boundary_condition_h s (m.cvface_boundary j) = some BC)
    (hi1 : m.interior_cvfaces ≤ i) (hi2 : i < m.cvfaces) (hlen : i < s.qdotn_faces.length) :
    ∃ s' BC, process_fluxes_boundary_loop t m s = some s' ∧
      boundary_condition_h s (m.cvface_boundary i) = some BC ∧
      (BC.type = 3 ∨ BC.type = 7 →
        s'.qdotn_faces[i]? = some (BC.value t * m.cvface_area i)) ∧
      (BC.type = 6 →
        s'.qdotn_faces[i]? = some (BC.flux t (m.cvface_normal i) * m.cvface_area i)) ∧
      (BC.type = 8 → s'.qdotn_faces[i]? = some 0) ∧
      (¬ (BC.type = 3 ∨ BC.type = 6 ∨ BC.type = 7 ∨ BC.type = 8) →
        s'.qdotn_faces[i]? = s.qdotn_faces[i]?) ∧
      (∀ j, j < m.interior_cvfaces → s'.qdotn_faces[j]? = s.qdotn_faces[j]?) := by
  obtain ⟨s', hrun⟩ := process_fluxes_boundary_loop_returns t m s hbc
  obtain ⟨BC, hBC⟩ := hbc i hi1 hi2
  obtain ⟨_, _, _, hq, _⟩ := process_fluxes_boundary_loop_getElem? t m s s' i hrun
  have hyes : m.interior_cvfaces ≤ i ∧ i < m.cvfaces := ⟨hi1, hi2⟩
  simp only [hyes, and_self, if_true, getElem?_eq_some_getD _ i 0 hlen, Option.map_some',
    bcValue, hBC] at hq
  refine ⟨s', BC, hrun, hBC, ?_, ?_, ?_, ?_, ?_⟩
  · intro hty
    rw [hq]
    rcases hty with h3 | h7
    · simp only [bcFlux, h3, if_true]
    · simp only [bcFlux, h7, show ¬ ((7 : Int) = 3) by decide, show ¬ ((7 : Int) = 6) by decide,
        if_true, if_false]
  · intro h6
    rw [hq]
    simp only [bcFlux, h6, show ¬ ((6 : Int) = 3) by decide, if_true, if_false]
  · intro h8
    rw [hq]
    simp only [bcFlux, h8, show ¬ ((8 : Int) = 3) by decide, show ¬ ((8 : Int) = 6) by decide,
      show ¬ ((8 : Int) = 7) by decide, if_true, if_false, zero_mul]
  · intro hty
    rw [hq, bcFlux_of_other _ _ _ _ _ hty, getElem?_eq_some_getD _ i 0 hlen]
  · intro j hj
    obtain ⟨_, _, _, hqj, _⟩ := process_fluxes_boundary_loop_getElem? t m s s' j hrun
    have hno : ¬ (m.interior_cvfaces ≤ j ∧ j < m.cvfaces) := by omega
    simp only [hno, if_false] at hqj
    exact hqj

/-- C16: after `process_fluxes`, for every boundary face `i`,
`M_flux_faces[i] = rho_face * qdotn_faces[i]` with `rho_face = rho_0` if
`qdotn_faces[i] ≥ 0` and `rho_face = rho_vec[id of the back node of the face]` if
`qdotn_faces[i] < 0`. -/
theorem process_fluxes_boundary_mass (t : α) (m : Mesh α) (s : VarSatPhysicsImpl α)
    (i : Nat) (hs : FluxSized m s)
    (hbc : ∀ j, m.interior_cvfaces ≤ j → j < m.cvfaces →
      ∃ BC, boundary_condition_h s (m.cvface_boundary j) = some BC)
    (hi1 : m.interior_cvfaces ≤ i) (hi2 : i < m.cvfaces) :
    ∃ s', process_fluxes t m s = some s' ∧
      (s'.qdotn_faces.getD i 0 ≥ 0 →
        s'.M_flux_faces[i]? = some (s'.constants_.rho_0 * s'.qdotn_faces.getD i 0)) ∧
      (s'.qdotn_faces.getD i 0 < 0 →
        s'.M_flux_faces[i]? =
          some (s'.rho_vec.getD (m.cvface_back_id i) 0 * s'.qdotn_faces.getD i 0)) := by
  obtain ⟨s', hrun⟩ := process_fluxes_returns t m s hbc
  obtain ⟨_, _, hbd⟩ := process_fluxes_spec t m s s' hs hrun
  obtain ⟨_, _, hM⟩ := hbd i hi1 hi2
  refine ⟨s', hrun, ?_, ?_⟩
  · intro hpos
    rw [hM]
    simp only [boundaryRho, hpos, if_true]
  · intro hneg
    have hn : ¬ s'.qdotn_faces.getD i 0 ≥ 0 := not_le.2 hneg
    rw [hM]
    simp only [boundaryRho, hn, if_false]

/-- C17, amended: with a zero head gradient at the interior face `i` (uniform head), the
volumetric flux is the gravity term alone:
`qdotn_faces[i] = krw_faces_lim[i] * K_v[i] * normal_v[i]`, `v` the vertical direction
(`y` in 2-D, `z` in 3-D), `K_v[i]` the negated vertical conductivity of the zone. -/
theorem process_fluxes_uniform_head (t : α) (m : Mesh α) (s : VarSatPhysicsImpl α)
    (K : DimVector α) (i : Nat)
    (hK : initialise_vectors_K_faces m s = some K) (hsK : s.K_faces_ = K)
    (hsN : s.norm_faces_ = initialise_vectors_norm_faces m)
    (hs : FluxSized m s)
    (hbc : ∀ j, m.interior_cvfaces ≤ j → j < m.cvfaces →
      ∃ BC, boundary_condition_h s (m.cvface_boundary j) = some BC)
    (hi : i < m.interior_cvfaces)
    (hgx : s.grad_h_faces_.x.getD i 0 = 0) (hgy : s.grad_h_faces_.y.getD i 0 = 0)
    (hgz : s.grad_h_faces_.z.getD i 0 = 0) :
    ∃ s' zone, process_fluxes t m s = some s' ∧
      physical_zone s (m.element_physical_tag (m.cvface_element i)) = some zone ∧
      (m.dim = 2 → s'.qdotn_faces[i]? =
        some (s'.krw_faces_lim.getD i 0 * (-zone.K_yy) * (m.cvface_normal i).y)) ∧
      (m.dim = 3 → s'.qdotn_faces[i]? =
        some (s'.krw_faces_lim.getD i 0 * (-zone.K_zz) * (m.cvface_normal i).z)) := by
  obtain ⟨s', hrun⟩ := process_fluxes_returns t m s hbc
  obtain ⟨hin, hint, _⟩ := process_fluxes_spec t m s s' hs hrun
  obtain ⟨hq, _⟩ := hint i hi
  obtain ⟨_, _, _, hKi⟩ := initialise_vectors_K_faces_spec m s K hK
  obtain ⟨zone, hz, kx, ky, kz⟩ := hKi i hi
  obtain ⟨_, _, _, hNi⟩ := initialise_vectors_norm_faces_spec m
  obtain ⟨nx, ny, nz⟩ := hNi i hi
  simp only [fluxInputs, Prod.mk.injEq] at hin
  obtain ⟨e1, _, _, _, _⟩ := hin
  refine ⟨s', zone, hrun, hz, ?_, ?_⟩
  · intro hd
    rw [hq, e1]
    simp only [faceQdotn, hd, if_true, hsK, hsN, kx, ky, nx, ny, hgx, hgy]
    congr 1
    ring
  · intro hd
    have hd2 : ¬ m.dim = 2 := by omega
    rw [hq, e1]
    simp only [faceQdotn, hd2, if_false, hsK, hsN, kx, ky, kz hd, nx, ny, nz hd,
      hgx, hgy, hgz]
    simp only [if_pos hd]
    congr 1
    ring

end FluxClaims

/-! ## Concrete evaluations of the fluxes -/

section FluxEvaluations

theorem sampleFlux_K_faces :
    initialise_vectors_K_faces flatMesh sampleFlux = some sampleFlux.K_faces_ := by
  simp [initialise_vectors_K_faces, initialise_vectors_norm_faces, physical_zone, forLoopM,
    forLoop, flatMesh, sampleMesh, sampleFlux, sampleUpwind, sampleZone, List.range']

theorem sampleFluxGrad_K_faces :
    initialise_vectors_K_faces flatMesh sampleFluxGrad = some sampleFluxGrad.K_faces_ := by
  simp [initialise_vectors_K_faces, initialise_vectors_norm_faces, physical_zone, forLoopM,
    forLoop, flatMesh, sampleMesh, sampleFluxGrad, sampleFlux, sampleUpwind, sampleZone,
    List.range']

theorem sampleFlux_norm_faces :
    sampleFlux.norm_faces_ = initialise_vectors_norm_faces flatMesh := by
  simp [initialise_vectors_norm_faces, forLoop, flatMesh, sampleMesh, sampleFlux,
    sampleUpwind, List.range']

theorem sampleFluxGrad_norm_faces :
    sampleFluxGrad.norm_faces_ = initialise_vectors_norm_faces flatMesh := by
  simp [initialise_vectors_norm_faces, forLoop, flatMesh, sampleMesh, sampleFluxGrad,
    sampleFlux, sampleUpwind, List.range']

theorem sampleFlux_sized : FluxSized flatMesh sampleFlux := by
  simp [FluxSized, flatMesh, sampleMesh, sampleFlux, sampleUpwind]

theorem sampleFluxGrad_sized : FluxSized flatMesh sampleFluxGrad := by
  simp [FluxSized, flatMesh, sampleMesh, sampleFluxGrad, sampleFlux, sampleUpwind]

theorem sampleFlux_boundary (j : Nat) :
    ∃ BC, boundary_condition_h sampleFlux (flatMesh.cvface_boundary j) = some BC :=
  ⟨sampleBC, by
    simp [boundary_condition_h, flatMesh, sampleMesh, sampleFlux, sampleUpwind]⟩

theorem sampleFluxGrad_boundary (j : Nat) :
    ∃ BC, boundary_condition_h sampleFluxGrad (flatMesh.cvface_boundary j) = some BC :=
  ⟨sampleBC, by
    simp [boundary_condition_h, flatMesh, sampleMesh, sampleFluxGrad, sampleFlux,
      sampleUpwind]⟩

theorem process_fluxes_interior_faces_witness :
    ∃ s' zone, process_fluxes 0 flatMesh sampleFluxGrad = some s' ∧
      physical_zone sampleFluxGrad
        (flatMesh.element_physical_tag (flatMesh.cvface_element 1)) = some zone ∧
      (flatMesh.dim = 2 → s'.qdotn_faces[1]? = some (s'.krw_faces_lim.getD 1 0 *
        (-zone.K_xx * sampleFluxGrad.grad_h_faces_.x.getD 1 0 * (flatMesh.cvface_normal 1).x +
          -zone.K_yy * (sampleFluxGrad.grad_h_faces_.y.getD 1 0 + 1) *
            (flatMesh.cvface_normal 1).y))) ∧
      (flatMesh.dim = 3 → s'.qdotn_faces[1]? = some (s'.krw_faces_lim.getD 1 0 *
        (-zone.K_xx * sampleFluxGrad.grad_h_faces_.x.getD 1 0 * (flatMesh.cvface_normal 1).x +
          -zone.K_yy * sampleFluxGrad.grad_h_faces_.y.getD 1 0 * (flatMesh.cvface_normal 1).y +
          -zone.K_zz * (sampleFluxGrad.grad_h_faces_.z.getD 1 0 + 1) *
            (flatMesh.cvface_normal 1).z))) ∧
      s'.M_flux_faces[1]? = some (s'.rho_faces_lim.getD 1 0 * s'.qdotn_faces.getD 1 0) :=
  process_fluxes_interior_faces 0 flatMesh sampleFluxGrad sampleFluxGrad.K_faces_ 1
    sampleFluxGrad_K_faces rfl sampleFluxGrad_norm_faces sampleFluxGrad_sized
    (fun j _ _ => sampleFluxGrad_boundary j) (by decide)

theorem process_fluxes_boundary_override_witness :
    ∃ s' BC, process_fluxes_boundary_loop 0 flatMesh sampleFlux = some s' ∧
      boundary_condition_h sampleFlux (flatMesh.cvface_boundary 2) = some BC ∧
      (BC.type = 3 ∨ BC.type = 7 →
        s'.qdotn_faces[2]? = some (BC.value 0 * flatMesh.cvface_area 2)) ∧
      (BC.type = 6 →
        s'.qdotn_faces[2]? = some (BC.flux 0 (flatMesh.cvface_normal 2) *
          flatMesh.cvface_area 2)) ∧
      (BC.type = 8 → s'.qdotn_faces[2]? = some 0) ∧
      (¬ (BC.type = 3 ∨ BC.type = 6 ∨ BC.type = 7 ∨ BC.type = 8) →
        s'.qdotn_faces[2]? = sampleFlux.qdotn_faces[2]?) ∧
      (∀ j, j < flatMesh.interior_cvfaces →
        s'.qdotn_faces[j]? = sampleFlux.qdotn_faces[j]?) :=
  process_fluxes_boundary_override 0 flatMesh sampleFlux 2
    (fun j _ _ => sampleFlux_boundary j) (by decide) (by decide) (by decide)

theorem process_fluxes_boundary_mass_witness :
    ∃ s', process_fluxes 0 flatMesh sampleFlux = some s' ∧
      (s'.qdotn_faces.getD 2 0 ≥ 0 →
        s'.M_flux_faces[2]? = some (s'.constants_.rho_0 * s'.qdotn_faces.getD 2 0)) ∧
      (s'.qdotn_faces.getD 2 0 < 0 →
        s'.M_flux_faces[2]? =
          some (s'.rho_vec.getD (flatMesh.cvface_back_id 2) 0 * s'.qdotn_faces.getD 2 0)) :=
  process_fluxes_boundary_mass 0 flatMesh sampleFlux 2 sampleFlux_sized
    (fun j _ _ => sampleFlux_boundary j) (by decide) (by decide)

theorem process_fluxes_uniform_head_witness :
    ∃ s' zone, process_fluxes 0 flatMesh sampleFlux = some s' ∧
      physical_zone sampleFlux
        (flatMesh.element_physical_tag (flatMesh.cvface_element 1)) = some zone ∧
      (flatMesh.dim = 2 → s'.qdotn_faces[1]? =
        some (s'.krw_faces_lim.getD 1 0 * (-zone.K_yy) * (flatMesh.cvface_normal 1).y)) ∧
      (flatMesh.dim = 3 → s'.qdotn_faces[1]? =
        some (s'.krw_faces_lim.getD 1 0 * (-zone.K_zz) * (flatMesh.cvface_normal 1).z)) :=
  process_fluxes_uniform_head 0 flatMesh sampleFlux sampleFlux.K_faces_ 1
    sampleFlux_K_faces rfl sampleFlux_norm_faces sampleFlux_sized
    (fun j _ _ => sampleFlux_boundary j) (by decide) rfl rfl rfl

/-- C17 fails as stated: on `flatMesh` (one zone, conductivity 1) with the uniform head
`-1` and a zero head gradient at both interior faces, `process_fluxes` returns and the
flux over the interior face 1, whose normal is vertical, is `-1/2`, not `0`: the gravity
term remains. -/
theorem process_fluxes_uniform_head_flux_nonzero :
    (∀ z, z ∈ sampleFlux.h_vec → z = -1) ∧
    (∀ e, e < flatMesh.elements → flatMesh.element_physical_tag e = 0) ∧
    (∀ i, i < flatMesh.interior_cvfaces →
      sampleFlux.grad_h_faces_.x.getD i 0 = 0 ∧ sampleFlux.grad_h_faces_.y.getD i 0 = 0 ∧
      sampleFlux.grad_h_faces_.z.getD i 0 = 0) ∧
    initialise_vectors_K_faces flatMesh sampleFlux = some sampleFlux.K_faces_ ∧
    sampleFlux.norm_faces_ = initialise_vectors_norm_faces flatMesh ∧
    ∃ s' : VarSatPhysicsImpl ℚ, process_fluxes 0 flatMesh sampleFlux = some s' ∧
      s'.qdotn_faces[1]? = some (-1 / 2 : ℚ) ∧ (-1 / 2 : ℚ) ≠ 0 := by
  obtain ⟨s', hrun⟩ := process_fluxes_returns 0 flatMesh sampleFlux
    (fun j _ _ => sampleFlux_boundary j)
  obtain ⟨_, hint, _⟩ := process_fluxes_spec 0 flatMesh sampleFlux s' sampleFlux_sized hrun
  obtain ⟨hq, _⟩ := hint 1 (by decide)
  refine ⟨?_, ?_, ?_, sampleFlux_K_faces, sampleFlux_norm_faces, s', hrun, ?_, by norm_num⟩
  · intro z hz
    simp [sampleFlux] at hz
    exact hz
  · intro e _
    rfl
  · intro i hi
    have hi2 : i < 2 := hi
    interval_cases i <;> exact ⟨rfl, rfl, rfl⟩
  · rw [hq]
    simp [faceQdotn, flatMesh, sampleMesh, sampleFlux, sampleUpwind]
    norm_num

end FluxEvaluations

/-! ## Row begin arrays and rows -/

section Rows

theorem forLoop_map {σ τ : Type} (π : σ → τ) (lo hi : Nat) (body : Nat → σ → σ)
    (body' : Nat → τ → τ) (s : σ) (h : ∀ i st, π (body i st) = body' i (π st)) :
    π (forLoop lo hi body s) = forLoop lo hi body' (π s) := by
  rcases Nat.le_total lo hi with hle | hle
  · induction hi, hle using Nat.le_induction with
    | base => rw [forLoop_empty lo lo body s (Nat.le_refl lo),
        forLoop_empty lo lo body' (π s) (Nat.le_refl lo)]
    | succ k hk ih => rw [forLoop_succ lo k body s hk, forLoop_succ lo k body' (π s) hk, h, ih]
  · rw [forLoop_empty lo hi body s hle, forLoop_empty lo hi body' (π s) hle]

theorem degreeSum_succ (deg : Nat → Nat) (i : Nat) :
    degreeSum deg (i + 1) = degreeSum deg i + deg i := by
  unfold degreeSum
  rw [List.range_succ, List.map_append, List.sum_append]
  simp

theorem degreeSum_mono (deg : Nat → Nat) (i j : Nat) (h : i ≤ j) :
    degreeSum deg i ≤ degreeSum deg j := by
  induction j, h using Nat.le_induction with
  | base => exact Nat.le_refl _
  | succ k _ ih => rw [degreeSum_succ]; omega

/-- The row begin array holds the partial sums of the degrees. -/
theorem row_begin_spec (n : Nat) (deg : Nat → Nat) :
    (row_begin n deg).length = n + 1 ∧
    ∀ i, i ≤ n → (row_begin n deg).getD i 0 = degreeSum deg i := by
  unfold row_begin
  have key := forLoop_inv
    (fun k (ia : TIndexVec) => ia.length = n + 1 ∧ ∀ i, i ≤ k → ia.getD i 0 = degreeSum deg i)
    0 n (fun i ia => ia.set (i + 1) (ia.getD i 0 + deg i)) (List.replicate (n + 1) 0)
    (Nat.zero_le n)
    (by
      refine ⟨by simp, ?_⟩
      intro i hi
      have : i = 0 := by omega
      subst this
      simp [degreeSum])
    (by
      intro k ia _ hk hP
      obtain ⟨hl, hv⟩ := hP
      refine ⟨by simp [hl], ?_⟩
      intro i hi
      by_cases hik : i = k + 1
      · subst hik
        rw [getD_set_self _ _ _ _ (by omega), hv k (Nat.le_refl k), degreeSum_succ]
      · rw [getD_set_ne _ _ _ _ _ (fun h => hik h.symm)]
        exact hv i (by omega))
  exact key

theorem row_begin_getD_of_gt (n : Nat) (deg : Nat → Nat) (i : Nat) (h : n < i) :
    (row_begin n deg).getD i 0 = 0 := by
  have hl := (row_begin_spec n deg).1
  rw [List.getD_eq_getElem?_getD, List.getElem?_eq_none (by omega)]
  rfl

/-- Two different rows of a row begin array share no position. -/
theorem row_begin_disjoint (n : Nat) (deg : Nat → Nat) (c f p : Nat) (hf : f < n)
    (hc : c ≠ f)
    (h1 : (row_begin n deg).getD c 0 ≤ p ∧ p < (row_begin n deg).getD (c + 1) 0)
    (h2 : (row_begin n deg).getD f 0 ≤ p ∧ p < (row_begin n deg).getD (f + 1) 0) : False := by
  have hv := (row_begin_spec n deg).2
  rw [hv f (by omega), hv (f + 1) (by omega)] at h2
  by_cases hcn : c < n
  · rw [hv c (by omega), hv (c + 1) (by omega)] at h1
    rcases Nat.lt_or_gt_of_ne hc with hlt | hgt
    · have := degreeSum_mono deg (c + 1) f (by omega)
      omega
    · have := degreeSum_mono deg (f + 1) c (by omega)
      omega
  · rw [row_begin_getD_of_gt n deg (c + 1) (by omega)] at h1
    omega

theorem rowSet_length {β : Type} (ia : TIndexVec) (c : Nat) (g : Nat → β) (v : List β) :
    (rowSet ia c g v).length = v.length := by
  unfold rowSet
  exact forLoop_preserves (fun v : List β => v.length) _ _ _ _ (by intro i st; simp)

/-- The row loop writes `g (p - ia[c])` at every position `p` of row `c` and nothing
else. -/
theorem rowSet_getElem? {β : Type} (ia : TIndexVec) (c : Nat) (g : Nat → β) (v : List β)
    (p : Nat) :
    (rowSet ia c g v)[p]? =
      if ia.getD c 0 ≤ p ∧ p < ia.getD (c + 1) 0 then (v[p]?).map (fun _ => g (p - ia.getD c 0))
      else v[p]? := by
  unfold rowSet
  generalize ia.getD c 0 = lo
  generalize ia.getD (c + 1) 0 = hi
  have key := forLoop_inv
    (fun k (w : List β) => w[p]? =
      if lo ≤ p ∧ p < lo + k then (v[p]?).map (fun _ => g (p - lo)) else v[p]?)
    0 (hi - lo) (fun k w => w.set (lo + k) (g k)) v (Nat.zero_le _)
    (by
      have : ¬ (lo ≤ p ∧ p < lo + 0) := by omega
      simp only [this, if_false])
    (by
      intro k w _ hk hP
      rw [List.getElem?_set]
      by_cases hpk : lo + k = p
      · have h1 : lo ≤ p ∧ p < lo + (k + 1) := by omega
        have h2 : ¬ (lo ≤ p ∧ p < lo + k) := by omega
        have h3 : k = p - lo := by omega
        simp only [h2, if_false] at hP
        simp only [hpk, h1, and_self, if_true]
        by_cases hp : p < w.length
        · have hw : w[p]? = some (w.getD p (g k)) := getElem?_eq_some_getD w p (g k) hp
          rw [hP] at hw
          rw [if_pos hp, hw, h3]
          rfl
        · rw [if_neg hp]
          have hw : w[p]? = none := List.getElem?_eq_none (by omega)
          rw [hP] at hw
          rw [hw]
          rfl
      · have h1 : (lo ≤ p ∧ p < lo + (k + 1)) ↔ (lo ≤ p ∧ p < lo + k) := by omega
        simp only [hpk, if_false, h1]
        exact hP)
  rw [key]
  have h1 : (lo ≤ p ∧ p < lo + (hi - lo)) ↔ (lo ≤ p ∧ p < hi) := by omega
  simp only [h1]

end Rows

section ShapeFill

/-- The entry of row `f` written by the loops over the elements: the row of the face `f`
is written for the one edge `j0` of the one element `el` whose face it is. -/
theorem shapeFill_getElem? {α β : Type} (m : Mesh α) (n : Nat) (deg : Nat → Nat)
    (g : Nat → Nat → Nat → β) (v : List β) (f el j0 p : Nat)
    (hf : f < n) (hel : el < m.elements) (hj : j0 < m.element_edges el)
    (hcv : m.element_cvface el j0 = f)
    (huniq : ∀ i j, i < m.elements → j < m.element_edges i → m.element_cvface i j = f →
      i = el ∧ j = j0)
    (hp1 : (row_begin n deg).getD f 0 ≤ p) (hp2 : p < (row_begin n deg).getD (f + 1) 0)
    (hpl : p < v.length) :
    (shapeFill m (row_begin n deg) g v).length = v.length ∧
    (shapeFill m (row_begin n deg) g v)[p]? =
      some (g el j0 (p - (row_begin n deg).getD f 0)) := by
  unfold shapeFill
  have key := forLoop_inv
    (fun i (w : List β) => w.length = v.length ∧
      (el < i → w[p]? = some (g el j0 (p - (row_begin n deg).getD f 0))))
    0 m.elements
    (fun i v => forLoop 0 (m.element_edges i)
      (fun j v => rowSet (row_begin n deg) (m.element_cvface i j) (g i j) v) v) v
    (Nat.zero_le _)
    ⟨rfl, fun h => absurd h (Nat.not_lt_zero el)⟩
    (by
      intro i w _ hi hP
      have inner := forLoop_inv
        (fun jj (w' : List β) => w'.length = v.length ∧
          ((el < i ∨ (el = i ∧ j0 < jj)) →
            w'[p]? = some (g el j0 (p - (row_begin n deg).getD f 0))))
        0 (m.element_edges i)
        (fun j v => rowSet (row_begin n deg) (m.element_cvface i j) (g i j) v) w
        (Nat.zero_le _)
        ⟨hP.1, fun h => hP.2 (by omega)⟩
        (by
          intro jj w' _ hjj hR
          refine ⟨by rw [rowSet_length]; exact hR.1, ?_⟩
          intro hcond
          rw [rowSet_getElem?]
          by_cases hc : m.element_cvface i jj = f
          · obtain ⟨e1, e2⟩ := huniq i jj hi hjj hc
            subst e1
            subst e2
            rw [hc, if_pos ⟨hp1, hp2⟩,
              getElem?_eq_some_getD w' p (g i jj 0) (by rw [hR.1]; exact hpl)]
            rfl
          · have hno : ¬ ((row_begin n deg).getD (m.element_cvface i jj) 0 ≤ p ∧
                p < (row_begin n deg).getD (m.element_cvface i jj + 1) 0) :=
              fun h => row_begin_disjoint n deg _ f p hf hc h ⟨hp1, hp2⟩
            rw [if_neg hno]
            apply hR.2
            rcases hcond with h1 | ⟨h1, h2⟩
            · exact Or.inl h1
            · refine Or.inr ⟨h1, ?_⟩
              by_contra hnot
              have : j0 = jj := by omega
              subst this
              subst h1
              exact hc hcv)
      refine ⟨inner.1, ?_⟩
      intro hlt
      apply inner.2
      by_cases h1 : el < i
      · exact Or.inl h1
      · have : el = i := by omega
        subst this
        exact Or.inr ⟨rfl, hj⟩)
  exact ⟨key.1, key.2 hel⟩

theorem shapeFill_length {α β : Type} (m : Mesh α) (ia : TIndexVec)
    (g : Nat → Nat → Nat → β) (v : List β) :
    (shapeFill m ia g v).length = v.length := by
  unfold shapeFill
  apply forLoop_preserves (fun v : List β => v.length)
  intro i st
  apply forLoop_preserves (fun v : List β => v.length)
  intro j st'
  exact rowSet_length _ _ _ _

/-- Each vector of `initialise_shape_functions_arrays` is filled by its own loops. -/
theorem initialise_shape_functions_element_fill {α : Type} [LinearOrderedField α]
    (m : Mesh α) (ia : TIndexVec) (a : ShapeArrays α) :
    (forLoop 0 m.elements (initialise_shape_functions_element m ia) a).ja =
      shapeFill m ia (fun i _ k => ((index_vector m i).getD k (0, 0)).1) a.ja ∧
    (forLoop 0 m.elements (initialise_shape_functions_element m ia) a).shape_val =
      shapeFill m ia (fun i j k =>
        (m.shape_functions i j).getD ((index_vector m i).getD k (0, 0)).2 0) a.shape_val ∧
    (forLoop 0 m.elements (initialise_shape_functions_element m ia) a).shape_dx =
      shapeFill m ia (fun i j k => ((m.shape_gradients i j).getD
        ((index_vector m i).getD k (0, 0)).2 { x := 0, y := 0, z := 0 }).x) a.shape_dx ∧
    (forLoop 0 m.elements (initialise_shape_functions_element m ia) a).shape_dy =
      shapeFill m ia (fun i j k => ((m.shape_gradients i j).getD
        ((index_vector m i).getD k (0, 0)).2 { x := 0, y := 0, z := 0 }).y) a.shape_dy ∧
    (forLoop 0 m.elements (initialise_shape_functions_element m ia) a).shape_dz =
      shapeFill m ia (fun i j k => ((m.shape_gradients i j).getD
        ((index_vector m i).getD k (0, 0)).2 { x := 0, y := 0, z := 0 }).z) a.shape_dz := by
  unfold shapeFill
  refine ⟨?_, ?_, ?_, ?_, ?_⟩
  · apply forLoop_map (fun a : ShapeArrays α => a.ja)
    intro i st
    unfold initialise_shape_functions_element
    apply forLoop_map (fun a : ShapeArrays α => a.ja)
    intro j st'
    rfl
  · apply forLoop_map (fun a : ShapeArrays α => a.shape_val)
    intro i st
    unfold initialise_shape_functions_element
    apply forLoop_map (fun a : ShapeArrays α => a.shape_val)
    intro j st'
    rfl
  · apply forLoop_map (fun a : ShapeArrays α => a.shape_dx)
    intro i st
    unfold initialise_shape_functions_element
    apply forLoop_map (fun a : ShapeArrays α => a.shape_dx)
    intro j st'
    rfl
  · apply forLoop_map (fun a : ShapeArrays α => a.shape_dy)
    intro i st
    unfold initialise_shape_functions_element
    apply forLoop_map (fun a : ShapeArrays α => a.shape_dy)
    intro j st'
    rfl
  · apply forLoop_map (fun a : ShapeArrays α => a.shape_dz)
    intro i st
    unfold initialise_shape_functions_element
    apply forLoop_map (fun a : ShapeArrays α => a.shape_dz)
    intro j st'
    rfl

end ShapeFill

/-! ## The sorted index vector of an element -/

section IndexVector

theorem index_vector_eq {α : Type} [LinearOrderedField α] (m : Mesh α) (i : Nat) :
    index_vector m i = (nodePairs m i).insertionSort pairLe := by
  unfold index_vector nodePairs
  dsimp only
  congr 1
  generalize m.element_nodes i = e
  have key := forLoop_inv
    (fun k (iv : List (Nat × Nat)) => iv.length = e.length ∧
      ∀ j, j < k → iv[j]? = some (e.getD j 0, j))
    0 e.length (fun k iv => iv.set k (e.getD k 0, k)) (List.replicate e.length (0, 0))
    (Nat.zero_le _)
    ⟨by simp, fun j hj => absurd hj (Nat.not_lt_zero j)⟩
    (by
      intro k iv _ hk hP
      refine ⟨by simp [hP.1], ?_⟩
      intro j hj
      rw [List.getElem?_set]
      by_cases hjk : k = j
      · subst hjk
        have hlt : k < iv.length := by rw [hP.1]; exact hk
        simp only [if_true, hlt]
      · simp only [hjk, if_false]
        exact hP.2 j (by omega))
  apply List.ext_getElem?
  intro j
  by_cases hj : j < e.length
  · rw [key.2 j hj]
    simp [List.getElem?_range, hj]
  · rw [List.getElem?_eq_none (by rw [key.1]; omega), List.getElem?_eq_none (by simp; omega)]

theorem index_vector_perm {α : Type} [LinearOrderedField α] (m : Mesh α) (i : Nat) :
    (index_vector m i).Perm (nodePairs m i) := by
  rw [index_vector_eq]
  exact List.perm_insertionSort pairLe _

theorem index_vector_length {α : Type} [LinearOrderedField α] (m : Mesh α) (i : Nat) :
    (index_vector m i).length = (m.element_nodes i).length := by
  rw [(index_vector_perm m i).length_eq]
  simp [nodePairs]

theorem index_vector_sorted {α : Type} [LinearOrderedField α] (m : Mesh α) (i : Nat) :
    (index_vector m i).Pairwise pairLe := by
  rw [index_vector_eq]
  haveI : IsTotal (Nat × Nat) pairLe := ⟨fun a b => by unfold pairLe; omega⟩
  haveI : IsTrans (Nat × Nat) pairLe := ⟨fun a b c h1 h2 => by unfold pairLe at *; omega⟩
  exact List.sorted_insertionSort pairLe _

theorem nodePairs_map_fst {α : Type} (m : Mesh α) (i : Nat) :
    (nodePairs m i).map Prod.fst = m.element_nodes i := by
  unfold nodePairs
  rw [List.map_map]
  exact map_getD_range (m.element_nodes i) 0

/-- The first components of the sorted index vector are the node ids of the element. -/
theorem index_vector_ids_perm {α : Type} [LinearOrderedField α] (m : Mesh α) (i : Nat) :
    ((index_vector m i).map Prod.fst).Perm (m.element_nodes i) := by
  have h := (index_vector_perm m i).map Prod.fst
  rw [nodePairs_map_fst] at h
  exact h

/-- With pairwise distinct node ids, the first components of the sorted index vector are
strictly ascending. -/
theorem index_vector_ids_sorted {α : Type} [LinearOrderedField α] (m : Mesh α) (i : Nat)
    (hnd : (m.element_nodes i).Nodup) :
    ((index_vector m i).map Prod.fst).Pairwise (fun a b => a < b) := by
  rw [List.pairwise_map]
  have hs := index_vector_sorted m i
  have hids : ((index_vector m i).map Prod.fst).Nodup :=
    (index_vector_ids_perm m i).nodup_iff.2 hnd
  have hne : (index_vector m i).Pairwise (fun a b => a.1 ≠ b.1) := by
    have := hids
    unfold List.Nodup at this
    rw [List.pairwise_map] at this
    exact this
  refine (hs.and hne).imp ?_
  intro a b hab
  obtain ⟨h1, h2⟩ := hab
  unfold pairLe at h1
  omega

end IndexVector

/-! ## Rows of a sparse operator -/

section MatvecRows

variable {α : Type} [LinearOrderedField α]

theorem forLoop_sum (lo hi : Nat) (t : Nat → α) :
    forLoop lo hi (fun p acc => acc + t p) 0 =
      ((List.range (hi - lo)).map (fun k => t (lo + k))).sum := by
  rcases Nat.le_total lo hi with hle | hle
  · induction hi, hle using Nat.le_induction with
    | base => rw [forLoop_empty lo lo _ _ (Nat.le_refl lo)]; simp
    | succ k hk ih =>
      rw [forLoop_succ lo k _ _ hk, ih]
      have e : k + 1 - lo = (k - lo) + 1 := by omega
      have e2 : lo + (k - lo) = k := by omega
      rw [e, List.range_succ, List.map_append, List.sum_append]
      simp [e2]
  · rw [forLoop_empty lo hi _ _ hle]
    have : hi - lo = 0 := by omega
    rw [this]
    simp

theorem matvec_getElem? (A : InterpolationMatrix α) (x : TVec α) (f : Nat)
    (hf : f < A.ia.length - 1) :
    (A.matvec x)[f]? = some (((List.range (A.ia.getD (f + 1) 0 - A.ia.getD f 0)).map
      (fun k => A.weights.getD (A.ia.getD f 0 + k) 0 *
        x.getD (A.ja.getD (A.ia.getD f 0 + k) 0) 0)).sum) := by
  unfold InterpolationMatrix.matvec
  rw [List.getElem?_map, List.getElem?_range hf]
  simp only [Option.map_some']
  rw [forLoop_sum]

theorem matvec_length (A : InterpolationMatrix α) (x : TVec α) :
    (A.matvec x).length = A.ia.length - 1 := by
  unfold InterpolationMatrix.matvec
  simp

end MatvecRows

/-! ## Rows of the shape operators -/

section ShapeRows

/-- The length of row `f` of the shape operators is the number of nodes of the element of
the face. -/
theorem initialise_shape_functions_ia_row {α : Type} (m : Mesh α) (f : Nat)
    (hf : f < m.interior_cvfaces) :
    (initialise_shape_functions_ia m).getD (f + 1) 0 =
      (initialise_shape_functions_ia m).getD f 0 +
        (m.element_nodes (m.cvface_element f)).length := by
  unfold initialise_shape_functions_ia
  have hv := (row_begin_spec m.interior_cvfaces
    (fun i => (m.element_nodes (m.cvface_element i)).length)).2
  rw [hv f (by omega), hv (f + 1) (by omega), degreeSum_succ]

/-- The product of a row that holds the sorted node ids of element `el` and the values
`G` at the matching local nodes is the sum over the local nodes in their own order. -/
theorem shape_row_matvec {α : Type} [LinearOrderedField α] (m : Mesh α) (el : Nat) (G : Nat → α) (ia ja : TIndexVec)
    (w x : TVec α) (f : Nat) (hf : f < ia.length - 1)
    (hrow : ia.getD (f + 1) 0 - ia.getD f 0 = (m.element_nodes el).length)
    (hja : ∀ k, k < (m.element_nodes el).length →
      ja[ia.getD f 0 + k]? = some ((index_vector m el).getD k (0, 0)).1)
    (hw : ∀ k, k < (m.element_nodes el).length →
      w[ia.getD f 0 + k]? = some (G ((index_vector m el).getD k (0, 0)).2)) :
    (({ ia := ia, ja := ja, weights := w } : InterpolationMatrix α).matvec x)[f]? =
      some (((List.range (m.element_nodes el).length).map
        (fun k => G k * x.getD ((m.element_nodes el).getD k 0) 0)).sum) := by
  rw [matvec_getElem? _ _ _ hf]
  dsimp only
  rw [hrow]
  congr 1
  have h1 : (List.range (m.element_nodes el).length).map
      (fun k => w.getD (ia.getD f 0 + k) 0 * x.getD (ja.getD (ia.getD f 0 + k) 0) 0) =
      ((List.range (index_vector m el).length).map
        (fun k => (index_vector m el).getD k (0, 0))).map
        (fun q => G q.2 * x.getD q.1 0) := by
    rw [index_vector_length, List.map_map]
    apply List.map_congr_left
    intro k hk
    have hk2 : k < (m.element_nodes el).length := List.mem_range.1 hk
    rw [getD_of_getElem? _ _ 0 _ (hja k hk2), getD_of_getElem? _ _ 0 _ (hw k hk2)]
    rfl
  rw [h1, map_getD_range]
  rw [((index_vector_perm m el).map (fun q => G q.2 * x.getD q.1 0)).sum_eq]
  unfold nodePairs
  rw [List.map_map]
  rfl

/-- The entry at local position `k` of row `f` in a vector filled by the loops over the
elements. -/
theorem shape_arrays_row {α β : Type} (m : Mesh α) (g : Nat → Nat → Nat → β) (d : β)
    (f el j0 k : Nat) (hf : f < m.interior_cvfaces) (hown : m.cvface_element f = el)
    (hel : el < m.elements) (hj : j0 < m.element_edges el)
    (hcv : m.element_cvface el j0 = f)
    (huniq : ∀ i j, i < m.elements → j < m.element_edges i → m.element_cvface i j = f →
      i = el ∧ j = j0)
    (hk : k < (m.element_nodes el).length) :
    (shapeFill m (initialise_shape_functions_ia m) g
      (List.replicate ((initialise_shape_functions_ia m).getD (m.interior_cvfaces + 1 - 1) 0)
        d))[(initialise_shape_functions_ia m).getD f 0 + k]? = some (g el j0 k) := by
  have hrow := initialise_shape_functions_ia_row m f hf
  rw [hown] at hrow
  have hv := (row_begin_spec m.interior_cvfaces
    (fun i => (m.element_nodes (m.cvface_element i)).length)).2
  have hlen : (initialise_shape_functions_ia m).getD (f + 1) 0 ≤
      (initialise_shape_functions_ia m).getD (m.interior_cvfaces + 1 - 1) 0 := by
    unfold initialise_shape_functions_ia
    rw [hv (f + 1) (by omega), hv (m.interior_cvfaces + 1 - 1) (by omega)]
    exact degreeSum_mono _ _ _ (by omega)
  have key := (shapeFill_getElem? m m.interior_cvfaces
    (fun i => (m.element_nodes (m.cvface_element i)).length) g
    (List.replicate ((initialise_shape_functions_ia m).getD (m.interior_cvfaces + 1 - 1) 0) d)
    f el j0 ((initialise_shape_functions_ia m).getD f 0 + k) hf hel hj hcv huniq
    (by unfold initialise_shape_functions_ia; omega)
    (by
      have := hrow
      unfold initialise_shape_functions_ia at this
      rw [this]
      unfold initialise_shape_functions_ia
      omega)
    (by rw [List.length_replicate]; omega)).2
  unfold initialise_shape_functions_ia at key
  unfold initialise_shape_functions_ia
  rw [key]
  congr 2
  omega

end ShapeRows

/-! ## Rows of the operator for flux limiting -/

section FluxLimRows

/-- The length of row `e` of the operator for flux limiting is the number of faces of the
edge. -/
theorem initialise_shape_functions_ia_fl_row {α : Type} (m : Mesh α) (e : Nat)
    (he : e < m.edges) :
    (initialise_shape_functions_ia_fl m).getD (e + 1) 0 =
      (initialise_shape_functions_ia_fl m).getD e 0 + (m.edge_cvface e).length := by
  unfold initialise_shape_functions_ia_fl
  have hv := (row_begin_spec m.edges (fun i => (m.edge_cvface i).length)).2
  rw [hv e (by omega), hv (e + 1) (by omega), degreeSum_succ]

variable {α : Type} [LinearOrderedField α]

/-- The total area computed for edge `i` is the sum of the areas of its faces. -/
theorem total_area_eq (m : Mesh α) (i : Nat) :
    forLoop 0 (m.edge_cvface i).length
      (fun j (t : α) => t + m.cvface_area ((m.edge_cvface i).getD j 0)) 0 =
      ((m.edge_cvface i).map m.cvface_area).sum := by
  rw [forLoop_sum]
  have h : (List.range ((m.edge_cvface i).length - 0)).map
      (fun k => m.cvface_area ((m.edge_cvface i).getD (0 + k) 0)) =
      ((List.range (m.edge_cvface i).length).map
        (fun k => (m.edge_cvface i).getD k 0)).map m.cvface_area := by
    rw [List.map_map]
    apply List.map_congr_left
    intro k _
    simp
  rw [h, map_getD_range]

/-- The body of the loop over the edges writes the faces of edge `i` and the weight
`1 / total_area` on the row of edge `i`, and nothing else. -/
theorem initialise_shape_functions_edge_getElem? (m : Mesh α) (ia_fl : TIndexVec) (i : Nat)
    (a : FluxLimArrays α) (p : Nat) :
    (initialise_shape_functions_edge m ia_fl i a).ja_fl.length = a.ja_fl.length ∧
    (initialise_shape_functions_edge m ia_fl i a).weights_fl.length = a.weights_fl.length ∧
    (initialise_shape_functions_edge m ia_fl i a).ja_fl[p]? =
      (if ia_fl.getD i 0 ≤ p ∧ p < ia_fl.getD i 0 + (m.edge_cvface i).length then
        (a.ja_fl[p]?).map (fun _ => (m.edge_cvface i).getD (p - ia_fl.getD i 0) 0)
       else a.ja_fl[p]?) ∧
    (initialise_shape_functions_edge m ia_fl i a).weights_fl[p]? =
      (if ia_fl.getD i 0 ≤ p ∧ p < ia_fl.getD i 0 + (m.edge_cvface i).length then
        (a.weights_fl[p]?).map (fun _ => 1 / ((m.edge_cvface i).map m.cvface_area).sum)
       else a.weights_fl[p]?) := by
  unfold initialise_shape_functions_edge
  dsimp only
  rw [total_area_eq]
  generalize ia_fl.getD i 0 = lo
  generalize m.edge_cvface i = faces
  generalize ((faces.map m.cvface_area).sum : α) = total
  have key := forLoop_inv
    (fun jj (st : FluxLimArrays α) => st.pos = lo + jj ∧
      st.ja_fl.length = a.ja_fl.length ∧ st.weights_fl.length = a.weights_fl.length ∧
      st.ja_fl[p]? = (if lo ≤ p ∧ p < lo + jj then
        (a.ja_fl[p]?).map (fun _ => faces.getD (p - lo) 0) else a.ja_fl[p]?) ∧
      st.weights_fl[p]? = (if lo ≤ p ∧ p < lo + jj then
        (a.weights_fl[p]?).map (fun _ => 1 / total) else a.weights_fl[p]?))
    0 faces.length
    (fun j (a : FluxLimArrays α) =>
      ({ pos := a.pos + 1
         ja_fl := a.ja_fl.set a.pos (faces.getD j 0)
         weights_fl := a.weights_fl.set a.pos (1 / total) } : FluxLimArrays α))
    { a with pos := lo } (Nat.zero_le _)
    (by
      have hno : ¬ (lo ≤ p ∧ p < lo + 0) := by omega
      simp only [hno, if_false]
      exact ⟨rfl, trivial, trivial, trivial, trivial⟩)
    (by
      intro jj st _ hjj hP
      obtain ⟨hpos, hl1, hl2, hja, hw⟩ := hP
      dsimp only
      refine ⟨by rw [hpos]; omega, by simp [hl1], by simp [hl2], ?_, ?_⟩
      · rw [List.getElem?_set, hpos]
        by_cases hpk : lo + jj = p
        · have h1 : lo ≤ p ∧ p < lo + (jj + 1) := by omega
          have h2 : ¬ (lo ≤ p ∧ p < lo + jj) := by omega
          have h3 : jj = p - lo := by omega
          simp only [h2, if_false] at hja
          simp only [hpk, h1, and_self, if_true]
          by_cases hp : p < st.ja_fl.length
          · have hv : st.ja_fl[p]? = some (st.ja_fl.getD p 0) :=
              getElem?_eq_some_getD _ p 0 hp
            rw [hja] at hv
            rw [if_pos hp, hv, h3]
            rfl
          · rw [if_neg hp]
            have hv : st.ja_fl[p]? = none := List.getElem?_eq_none (by omega)
            rw [hja] at hv
            rw [hv]
            rfl
        · have h1 : (lo ≤ p ∧ p < lo + (jj + 1)) ↔ (lo ≤ p ∧ p < lo + jj) := by omega
          simp only [hpk, if_false, h1]
          exact hja
      · rw [List.getElem?_set, hpos]
        by_cases hpk : lo + jj = p
        · have h1 : lo ≤ p ∧ p < lo + (jj + 1) := by omega
          have h2 : ¬ (lo ≤ p ∧ p < lo + jj) := by omega
          simp only [h2, if_false] at hw
          simp only [hpk, h1, and_self, if_true]
          by_cases hp : p < st.weights_fl.length
          · have hv : st.weights_fl[p]? = some (st.weights_fl.getD p 0) :=
              getElem?_eq_some_getD _ p 0 hp
            rw [hw] at hv
            rw [if_pos hp, hv]
            rfl
          · rw [if_neg hp]
            have hv : st.weights_fl[p]? = none := List.getElem?_eq_none (by omega)
            rw [hw] at hv
            rw [hv]
            rfl
        · have h1 : (lo ≤ p ∧ p < lo + (jj + 1)) ↔ (lo ≤ p ∧ p < lo + jj) := by omega
          simp only [hpk, if_false, h1]
          exact hw)
  exact ⟨key.2.1, key.2.2.1, key.2.2.2.1, key.2.2.2.2⟩

/-- The entries of row `e` after the loop over the edges: the `k`-th entry is the `k`-th
face of the edge, with the weight `1 / total_area`. -/
theorem initialise_shape_functions_arrays_fl_row (m : Mesh α) (e k : Nat) (he : e < m.edges)
    (hk : k < (m.edge_cvface e).length) :
    (initialise_shape_functions_arrays_fl m).ja_fl[
        (initialise_shape_functions_ia_fl m).getD e 0 + k]? =
      some ((m.edge_cvface e).getD k 0) ∧
    (initialise_shape_functions_arrays_fl m).weights_fl[
        (initialise_shape_functions_ia_fl m).getD e 0 + k]? =
      some (1 / ((m.edge_cvface e).map m.cvface_area).sum) := by
  have hrow := initialise_shape_functions_ia_fl_row m e he
  have hv := (row_begin_spec m.edges (fun i => (m.edge_cvface i).length)).2
  have hlen : (initialise_shape_functions_ia_fl m).getD (e + 1) 0 ≤
      (initialise_shape_functions_ia_fl m).getD (m.edges + 1 - 1) 0 := by
    unfold initialise_shape_functions_ia_fl
    rw [hv (e + 1) (by omega), hv (m.edges + 1 - 1) (by omega)]
    exact degreeSum_mono _ _ _ (by omega)
  generalize hp : (initialise_shape_functions_ia_fl m).getD e 0 + k = p
  generalize hL : (initialise_shape_functions_ia_fl m).getD (m.edges + 1 - 1) 0 = L at hlen
  have key := forLoop_inv
    (fun i (st : FluxLimArrays α) => st.ja_fl.length = L ∧ st.weights_fl.length = L ∧
      (e < i → st.ja_fl[p]? = some ((m.edge_cvface e).getD k 0) ∧
        st.weights_fl[p]? = some (1 / ((m.edge_cvface e).map m.cvface_area).sum)))
    0 m.edges (initialise_shape_functions_edge m (initialise_shape_functions_ia_fl m))
    { pos := 0, ja_fl := List.replicate L 0, weights_fl := List.replicate L 0 }
    (Nat.zero_le _)
    ⟨by simp, by simp, fun h => absurd h (Nat.not_lt_zero e)⟩
    (by
      intro i st _ hi hP
      obtain ⟨hl1, hl2, hdone⟩ := hP
      obtain ⟨g1, g2, g3, g4⟩ := initialise_shape_functions_edge_getElem? m
        (initialise_shape_functions_ia_fl m) i st p
      refine ⟨g1.trans hl1, g2.trans hl2, ?_⟩
      intro hlt
      rw [g3, g4]
      by_cases hie : i = e
      · subst hie
        have hin : (initialise_shape_functions_ia_fl m).getD i 0 ≤ p ∧
            p < (initialise_shape_functions_ia_fl m).getD i 0 + (m.edge_cvface i).length := by
          omega
        have hk2 : p - (initialise_shape_functions_ia_fl m).getD i 0 = k := by omega
        rw [if_pos hin, if_pos hin, hk2,
          getElem?_eq_some_getD st.ja_fl p 0 (by omega),
          getElem?_eq_some_getD st.weights_fl p 0 (by omega)]
        exact ⟨rfl, rfl⟩
      · have hno : ¬ ((initialise_shape_functions_ia_fl m).getD i 0 ≤ p ∧
            p < (initialise_shape_functions_ia_fl m).getD i 0 + (m.edge_cvface i).length) := by
          intro hc
          rw [← initialise_shape_functions_ia_fl_row m i hi] at hc
          exact row_begin_disjoint m.edges (fun i => (m.edge_cvface i).length) i e p he hie hc
            (by
              have h2 := hrow
              unfold initialise_shape_functions_ia_fl at h2 hp
              omega)
        rw [if_neg hno, if_neg hno]
        exact hdone (by omega))
  unfold initialise_shape_functions_arrays_fl
  dsimp only
  rw [hL]
  exact key.2.2 he

end FluxLimRows

/-! ## Construction of the operators -/

section Construction

theorem construct_eq_some {α : Type} (ia ja : TIndexVec) (w : TVec α) (h1 : ia ≠ [])
    (h2 : ia.getD (ia.length - 1) 0 = ja.length) (h3 : ja.length = w.length)
    (h4 : ∀ i, i < ia.length - 1 → ia.getD i 0 < ia.getD (i + 1) 0) :
    InterpolationMatrix.construct ia ja w = some { ia := ia, ja := ja, weights := w } := by
  unfold InterpolationMatrix.construct
  rw [if_pos ⟨h1, h2, h3, h4⟩]

theorem construct_some {α : Type} (ia ja : TIndexVec) (w : TVec α) (A : InterpolationMatrix α)
    (h : InterpolationMatrix.construct ia ja w = some A) :
    A = { ia := ia, ja := ja, weights := w } := by
  unfold InterpolationMatrix.construct at h
  split at h
  · exact (Option.some.inj h).symm
  · cases h

theorem construct_eq_none {α : Type} (ia ja : TIndexVec) (w : TVec α) (i : Nat)
    (hi : i < ia.length - 1) (hrow : ¬ ia.getD i 0 < ia.getD (i + 1) 0) :
    InterpolationMatrix.construct ia ja w = none := by
  unfold InterpolationMatrix.construct
  rw [if_neg]
  intro h
  exact hrow (h.2.2.2 i hi)

theorem initialise_shape_functions_arrays_length {α : Type} [LinearOrderedField α]
    (m : Mesh α) :
    (initialise_shape_functions_arrays m).ja.length =
      (initialise_shape_functions_ia m).getD (m.interior_cvfaces + 1 - 1) 0 ∧
    (initialise_shape_functions_arrays m).shape_val.length =
      (initialise_shape_functions_ia m).getD (m.interior_cvfaces + 1 - 1) 0 ∧
    (initialise_shape_functions_arrays m).shape_dx.length =
      (initialise_shape_functions_ia m).getD (m.interior_cvfaces + 1 - 1) 0 ∧
    (initialise_shape_functions_arrays m).shape_dy.length =
      (initialise_shape_functions_ia m).getD (m.interior_cvfaces + 1 - 1) 0 ∧
    (initialise_shape_functions_arrays m).shape_dz.length =
      (initialise_shape_functions_ia m).getD (m.interior_cvfaces + 1 - 1) 0 := by
  unfold initialise_shape_functions_arrays
  dsimp only
  obtain ⟨h1, h2, h3, h4, h5⟩ := initialise_shape_functions_element_fill m
    (initialise_shape_functions_ia m)
    { ja := List.replicate ((initialise_shape_functions_ia m).getD (m.interior_cvfaces + 1 - 1) 0) 0
      shape_val :=
        List.replicate ((initialise_shape_functions_ia m).getD (m.interior_cvfaces + 1 - 1) 0) 0
      shape_dx :=
        List.replicate ((initialise_shape_functions_ia m).getD (m.interior_cvfaces + 1 - 1) 0) 0
      shape_dy :=
        List.replicate ((initialise_shape_functions_ia m).getD (m.interior_cvfaces + 1 - 1) 0) 0
      shape_dz :=
        List.replicate ((initialise_shape_functions_ia m).getD (m.interior_cvfaces + 1 - 1) 0) 0 }
  rw [h1, h2, h3, h4, h5]
  simp only [shapeFill_length, List.length_replicate, and_self]

theorem initialise_shape_functions_arrays_fl_length {α : Type} [LinearOrderedField α]
    (m : Mesh α) :
    (initialise_shape_functions_arrays_fl m).ja_fl.length =
      (initialise_shape_functions_ia_fl m).getD (m.edges + 1 - 1) 0 ∧
    (initialise_shape_functions_arrays_fl m).weights_fl.length =
      (initialise_shape_functions_ia_fl m).getD (m.edges + 1 - 1) 0 := by
  unfold initialise_shape_functions_arrays_fl
  dsimp only
  constructor
  · rw [forLoop_preserves (fun st : FluxLimArrays α => st.ja_fl.length) _ _ _ _
      (fun i st => (initialise_shape_functions_edge_getElem? m _ i st 0).1)]
    simp
  · rw [forLoop_preserves (fun st : FluxLimArrays α => st.weights_fl.length) _ _ _ _
      (fun i st => (initialise_shape_functions_edge_getElem? m _ i st 0).2.1)]
    simp

/-- When `initialise_shape_functions` returns, the operators hold the arrays built by the
loops. -/
theorem initialise_shape_functions_some {α : Type} [LinearOrderedField α] (m : Mesh α)
    (s s' : VarSatPhysicsImpl α) (h : initialise_shape_functions m s = some s') :
    s'.shape_matrix = shapeOperator m (initialise_shape_functions_arrays m).shape_val ∧
    s'.shape_gradient_matrixX =
      shapeOperator m (initialise_shape_functions_arrays m).shape_dx ∧
    s'.shape_gradient_matrixY =
      shapeOperator m (initialise_shape_functions_arrays m).shape_dy ∧
    (s.dimension = 3 → s'.shape_gradient_matrixZ =
      shapeOperator m (initialise_shape_functions_arrays m).shape_dz) ∧
    s'.flux_lim_matrix = fluxLimOperator m := by
  unfold initialise_shape_functions at h
  dsimp only at h
  split at h
  · cases h
  · rename_i M hM
    split at h
    · cases h
    · rename_i MX hMX
      split at h
      · cases h
      · rename_i MY hMY
        split at h
        · cases h
        · rename_i MZ hMZ
          split at h
          · cases h
          · rename_i FL hFL
            have e := (Option.some.inj h).symm
            subst e
            refine ⟨construct_some _ _ _ _ hM, construct_some _ _ _ _ hMX,
              construct_some _ _ _ _ hMY, ?_, construct_some _ _ _ _ hFL⟩
            intro hd
            rw [if_pos hd] at hMZ
            exact construct_some _ _ _ _ hMZ

end Construction

section ConstructionReturns

variable {α : Type} [LinearOrderedField α]

/-- The construction returns when every interior face has a node and every edge has a
face: the dimensions of the arrays fit and no row is empty. -/
theorem initialise_shape_functions_returns (m : Mesh α) (s : VarSatPhysicsImpl α)
    (hrows : ∀ g, g < m.interior_cvfaces → m.element_nodes (m.cvface_element g) ≠ [])
    (hedges : ∀ e, e < m.edges → m.edge_cvface e ≠ []) :
    ∃ s', initialise_shape_functions m s = some s' := by
  have hl := (row_begin_spec m.interior_cvfaces
    (fun i => (m.element_nodes (m.cvface_element i)).length)).1
  have hl2 : (initialise_shape_functions_ia m).length = m.interior_cvfaces + 1 := hl
  have hne : initialise_shape_functions_ia m ≠ [] := by
    intro h
    rw [h] at hl2
    simp at hl2
  have hrow : ∀ i, i < (initialise_shape_functions_ia m).length - 1 →
      (initialise_shape_functions_ia m).getD i 0 <
        (initialise_shape_functions_ia m).getD (i + 1) 0 := by
    intro i hi
    rw [hl2] at hi
    rw [initialise_shape_functions_ia_row m i (by omega)]
    have := List.length_pos.2 (hrows i (by omega))
    omega
  obtain ⟨a1, a2, a3, a4, a5⟩ := initialise_shape_functions_arrays_length m
  have hlast : (initialise_shape_functions_ia m).getD
      ((initialise_shape_functions_ia m).length - 1) 0 =
      (initialise_shape_functions_arrays m).ja.length := by
    rw [hl2, a1]
  have c1 := construct_eq_some _ _ (initialise_shape_functions_arrays m).shape_val hne hlast
    (a1.trans a2.symm) hrow
  have c2 := construct_eq_some _ _ (initialise_shape_functions_arrays m).shape_dx hne hlast
    (a1.trans a3.symm) hrow
  have c3 := construct_eq_some _ _ (initialise_shape_functions_arrays m).shape_dy hne hlast
    (a1.trans a4.symm) hrow
  have c4 := construct_eq_some _ _ (initialise_shape_functions_arrays m).shape_dz hne hlast
    (a1.trans a5.symm) hrow
  have hlf := (row_begin_spec m.edges (fun i => (m.edge_cvface i).length)).1
  have hlf2 : (initialise_shape_functions_ia_fl m).length = m.edges + 1 := hlf
  have hnef : initialise_shape_functions_ia_fl m ≠ [] := by
    intro h
    rw [h] at hlf2
    simp at hlf2
  have hrowf : ∀ i, i < (initialise_shape_functions_ia_fl m).length - 1 →
      (initialise_shape_functions_ia_fl m).getD i 0 <
        (initialise_shape_functions_ia_fl m).getD (i + 1) 0 := by
    intro i hi
    rw [hlf2] at hi
    rw [initialise_shape_functions_ia_fl_row m i (by omega)]
    have := List.length_pos.2 (hedges i (by omega))
    omega
  obtain ⟨b1, b2⟩ := initialise_shape_functions_arrays_fl_length m
  have c5 := construct_eq_some _ _ (initialise_shape_functions_arrays_fl m).weights_fl hnef
    (by rw [hlf2, b1]) (b1.trans b2.symm) hrowf
  cases hres : initialise_shape_functions m s with
  | some s' => exact ⟨s', rfl⟩
  | none =>
    exfalso
    unfold initialise_shape_functions at hres
    dsimp only at hres
    split at hres
    · rename_i hM
      exact Option.noConfusion (c1.symm.trans hM)
    · split at hres
      · rename_i hM
        exact Option.noConfusion (c2.symm.trans hM)
      · split at hres
        · rename_i hM
          exact Option.noConfusion (c3.symm.trans hM)
        · split at hres
          · rename_i hM
            by_cases hd : s.dimension = 3
            · rw [if_pos hd] at hM
              exact Option.noConfusion (c4.symm.trans hM)
            · rw [if_neg hd] at hM
              cases hM
          · split at hres
            · rename_i hM
              exact Option.noConfusion (c5.symm.trans hM)
            · cases hres

/-- The row of face `f` in the column indices of the shape operators is the list of the
first components of the sorted index vector of the element of the face. -/
theorem initialise_shape_functions_arrays_ja_row (m : Mesh α) (f el j : Nat)
    (hf : f < m.interior_cvfaces) (hown : m.cvface_element f = el) (hel : el < m.elements)
    (hj : j < m.element_edges el) (hcv : m.element_cvface el j = f)
    (huniq : ∀ i k, i < m.elements → k < m.element_edges i → m.element_cvface i k = f →
      i = el ∧ k = j) :
    (∀ k, k < (m.element_nodes el).length →
      (initialise_shape_functions_arrays m).ja[(initialise_shape_functions_ia m).getD f 0 + k]? =
        some ((index_vector m el).getD k (0, 0)).1) ∧
    rowOf (initialise_shape_functions_arrays m).ja 0
      ((initialise_shape_functions_ia m).getD f 0)
      ((initialise_shape_functions_ia m).getD (f + 1) 0) = (index_vector m el).map Prod.fst := by
  have hja : ∀ k, k < (m.element_nodes el).length →
      (initialise_shape_functions_arrays m).ja[(initialise_shape_functions_ia m).getD f 0 + k]? =
        some ((index_vector m el).getD k (0, 0)).1 := by
    intro k hk
    unfold initialise_shape_functions_arrays
    dsimp only
    rw [(initialise_shape_functions_element_fill m _ _).1]
    exact shape_arrays_row m (fun i _ k => ((index_vector m i).getD k (0, 0)).1) 0 f el j k
      hf hown hel hj hcv huniq hk
  refine ⟨hja, ?_⟩
  have hrow := initialise_shape_functions_ia_row m f hf
  rw [hown] at hrow
  unfold rowOf
  have e : (initialise_shape_functions_ia m).getD (f + 1) 0 -
      (initialise_shape_functions_ia m).getD f 0 = (index_vector m el).length := by
    rw [index_vector_length]
    omega
  rw [e]
  have h1 : (List.range (index_vector m el).length).map
      (fun k => (initialise_shape_functions_arrays m).ja.getD
        ((initialise_shape_functions_ia m).getD f 0 + k) 0) =
      ((List.range (index_vector m el).length).map
        (fun k => (index_vector m el).getD k (0, 0))).map Prod.fst := by
    rw [List.map_map]
    apply List.map_congr_left
    intro k hk
    have hk2 : k < (m.element_nodes el).length := by
      rw [← index_vector_length]
      exact List.mem_range.1 hk
    rw [getD_of_getElem? _ _ 0 _ (hja k hk2)]
    rfl
  rw [h1, map_getD_range]

end ConstructionReturns

/-! ## Claims on the interpolation operators -/

section OperatorClaims

variable {α : Type} [LinearOrderedField α]

/-- C18: for an interior face `f` whose element `el` has pairwise distinct node ids, the
value operator built by `initialise_shape_functions` gives
`(shape_matrix * h)[f] = Σ_k N_k(f) * h[id(el.node(k))]`, the sum over the local nodes of
the element, and the same holds for the gradient operators with the components of the
shape gradients; the column indices of row `f` are the node ids of the element in strictly
ascending order. The operators of the state are these operators whenever the construction
returns, and it returns when no row is empty. -/
theorem initialise_shape_functions_shape_rows (m : Mesh α) (s : VarSatPhysicsImpl α)
    (h : TVec α) (f el j : Nat)
    (hf : f < m.interior_cvfaces) (hown : m.cvface_element f = el) (hel : el < m.elements)
    (hj : j < m.element_edges el) (hcv : m.element_cvface el j = f)
    (huniq : ∀ i k, i < m.elements → k < m.element_edges i → m.element_cvface i k = f →
      i = el ∧ k = j)
    (hnd : (m.element_nodes el).Nodup) :
    ((shapeOperator m (initialise_shape_functions_arrays m).shape_val).matvec h)[f]? =
      some (((List.range (m.element_nodes el).length).map (fun k =>
        (m.shape_functions el j).getD k 0 * h.getD ((m.element_nodes el).getD k 0) 0)).sum) ∧
    ((shapeOperator m (initialise_shape_functions_arrays m).shape_dx).matvec h)[f]? =
      some (((List.range (m.element_nodes el).length).map (fun k =>
        ((m.shape_gradients el j).getD k { x := 0, y := 0, z := 0 }).x *
          h.getD ((m.element_nodes el).getD k 0) 0)).sum) ∧
    ((shapeOperator m (initialise_shape_functions_arrays m).shape_dy).matvec h)[f]? =
      some (((List.range (m.element_nodes el).length).map (fun k =>
        ((m.shape_gradients el j).getD k { x := 0, y := 0, z := 0 }).y *
          h.getD ((m.element_nodes el).getD k 0) 0)).sum) ∧
    ((shapeOperator m (initialise_shape_functions_arrays m).shape_dz).matvec h)[f]? =
      some (((List.range (m.element_nodes el).length).map (fun k =>
        ((m.shape_gradients el j).getD k { x := 0, y := 0, z := 0 }).z *
          h.getD ((m.element_nodes el).getD k 0) 0)).sum) ∧
    (rowOf (initialise_shape_functions_arrays m).ja 0
      ((initialise_shape_functions_ia m).getD f 0)
      ((initialise_shape_functions_ia m).getD (f + 1) 0)).Pairwise (fun a b => a < b) ∧
    (rowOf (initialise_shape_functions_arrays m).ja 0
      ((initialise_shape_functions_ia m).getD f 0)
      ((initialise_shape_functions_ia m).getD (f + 1) 0)).Perm (m.element_nodes el) ∧
    (∀ s', initialise_shape_functions m s = some s' →
      s'.shape_matrix = shapeOperator m (initialise_shape_functions_arrays m).shape_val ∧
      s'.shape_gradient_matrixX =
        shapeOperator m (initialise_shape_functions_arrays m).shape_dx ∧
      s'.shape_gradient_matrixY =
        shapeOperator m (initialise_shape_functions_arrays m).shape_dy ∧
      (s.dimension = 3 → s'.shape_gradient_matrixZ =
        shapeOperator m (initialise_shape_functions_arrays m).shape_dz)) ∧
    ((∀ g, g < m.interior_cvfaces → m.element_nodes (m.cvface_element g) ≠ []) →
      (∀ e, e < m.edges → m.edge_cvface e ≠ []) →
      ∃ s', initialise_shape_functions m s = some s') := by
  obtain ⟨hja, hrowja⟩ := initialise_shape_functions_arrays_ja_row m f el j hf hown hel hj hcv
    huniq
  have hl : (initialise_shape_functions_ia m).length = m.interior_cvfaces + 1 :=
    (row_begin_spec m.interior_cvfaces
      (fun i => (m.element_nodes (m.cvface_element i)).length)).1
  have hfl : f < (initialise_shape_functions_ia m).length - 1 := by rw [hl]; omega
  have hrow : (initialise_shape_functions_ia m).getD (f + 1) 0 -
      (initialise_shape_functions_ia m).getD f 0 = (m.element_nodes el).length := by
    have := initialise_shape_functions_ia_row m f hf
    rw [hown] at this
    omega
  obtain ⟨_, f2, f3, f4, f5⟩ := initialise_shape_functions_element_fill m
    (initialise_shape_functions_ia m)
    { ja := List.replicate ((initialise_shape_functions_ia m).getD (m.interior_cvfaces + 1 - 1) 0) 0
      shape_val :=
        List.replicate ((initialise_shape_functions_ia m).getD (m.interior_cvfaces + 1 - 1) 0) 0
      shape_dx :=
        List.replicate ((initialise_shape_functions_ia m).getD (m.interior_cvfaces + 1 - 1) 0) 0
      shape_dy :=
        List.replicate ((initialise_shape_functions_ia m).getD (m.interior_cvfaces + 1 - 1) 0) 0
      shape_dz :=
        List.replicate ((initialise_shape_functions_ia m).getD (m.interior_cvfaces + 1 - 1) 0) 0 }
  refine ⟨?_, ?_, ?_, ?_, ?_, ?_, ?_, ?_⟩
  · apply shape_row_matvec m el (fun k => (m.shape_functions el j).getD k 0) _ _ _ h f hfl hrow
      hja
    intro k hk
    unfold initialise_shape_functions_arrays
    dsimp only
    rw [f2]
    exact shape_arrays_row m _ 0 f el j k hf hown hel hj hcv huniq hk
  · apply shape_row_matvec m el
      (fun k => ((m.shape_gradients el j).getD k { x := 0, y := 0, z := 0 }).x) _ _ _ h f hfl
      hrow hja
    intro k hk
    unfold initialise_shape_functions_arrays
    dsimp only
    rw [f3]
    exact shape_arrays_row m _ 0 f el j k hf hown hel hj hcv huniq hk
  · apply shape_row_matvec m el
      (fun k => ((m.shape_gradients el j).getD k { x := 0, y := 0, z := 0 }).y) _ _ _ h f hfl
      hrow hja
    intro k hk
    unfold initialise_shape_functions_arrays
    dsimp only
    rw [f4]
    exact shape_arrays_row m _ 0 f el j k hf hown hel hj hcv huniq hk
  · apply shape_row_matvec m el
      (fun k => ((m.shape_gradients el j).getD k { x := 0, y := 0, z := 0 }).z) _ _ _ h f hfl
      hrow hja
    intro k hk
    unfold initialise_shape_functions_arrays
    dsimp only
    rw [f5]
    exact shape_arrays_row m _ 0 f el j k hf hown hel hj hcv huniq hk
  · rw [hrowja]
    exact index_vector_ids_sorted m el hnd
  · rw [hrowja]
    exact index_vector_ids_perm m el
  · intro s' hs'
    obtain ⟨g1, g2, g3, g4, _⟩ := initialise_shape_functions_some m s s' hs'
    exact ⟨g1, g2, g3, g4⟩
  · intro hrows hedges
    exact initialise_shape_functions_returns m s hrows hedges

end OperatorClaims

section FluxLimClaims

variable {α : Type} [LinearOrderedField α]

/-- The flux over the edges after `process_spatial_weights`, in every mode: the product of
`flux_lim_matrix` and `qdotn_faces` computed by the first statement. -/
theorem process_spatial_weights_edge_flux (exchange : TVec α → TVec α) (m : Mesh α)
    (s : VarSatPhysicsImpl α) :
    (process_spatial_weights exchange m s).edge_flux =
      s.flux_lim_matrix.matvec s.qdotn_faces := by
  cases hmode : s.spatial_weighting with
  | weightUpwind =>
    rw [process_spatial_weights_upwind exchange m s hmode, upwind_loop_edge_flux]
  | weightVanLeer =>
    rw [(process_spatial_weights_vanleer_frame exchange m s hmode).1,
      (vanleer_before_sigma_frame exchange m s).2]
  | weightAveraging =>
    unfold process_spatial_weights
    simp only [hmode]

/-- The product of the operator for flux limiting and a vector over the faces: at edge `e`,
the sum of the entries of the faces of the edge over the sum of their areas. -/
theorem fluxLimOperator_matvec (m : Mesh α) (q : TVec α) (e : Nat) (he : e < m.edges) :
    ((fluxLimOperator m).matvec q)[e]? =
      some (((m.edge_cvface e).map (fun f => q.getD f 0)).sum /
        ((m.edge_cvface e).map m.cvface_area).sum) := by
  have hl : (initialise_shape_functions_ia_fl m).length = m.edges + 1 :=
    (row_begin_spec m.edges (fun i => (m.edge_cvface i).length)).1
  have hrow : (initialise_shape_functions_ia_fl m).getD (e + 1) 0 -
      (initialise_shape_functions_ia_fl m).getD e 0 = (m.edge_cvface e).length := by
    have := initialise_shape_functions_ia_fl_row m e he
    omega
  have hent := fun k hk => initialise_shape_functions_arrays_fl_row m e k he hk
  rw [matvec_getElem? _ _ _ (by unfold fluxLimOperator; dsimp only; rw [hl]; omega)]
  unfold fluxLimOperator
  dsimp only
  rw [hrow]
  congr 1
  have h1 : (List.range (m.edge_cvface e).length).map
      (fun k => (initialise_shape_functions_arrays_fl m).weights_fl.getD
          ((initialise_shape_functions_ia_fl m).getD e 0 + k) 0 *
        q.getD ((initialise_shape_functions_arrays_fl m).ja_fl.getD
          ((initialise_shape_functions_ia_fl m).getD e 0 + k) 0) 0) =
      ((List.range (m.edge_cvface e).length).map
        (fun k => (m.edge_cvface e).getD k 0)).map
        (fun f => q.getD f 0 / ((m.edge_cvface e).map m.cvface_area).sum) := by
    rw [List.map_map]
    apply List.map_congr_left
    intro k hk
    obtain ⟨e1, e2⟩ := hent k (List.mem_range.1 hk)
    rw [getD_of_getElem? _ _ 0 _ e1, getD_of_getElem? _ _ 0 _ e2]
    simp only [Function.comp]
    rw [one_div, mul_comm, div_eq_mul_inv]
  rw [h1, map_getD_range, sum_map_div]

/-- C19: for an edge `e` with at least one attached face and a non-zero total area of its
faces, row `e` of the operator for flux limiting has one entry per attached face, each
with the non-zero weight `1 / total_area`, so that the product with the fluxes over the faces is
`(Σ qdotn_faces[f]) / (Σ area(f))`, both sums over the faces of the edge. The operator of
the state is this operator whenever the construction returns, and it returns when no row
is empty. On every state that holds this operator, `process_spatial_weights` leaves
`edge_flux[e] = (Σ qdotn_faces[f]) / (Σ area(f))`, in every weighting mode. -/
theorem initialise_shape_functions_flux_lim_rows (m : Mesh α) (s : VarSatPhysicsImpl α)
    (q : TVec α) (e : Nat) (he : e < m.edges) (hfaces : m.edge_cvface e ≠ [])
    (harea : ((m.edge_cvface e).map m.cvface_area).sum ≠ 0) :
    ((fluxLimOperator m).matvec q)[e]? =
      some (((m.edge_cvface e).map (fun f => q.getD f 0)).sum /
        ((m.edge_cvface e).map m.cvface_area).sum) ∧
    (fluxLimOperator m).ia.getD (e + 1) 0 - (fluxLimOperator m).ia.getD e 0 =
      (m.edge_cvface e).length ∧
    (fluxLimOperator m).ia.getD e 0 < (fluxLimOperator m).ia.getD (e + 1) 0 ∧
    (1 / ((m.edge_cvface e).map m.cvface_area).sum : α) ≠ 0 ∧
    (∀ k, k < (m.edge_cvface e).length →
      (fluxLimOperator m).ja[(fluxLimOperator m).ia.getD e 0 + k]? =
        some ((m.edge_cvface e).getD k 0) ∧
      (fluxLimOperator m).weights[(fluxLimOperator m).ia.getD e 0 + k]? =
        some (1 / ((m.edge_cvface e).map m.cvface_area).sum)) ∧
    (∀ s', initialise_shape_functions m s = some s' →
      s'.flux_lim_matrix = fluxLimOperator m) ∧
    ((∀ g, g < m.interior_cvfaces → m.element_nodes (m.cvface_element g) ≠ []) →
      (∀ e, e < m.edges → m.edge_cvface e ≠ []) →
      ∃ s', initialise_shape_functions m s = some s') ∧
    (∀ (exchange : TVec α → TVec α) (st : VarSatPhysicsImpl α),
      st.flux_lim_matrix = fluxLimOperator m →
      (process_spatial_weights exchange m st).edge_flux[e]? =
        some (((m.edge_cvface e).map (fun f => st.qdotn_faces.getD f 0)).sum /
          ((m.edge_cvface e).map m.cvface_area).sum)) ∧
    (∀ (exchange : TVec α → TVec α) (s' : VarSatPhysicsImpl α),
      initialise_shape_functions m s = some s' →
      (process_spatial_weights exchange m s').edge_flux[e]? =
        some (((m.edge_cvface e).map (fun f => s'.qdotn_faces.getD f 0)).sum /
          ((m.edge_cvface e).map m.cvface_area).sum)) := by
  have hrow : (initialise_shape_functions_ia_fl m).getD (e + 1) 0 -
      (initialise_shape_functions_ia_fl m).getD e 0 = (m.edge_cvface e).length := by
    have := initialise_shape_functions_ia_fl_row m e he
    omega
  have hent := fun k hk => initialise_shape_functions_arrays_fl_row m e k he hk
  have hpos : (initialise_shape_functions_ia_fl m).getD e 0 <
      (initialise_shape_functions_ia_fl m).getD (e + 1) 0 := by
    rw [initialise_shape_functions_ia_fl_row m e he]
    exact Nat.lt_add_of_pos_right (List.length_pos.2 hfaces)
  have hflux : ∀ (exchange : TVec α → TVec α) (st : VarSatPhysicsImpl α),
      st.flux_lim_matrix = fluxLimOperator m →
      (process_spatial_weights exchange m st).edge_flux[e]? =
        some (((m.edge_cvface e).map (fun f => st.qdotn_faces.getD f 0)).sum /
          ((m.edge_cvface e).map m.cvface_area).sum) := by
    intro exchange st hst
    rw [process_spatial_weights_edge_flux, hst]
    exact fluxLimOperator_matvec m st.qdotn_faces e he
  refine ⟨fluxLimOperator_matvec m q e he, hrow, hpos, one_div_ne_zero harea, hent, ?_, ?_,
    hflux, ?_⟩
  · intro s' hs'
    exact (initialise_shape_functions_some m s s' hs').2.2.2.2
  · intro hrows hedges
    exact initialise_shape_functions_returns m s hrows hedges
  · intro exchange s' hs'
    exact hflux exchange s' (initialise_shape_functions_some m s s' hs').2.2.2.2

/-- C20: the construction of the interpolation operators fails whenever some interior
face has no attached node, that is, the element of the face reports zero nodes: the row of
the face is empty. -/
theorem initialise_shape_functions_zero_nodes (m : Mesh α) (s : VarSatPhysicsImpl α)
    (h : ∃ f, f < m.interior_cvfaces ∧ m.element_nodes (m.cvface_element f) = []) :
    initialise_shape_functions m s = none := by
  obtain ⟨f, hf, h0⟩ := h
  have hl : (initialise_shape_functions_ia m).length = m.interior_cvfaces + 1 :=
    (row_begin_spec m.interior_cvfaces
      (fun i => (m.element_nodes (m.cvface_element i)).length)).1
  have hrow := initialise_shape_functions_ia_row m f hf
  rw [h0] at hrow
  have c := construct_eq_none (initialise_shape_functions_ia m)
    (initialise_shape_functions_arrays m).ja (initialise_shape_functions_arrays m).shape_val f
    (by rw [hl]; omega) (by rw [hrow]; simp)
  unfold initialise_shape_functions
  dsimp only
  rw [c]

end FluxLimClaims

/-! ## Concrete evaluations of the interpolation operators -/

section OperatorEvaluations

theorem initialise_shape_functions_shape_rows_witness :
    ((shapeOperator sampleMesh (initialise_shape_functions_arrays sampleMesh).shape_val).matvec
        [10, 20, 30])[0]? =
      some (((List.range (sampleMesh.element_nodes 0).length).map (fun k =>
        (sampleMesh.shape_functions 0 0).getD k 0 *
          ([10, 20, 30] : TVec ℚ).getD ((sampleMesh.element_nodes 0).getD k 0) 0)).sum) ∧
    ((shapeOperator sampleMesh (initialise_shape_functions_arrays sampleMesh).shape_dx).matvec
        [10, 20, 30])[0]? =
      some (((List.range (sampleMesh.element_nodes 0).length).map (fun k =>
        ((sampleMesh.shape_gradients 0 0).getD k { x := 0, y := 0, z := 0 }).x *
          ([10, 20, 30] : TVec ℚ).getD ((sampleMesh.element_nodes 0).getD k 0) 0)).sum) ∧
    ((shapeOperator sampleMesh (initialise_shape_functions_arrays sampleMesh).shape_dy).matvec
        [10, 20, 30])[0]? =
      some (((List.range (sampleMesh.element_nodes 0).length).map (fun k =>
        ((sampleMesh.shape_gradients 0 0).getD k { x := 0, y := 0, z := 0 }).y *
          ([10, 20, 30] : TVec ℚ).getD ((sampleMesh.element_nodes 0).getD k 0) 0)).sum) ∧
    ((shapeOperator sampleMesh (initialise_shape_functions_arrays sampleMesh).shape_dz).matvec
        [10, 20, 30])[0]? =
      some (((List.range (sampleMesh.element_nodes 0).length).map (fun k =>
        ((sampleMesh.shape_gradients 0 0).getD k { x := 0, y := 0, z := 0 }).z *
          ([10, 20, 30] : TVec ℚ).getD ((sampleMesh.element_nodes 0).getD k 0) 0)).sum) ∧
    (rowOf (initialise_shape_functions_arrays sampleMesh).ja 0
      ((initialise_shape_functions_ia sampleMesh).getD 0 0)
      ((initialise_shape_functions_ia sampleMesh).getD (0 + 1) 0)).Pairwise
        (fun a b => a < b) ∧
    (rowOf (initialise_shape_functions_arrays sampleMesh).ja 0
      ((initialise_shape_functions_ia sampleMesh).getD 0 0)
      ((initialise_shape_functions_ia sampleMesh).getD (0 + 1) 0)).Perm
        (sampleMesh.element_nodes 0) ∧
    (∀ s', initialise_shape_functions sampleMesh sampleUpwind = some s' →
      s'.shape_matrix =
        shapeOperator sampleMesh (initialise_shape_functions_arrays sampleMesh).shape_val ∧
      s'.shape_gradient_matrixX =
        shapeOperator sampleMesh (initialise_shape_functions_arrays sampleMesh).shape_dx ∧
      s'.shape_gradient_matrixY =
        shapeOperator sampleMesh (initialise_shape_functions_arrays sampleMesh).shape_dy ∧
      (sampleUpwind.dimension = 3 → s'.shape_gradient_matrixZ =
        shapeOperator sampleMesh (initialise_shape_functions_arrays sampleMesh).shape_dz)) ∧
    ((∀ g, g < sampleMesh.interior_cvfaces →
        sampleMesh.element_nodes (sampleMesh.cvface_element g) ≠ []) →
      (∀ e, e < sampleMesh.edges → sampleMesh.edge_cvface e ≠ []) →
      ∃ s', initialise_shape_functions sampleMesh sampleUpwind = some s') :=
  initialise_shape_functions_shape_rows sampleMesh sampleUpwind [10, 20, 30] 0 0 0
    (by decide) rfl (by decide) (by decide) rfl
    (by
      intro i k _ hk h
      have h1 : i = 0 := h
      have h2 : k < 1 := hk
      omega)
    (by decide)

theorem initialise_shape_functions_flux_lim_rows_witness :
    ((fluxLimOperator sampleMesh).matvec [4, -6, 1])[0]? =
      some (((sampleMesh.edge_cvface 0).map (fun f => ([4, -6, 1] : TVec ℚ).getD f 0)).sum /
        ((sampleMesh.edge_cvface 0).map sampleMesh.cvface_area).sum) ∧
    (fluxLimOperator sampleMesh).ia.getD (0 + 1) 0 - (fluxLimOperator sampleMesh).ia.getD 0 0 =
      (sampleMesh.edge_cvface 0).length ∧
    (fluxLimOperator sampleMesh).ia.getD 0 0 < (fluxLimOperator sampleMesh).ia.getD (0 + 1) 0 ∧
    (1 / ((sampleMesh.edge_cvface 0).map sampleMesh.cvface_area).sum : ℚ) ≠ 0 ∧
    (∀ k, k < (sampleMesh.edge_cvface 0).length →
      (fluxLimOperator sampleMesh).ja[(fluxLimOperator sampleMesh).ia.getD 0 0 + k]? =
        some ((sampleMesh.edge_cvface 0).getD k 0) ∧
      (fluxLimOperator sampleMesh).weights[(fluxLimOperator sampleMesh).ia.getD 0 0 + k]? =
        some (1 / ((sampleMesh.edge_cvface 0).map sampleMesh.cvface_area).sum)) ∧
    (∀ s', initialise_shape_functions sampleMesh sampleUpwind = some s' →
      s'.flux_lim_matrix = fluxLimOperator sampleMesh) ∧
    ((∀ g, g < sampleMesh.interior_cvfaces →
        sampleMesh.element_nodes (sampleMesh.cvface_element g) ≠ []) →
      (∀ e, e < sampleMesh.edges → sampleMesh.edge_cvface e ≠ []) →
      ∃ s', initialise_shape_functions sampleMesh sampleUpwind = some s') ∧
    (∀ (exchange : TVec ℚ → TVec ℚ) (st : VarSatPhysicsImpl ℚ),
      st.flux_lim_matrix = fluxLimOperator sampleMesh →
      (process_spatial_weights exchange sampleMesh st).edge_flux[0]? =
        some (((sampleMesh.edge_cvface 0).map (fun f => st.qdotn_faces.getD f 0)).sum /
          ((sampleMesh.edge_cvface 0).map sampleMesh.cvface_area).sum)) ∧
    (∀ (exchange : TVec ℚ → TVec ℚ) (s' : VarSatPhysicsImpl ℚ),
      initialise_shape_functions sampleMesh sampleUpwind = some s' →
      (process_spatial_weights exchange sampleMesh s').edge_flux[0]? =
        some (((sampleMesh.edge_cvface 0).map (fun f => s'.qdotn_faces.getD f 0)).sum /
          ((sampleMesh.edge_cvface 0).map sampleMesh.cvface_area).sum)) :=
  initialise_shape_functions_flux_lim_rows sampleMesh sampleUpwind [4, -6, 1] 0 (by decide)
    (by simp [sampleMesh]) (by simp [sampleMesh])

theorem initialise_shape_functions_zero_nodes_witness :
    initialise_shape_functions emptyFaceMesh sampleUpwind = none :=
  initialise_shape_functions_zero_nodes emptyFaceMesh sampleUpwind
    ⟨0, by decide, rfl⟩

end OperatorEvaluations

/-! ## Claims on the zone lookup, the initial weights and the upstream rule -/

section LookupClaims

/-- C21: `physical_zone(z)` returns the `z`-th stored zone if and only if
`0 ≤ z < physical_zones()`; for every other index the assertion fails and no zone is
returned. -/
theorem physical_zone_in_range_iff {α : Type} (s : VarSatPhysicsImpl α) (z : Int) :
    ((0 ≤ z ∧ z < (s.physical_zones_.length : Int)) →
      ∃ zone, physical_zone s z = some zone ∧ s.physical_zones_[z.toNat]? = some zone) ∧
    (¬ (0 ≤ z ∧ z < (s.physical_zones_.length : Int)) → physical_zone s z = none) ∧
    ((physical_zone s z).isSome ↔ (0 ≤ z ∧ z < (s.physical_zones_.length : Int))) := by
  have hin : (0 ≤ z ∧ z < (s.physical_zones_.length : Int)) →
      ∃ zone, physical_zone s z = some zone ∧ s.physical_zones_[z.toNat]? = some zone := by
    intro h
    have hlt : z.toNat < s.physical_zones_.length := by omega
    refine ⟨s.physical_zones_[z.toNat], ?_, List.getElem?_eq_getElem hlt⟩
    unfold physical_zone
    rw [if_pos ⟨h.1, h.2⟩, List.getElem?_eq_getElem hlt]
  have hout : ¬ (0 ≤ z ∧ z < (s.physical_zones_.length : Int)) → physical_zone s z = none := by
    intro h
    unfold physical_zone
    rw [if_neg h]
  refine ⟨hin, hout, ?_⟩
  constructor
  · intro h
    by_contra hno
    rw [hout hno] at h
    cases h
  · intro h
    obtain ⟨zone, hz, _⟩ := hin h
    rw [hz]
    rfl

variable {α : Type} [LinearOrderedField α]

/-- In Upwind mode, `edge_up` and `edge_down` of an edge in terms of the final edge flux. -/
theorem process_spatial_weights_upwind_updown (exchange : TVec α → TVec α) (m : Mesh α)
    (s : VarSatPhysicsImpl α) (e : Nat)
    (hmode : s.spatial_weighting = SpatialWeightType.weightUpwind)
    (he : e < m.edges) (hup : e < s.edge_up.length) (hdown : e < s.edge_down.length) :
    (process_spatial_weights exchange m s).edge_up[e]? =
      some (if (process_spatial_weights exchange m s).edge_flux.getD e 0 < 0
        then m.edge_front_id e else m.edge_back_id e) ∧
    (process_spatial_weights exchange m s).edge_down[e]? =
      some (if (process_spatial_weights exchange m s).edge_flux.getD e 0 < 0
        then m.edge_back_id e else m.edge_front_id e) := by
  have hfu : (process_spatial_weights exchange m s).edge_flux =
      s.flux_lim_matrix.matvec s.qdotn_faces := by
    rw [process_spatial_weights_upwind exchange m s hmode, upwind_loop_edge_flux]
  obtain ⟨_, _, u1, u2⟩ :=
    upwind_loop_getElem? m { s with edge_flux := s.flux_lim_matrix.matvec s.qdotn_faces } e
  rw [← process_spatial_weights_upwind exchange m s hmode] at u1 u2
  simp only [he, if_true, List.getElem?_eq_getElem hup, List.getElem?_eq_getElem hdown,
    Option.map_some'] at u1 u2
  rw [← hfu] at u1 u2
  exact ⟨u1, u2⟩

/-- C26, amended: for a non-zero flux over edge `e` the Van Leer branch records the same
pair `(edge_up[e], edge_down[e])` as the Upwind branch; for a zero flux the Upwind branch
records the back node as `edge_up` and the front node as `edge_down`, and the Van Leer
branch the front node as `edge_up` and the back node as `edge_down`. -/
theorem vanleer_updown_as_upwind (exchange : TVec α → TVec α) (m : Mesh α)
    (su sv : VarSatPhysicsImpl α) (e : Nat)
    (hu : su.spatial_weighting = SpatialWeightType.weightUpwind)
    (hv : sv.spatial_weighting = SpatialWeightType.weightVanLeer)
    (hflux : (process_spatial_weights exchange m su).edge_flux.getD e 0 =
      (process_spatial_weights exchange m sv).edge_flux.getD e 0)
    (he : e < m.edges)
    (hupu : e < su.edge_up.length) (hdownu : e < su.edge_down.length)
    (hupv : e < sv.edge_up.length) (hdownv : e < sv.edge_down.length) :
    ((process_spatial_weights exchange m sv).edge_flux.getD e 0 ≠ 0 →
      (process_spatial_weights exchange m sv).edge_up[e]? =
        (process_spatial_weights exchange m su).edge_up[e]? ∧
      (process_spatial_weights exchange m sv).edge_down[e]? =
        (process_spatial_weights exchange m su).edge_down[e]?) ∧
    ((process_spatial_weights exchange m sv).edge_flux.getD e 0 = 0 →
      (process_spatial_weights exchange m su).edge_up[e]? = some (m.edge_back_id e) ∧
      (process_spatial_weights exchange m su).edge_down[e]? = some (m.edge_front_id e) ∧
      (process_spatial_weights exchange m sv).edge_up[e]? = some (m.edge_front_id e) ∧
      (process_spatial_weights exchange m sv).edge_down[e]? = some (m.edge_back_id e)) := by
  obtain ⟨v1, v2⟩ := process_spatial_weights_vanleer_updown exchange m sv e hv he hupv hdownv
  obtain ⟨u1, u2⟩ := process_spatial_weights_upwind_updown exchange m su e hu he hupu hdownu
  rw [hflux] at u1 u2
  rw [v1, v2, u1, u2]
  generalize (process_spatial_weights exchange m sv).edge_flux.getD e 0 = fl
  constructor
  · intro hne
    rcases lt_or_gt_of_ne hne with h | h
    · have h2 : ¬ fl > 0 := not_lt.2 (le_of_lt h)
      simp only [h, h2, if_true, if_false, and_self]
    · have h2 : ¬ fl < 0 := not_lt.2 (le_of_lt h)
      simp only [h, h2, if_true, if_false, and_self]
  · intro h0
    subst h0
    simp only [lt_irrefl, gt_iff_lt, if_false, and_self]

end LookupClaims

section LookupEvaluations

theorem physical_zone_in_range_iff_witness :
    ((0 ≤ (0 : Int) ∧ (0 : Int) < (sampleFlux.physical_zones_.length : Int)) →
      ∃ zone, physical_zone sampleFlux 0 = some zone ∧
        sampleFlux.physical_zones_[(0 : Int).toNat]? = some zone) ∧
    (¬ (0 ≤ (0 : Int) ∧ (0 : Int) < (sampleFlux.physical_zones_.length : Int)) →
      physical_zone sampleFlux 0 = none) ∧
    ((physical_zone sampleFlux 0).isSome ↔
      (0 ≤ (0 : Int) ∧ (0 : Int) < (sampleFlux.physical_zones_.length : Int))) :=
  physical_zone_in_range_iff sampleFlux 0

/-- C22 fails on the code: the statement of line 489 assigns the vector allocated without a
fill value, whatever it holds, so with an allocation that gives zeros the back weight of
edge 0 is `0`, not `0.5`; the front weight is `0.5`. -/
theorem initialise_vectors_edge_weight_back_not_filled :
    (∀ fresh : Nat → TVec ℚ,
      (initialise_vectors_edge_weights fresh sampleMesh sampleUpwind).edge_weight_back_ =
        fresh sampleMesh.edges) ∧
    (initialise_vectors_edge_weights (fun n => List.replicate n 0) sampleMesh
      sampleUpwind).edge_weight_back_[0]? = some 0 ∧
    (initialise_vectors_edge_weights (fun n => List.replicate n 0) sampleMesh
      sampleUpwind).edge_weight_front_[0]? = some (1 / 2) ∧
    (0 : ℚ) ≠ 1 / 2 := by
  refine ⟨fun fresh => rfl, ?_, ?_, by norm_num⟩
  · simp [initialise_vectors_edge_weights, sampleMesh]
  · simp [initialise_vectors_edge_weights, sampleMesh]

theorem sampleStill_edge_flux :
    (sampleStill.flux_lim_matrix.matvec sampleStill.qdotn_faces) = [0, -2] := by
  simp [sampleStill, sampleUpwind, InterpolationMatrix.matvec, forLoop, List.range_succ,
    List.range']
  norm_num

theorem sampleStillVanLeer_edge_flux :
    (process_spatial_weights id sampleMesh sampleStillVanLeer).edge_flux = [0, -2] := by
  rw [(process_spatial_weights_vanleer_frame id sampleMesh sampleStillVanLeer rfl).1,
    (vanleer_before_sigma_frame id sampleMesh sampleStillVanLeer).2]
  exact sampleStill_edge_flux

theorem sampleStill_upwind_edge_flux :
    (process_spatial_weights id sampleMesh sampleStill).edge_flux = [0, -2] := by
  rw [process_spatial_weights_upwind id sampleMesh sampleStill rfl, upwind_loop_edge_flux]
  exact sampleStill_edge_flux

theorem vanleer_updown_as_upwind_witness :
    ((process_spatial_weights id sampleMesh sampleStillVanLeer).edge_flux.getD 1 0 ≠ 0 →
      (process_spatial_weights id sampleMesh sampleStillVanLeer).edge_up[1]? =
        (process_spatial_weights id sampleMesh sampleStill).edge_up[1]? ∧
      (process_spatial_weights id sampleMesh sampleStillVanLeer).edge_down[1]? =
        (process_spatial_weights id sampleMesh sampleStill).edge_down[1]?) ∧
    ((process_spatial_weights id sampleMesh sampleStillVanLeer).edge_flux.getD 1 0 = 0 →
      (process_spatial_weights id sampleMesh sampleStill).edge_up[1]? =
        some (sampleMesh.edge_back_id 1) ∧
      (process_spatial_weights id sampleMesh sampleStill).edge_down[1]? =
        some (sampleMesh.edge_front_id 1) ∧
      (process_spatial_weights id sampleMesh sampleStillVanLeer).edge_up[1]? =
        some (sampleMesh.edge_front_id 1) ∧
      (process_spatial_weights id sampleMesh sampleStillVanLeer).edge_down[1]? =
        some (sampleMesh.edge_back_id 1)) :=
  vanleer_updown_as_upwind id sampleMesh sampleStill sampleStillVanLeer 1 rfl rfl
    (by rw [sampleStill_upwind_edge_flux, sampleStillVanLeer_edge_flux])
    (by decide) (by decide) (by decide) (by decide) (by decide)

/-- C26 fails as stated: with a zero flux over edge 0 of `sampleMesh` the Upwind branch
records `edge_up[0]` as the back node 1 and the Van Leer branch records it as the front
node 0. -/
theorem vanleer_updown_differs_at_zero_flux :
    (process_spatial_weights id sampleMesh sampleStill).edge_flux.getD 0 0 = 0 ∧
    (process_spatial_weights id sampleMesh sampleStillVanLeer).edge_flux.getD 0 0 = 0 ∧
    (process_spatial_weights id sampleMesh sampleStill).edge_up[0]? = some 1 ∧
    (process_spatial_weights id sampleMesh sampleStill).edge_down[0]? = some 0 ∧
    (process_spatial_weights id sampleMesh sampleStillVanLeer).edge_up[0]? = some 0 ∧
    (process_spatial_weights id sampleMesh sampleStillVanLeer).edge_down[0]? = some 1 := by
  obtain ⟨v1, v2⟩ := process_spatial_weights_vanleer_updown id sampleMesh sampleStillVanLeer 0
    rfl (by decide) (by decide) (by decide)
  obtain ⟨u1, u2⟩ := process_spatial_weights_upwind_updown id sampleMesh sampleStill 0
    rfl (by decide) (by decide) (by decide)
  rw [sampleStill_upwind_edge_flux] at u1 u2
  rw [sampleStillVanLeer_edge_flux] at v1 v2
  refine ⟨by rw [sampleStill_upwind_edge_flux]; rfl, by rw [sampleStillVanLeer_edge_flux]; rfl,
    ?_, ?_, ?_, ?_⟩
  · rw [u1]
    simp [sampleMesh]
  · rw [u2]
    simp [sampleMesh]
  · rw [v1]
    simp [sampleMesh]
  · rw [v2]
    simp [sampleMesh]

end LookupEvaluations

/-! ## Derivative coefficients and face densities -/

section DerivativeCoefficients

variable {α : Type} [LinearOrderedField α]

/-- The loop of `process_derivative_coefficients` stores `ahhValue s i` at every index of
`ahh_vec` and changes nothing else that it reads. -/
theorem process_derivative_coefficients_getElem? (s : VarSatPhysicsImpl α) (i : Nat)
    (hi : i < s.ahh_vec.length) :
    derivativeInputs (process_derivative_coefficients s) = derivativeInputs s ∧
    (process_derivative_coefficients s).ahh_vec[i]? = some (ahhValue s i) := by
  unfold process_derivative_coefficients
  dsimp only
  have key := forLoop_inv
    (fun k (st : VarSatPhysicsImpl α) => derivativeInputs st = derivativeInputs s ∧
      st.ahh_vec.length = s.ahh_vec.length ∧ (i < k → st.ahh_vec[i]? = some (ahhValue s i)))
    0 s.ahh_vec.length
    (fun i (st : VarSatPhysicsImpl α) =>
      { st with
        ahh_vec := st.ahh_vec.set i
          (st.rho_vec.getD i 0 * st.phi_vec.getD i 0 * st.dSw_vec.getD i 0 +
            st.rho_vec.getD i 0 * st.Sw_vec.getD i 0 * st.dphi_vec.getD i 0 +
            s.constants_.rho_0 * s.constants_.rho_0 * s.constants_.g * s.constants_.beta *
              st.phi_vec.getD i 0 * st.Sw_vec.getD i 0) })
    s (Nat.zero_le _)
    ⟨rfl, rfl, fun h => absurd h (Nat.not_lt_zero i)⟩
    (by
      intro k st _ hk hP
      obtain ⟨hin, hl, hv⟩ := hP
      refine ⟨hin, by simp [hl], ?_⟩
      intro hik
      dsimp only
      rw [List.getElem?_set]
      by_cases hki : k = i
      · subst hki
        have hlt : k < st.ahh_vec.length := by rw [hl]; exact hk
        simp only [derivativeInputs, Prod.mk.injEq] at hin
        obtain ⟨e1, e2, e3, e4, e5, _⟩ := hin
        simp only [if_true, hlt, e1, e2, e3, e4, e5, ahhValue]
      · simp only [hki, if_false]
        exact hv (by omega))
  exact ⟨key.1, key.2.2 hi⟩

/-- The inner loop of `process_faces_lim` for one edge: the entry of every face of the edge
becomes `r`, the other entries stay. -/
theorem process_faces_lim_inner (faces : List Nat) (r : α) (st : VarSatPhysicsImpl α)
    (f : Nat) :
    faceLimInputs (forLoop 0 faces.length
      (fun j (st : VarSatPhysicsImpl α) =>
        { st with rho_faces_lim := st.rho_faces_lim.set (faces.getD j 0) r }) st) =
      faceLimInputs st ∧
    (forLoop 0 faces.length
      (fun j (st : VarSatPhysicsImpl α) =>
        { st with rho_faces_lim := st.rho_faces_lim.set (faces.getD j 0) r })
      st).rho_faces_lim.length = st.rho_faces_lim.length ∧
    (f ∈ faces → f < st.rho_faces_lim.length →
      (forLoop 0 faces.length
        (fun j (st : VarSatPhysicsImpl α) =>
          { st with rho_faces_lim := st.rho_faces_lim.set (faces.getD j 0) r })
        st).rho_faces_lim[f]? = some r) ∧
    (f ∉ faces →
      (forLoop 0 faces.length
        (fun j (st : VarSatPhysicsImpl α) =>
          { st with rho_faces_lim := st.rho_faces_lim.set (faces.getD j 0) r })
        st).rho_faces_lim[f]? = st.rho_faces_lim[f]?) := by
  have key := forLoop_inv
    (fun j (st' : VarSatPhysicsImpl α) => faceLimInputs st' = faceLimInputs st ∧
      st'.rho_faces_lim.length = st.rho_faces_lim.length ∧
      ((∃ j', j' < j ∧ faces.getD j' 0 = f) → f < st.rho_faces_lim.length →
        st'.rho_faces_lim[f]? = some r) ∧
      ((∀ j', j' < j → faces.getD j' 0 ≠ f) → st'.rho_faces_lim[f]? = st.rho_faces_lim[f]?))
    0 faces.length
    (fun j (st : VarSatPhysicsImpl α) =>
      { st with rho_faces_lim := st.rho_faces_lim.set (faces.getD j 0) r })
    st (Nat.zero_le _)
    ⟨rfl, rfl, fun h => by obtain ⟨j', h1, _⟩ := h; omega, fun _ => rfl⟩
    (by
      intro j st' _ hj hP
      obtain ⟨hin, hl, hyes, hno⟩ := hP
      refine ⟨hin, by simp [hl], ?_, ?_⟩
      · intro hex hlen
        dsimp only
        rw [List.getElem?_set]
        by_cases hjf : faces.getD j 0 = f
        · have hlt : faces.getD j 0 < st'.rho_faces_lim.length := by rw [hjf, hl]; exact hlen
          simp only [hjf, if_true]
          rw [hjf] at hlt
          simp only [hlt, if_true]
        · simp only [hjf, if_false]
          apply hyes _ hlen
          obtain ⟨j', h1, h2⟩ := hex
          refine ⟨j', ?_, h2⟩
          by_contra hnot
          have : j' = j := by omega
          subst this
          exact hjf h2
      · intro hall
        dsimp only
        rw [List.getElem?_set]
        have hjf : faces.getD j 0 ≠ f := hall j (Nat.lt_succ_self j)
        simp only [hjf, if_false]
        exact hno (fun j' h' => hall j' (Nat.lt_succ_of_lt h')))
  refine ⟨key.1, key.2.1, ?_, ?_⟩
  · intro hmem hlen
    apply key.2.2.1 _ hlen
    obtain ⟨j', hj', e⟩ := List.mem_iff_getElem.1 hmem
    refine ⟨j', hj', ?_⟩
    rw [List.getD_eq_getElem?_getD, List.getElem?_eq_getElem hj']
    exact e
  · intro hnot
    apply key.2.2.2
    intro j' hj' e
    apply hnot
    rw [List.getD_eq_getElem?_getD, List.getElem?_eq_getElem hj'] at e
    rw [← e]
    exact List.getElem_mem _

theorem rhoEdge_congr (s st : VarSatPhysicsImpl α) (e : Nat)
    (h : faceLimInputs st = faceLimInputs s) : rhoEdge st e = rhoEdge s e := by
  simp only [faceLimInputs, Prod.mk.injEq] at h
  obtain ⟨e1, e2, e3, e4, e5⟩ := h
  unfold rhoEdge
  rw [e1, e2, e3, e4, e5]

/-- After `process_faces_lim`, a face listed by the edge `e` and by no other edge holds the
density computed for `e`. -/
theorem process_faces_lim_getElem? (m : Mesh α) (s : VarSatPhysicsImpl α) (e f : Nat)
    (he : e < m.edges) (hf : f ∈ m.edge_cvface e) (hlen : f < s.rho_faces_lim.length)
    (huniq : ∀ e', e' < m.edges → f ∈ m.edge_cvface e' → e' = e) :
    faceLimInputs (process_faces_lim m s) = faceLimInputs s ∧
    (process_faces_lim m s).rho_faces_lim[f]? = some (rhoEdge s e) := by
  unfold process_faces_lim
  have key := forLoop_inv
    (fun i (st : VarSatPhysicsImpl α) => faceLimInputs st = faceLimInputs s ∧
      st.rho_faces_lim.length = s.rho_faces_lim.length ∧
      (e < i → st.rho_faces_lim[f]? = some (rhoEdge s e)))
    0 m.edges
    (fun e (st : VarSatPhysicsImpl α) =>
      forLoop 0 (m.edge_cvface e).length
        (fun j (st' : VarSatPhysicsImpl α) =>
          { st' with
            rho_faces_lim := st'.rho_faces_lim.set ((m.edge_cvface e).getD j 0) (rhoEdge st e) })
        st)
    s (Nat.zero_le _)
    ⟨rfl, rfl, fun h => absurd h (Nat.not_lt_zero e)⟩
    (by
      intro i st _ hi hP
      obtain ⟨hin, hl, hv⟩ := hP
      obtain ⟨g1, g2, g3, g4⟩ := process_faces_lim_inner (m.edge_cvface i) (rhoEdge st i) st f
      refine ⟨g1.trans hin, g2.trans hl, ?_⟩
      intro hlt
      by_cases hie : i = e
      · subst hie
        rw [g3 hf (by rw [hl]; exact hlen)]
        exact congrArg some (rhoEdge_congr s st i hin)
      · have hnot : f ∉ m.edge_cvface i := fun hmem => hie (huniq i hi hmem)
        rw [g4 hnot]
        exact hv (by omega))
  exact ⟨key.1, key.2.2 he⟩

end DerivativeCoefficients

/-! ## Claims on the derivative coefficients and the face densities -/

section DerivativeClaims

/-- C31: `process_derivative_coefficients` sets, for every locally-owned node `i`,
`ahh_vec[i] = rho_vec[i]*phi_vec[i]*dSw_vec[i] + rho_vec[i]*Sw_vec[i]*dphi_vec[i] +
(rho_0^2*g*beta)*phi_vec[i]*Sw_vec[i]`; when `dSw_vec[i]` and `dphi_vec[i]` are the
derivatives with respect to the head of functions with the values `Sw_vec[i]` and
`phi_vec[i]`, and `rho_vec[i] = rho_0 + rho_0^2*g*beta*h`, this value is the derivative of
`rho * phi * Sw` with respect to the head. -/
theorem process_derivative_coefficients_product_rule (s : VarSatPhysicsImpl ℝ) (i : Nat)
    (hi : i < s.ahh_vec.length) :
    (process_derivative_coefficients s).ahh_vec[i]? =
      some (s.rho_vec.getD i 0 * s.phi_vec.getD i 0 * s.dSw_vec.getD i 0 +
        s.rho_vec.getD i 0 * s.Sw_vec.getD i 0 * s.dphi_vec.getD i 0 +
        s.constants_.rho_0 * s.constants_.rho_0 * s.constants_.g * s.constants_.beta *
          s.phi_vec.getD i 0 * s.Sw_vec.getD i 0) ∧
    ∀ (Swf phif : ℝ → ℝ) (h0 : ℝ),
      HasDerivAt Swf (s.dSw_vec.getD i 0) h0 → HasDerivAt phif (s.dphi_vec.getD i 0) h0 →
      Swf h0 = s.Sw_vec.getD i 0 → phif h0 = s.phi_vec.getD i 0 →
      s.rho_vec.getD i 0 = s.constants_.rho_0 +
        s.constants_.rho_0 * s.constants_.rho_0 * s.constants_.g * s.constants_.beta * h0 →
      HasDerivAt
        (fun h => (s.constants_.rho_0 +
          s.constants_.rho_0 * s.constants_.rho_0 * s.constants_.g * s.constants_.beta * h) *
            phif h * Swf h)
        ((process_derivative_coefficients s).ahh_vec.getD i 0) h0 := by
  obtain ⟨_, hv⟩ := process_derivative_coefficients_getElem? s i hi
  refine ⟨hv, ?_⟩
  intro Swf phif h0 hS hP eS eP eR
  rw [getD_of_getElem? _ i 0 _ hv]
  have hρ : HasDerivAt (fun h : ℝ => s.constants_.rho_0 +
      s.constants_.rho_0 * s.constants_.rho_0 * s.constants_.g * s.constants_.beta * h)
      (s.constants_.rho_0 * s.constants_.rho_0 * s.constants_.g * s.constants_.beta) h0 := by
    have h1 := ((hasDerivAt_id h0).const_mul
      (s.constants_.rho_0 * s.constants_.rho_0 * s.constants_.g * s.constants_.beta)).const_add
      s.constants_.rho_0
    simpa using h1
  have h3 := (hρ.mul hP).mul hS
  convert h3 using 1
  unfold ahhValue
  rw [eS, eP, ← eR]
  ring

end DerivativeClaims

section FaceDensityClaims

variable {α : Type} [LinearOrderedField α]

/-- C32: `process_faces_lim` gives every face `f` listed by the edge `e` (and by no other
edge) the blended density
`rho_vec[back node of e] * edge_weight_back[e] + rho_vec[front node of e] * edge_weight_front[e]`;
when the two weights of `e` are non-negative and sum to 1, this value lies between the
minimum and the maximum of the two nodal densities. -/
theorem process_faces_lim_blend (m : Mesh α) (s : VarSatPhysicsImpl α) (e f : Nat)
    (he : e < m.edges) (hf : f ∈ m.edge_cvface e) (hlen : f < s.rho_faces_lim.length)
    (huniq : ∀ e', e' < m.edges → f ∈ m.edge_cvface e' → e' = e)
    (hnb : s.edge_node_back_[e]? = some (m.edge_back_id e))
    (hnf : s.edge_node_front_[e]? = some (m.edge_front_id e)) :
    (process_faces_lim m s).rho_faces_lim[f]? =
      some (s.rho_vec.getD (m.edge_back_id e) 0 * s.edge_weight_back_.getD e 0 +
        s.rho_vec.getD (m.edge_front_id e) 0 * s.edge_weight_front_.getD e 0) ∧
    (0 ≤ s.edge_weight_back_.getD e 0 → 0 ≤ s.edge_weight_front_.getD e 0 →
      s.edge_weight_back_.getD e 0 + s.edge_weight_front_.getD e 0 = 1 →
      min (s.rho_vec.getD (m.edge_back_id e) 0) (s.rho_vec.getD (m.edge_front_id e) 0) ≤
        (process_faces_lim m s).rho_faces_lim.getD f 0 ∧
      (process_faces_lim m s).rho_faces_lim.getD f 0 ≤
        max (s.rho_vec.getD (m.edge_back_id e) 0) (s.rho_vec.getD (m.edge_front_id e) 0)) := by
  obtain ⟨_, hv⟩ := process_faces_lim_getElem? m s e f he hf hlen huniq
  unfold rhoEdge at hv
  rw [getD_of_getElem? _ e 0 _ hnb, getD_of_getElem? _ e 0 _ hnf] at hv
  refine ⟨hv, ?_⟩
  intro hb hfw hsum
  rw [getD_of_getElem? _ f 0 _ hv]
  generalize s.rho_vec.getD (m.edge_back_id e) 0 = rb
  generalize s.rho_vec.getD (m.edge_front_id e) 0 = rf
  generalize s.edge_weight_back_.getD e 0 = wb at hb hsum
  generalize s.edge_weight_front_.getD e 0 = wf at hfw hsum
  constructor
  · have h1 : min rb rf * wb ≤ rb * wb := mul_le_mul_of_nonneg_right (min_le_left rb rf) hb
    have h2 : min rb rf * wf ≤ rf * wf := mul_le_mul_of_nonneg_right (min_le_right rb rf) hfw
    have h3 : min rb rf = min rb rf * wb + min rb rf * wf := by rw [← mul_add, hsum, mul_one]
    rw [h3]
    exact add_le_add h1 h2
  · have h1 : rb * wb ≤ max rb rf * wb := mul_le_mul_of_nonneg_right (le_max_left rb rf) hb
    have h2 : rf * wf ≤ max rb rf * wf := mul_le_mul_of_nonneg_right (le_max_right rb rf) hfw
    have h3 : max rb rf = max rb rf * wb + max rb rf * wf := by rw [← mul_add, hsum, mul_one]
    rw [h3]
    exact add_le_add h1 h2

end FaceDensityClaims

section FaceDensityEvaluations

theorem process_derivative_coefficients_product_rule_witness :
    (process_derivative_coefficients
      ({ rho_vec := [8], phi_vec := [1 / 2], dphi_vec := [1], Sw_vec := [1 / 4],
         dSw_vec := [3], ahh_vec := [0],
         constants_ := { beta := 1, rho_0 := 2, g := 3, mu := 1 } } :
        VarSatPhysicsImpl ℝ)).ahh_vec[0]? =
      some ((8 : ℝ) * (1 / 2) * 3 + 8 * (1 / 4) * 1 + 2 * 2 * 3 * 1 * (1 / 2) * (1 / 4)) ∧
    ∀ (Swf phif : ℝ → ℝ) (h0 : ℝ),
      HasDerivAt Swf 3 h0 → HasDerivAt phif 1 h0 →
      Swf h0 = 1 / 4 → phif h0 = 1 / 2 →
      (8 : ℝ) = 2 + 2 * 2 * 3 * 1 * h0 →
      HasDerivAt (fun h => (2 + 2 * 2 * 3 * 1 * h) * phif h * Swf h)
        ((process_derivative_coefficients
          ({ rho_vec := [8], phi_vec := [1 / 2], dphi_vec := [1], Sw_vec := [1 / 4],
             dSw_vec := [3], ahh_vec := [0],
             constants_ := { beta := 1, rho_0 := 2, g := 3, mu := 1 } } :
            VarSatPhysicsImpl ℝ)).ahh_vec.getD 0 0) h0 :=
  process_derivative_coefficients_product_rule
    ({ rho_vec := [8], phi_vec := [1 / 2], dphi_vec := [1], Sw_vec := [1 / 4],
       dSw_vec := [3], ahh_vec := [0],
       constants_ := { beta := 1, rho_0 := 2, g := 3, mu := 1 } } : VarSatPhysicsImpl ℝ)
    0 (by simp)

theorem process_faces_lim_blend_witness :
    (process_faces_lim sampleMesh sampleNodal).rho_faces_lim[0]? =
      some (sampleNodal.rho_vec.getD (sampleMesh.edge_back_id 0) 0 *
          sampleNodal.edge_weight_back_.getD 0 0 +
        sampleNodal.rho_vec.getD (sampleMesh.edge_front_id 0) 0 *
          sampleNodal.edge_weight_front_.getD 0 0) ∧
    (0 ≤ sampleNodal.edge_weight_back_.getD 0 0 → 0 ≤ sampleNodal.edge_weight_front_.getD 0 0 →
      sampleNodal.edge_weight_back_.getD 0 0 + sampleNodal.edge_weight_front_.getD 0 0 = 1 →
      min (sampleNodal.rho_vec.getD (sampleMesh.edge_back_id 0) 0)
          (sampleNodal.rho_vec.getD (sampleMesh.edge_front_id 0) 0) ≤
        (process_faces_lim sampleMesh sampleNodal).rho_faces_lim.getD 0 0 ∧
      (process_faces_lim sampleMesh sampleNodal).rho_faces_lim.getD 0 0 ≤
        max (sampleNodal.rho_vec.getD (sampleMesh.edge_back_id 0) 0)
          (sampleNodal.rho_vec.getD (sampleMesh.edge_front_id 0) 0)) :=
  process_faces_lim_blend sampleMesh sampleNodal 0 0 (by decide) (by simp [sampleMesh])
    (by decide)
    (by
      intro e' _ h
      simp [sampleMesh] at h
      exact h.symm)
    rfl rfl

end FaceDensityEvaluations

/-! ## Bounds and derivative of the saturation -/

section SaturationAnalysis

/-- C30: for `alphaVG > 0`, `mVG > 0`, `S_r < 1` and every head vector, the host path of
`saturation`, run with the real power and the real square root, returns
`S_r < Sw[i] ≤ 1` and `0 ≤ krw[i] ≤ 1` at every index, with `Sw[i] < 1` exactly when
`h[i] < 0` and `0 < krw[i] < 1` exactly when `h[i] < 0`. -/
theorem saturation_bounded (h : TVec ℝ) (props : PhysicalZone ℝ)
    (Sw dSw krw : TVec ℝ) (i : Nat)
    (hSw : Sw.length = h.length) (hdSw : dSw.length = h.length)
    (hkrw : krw.length = h.length) (hi : i < h.length)
    (halpha : props.alphaVG > 0) (hm : props.mVG > 0) (hS1 : props.S_r < 1) :
    ∃ sw kr : ℝ,
      (saturation (fun x y : ℝ => x ^ y) Real.sqrt h props Sw dSw krw).Sw[i]? = some sw ∧
      (saturation (fun x y : ℝ => x ^ y) Real.sqrt h props Sw dSw krw).krw[i]? = some kr ∧
      props.S_r < sw ∧ sw ≤ 1 ∧ 0 ≤ kr ∧ kr ≤ 1 ∧
      (sw < 1 ↔ h.getD i 0 < 0) ∧ ((0 < kr ∧ kr < 1) ↔ h.getD i 0 < 0) := by
  obtain ⟨hx, ⟨a, ha⟩, ⟨b, hb⟩, ⟨c, hc⟩⟩ :=
    saturation_entries_exist h Sw dSw krw i hSw hdSw hkrw hi
  obtain ⟨k1, _, k3⟩ := saturation_getElem? (fun x y : ℝ => x ^ y) Real.sqrt h props Sw dSw
    krw i _ a b c hx ha hb hc
  refine ⟨_, _, k1, k3, ?_⟩
  by_cases hneg : h.getD i 0 < 0
  · have hneg' : ¬ 0 ≤ h.getD i 0 := not_le.2 hneg
    simp only [hneg', if_false, hneg, iff_true]
    have hbase : 0 < -props.alphaVG * h.getD i 0 := by nlinarith
    have hA : 0 < (-props.alphaVG * h.getD i 0) ^ props.nVG := Real.rpow_pos_of_pos hbase _
    generalize (-props.alphaVG * h.getD i 0) ^ props.nVG = A at hA ⊢
    have hB : 1 < A + 1 := by linarith
    have hB0 : 0 < A + 1 := by linarith
    have hE0 : 0 < (A + 1) ^ (-props.mVG) := Real.rpow_pos_of_pos hB0 _
    have hE1 : (A + 1) ^ (-props.mVG) < 1 :=
      Real.rpow_lt_one_of_one_lt_of_neg hB (by linarith)
    generalize (A + 1) ^ (-props.mVG) = E at hE0 hE1 ⊢
    have ht0 : 0 < -1 / (A + 1) + 1 := by
      have : 1 / (A + 1) < 1 := by rw [div_lt_one hB0]; exact hB
      have e : -1 / (A + 1) = -(1 / (A + 1)) := by ring
      rw [e]
      linarith
    have ht1 : -1 / (A + 1) + 1 < 1 := by
      have : 0 < 1 / (A + 1) := by positivity
      have e : -1 / (A + 1) = -(1 / (A + 1)) := by ring
      rw [e]
      linarith
    generalize -1 / (A + 1) + 1 = t at ht0 ht1 ⊢
    have hp0 : 0 < t ^ props.mVG := Real.rpow_pos_of_pos ht0 _
    have hp1 : t ^ props.mVG < 1 := Real.rpow_lt_one (le_of_lt ht0) ht1 hm
    generalize t ^ props.mVG = p at hp0 hp1 ⊢
    rw [Real.rpow_two]
    have hu0 : 0 < (p - 1) ^ 2 := by
      have : p - 1 ≠ 0 := by linarith
      positivity
    have hu1 : (p - 1) ^ 2 < 1 := by nlinarith
    have hs0 : 0 < Real.sqrt E := Real.sqrt_pos.2 hE0
    have hs1 : Real.sqrt E < 1 := by
      rw [Real.sqrt_lt' (by norm_num : (0 : ℝ) < 1)]
      simpa using hE1
    have hS : 0 < 1 - props.S_r := by linarith
    have hk0 : 0 < (p - 1) ^ 2 * Real.sqrt E := mul_pos hu0 hs0
    have hk1 : (p - 1) ^ 2 * Real.sqrt E < 1 := by nlinarith
    refine ⟨by nlinarith, by nlinarith, le_of_lt hk0, le_of_lt hk1, by nlinarith, hk0, hk1⟩
  · have hpos : 0 ≤ h.getD i 0 := not_lt.1 hneg
    simp only [hpos, if_true, hneg, iff_false]
    refine ⟨hS1, le_refl _, by norm_num, le_refl _, lt_irrefl _, ?_⟩
    intro hk
    exact lt_irrefl _ hk.2

/-- C29: for `alphaVG > 0`, `nVG > 1`, `mVG = 1 - 1/nVG` and a head `h[i] < 0`, the value
`dSw[i]` computed by the host path of `saturation` is the derivative at `h[i]` of the
function `x ↦ S_r + (1 - S_r) * (1 + (-alphaVG * x)^nVG)^(-mVG)`, whose value at `h[i]` the
same call returns as `Sw[i]`. -/
theorem saturation_dSw_is_derivative (h : TVec ℝ) (props : PhysicalZone ℝ)
    (Sw dSw krw : TVec ℝ) (i : Nat)
    (hSw : Sw.length = h.length) (hdSw : dSw.length = h.length)
    (hkrw : krw.length = h.length) (hi : i < h.length) (hneg : h.getD i 0 < 0)
    (halpha : props.alphaVG > 0) (hn : props.nVG > 1) (hm : props.mVG = 1 - 1 / props.nVG) :
    ∃ d : ℝ,
      (saturation (fun x y : ℝ => x ^ y) Real.sqrt h props Sw dSw krw).dSw[i]? = some d ∧
      (saturation (fun x y : ℝ => x ^ y) Real.sqrt h props Sw dSw krw).Sw[i]? =
        some (props.S_r + (1 - props.S_r) *
          (1 + (-props.alphaVG * h.getD i 0) ^ props.nVG) ^ (-props.mVG)) ∧
      HasDerivAt
        (fun x : ℝ => props.S_r + (1 - props.S_r) *
          (1 + (-props.alphaVG * x) ^ props.nVG) ^ (-props.mVG)) d (h.getD i 0) := by
  obtain ⟨hx, ⟨a, ha⟩, ⟨b, hb⟩, ⟨c, hc⟩⟩ :=
    saturation_entries_exist h Sw dSw krw i hSw hdSw hkrw hi
  obtain ⟨k1, k2, _⟩ := saturation_getElem? (fun x y : ℝ => x ^ y) Real.sqrt h props Sw dSw
    krw i _ a b c hx ha hb hc
  have hneg' : ¬ 0 ≤ h.getD i 0 := not_le.2 hneg
  simp only [hneg', if_false] at k1 k2
  refine ⟨_, k2, ?_, ?_⟩
  · rw [k1]
    congr 1
    ring_nf
  · generalize h.getD i 0 = x at hneg ⊢
    have hbase : 0 < -props.alphaVG * x := by nlinarith
    have hu : HasDerivAt (fun y : ℝ => -props.alphaVG * y) (-props.alphaVG) x := by
      simpa using (hasDerivAt_id x).const_mul (-props.alphaVG)
    have hun := hu.rpow_const (p := props.nVG) (Or.inl (ne_of_gt hbase))
    have hg := hun.const_add 1
    have hA : 0 < (-props.alphaVG * x) ^ props.nVG := Real.rpow_pos_of_pos hbase _
    have hg0 : (1 + (-props.alphaVG * x) ^ props.nVG) ≠ 0 := by linarith
    have hgm := hg.rpow_const (p := -props.mVG) (Or.inl hg0)
    have hf := (hgm.const_mul (1 - props.S_r)).const_add props.S_r
    convert hf using 1
    have e1 : (-props.alphaVG * x) ^ (props.nVG - 1) =
        (-props.alphaVG * x) ^ props.nVG / (-props.alphaVG * x) :=
      Real.rpow_sub_one (ne_of_gt hbase) _
    have e2 : (1 + (-props.alphaVG * x) ^ props.nVG) ^ (-props.mVG - 1) =
        (1 + (-props.alphaVG * x) ^ props.nVG) ^ (-props.mVG) /
          (1 + (-props.alphaVG * x) ^ props.nVG) :=
      Real.rpow_sub_one hg0 _
    rw [e1, e2, add_comm ((-props.alphaVG * x) ^ props.nVG) 1]
    generalize (-props.alphaVG * x) ^ props.nVG = A at hA hg0 ⊢
    generalize (1 + A) ^ (-props.mVG) = E
    have hn0 : props.nVG ≠ 0 := by linarith
    have hx0 : x ≠ 0 := ne_of_lt hneg
    have ha0 : props.alphaVG ≠ 0 := ne_of_gt halpha
    rw [hm]
    field_simp
    ring

theorem saturation_bounded_witness :
    ∃ sw kr : ℝ,
      (saturation (fun x y : ℝ => x ^ y) Real.sqrt [-1]
        { K_xx := 1, K_yy := 1, K_zz := 1, phi := 1 / 2, alpha := 0, alphaVG := 2, nVG := 2,
          mVG := 1 / 2, S_r := 1 / 10, Dm := 0 }
        [0] [0] [0]).Sw[0]? = some sw ∧
      (saturation (fun x y : ℝ => x ^ y) Real.sqrt [-1]
        { K_xx := 1, K_yy := 1, K_zz := 1, phi := 1 / 2, alpha := 0, alphaVG := 2, nVG := 2,
          mVG := 1 / 2, S_r := 1 / 10, Dm := 0 }
        [0] [0] [0]).krw[0]? = some kr ∧
      (1 / 10 : ℝ) < sw ∧ sw ≤ 1 ∧ 0 ≤ kr ∧ kr ≤ 1 ∧
      (sw < 1 ↔ ([-1] : List ℝ).getD 0 0 < 0) ∧
      ((0 < kr ∧ kr < 1) ↔ ([-1] : List ℝ).getD 0 0 < 0) :=
  saturation_bounded [-1]
    { K_xx := 1, K_yy := 1, K_zz := 1, phi := 1 / 2, alpha := 0, alphaVG := 2, nVG := 2,
      mVG := 1 / 2, S_r := 1 / 10, Dm := 0 }
    [0] [0] [0] 0 rfl rfl rfl (by decide) (by norm_num) (by norm_num) (by norm_num)

theorem saturation_dSw_is_derivative_witness :
    ∃ d : ℝ,
      (saturation (fun x y : ℝ => x ^ y) Real.sqrt [-1]
        { K_xx := 1, K_yy := 1, K_zz := 1, phi := 1 / 2, alpha := 0, alphaVG := 2, nVG := 2,
          mVG := 1 / 2, S_r := 1 / 10, Dm := 0 }
        [0] [0] [0]).dSw[0]? = some d ∧
      (saturation (fun x y : ℝ => x ^ y) Real.sqrt [-1]
        { K_xx := 1, K_yy := 1, K_zz := 1, phi := 1 / 2, alpha := 0, alphaVG := 2, nVG := 2,
          mVG := 1 / 2, S_r := 1 / 10, Dm := 0 }
        [0] [0] [0]).Sw[0]? =
        some ((1 / 10 : ℝ) + (1 - 1 / 10) *
          (1 + (-(2 : ℝ) * ([-1] : List ℝ).getD 0 0) ^ (2 : ℝ)) ^ (-(1 / 2 : ℝ))) ∧
      HasDerivAt
        (fun x : ℝ => (1 / 10 : ℝ) + (1 - 1 / 10) *
          (1 + (-(2 : ℝ) * x) ^ (2 : ℝ)) ^ (-(1 / 2 : ℝ))) d (([-1] : List ℝ).getD 0 0) :=
  saturation_dSw_is_derivative [-1]
    { K_xx := 1, K_yy := 1, K_zz := 1, phi := 1 / 2, alpha := 0, alphaVG := 2, nVG := 2,
      mVG := 1 / 2, S_r := 1 / 10, Dm := 0 }
    [0] [0] [0] 0 rfl rfl rfl (by decide) (by simp) (by norm_num) (by norm_num)
    (by norm_num)

end SaturationAnalysis

/-! ## The largest flux into each control volume (Van Leer case) -/

section LargestFlux

theorem getElem?_getD_of_lt {β : Type} (l : List β) (i : Nat) (d : β) (h : i < l.length) :
    l[i]? = some (l.getD i d) := by
  rw [List.getD_eq_getElem?_getD, List.getElem?_eq_getElem h]
  rfl

theorem lt_length_of_getElem? {β : Type} (l : List β) (i : Nat) (a : β) (h : l[i]? = some a) :
    i < l.length := by
  obtain ⟨h1, _⟩ := List.getElem?_eq_some.1 h
  exact h1

theorem incoming_congr {α : Type} (m : Mesh α) (a b : VarSatPhysicsImpl α) (c e : Nat)
    (h : maxInputs a = maxInputs b) : incoming m a c e ↔ incoming m b c e := by
  simp only [maxInputs, Prod.mk.injEq] at h
  obtain ⟨_, _, h3, h4, h5, _⟩ := h
  unfold incoming
  rw [h3, h4, h5]

variable {α : Type} [LinearOrderedField α]

/-- The first loop of the Van Leer case writes `edge_up` and `edge_down` only. -/
theorem vanleer_updown_loop_cv (m : Mesh α) (s : VarSatPhysicsImpl α) :
    (vanleer_updown_loop m s).CV_flux = s.CV_flux ∧
    (vanleer_updown_loop m s).CV_up = s.CV_up ∧
    (vanleer_updown_loop m s).qdotn_faces = s.qdotn_faces := by
  have h : (fun st : VarSatPhysicsImpl α => (st.CV_flux, st.CV_up, st.qdotn_faces))
      (vanleer_updown_loop m s) =
      (fun st : VarSatPhysicsImpl α => (st.CV_flux, st.CV_up, st.qdotn_faces)) s := by
    unfold vanleer_updown_loop
    refine forLoop_preserves
      (fun st : VarSatPhysicsImpl α => (st.CV_flux, st.CV_up, st.qdotn_faces)) _ _ _ _ ?_
    intro i st
    dsimp only
    split <;> rfl
  simp only [Prod.mk.injEq] at h
  exact h

/-- The second loop resets the entries of the local control volumes. -/
theorem vanleer_reset_loop_cv (m : Mesh α) (s : VarSatPhysicsImpl α) (c : Nat)
    (hc : c < m.local_nodes) (h1 : c < s.CV_flux.length) :
    maxInputs (vanleer_reset_loop m s) = maxInputs s ∧
    (vanleer_reset_loop m s).CV_up.length = s.CV_up.length ∧
    (vanleer_reset_loop m s).CV_flux[c]? = some 0 ∧
    (c < s.CV_up.length → (vanleer_reset_loop m s).CV_up[c]? = some (-1)) := by
  have key := forLoop_inv
    (fun k (st : VarSatPhysicsImpl α) =>
      maxInputs st = maxInputs s ∧ st.CV_flux.length = s.CV_flux.length ∧
        st.CV_up.length = s.CV_up.length ∧
        (c < k → st.CV_flux[c]? = some 0 ∧
          (c < s.CV_up.length → st.CV_up[c]? = some (-1))))
    0 m.local_nodes
    (fun i (st : VarSatPhysicsImpl α) =>
      { st with CV_flux := st.CV_flux.set i 0, CV_up := st.CV_up.set i (-1) })
    s (Nat.zero_le _)
    ⟨rfl, rfl, rfl, fun h => absurd h (Nat.not_lt_zero c)⟩
    (by
      intro i st _ _ hp
      obtain ⟨p1, p2, p3, p4⟩ := hp
      refine ⟨p1, ?_, ?_, ?_⟩
      · simp only [List.length_set]
        exact p2
      · simp only [List.length_set]
        exact p3
      · intro hci
        by_cases hi : i = c
        · subst hi
          refine ⟨List.getElem?_set_self (by rw [p2]; exact h1), ?_⟩
          intro hu
          exact List.getElem?_set_self (by rw [p3]; exact hu)
        · have hlt : c < i := by omega
          obtain ⟨q1, q2⟩ := p4 hlt
          refine ⟨?_, ?_⟩
          · simp only [List.getElem?_set_ne hi]
            exact q1
          · intro hu
            simp only [List.getElem?_set_ne hi]
            exact q2 hu)
  obtain ⟨k1, _, k3, k4⟩ := key
  exact ⟨k1, k3, (k4 hc).1, (k4 hc).2⟩

/-- The partial sums of the boundary loop. -/
theorem boundaryTerm_step (m : Mesh α) (q : TVec α) (c k : Nat) (hk : m.interior_cvfaces ≤ k) :
    (((List.range' m.interior_cvfaces (k + 1 - m.interior_cvfaces)).filter
        (fun i => m.cvface_back_id i = c)).map (fun i => q.getD i 0)).sum =
      (((List.range' m.interior_cvfaces (k - m.interior_cvfaces)).filter
        (fun i => m.cvface_back_id i = c)).map (fun i => q.getD i 0)).sum +
      (if m.cvface_back_id k = c then q.getD k 0 else 0) := by
  have e : k + 1 - m.interior_cvfaces = (k - m.interior_cvfaces) + 1 := by omega
  have e2 : m.interior_cvfaces + 1 * (k - m.interior_cvfaces) = k := by omega
  rw [e, List.range'_concat, e2, List.filter_append, List.map_append, List.sum_append]
  congr 1
  by_cases hb : m.cvface_back_id k = c
  · simp [hb]
  · simp [hb]

/-- The third loop adds the boundary term to the entry of each control volume. -/
theorem vanleer_boundary_loop_cv (m : Mesh α) (s : VarSatPhysicsImpl α) (c : Nat)
    (h1 : c < s.CV_flux.length) :
    maxInputs (vanleer_boundary_loop m s) = maxInputs s ∧
    (vanleer_boundary_loop m s).CV_up = s.CV_up ∧
    (vanleer_boundary_loop m s).CV_flux[c]? =
      some (s.CV_flux.getD c 0 + boundaryTerm m s.qdotn_faces c) := by
  have hframe : (fun st : VarSatPhysicsImpl α => (maxInputs st, st.CV_up))
      (vanleer_boundary_loop m s) =
      (fun st : VarSatPhysicsImpl α => (maxInputs st, st.CV_up)) s := by
    unfold vanleer_boundary_loop
    refine forLoop_preserves
      (fun st : VarSatPhysicsImpl α => (maxInputs st, st.CV_up)) _ _ _ _ ?_
    intro i st
    rfl
  simp only [Prod.mk.injEq] at hframe
  refine ⟨hframe.1, hframe.2, ?_⟩
  rcases Nat.le_total m.interior_cvfaces m.cvfaces with hle | hle
  · have key := forLoop_inv
      (fun k (st : VarSatPhysicsImpl α) =>
        st.qdotn_faces = s.qdotn_faces ∧
          st.CV_flux[c]? = some (s.CV_flux.getD c 0 -
            (((List.range' m.interior_cvfaces (k - m.interior_cvfaces)).filter
              (fun i => m.cvface_back_id i = c)).map (fun i => s.qdotn_faces.getD i 0)).sum))
      m.interior_cvfaces m.cvfaces
      (fun i (st : VarSatPhysicsImpl α) =>
        let n := m.cvface_back_id i
        { st with
          CV_flux := st.CV_flux.set n (st.CV_flux.getD n 0 - st.qdotn_faces.getD i 0) })
      s hle
      (by
        refine ⟨rfl, ?_⟩
        rw [Nat.sub_self]
        simp only [List.range'_zero, List.filter_nil, List.map_nil, List.sum_nil, sub_zero]
        exact getElem?_getD_of_lt _ _ _ h1)
      (by
        intro i st hi _ hp
        obtain ⟨p1, p2⟩ := hp
        refine ⟨p1, ?_⟩
        rw [boundaryTerm_step m s.qdotn_faces c i hi]
        dsimp only
        by_cases hb : m.cvface_back_id i = c
        · rw [hb, if_pos rfl, List.getElem?_set_self (lt_length_of_getElem? _ _ _ p2),
            getD_of_getElem? _ _ 0 _ p2, p1]
          congr 1
          ring
        · rw [if_neg hb, List.getElem?_set_ne hb, p2, add_zero])
    unfold vanleer_boundary_loop
    rw [key.2]
    unfold boundaryTerm
    rw [sub_eq_add_neg]
  · unfold vanleer_boundary_loop
    rw [forLoop_empty _ _ _ _ hle]
    unfold boundaryTerm
    have e : m.cvfaces - m.interior_cvfaces = 0 := by omega
    rw [e]
    simp only [List.range'_zero, List.filter_nil, List.map_nil, List.sum_nil, neg_zero, add_zero]
    exact getElem?_getD_of_lt _ _ _ h1

/-- The fourth loop: the entry of a local control volume `c` becomes the largest of its
starting value and the absolute fluxes of the incoming edges; `CV_up[c]` is written at the
first edge that attains a value above the starting value, and only there. -/
theorem vanleer_max_loop_cv (m : Mesh α) (s : VarSatPhysicsImpl α) (c : Nat)
    (hc : c < m.local_nodes) (h1 : c < s.CV_flux.length) :
    maxInputs (vanleer_max_loop m s) = maxInputs s ∧
    (vanleer_max_loop m s).CV_up.length = s.CV_up.length ∧
    ∃ v, (vanleer_max_loop m s).CV_flux[c]? = some v ∧ s.CV_flux.getD c 0 ≤ v ∧
      (∀ e, e < m.edges → incoming m s c e → |s.edge_flux.getD e 0| ≤ v) ∧
      ((v = s.CV_flux.getD c 0 ∧ (vanleer_max_loop m s).CV_up[c]? = s.CV_up[c]?) ∨
        (∃ e, e < m.edges ∧ incoming m s c e ∧ v = |s.edge_flux.getD e 0| ∧
          s.CV_flux.getD c 0 < v ∧
          (∀ e2, e2 < e → incoming m s c e2 → |s.edge_flux.getD e2 0| < v) ∧
          (c < s.CV_up.length →
            (vanleer_max_loop m s).CV_up[c]? = some ((s.edge_up.getD e 0 : Nat) : Int)))) := by
  have key := forLoop_inv
    (fun k (st : VarSatPhysicsImpl α) =>
      maxInputs st = maxInputs s ∧ st.CV_up.length = s.CV_up.length ∧
      ∃ v, st.CV_flux[c]? = some v ∧ s.CV_flux.getD c 0 ≤ v ∧
        (∀ e, e < k → incoming m s c e → |s.edge_flux.getD e 0| ≤ v) ∧
        ((v = s.CV_flux.getD c 0 ∧ st.CV_up[c]? = s.CV_up[c]?) ∨
          (∃ e, e < k ∧ incoming m s c e ∧ v = |s.edge_flux.getD e 0| ∧
            s.CV_flux.getD c 0 < v ∧
            (∀ e2, e2 < e → incoming m s c e2 → |s.edge_flux.getD e2 0| < v) ∧
            (c < s.CV_up.length →
              st.CV_up[c]? = some ((s.edge_up.getD e 0 : Nat) : Int)))))
    0 m.edges
    (fun i (st : VarSatPhysicsImpl α) =>
      if st.edge_node_front_.getD i 0 < m.local_nodes ∨
          st.edge_node_back_.getD i 0 < m.local_nodes then
        let CV := st.edge_down.getD i 0
        if CV < m.local_nodes then
          let fl := |st.edge_flux.getD i 0|
          if fl > st.CV_flux.getD CV 0 then
            { st with
              CV_flux := st.CV_flux.set CV fl
              CV_up := st.CV_up.set CV (st.edge_up.getD i 0 : Nat) }
          else st
        else st
      else st)
    s (Nat.zero_le _)
    ⟨rfl, rfl, s.CV_flux.getD c 0, getElem?_getD_of_lt _ _ _ h1, le_refl _,
      fun e he => absurd he (Nat.not_lt_zero e), Or.inl ⟨rfl, rfl⟩⟩
    (by
      intro i st _ _ hp
      obtain ⟨p1, p2, v, pv, pB, pall, pcase⟩ := hp
      have p1c := p1
      simp only [maxInputs, Prod.mk.injEq] at p1c
      obtain ⟨f1, f2, f3, f4, f5, f6⟩ := p1c
      -- an edge that is not incoming leaves the invariant as it is
      have hskip : ¬ incoming m s c i →
          (maxInputs st = maxInputs s ∧ st.CV_up.length = s.CV_up.length ∧
          ∃ v, st.CV_flux[c]? = some v ∧ s.CV_flux.getD c 0 ≤ v ∧
            (∀ e, e < i + 1 → incoming m s c e → |s.edge_flux.getD e 0| ≤ v) ∧
            ((v = s.CV_flux.getD c 0 ∧ st.CV_up[c]? = s.CV_up[c]?) ∨
              (∃ e, e < i + 1 ∧ incoming m s c e ∧ v = |s.edge_flux.getD e 0| ∧
                s.CV_flux.getD c 0 < v ∧
                (∀ e2, e2 < e → incoming m s c e2 → |s.edge_flux.getD e2 0| < v) ∧
                (c < s.CV_up.length →
                  st.CV_up[c]? = some ((s.edge_up.getD e 0 : Nat) : Int))))) := by
        intro hni
        refine ⟨p1, p2, v, pv, pB, ?_, ?_⟩
        · intro e he hin
          rcases Nat.lt_succ_iff_lt_or_eq.1 he with h | h
          · exact pall e h hin
          · subst h
            exact absurd hin hni
        · rcases pcase with h | ⟨e, he, r⟩
          · exact Or.inl h
          · exact Or.inr ⟨e, Nat.lt_succ_of_lt he, r⟩
      dsimp only
      rw [f1, f2, f3, f4, f5]
      by_cases htouch : s.edge_node_front_.getD i 0 < m.local_nodes ∨
          s.edge_node_back_.getD i 0 < m.local_nodes
      · rw [if_pos htouch]
        by_cases hloc : s.edge_down.getD i 0 < m.local_nodes
        · rw [if_pos hloc]
          by_cases hdown : s.edge_down.getD i 0 = c
          · have hin : incoming m s c i := ⟨htouch, hdown⟩
            rw [hdown, getD_of_getElem? _ _ 0 _ pv]
            by_cases hfl : |s.edge_flux.getD i 0| > v
            · rw [if_pos hfl]
              refine ⟨?_, ?_, |s.edge_flux.getD i 0|, ?_, ?_, ?_, ?_⟩
              · simp [maxInputs, f1, f2, f3, f4, f5, f6]
              · simp only [List.length_set]
                exact p2
              · exact List.getElem?_set_self (lt_length_of_getElem? _ _ _ pv)
              · exact le_trans pB (le_of_lt hfl)
              · intro e he hine
                rcases Nat.lt_succ_iff_lt_or_eq.1 he with h | h
                · exact le_trans (pall e h hine) (le_of_lt hfl)
                · subst h
                  exact le_refl _
              · refine Or.inr ⟨i, Nat.lt_succ_self i, hin, rfl, lt_of_le_of_lt pB hfl, ?_, ?_⟩
                · intro e2 he2 hin2
                  exact lt_of_le_of_lt (pall e2 he2 hin2) hfl
                · intro hu
                  exact List.getElem?_set_self (by rw [p2]; exact hu)
            · rw [if_neg hfl]
              refine ⟨p1, p2, v, pv, pB, ?_, ?_⟩
              · intro e he hine
                rcases Nat.lt_succ_iff_lt_or_eq.1 he with h | h
                · exact pall e h hine
                · subst h
                  exact not_lt.1 hfl
              · rcases pcase with h | ⟨e, he, r⟩
                · exact Or.inl h
                · exact Or.inr ⟨e, Nat.lt_succ_of_lt he, r⟩
          · have hni : ¬ incoming m s c i := fun h => hdown h.2
            obtain ⟨_, _, v2, q1, q2, q3, q4⟩ := hskip hni
            by_cases hfl : |s.edge_flux.getD i 0| > st.CV_flux.getD (s.edge_down.getD i 0) 0
            · rw [if_pos hfl]
              refine ⟨?_, ?_, v2, ?_, q2, q3, ?_⟩
              · simp [maxInputs, f1, f2, f3, f4, f5, f6]
              · simp only [List.length_set]
                exact p2
              · simp only [List.getElem?_set_ne hdown]
                exact q1
              · simp only [List.getElem?_set_ne hdown]
                exact q4
            · rw [if_neg hfl]
              exact hskip hni
        · rw [if_neg hloc]
          apply hskip
          intro h
          apply hloc
          rw [h.2]
          exact hc
      · rw [if_neg htouch]
        apply hskip
        intro h
        exact htouch h.1)
  exact key

end LargestFlux

section DefaultLoopEntries

/-- The fifth loop: a local control volume whose `CV_up` is still `-1` gets its own id. -/
theorem vanleer_default_loop_cv {α : Type} (m : Mesh α) (s : VarSatPhysicsImpl α) (c : Nat)
    (hc : c < m.local_nodes) (h2 : c < s.CV_up.length) :
    (vanleer_default_loop m s).CV_up[c]? =
      some (if s.CV_up.getD c 0 = -1 then (c : Int) else s.CV_up.getD c 0) := by
  have key := forLoop_inv
    (fun k (st : VarSatPhysicsImpl α) =>
      st.CV_up.length = s.CV_up.length ∧
        (∀ j, k ≤ j → st.CV_up[j]? = s.CV_up[j]?) ∧
        (c < k → st.CV_up[c]? =
          some (if s.CV_up.getD c 0 = -1 then (c : Int) else s.CV_up.getD c 0)))
    0 m.local_nodes
    (fun i (st : VarSatPhysicsImpl α) =>
      if st.CV_up.getD i 0 = -1 then { st with CV_up := st.CV_up.set i (i : Int) } else st)
    s (Nat.zero_le _)
    ⟨rfl, fun _ _ => rfl, fun h => absurd h (Nat.not_lt_zero c)⟩
    (by
      intro i st _ _ hp
      obtain ⟨p1, p2, p3⟩ := hp
      have hsame : st.CV_up.getD i 0 = s.CV_up.getD i 0 := by
        rw [List.getD_eq_getElem?_getD, List.getD_eq_getElem?_getD, p2 i (Nat.le_refl i)]
      dsimp only
      rw [hsame]
      by_cases hm : s.CV_up.getD i 0 = -1
      · rw [if_pos hm]
        refine ⟨?_, ?_, ?_⟩
        · simp only [List.length_set]
          exact p1
        · intro j hj
          have hne : i ≠ j := by omega
          simp only [List.getElem?_set_ne hne]
          exact p2 j (by omega)
        · intro hci
          by_cases hi : i = c
          · subst hi
            rw [if_pos hm]
            exact List.getElem?_set_self (by rw [p1]; exact h2)
          · simp only [List.getElem?_set_ne hi]
            exact p3 (by omega)
      · rw [if_neg hm]
        refine ⟨p1, fun j hj => p2 j (by omega), ?_⟩
        intro hci
        by_cases hi : i = c
        · subst hi
          rw [if_neg hm, p2 i (Nat.le_refl i)]
          exact getElem?_getD_of_lt _ _ _ h2
        · exact p3 (by omega))
  exact key.2.2 hc

/-- The fifth loop writes `CV_up` only. -/
theorem vanleer_default_loop_inputs {α : Type} (m : Mesh α) (s : VarSatPhysicsImpl α) :
    maxInputs (vanleer_default_loop m s) = maxInputs s ∧
    (vanleer_default_loop m s).CV_flux = s.CV_flux := by
  have h : (fun st : VarSatPhysicsImpl α => (maxInputs st, st.CV_flux))
      (vanleer_default_loop m s) =
      (fun st : VarSatPhysicsImpl α => (maxInputs st, st.CV_flux)) s := by
    unfold vanleer_default_loop
    refine forLoop_preserves
      (fun st : VarSatPhysicsImpl α => (maxInputs st, st.CV_flux)) _ _ _ _ ?_
    intro i st
    dsimp only
    split <;> rfl
  simp only [Prod.mk.injEq] at h
  exact h

end DefaultLoopEntries
section BeforeExchange

variable {α : Type} [LinearOrderedField α]

/-- The last loop of the Van Leer case does not write `CV_up`. -/
theorem vanleer_sigma_loop_cv_up (m : Mesh α) (s : VarSatPhysicsImpl α) :
    (vanleer_sigma_loop m s).CV_up = s.CV_up := by
  unfold vanleer_sigma_loop
  refine forLoop_preserves (fun st : VarSatPhysicsImpl α => st.CV_up) _ _ _ _ ?_
  intro i st
  dsimp only
  split
  · split <;> rfl
  · rfl

/-- The boundary term of a control volume without boundary faces is zero. -/
theorem boundaryTerm_eq_zero (m : Mesh α) (q : TVec α) (c : Nat)
    (h : ∀ f, m.interior_cvfaces ≤ f → f < m.cvfaces → m.cvface_back_id f ≠ c) :
    boundaryTerm m q c = 0 := by
  unfold boundaryTerm
  have hnil : (List.range' m.interior_cvfaces (m.cvfaces - m.interior_cvfaces)).filter
      (fun i => m.cvface_back_id i = c) = [] := by
    rw [List.filter_eq_nil_iff]
    intro f hf
    rw [List.mem_range'_1] at hf
    have := h f hf.1 (by omega)
    simpa using this
  rw [hnil]
  simp

/-- The entries `CV_flux[c]` and `CV_up[c]` of a local control volume just before the halo
exchange. -/
theorem vanleer_before_exchange_cv (m : Mesh α) (s : VarSatPhysicsImpl α) (c : Nat)
    (hc : c < m.local_nodes) (h1 : c < s.CV_flux.length) :
    ∃ v, (vanleer_before_exchange m s).CV_flux[c]? = some v ∧
      boundaryTerm m s.qdotn_faces c ≤ v ∧
      (∀ e, e < m.edges → incoming m (vanleer_before_exchange m s) c e →
        |(vanleer_before_exchange m s).edge_flux.getD e 0| ≤ v) ∧
      ((v = boundaryTerm m s.qdotn_faces c ∧
          (c < s.CV_up.length → (vanleer_before_exchange m s).CV_up[c]? = some (c : Int))) ∨
        (∃ e, e < m.edges ∧ incoming m (vanleer_before_exchange m s) c e ∧
          v = |(vanleer_before_exchange m s).edge_flux.getD e 0| ∧
          boundaryTerm m s.qdotn_faces c < v ∧
          (∀ e2, e2 < e → incoming m (vanleer_before_exchange m s) c e2 →
            |(vanleer_before_exchange m s).edge_flux.getD e2 0| < v) ∧
          (c < s.CV_up.length → (vanleer_before_exchange m s).CV_up[c]? =
            some (((vanleer_before_exchange m s).edge_up.getD e 0 : Nat) : Int)))) := by
  unfold vanleer_before_exchange
  generalize hs1 :
    ({ s with edge_flux := s.flux_lim_matrix.matvec s.qdotn_faces } : VarSatPhysicsImpl α) = s1
  have hs1a : s1.CV_flux = s.CV_flux := by rw [← hs1]
  have hs1b : s1.CV_up = s.CV_up := by rw [← hs1]
  have hs1c : s1.qdotn_faces = s.qdotn_faces := by rw [← hs1]
  obtain ⟨a1, a2, a3⟩ := vanleer_updown_loop_cv m s1
  generalize vanleer_updown_loop m s1 = A at a1 a2 a3 ⊢
  have hA1 : c < A.CV_flux.length := by rw [a1, hs1a]; exact h1
  obtain ⟨r1, r2, r3, r4⟩ := vanleer_reset_loop_cv m A c hc hA1
  generalize vanleer_reset_loop m A = R at r1 r2 r3 r4 ⊢
  have hR1 : c < R.CV_flux.length := lt_length_of_getElem? _ _ _ r3
  obtain ⟨b1, b2, b3⟩ := vanleer_boundary_loop_cv m R c hR1
  generalize vanleer_boundary_loop m R = Bd at b1 b2 b3 ⊢
  have hB1 : c < Bd.CV_flux.length := lt_length_of_getElem? _ _ _ b3
  obtain ⟨m1, m2, v, m3, m4, m5, m6⟩ := vanleer_max_loop_cv m Bd c hc hB1
  generalize vanleer_max_loop m Bd = M at m1 m2 m3 m4 m5 m6 ⊢
  obtain ⟨d1, d2⟩ := vanleer_default_loop_inputs m M
  have hdef := vanleer_default_loop_cv m M c hc
  generalize vanleer_default_loop m M = T at d1 d2 hdef ⊢
  -- the boundary term
  have hq : R.qdotn_faces = s.qdotn_faces := by
    have r1c := r1
    simp only [maxInputs, Prod.mk.injEq] at r1c
    rw [r1c.2.2.2.2.2, a3, hs1c]
  have hBv : Bd.CV_flux.getD c 0 = boundaryTerm m s.qdotn_faces c := by
    rw [getD_of_getElem? _ _ 0 _ b3, getD_of_getElem? _ _ 0 _ r3, hq, zero_add]
  rw [hBv] at m4 m6
  -- the inputs of the fourth loop are those of the final state
  have hTB : maxInputs T = maxInputs Bd := d1.trans m1
  have hTBc := hTB
  simp only [maxInputs, Prod.mk.injEq] at hTBc
  obtain ⟨t1, t2, _, _, _, _⟩ := hTBc
  have hin : ∀ e, incoming m T c e ↔ incoming m Bd c e := fun e =>
    incoming_congr m T Bd c e hTB
  -- the lengths of `CV_up`
  have hlen : M.CV_up.length = s.CV_up.length := by
    rw [m2, b2, r2, a2, hs1b]
  rw [d2, t1, t2]
  refine ⟨v, m3, m4, ?_, ?_⟩
  · intro e he hine
    exact m5 e he ((hin e).1 hine)
  · rcases m6 with ⟨e1, e2⟩ | ⟨e, he, g1, g2, g3, g4, g5⟩
    · refine Or.inl ⟨e1, ?_⟩
      intro hup
      have hA2 : c < A.CV_up.length := by rw [a2, hs1b]; exact hup
      have hm : M.CV_up[c]? = some (-1) := by rw [e2, b2]; exact r4 hA2
      rw [hdef (by rw [hlen]; exact hup), getD_of_getElem? _ _ 0 _ hm, if_pos rfl]
    · refine Or.inr ⟨e, he, (hin e).2 g1, g2, g3, ?_, ?_⟩
      · intro e2 he2 hin2
        exact g4 e2 he2 ((hin e2).1 hin2)
      · intro hup
        have hA2 : c < A.CV_up.length := by rw [a2, hs1b]; exact hup
        have hBd2 : c < Bd.CV_up.length := by rw [b2, r2]; exact hA2
        have hm := g5 hBd2
        have hne : ¬ (((Bd.edge_up.getD e 0 : Nat) : Int) = -1) := by omega
        rw [hdef (by rw [hlen]; exact hup), getD_of_getElem? _ _ 0 _ hm, if_neg hne]

/-- The flux over the edges just before the halo exchange is the product of
`flux_lim_matrix` and `qdotn_faces`. -/
theorem vanleer_before_exchange_edge_flux (m : Mesh α) (s : VarSatPhysicsImpl α) :
    (vanleer_before_exchange m s).edge_flux = s.flux_lim_matrix.matvec s.qdotn_faces := by
  unfold vanleer_before_exchange
  rw [(vanleer_default_loop_frame m _).2, (vanleer_max_loop_frame m _).2,
    (vanleer_boundary_loop_frame m _).2, (vanleer_reset_loop_frame m _).2,
    (vanleer_updown_loop_frame m _).2]

/-- The Van Leer case of `process_spatial_weights` is the last loop run on the state
before the halo exchange with `CV_flux` exchanged. -/
theorem process_spatial_weights_before_exchange (exchange : TVec α → TVec α) (m : Mesh α)
    (s : VarSatPhysicsImpl α)
    (hmode : s.spatial_weighting = SpatialWeightType.weightVanLeer) :
    process_spatial_weights exchange m s =
      vanleer_sigma_loop m { vanleer_before_exchange m s with
        CV_flux := exchange (vanleer_before_exchange m s).CV_flux } := by
  simp only [process_spatial_weights, hmode, vanleer_before_exchange]

/-- **C27.** In Van Leer mode, for a locally-owned control volume `c`, the value
`CV_flux[c]` just before the halo exchange is the maximum of the boundary term of `c`
(minus the sum of `qdotn_faces` over the boundary faces whose back node is `c`) and of
`|edge_flux[e]|` over the edges `e` that touch a locally-owned node and have
`edge_down[e] = c`: it bounds all of them and is equal to one of them. Without boundary
faces at `c` the boundary term is 0, the value is the largest absolute flux over the
incoming edges if there is one, and 0 if there is none. -/
theorem vanleer_cv_flux_largest_inflow (exchange : TVec α → TVec α) (m : Mesh α)
    (s : VarSatPhysicsImpl α) (c : Nat)
    (hmode : s.spatial_weighting = SpatialWeightType.weightVanLeer)
    (hc : c < m.local_nodes) (hlen : c < s.CV_flux.length) :
    process_spatial_weights exchange m s =
      vanleer_sigma_loop m { vanleer_before_exchange m s with
        CV_flux := exchange (vanleer_before_exchange m s).CV_flux } ∧
    (vanleer_before_exchange m s).edge_flux = s.flux_lim_matrix.matvec s.qdotn_faces ∧
    ∃ v, (vanleer_before_exchange m s).CV_flux[c]? = some v ∧
      boundaryTerm m s.qdotn_faces c ≤ v ∧
      (∀ e, e < m.edges → incoming m (vanleer_before_exchange m s) c e →
        |(vanleer_before_exchange m s).edge_flux.getD e 0| ≤ v) ∧
      (v = boundaryTerm m s.qdotn_faces c ∨
        ∃ e, e < m.edges ∧ incoming m (vanleer_before_exchange m s) c e ∧
          v = |(vanleer_before_exchange m s).edge_flux.getD e 0|) ∧
      ((∀ f, m.interior_cvfaces ≤ f → f < m.cvfaces → m.cvface_back_id f ≠ c) →
        boundaryTerm m s.qdotn_faces c = 0 ∧
        ((∃ e, e < m.edges ∧ incoming m (vanleer_before_exchange m s) c e) →
          ∃ e, e < m.edges ∧ incoming m (vanleer_before_exchange m s) c e ∧
            v = |(vanleer_before_exchange m s).edge_flux.getD e 0|) ∧
        ((∀ e, e < m.edges → ¬ incoming m (vanleer_before_exchange m s) c e) → v = 0)) := by
  refine ⟨process_spatial_weights_before_exchange exchange m s hmode,
    vanleer_before_exchange_edge_flux m s, ?_⟩
  obtain ⟨v, k1, k2, k3, k4⟩ := vanleer_before_exchange_cv m s c hc hlen
  have hor : v = boundaryTerm m s.qdotn_faces c ∨
      ∃ e, e < m.edges ∧ incoming m (vanleer_before_exchange m s) c e ∧
        v = |(vanleer_before_exchange m s).edge_flux.getD e 0| := by
    rcases k4 with ⟨h, _⟩ | ⟨e, he, g1, g2, _⟩
    · exact Or.inl h
    · exact Or.inr ⟨e, he, g1, g2⟩
  refine ⟨v, k1, k2, k3, hor, ?_⟩
  intro hnb
  have hB := boundaryTerm_eq_zero m s.qdotn_faces c hnb
  refine ⟨hB, ?_, ?_⟩
  · rintro ⟨e0, he0, hin0⟩
    rcases hor with h | h
    · refine ⟨e0, he0, hin0, ?_⟩
      have h1 := k3 e0 he0 hin0
      rw [h, hB] at h1
      rw [h, hB]
      exact le_antisymm (abs_nonneg _) h1
    · exact h
  · intro hnone
    rcases hor with h | ⟨e, he, g1, _⟩
    · rw [h, hB]
    · exact absurd g1 (hnone e he)

/-- **C28.** In Van Leer mode, for a locally-owned control volume `c`, the entry `CV_up[c]`
after the upwind-neighbour step (it is not written afterwards) is never `-1`. It is `c`
itself when no incoming edge has an absolute flux above the boundary term of `c`, and it
is `edge_up[e]` for the lowest-indexed incoming edge `e` whose `|edge_flux[e]|` attains
the maximum over the incoming edges, when that maximum is strictly above the boundary
term. -/
theorem vanleer_cv_up_dominant_edge (exchange : TVec α → TVec α) (m : Mesh α)
    (s : VarSatPhysicsImpl α) (c : Nat)
    (hmode : s.spatial_weighting = SpatialWeightType.weightVanLeer)
    (hc : c < m.local_nodes) (hlen : c < s.CV_flux.length) (hup : c < s.CV_up.length) :
    (process_spatial_weights exchange m s).CV_up = (vanleer_before_exchange m s).CV_up ∧
    ∃ u : Int, (vanleer_before_exchange m s).CV_up[c]? = some u ∧ u ≠ -1 ∧
      ((∀ e, e < m.edges → incoming m (vanleer_before_exchange m s) c e →
          |(vanleer_before_exchange m s).edge_flux.getD e 0| ≤ boundaryTerm m s.qdotn_faces c) →
        u = (c : Int)) ∧
      (∀ e, e < m.edges → incoming m (vanleer_before_exchange m s) c e →
        boundaryTerm m s.qdotn_faces c < |(vanleer_before_exchange m s).edge_flux.getD e 0| →
        (∀ e2, e2 < m.edges → incoming m (vanleer_before_exchange m s) c e2 →
          |(vanleer_before_exchange m s).edge_flux.getD e2 0| ≤
            |(vanleer_before_exchange m s).edge_flux.getD e 0|) →
        (∀ e2, e2 < e → incoming m (vanleer_before_exchange m s) c e2 →
          |(vanleer_before_exchange m s).edge_flux.getD e2 0| <
            |(vanleer_before_exchange m s).edge_flux.getD e 0|) →
        u = (((vanleer_before_exchange m s).edge_up.getD e 0 : Nat) : Int)) := by
  constructor
  · rw [process_spatial_weights_before_exchange exchange m s hmode, vanleer_sigma_loop_cv_up]
  obtain ⟨v, k1, k2, k3, k4⟩ := vanleer_before_exchange_cv m s c hc hlen
  generalize vanleer_before_exchange m s = T at k1 k2 k3 k4 ⊢
  rcases k4 with ⟨e1, e2⟩ | ⟨e0, he0, g1, g2, g3, g4, g5⟩
  · refine ⟨(c : Int), e2 hup, by omega, fun _ => rfl, ?_⟩
    intro e he hine hlt _ _
    have := k3 e he hine
    rw [e1] at this
    exact absurd hlt (not_lt.2 this)
  · refine ⟨((T.edge_up.getD e0 0 : Nat) : Int), g5 hup, by omega, ?_, ?_⟩
    · intro hall
      have := hall e0 he0 g1
      rw [← g2] at this
      exact absurd g3 (not_lt.2 this)
    · intro e he hine _ hmax hfirst
      have hle1 : |T.edge_flux.getD e0 0| ≤ |T.edge_flux.getD e 0| := hmax e0 he0 g1
      have hle2 : |T.edge_flux.getD e 0| ≤ |T.edge_flux.getD e0 0| := by
        rw [← g2]
        exact k3 e he hine
      have heq : e0 = e := by
        rcases Nat.lt_trichotomy e0 e with h | h | h
        · exact absurd (hfirst e0 h g1) (not_lt.2 hle2)
        · exact h
        · have := g4 e h hine
          rw [g2] at this
          exact absurd this (not_lt.2 hle1)
      rw [heq]

end BeforeExchange
section BeforeExchangeWitnesses

theorem vanleer_cv_flux_largest_inflow_witness :
    process_spatial_weights id sampleMesh sampleInflow =
      vanleer_sigma_loop sampleMesh { vanleer_before_exchange sampleMesh sampleInflow with
        CV_flux := id (vanleer_before_exchange sampleMesh sampleInflow).CV_flux } ∧
    (vanleer_before_exchange sampleMesh sampleInflow).edge_flux =
      sampleInflow.flux_lim_matrix.matvec sampleInflow.qdotn_faces ∧
    ∃ v, (vanleer_before_exchange sampleMesh sampleInflow).CV_flux[0]? = some v ∧
      boundaryTerm sampleMesh sampleInflow.qdotn_faces 0 ≤ v ∧
      (∀ e, e < sampleMesh.edges →
        incoming sampleMesh (vanleer_before_exchange sampleMesh sampleInflow) 0 e →
        |(vanleer_before_exchange sampleMesh sampleInflow).edge_flux.getD e 0| ≤ v) ∧
      (v = boundaryTerm sampleMesh sampleInflow.qdotn_faces 0 ∨
        ∃ e, e < sampleMesh.edges ∧
          incoming sampleMesh (vanleer_before_exchange sampleMesh sampleInflow) 0 e ∧
          v = |(vanleer_before_exchange sampleMesh sampleInflow).edge_flux.getD e 0|) ∧
      ((∀ f, sampleMesh.interior_cvfaces ≤ f → f < sampleMesh.cvfaces →
          sampleMesh.cvface_back_id f ≠ 0) →
        boundaryTerm sampleMesh sampleInflow.qdotn_faces 0 = 0 ∧
        ((∃ e, e < sampleMesh.edges ∧
            incoming sampleMesh (vanleer_before_exchange sampleMesh sampleInflow) 0 e) →
          ∃ e, e < sampleMesh.edges ∧
            incoming sampleMesh (vanleer_before_exchange sampleMesh sampleInflow) 0 e ∧
            v = |(vanleer_before_exchange sampleMesh sampleInflow).edge_flux.getD e 0|) ∧
        ((∀ e, e < sampleMesh.edges →
            ¬ incoming sampleMesh (vanleer_before_exchange sampleMesh sampleInflow) 0 e) →
          v = 0)) :=
  vanleer_cv_flux_largest_inflow id sampleMesh sampleInflow 0 rfl (by decide) (by decide)

theorem vanleer_cv_up_dominant_edge_witness :
    (process_spatial_weights id sampleMesh sampleVanLeer).CV_up =
      (vanleer_before_exchange sampleMesh sampleVanLeer).CV_up ∧
    ∃ u : Int, (vanleer_before_exchange sampleMesh sampleVanLeer).CV_up[0]? = some u ∧
      u ≠ -1 ∧
      ((∀ e, e < sampleMesh.edges →
          incoming sampleMesh (vanleer_before_exchange sampleMesh sampleVanLeer) 0 e →
          |(vanleer_before_exchange sampleMesh sampleVanLeer).edge_flux.getD e 0| ≤
            boundaryTerm sampleMesh sampleVanLeer.qdotn_faces 0) →
        u = ((0 : Nat) : Int)) ∧
      (∀ e, e < sampleMesh.edges →
        incoming sampleMesh (vanleer_before_exchange sampleMesh sampleVanLeer) 0 e →
        boundaryTerm sampleMesh sampleVanLeer.qdotn_faces 0 <
          |(vanleer_before_exchange sampleMesh sampleVanLeer).edge_flux.getD e 0| →
        (∀ e2, e2 < sampleMesh.edges →
          incoming sampleMesh (vanleer_before_exchange sampleMesh sampleVanLeer) 0 e2 →
          |(vanleer_before_exchange sampleMesh sampleVanLeer).edge_flux.getD e2 0| ≤
            |(vanleer_before_exchange sampleMesh sampleVanLeer).edge_flux.getD e 0|) →
        (∀ e2, e2 < e →
          incoming sampleMesh (vanleer_before_exchange sampleMesh sampleVanLeer) 0 e2 →
          |(vanleer_before_exchange sampleMesh sampleVanLeer).edge_flux.getD e2 0| <
            |(vanleer_before_exchange sampleMesh sampleVanLeer).edge_flux.getD e 0|) →
        u = (((vanleer_before_exchange sampleMesh sampleVanLeer).edge_up.getD e 0 : Nat) : Int)) :=
  vanleer_cv_up_dominant_edge id sampleMesh sampleVanLeer 0 rfl (by decide) (by decide)
    (by decide)

end BeforeExchangeWitnesses

/-! ## Zone aggregation -/

section ZoneAggregationLemmas

theorem bind_exit {β γ : Type} (o : Option β) :
    o.bind (fun _ => (none : Option γ)) = none := by
  cases o <;> rfl

variable {α : Type} [LinearOrderedField α]

/-- With an entry in `zones_map_` the call of `process_volumes_psk` does not return: the
first pass of the loop ends in `exit(0)`. -/
theorem process_volumes_psk_cons (pw : α → α → α) (sq : α → α) (s : VarSatPhysicsImpl α)
    (it : Int × Nat) (rest : List (Int × Nat)) (h : s.zones_map_ = it :: rest) :
    process_volumes_psk pw sq s = none := by
  unfold process_volumes_psk
  have hz : (process_volumes_psk_zero s).zones_map_ = it :: rest := h
  simp only [hz, List.foldlM_cons, bind_exit]
  rfl

/-- The body of the loop over the zones does not write `phi_vec`. -/
theorem process_volumes_psk_zone_phi_vec (pw : α → α → α) (sq : α → α)
    (s : VarSatPhysicsImpl α) (it : Int × Nat) :
    (process_volumes_psk_zone pw sq s it).map (fun st => st.phi_vec) =
      (physical_zone s it.1).map (fun _ => s.phi_vec) := by
  unfold process_volumes_psk_zone
  dsimp only
  cases physical_zone s it.1 <;> rfl

end ZoneAggregationLemmas
/-! ## Zone aggregation on the sample mesh -/

section ZoneAggregationEvaluation

theorem sampleZoned_tables :
    sampleZoned.zones_map_ = [(10, 0), (20, 1)] ∧
    sampleZoned.index_scv = [[1, 2], [0, 1]] ∧
    sampleZoned.n_front_ = [[0], [0]] ∧ sampleZoned.p_front_ = [[1], [0]] ∧
    sampleZoned.q_front_ = [[1], [0]] ∧
    sampleZoned.n_back_ = [[1], [1]] ∧ sampleZoned.p_back_ = [[1], [0]] ∧
    sampleZoned.q_back_ = [[1], [0]] := by
  refine ⟨?_, ?_, ?_, ?_, ?_, ?_, ?_, ?_⟩ <;> decide

theorem sampleZoned_vectors :
    sampleZoned.weight_scv = [[3 / 4, 1], [1, 1 / 4]] ∧
    sampleZoned.h_vec = [1, 1, 1] ∧
    sampleZoned.head_scv = [[0, 0], [0, 0]] ∧
    sampleZoned.edge_weight_front_ = [1 / 2, 1 / 2] ∧
    sampleZoned.edge_weight_back_ = [1 / 2, 1 / 2] ∧
    sampleZoned.phi_vec = [9, 9, 9] ∧
    sampleZoned.krw_faces_lim = [9, 9, 9] ∧
    sampleZoned.physical_zones_ = List.replicate 21 rigidZone :=
  ⟨rfl, rfl, rfl, rfl, rfl, rfl, rfl, rfl⟩

/-- The state of the sample in which `exit(0)` is called, in the pass of zone 0. -/
theorem sampleZoned_first_zone :
    (process_volumes_psk_zone samplePow sampleSqrt (process_volumes_psk_zero sampleZoned)
        (10, 0)).map
      (fun st => (st.phi_vec, st.dphi_vec, st.Sw_vec, st.dSw_vec, st.theta_vec,
        st.krw_faces_lim, st.phi_scv, st.Sw_scv, st.krw_scv)) =
      some ([0, 0, 0], [0, 0, 0], [0, 3 / 4, 1], [0, 0, 0], [0, 3 / 8, 1 / 2], [0, 1, 0],
        [[1 / 2, 1 / 2], [0, 0]], [[1, 1], [0, 0]], [[1, 1], [0, 0]]) := by
  obtain ⟨_, z2, z3, z4, z5, z6, z7, z8⟩ := sampleZoned_tables
  obtain ⟨v1, v2, v3, v4, v5, v6, v7, v8⟩ := sampleZoned_vectors
  have w1 : sampleZoned.phi_scv = [[0, 0], [0, 0]] := rfl
  have w2 : sampleZoned.dphi_scv = [[0, 0], [0, 0]] := rfl
  have w3 : sampleZoned.Sw_scv = [[0, 0], [0, 0]] := rfl
  have w4 : sampleZoned.dSw_scv = [[0, 0], [0, 0]] := rfl
  have w5 : sampleZoned.krw_scv = [[0, 0], [0, 0]] := rfl
  have w6 : sampleZoned.theta_scv = [[0, 0], [0, 0]] := rfl
  have w7 : sampleZoned.dphi_vec = [9, 9, 9] := rfl
  have w8 : sampleZoned.Sw_vec = [9, 9, 9] := rfl
  have w9 : sampleZoned.dSw_vec = [9, 9, 9] := rfl
  have w10 : sampleZoned.theta_vec = [9, 9, 9] := rfl
  have w11 : sampleZoned.constants_ = sampleConstants := rfl
  have hz : physical_zone (process_volumes_psk_zero sampleZoned) 10 = some rigidZone := by
    simp [physical_zone, process_volumes_psk_zero, v8]
  simp only [process_volumes_psk_zone, hz, Option.map_some']
  simp [process_volumes_psk_zero, z2, z3, z4, z5, z6, z7, z8, v1, v2, v3, v4, v5, v6, v7,
    w1, w2, w3, w4, w5, w6, w7, w8, w9, w10, w11,
    gather, scatter, assignAll, fillAll, zipAll, mapAll, porosity, saturation,
    saturation_override, forLoop, List.range', rigidZone, sampleZone, samplePow, sampleSqrt,
    sampleConstants]
  norm_num

theorem sampleZoned_exit_state :
    ∃ st, process_volumes_psk_zone samplePow sampleSqrt (process_volumes_psk_zero sampleZoned)
        (10, 0) = some st ∧
      st.phi_vec = [0, 0, 0] ∧ st.dphi_vec = [0, 0, 0] ∧ st.Sw_vec = [0, 3 / 4, 1] ∧
      st.dSw_vec = [0, 0, 0] ∧ st.theta_vec = [0, 3 / 8, 1 / 2] ∧
      st.krw_faces_lim = [0, 1, 0] ∧ st.phi_scv = [[1 / 2, 1 / 2], [0, 0]] ∧
      st.Sw_scv = [[1, 1], [0, 0]] ∧ st.krw_scv = [[1, 1], [0, 0]] := by
  have h := sampleZoned_first_zone
  rw [Option.map_eq_some'] at h
  obtain ⟨st, h1, h2⟩ := h
  simp only [Prod.mk.injEq] at h2
  exact ⟨st, h1, h2⟩

theorem sampleZoned_saturated :
    (saturation samplePow sampleSqrt [1, 1] rigidZone [0, 0] [0, 0] [0, 0]).krw = [1, 1] ∧
    (saturation samplePow sampleSqrt [1, 1] rigidZone [0, 0] [0, 0] [0, 0]).Sw = [1, 1] := by
  constructor <;>
  simp [saturation, saturation_override, forLoop, List.range', assignAll, fillAll, zipAll,
    mapAll]

/-- C23 fails on the code: the last statement of the loop body of `process_volumes_psk` is
`exit(0)`, so with an entry in `zones_map_` the call does not return and there is no state
after the call. On the sample the process ends in the pass of zone 0 with
`Sw_vec = [0, 3/4, 1]` and `theta_vec = [0, 3/8, 1/2]`: node 1, which lies in both zones
with the weights `3/4` and `1/4` and with `Sw = 1` in both, has received the contribution
of zone 0 only, not the sum `3/4 * 1 + 1/4 * 1`. -/
theorem process_volumes_psk_exits_in_first_zone :
    (∀ (pw : ℚ → ℚ → ℚ) (sq : ℚ → ℚ) (s : VarSatPhysicsImpl ℚ) (it : Int × Nat)
        (rest : List (Int × Nat)),
      process_volumes_psk pw sq { s with zones_map_ := it :: rest } = none) ∧
    sampleZoned.zones_map_ = [(10, 0), (20, 1)] ∧
    process_volumes_psk samplePow sampleSqrt sampleZoned = none ∧
    (∃ st, process_volumes_psk_zone samplePow sampleSqrt
        (process_volumes_psk_zero sampleZoned) (10, 0) = some st ∧
      st.Sw_vec = [0, 3 / 4, 1] ∧ st.dSw_vec = [0, 0, 0] ∧ st.dphi_vec = [0, 0, 0] ∧
      st.theta_vec = [0, 3 / 8, 1 / 2]) ∧
    sampleZoned.index_scv = [[1, 2], [0, 1]] ∧
    sampleZoned.weight_scv = [[3 / 4, 1], [1, 1 / 4]] ∧
    (saturation samplePow sampleSqrt [1, 1] rigidZone [0, 0] [0, 0] [0, 0]).Sw = [1, 1] ∧
    (3 / 4 : ℚ) * 1 + 1 / 4 * 1 ≠ 3 / 4 := by
  obtain ⟨st, h1, _, h3, h4, h5, h6, _⟩ := sampleZoned_exit_state
  refine ⟨fun pw sq s it rest => process_volumes_psk_cons pw sq _ it rest rfl,
    sampleZoned_tables.1,
    process_volumes_psk_cons samplePow sampleSqrt sampleZoned (10, 0) [(20, 1)]
      sampleZoned_tables.1,
    ⟨st, h1, h4, h5, h3, h6⟩, sampleZoned_tables.2.1, sampleZoned_vectors.1,
    sampleZoned_saturated.2, by norm_num⟩

/-- C24 fails on the code: the update of `phi_vec` in the loop body of
`process_volumes_psk` (line 835) is a comment, so no pass of the loop writes `phi_vec`,
which the function has set to zero before the loop. On the sample, in the state in which
the pass of zone 0 ends, `phi_vec = [0, 0, 0]` although the porosity of zone 0 is `1/2` at
both of its nodes; node 2 lies in zone 0 only, with the weight 1, and `Sw_vec[2]` holds
its complete sum `1 * 1`, but `phi_vec[2]` is `0`, not `1 * (1/2)`. -/
theorem process_volumes_psk_phi_vec_not_accumulated :
    (∀ (pw : ℚ → ℚ → ℚ) (sq : ℚ → ℚ) (s : VarSatPhysicsImpl ℚ) (it : Int × Nat),
      (process_volumes_psk_zone pw sq s it).map (fun st => st.phi_vec) =
        (physical_zone s it.1).map (fun _ => s.phi_vec)) ∧
    (process_volumes_psk_zero sampleZoned).phi_vec = [0, 0, 0] ∧
    (∃ st, process_volumes_psk_zone samplePow sampleSqrt
        (process_volumes_psk_zero sampleZoned) (10, 0) = some st ∧
      st.phi_vec = [0, 0, 0] ∧ st.phi_scv = [[1 / 2, 1 / 2], [0, 0]] ∧
      st.Sw_vec = [0, 3 / 4, 1]) ∧
    sampleZoned.index_scv.getD 0 [] = [1, 2] ∧
    sampleZoned.index_scv.getD 1 [] = [0, 1] ∧
    sampleZoned.weight_scv.getD 0 [] = [3 / 4, 1] ∧
    (1 : ℚ) * (1 / 2) ≠ 0 := by
  obtain ⟨st, h1, h2, _, h4, _, _, _, h8, _⟩ := sampleZoned_exit_state
  refine ⟨fun pw sq s it => process_volumes_psk_zone_phi_vec pw sq s it, ?_,
    ⟨st, h1, h2, h8, h4⟩, ?_, ?_, ?_, by norm_num⟩
  · simp [process_volumes_psk_zero, sampleZoned_vectors.2.2.2.2.2.1, fillAll]
  · rw [sampleZoned_tables.2.1]
    rfl
  · rw [sampleZoned_tables.2.1]
    rfl
  · rw [sampleZoned_vectors.1]
    rfl

/-- C25 fails on the code: face 0 of the sample mesh is attached to edge 0 only and lies
in an element of zone 1, and the tables of `initialise_vectors` list it once in
`q_front_[1]` and once in `q_back_[1]`, with edge 0 and the local positions 0 and 1 of the
front node 0 and the back node 1. But the pass of zone 0 ends in `exit(0)`: the call does
not return, and in the state in which the process ends `krw_faces_lim = [0, 1, 0]`, so
`krw_faces_lim[0]` is `0` and not the blend `1 * (1/2) + 1 * (1/2)` of the relative
permeability 1 at the two nodes with the edge weights `1/2`. -/
theorem process_volumes_psk_krw_faces_lim_first_zone_only :
    sampleMesh.edge_cvface 0 = [0] ∧ sampleMesh.edge_cvface 1 = [1] ∧
    mapFind sampleZoned.zones_map_
      (sampleMesh.element_physical_tag (sampleMesh.cvface_element 0)) = some 1 ∧
    sampleZoned.q_front_.getD 1 [] = [0] ∧ sampleZoned.p_front_.getD 1 [] = [0] ∧
    sampleZoned.n_front_.getD 1 [] = [0] ∧
    sampleZoned.q_back_.getD 1 [] = [0] ∧ sampleZoned.p_back_.getD 1 [] = [0] ∧
    sampleZoned.n_back_.getD 1 [] = [1] ∧
    sampleZoned.index_scv.getD 1 [] = [sampleMesh.edge_front_id 0, sampleMesh.edge_back_id 0] ∧
    process_volumes_psk samplePow sampleSqrt sampleZoned = none ∧
    (∃ st, process_volumes_psk_zone samplePow sampleSqrt
        (process_volumes_psk_zero sampleZoned) (10, 0) = some st ∧
      st.krw_faces_lim = [0, 1, 0] ∧ st.krw_scv = [[1, 1], [0, 0]]) ∧
    (saturation samplePow sampleSqrt [1, 1] rigidZone [0, 0] [0, 0] [0, 0]).krw = [1, 1] ∧
    sampleZoned.edge_weight_front_ = [1 / 2, 1 / 2] ∧
    sampleZoned.edge_weight_back_ = [1 / 2, 1 / 2] ∧
    (1 : ℚ) * (1 / 2) + 1 * (1 / 2) ≠ 0 := by
  obtain ⟨st, h1, _, _, _, _, _, h7, _, _, h10⟩ := sampleZoned_exit_state
  obtain ⟨z1, z2, z3, z4, z5, z6, z7, z8⟩ := sampleZoned_tables
  refine ⟨rfl, rfl, ?_, ?_, ?_, ?_, ?_, ?_, ?_, ?_,
    process_volumes_psk_cons samplePow sampleSqrt sampleZoned (10, 0) [(20, 1)] z1,
    ⟨st, h1, h7, h10⟩, sampleZoned_saturated.1, sampleZoned_vectors.2.2.2.1,
    sampleZoned_vectors.2.2.2.2.1, by norm_num⟩
  · rw [z1]
    decide
  · rw [z5]
    rfl
  · rw [z4]
    rfl
  · rw [z3]
    rfl
  · rw [z8]
    rfl
  · rw [z7]
    rfl
  · rw [z6]
    rfl
  · rw [z2]
    rfl

end ZoneAggregationEvaluation

end fvmpor
